import Mathlib

/-!
# Neutral: Monte Carlo neutral-particle transport (omp3 kernel)

A shallow embedding of the transport kernel in `omp3/neutral.c`.

* C `double` values are elements of an arbitrary linear ordered field `K`
  (exact arithmetic); every definition is computable and can be run at `K = ℚ`.
* C `int` values are `Int`; array reads go through `readAt`, which reports a
  fault for an index outside the allocated array.
* `while` and `for` loops whose exit depends on the data are structural
  recursions on a fuel argument; running out of fuel is a fault of its own.
* Constants that come from `neutral.h` are fields of `Constants`.
* The functions of `math.h` are fields of `Libm` and the random number
  generator is a function parameter; results that need the exact functions
  state their laws as hypotheses.
* The event handlers work on a `KernelState`: one row of the particle table,
  the cached values of its lane, and the tally grid. The build modelled is the
  default one, without `TALLY_OUT` and without `MANUAL_ATOMIC`; code under
  `#if 0` is not part of the program.
* `handle_particles` works on a `BlockState`; the threads of its parallel
  region run one after the other, and the number of threads is a parameter.
  The loops over the lanes of a block are also given as they act on a single
  lane (`lane_timestep`), and the two views are shown to agree for a block of
  one lane.
* Memory that the code reads before it has written to it is a parameter: the
  block-local arrays (`lanes0`) and the particle table as allocated
  (`particles0`). The Threefry generator of the Random123 library is a
  function parameter of `generate_random_numbers`.
-/

namespace Neutral

/-! ## Faults and array reads -/

/-- Ways in which a run of the embedded code fails to produce a value. -/
inductive Fault where
  | outOfBounds
  | outOfFuel
  | notFinite
  deriving DecidableEq

/-- The read `a[i]` of a C array whose allocated length is `a.length`, for an
`int` index `i`: a fault when `i` is outside `0 .. a.length - 1`. -/
def readAt {K : Type} (a : List K) (i : Int) : Except Fault K :=
  if i < 0 then .error .outOfBounds
  else
    match a[i.toNat]? with
    | some v => .ok v
    | none => .error .outOfBounds

/-! ## Cross-section tables (`CrossSection`, `microscopic_cs_for_energy`) -/

/-- The `CrossSection` record: `keys` (energies), `values` (cross sections)
and the entry count `nentries`. -/
structure CrossSection (K : Type) where
  keys : List K
  values : List K
  nentries : Int

section Lookup

variable {K : Type} [LinearOrderedField K]

/-- The hinted search loop of `microscopic_cs_for_energy`:
`for (ind = *cs_index; ind >= 0 && ind < cs->nentries; ind += direction)`
with the body `if (energy >= keys[ind] && energy < keys[ind + 1]) break;`.
The conjunction short-circuits, so `keys[ind + 1]` is read only when
`energy >= keys[ind]`. Returns the value of `ind` when the loop is left. -/
def hinted_walk (cs : CrossSection K) (energy : K) (direction : Int) :
    Nat → Int → Except Fault Int
  | 0, _ => .error .outOfFuel
  | fuel + 1, ind =>
    if 0 ≤ ind ∧ ind < cs.nentries then do
      let k ← readAt cs.keys ind
      if energy ≥ k then do
        let k1 ← readAt cs.keys (ind + 1)
        if energy < k1 then pure ind
        else hinted_walk cs energy direction fuel (ind + direction)
      else hinted_walk cs energy direction fuel (ind + direction)
    else pure ind

/-- The binary search loop of `microscopic_cs_for_energy`:
`while (energy < keys[ind] || energy >= keys[ind + 1])` with the body
`ind += (energy < keys[ind]) ? -width : width; width = max(1, width / 2);`.
The disjunction short-circuits, so `keys[ind + 1]` is read only when
`energy < keys[ind]` is false. Returns the value of `ind` at loop exit. -/
def binary_search (cs : CrossSection K) (energy : K) :
    Nat → Int → Int → Except Fault Int
  | 0, _, _ => .error .outOfFuel
  | fuel + 1, ind, width => do
    let k ← readAt cs.keys ind
    let again ←
      if energy < k then pure true
      else do
        let k1 ← readAt cs.keys (ind + 1)
        pure (decide (energy ≥ k1))
    if again then do
      let k' ← readAt cs.keys ind
      binary_search cs energy fuel
        (ind + (if energy < k' then -width else width))
        (max 1 (Int.tdiv width 2))
    else pure ind

/-- The search of `microscopic_cs_for_energy`, the statement
`if (*cs_index > -1) { ... } else { ... }`: the hinted walk from `*cs_index`
in the direction of `energy`, or the binary search from the middle of the
table. Returns the value of `ind` after the statement. -/
def find_energy_group (fuel : Nat) (cs : CrossSection K) (energy : K)
    (cs_index : Int) : Except Fault Int :=
  if cs_index > -1 then do
    let k ← readAt cs.keys cs_index
    let direction : Int := if energy > k then 1 else -1
    hinted_walk cs energy direction fuel cs_index
  else
    binary_search cs energy fuel (Int.tdiv cs.nentries 2)
      (Int.tdiv (Int.tdiv cs.nentries 2) 2)

/-- The function `microscopic_cs_for_energy(cs, energy, &cs_index)`.
Returns the interpolated cross section together with the index written back
to `*cs_index`. `fuel` bounds the number of loop tests of the search. -/
def microscopic_cs_for_energy (fuel : Nat) (cs : CrossSection K) (energy : K)
    (cs_index : Int) : Except Fault (K × Int) := do
  let ind ← find_energy_group fuel cs energy cs_index
  let v0 ← readAt cs.values ind
  let k0 ← readAt cs.keys ind
  let k1 ← readAt cs.keys (ind + 1)
  let v1 ← readAt cs.values (ind + 1)
  pure (v0 + ((energy - k0) / (k1 - k0)) * (v1 - v0), ind)

/-- Entry `i` of the key array (`0` outside the array). -/
def CrossSection.key (cs : CrossSection K) (i : Nat) : K := cs.keys.getD i 0

/-- Entry `i` of the value array (`0` outside the array). -/
def CrossSection.value (cs : CrossSection K) (i : Nat) : K := cs.values.getD i 0

/-- A well-formed table: at least two entries, both arrays hold `nentries`
elements, and the keys are strictly increasing. -/
def CrossSection.valid (cs : CrossSection K) : Prop :=
  2 ≤ cs.nentries ∧ (cs.keys.length : Int) = cs.nentries ∧
    (cs.values.length : Int) = cs.nentries ∧ cs.keys.Pairwise (· < ·)

end Lookup

/-! ## Constants of `neutral.h` and the particle record -/

/-- The numeric constants the kernel takes from `neutral.h`. They are C
`double` literals there and are kept symbolic here. -/
structure Constants (K : Type) where
  MASS_NO : K
  BARNS : K
  AVOGADROS : K
  MOLAR_MASS : K
  eV_TO_J : K
  PARTICLE_MASS : K
  MIN_ENERGY_OF_INTEREST : K
  OPEN_BOUND_CORRECTION : K

/-- One row (index `ip`) of the structure-of-arrays `Particle`: the entry of
every per-particle array at that index. -/
structure Particle (K : Type) where
  x : K
  y : K
  omega_x : K
  omega_y : K
  energy : K
  weight : K
  dt_to_census : K
  mfp_to_collision : K
  cellx : Int
  celly : Int
  dead : Int
  key : Nat

/-- The event tags stored in `next_event`. -/
inductive Event where
  | PARTICLE_COLLISION
  | PARTICLE_FACET
  | PARTICLE_CENSUS
  | PARTICLE_DEAD
  deriving DecidableEq

/-! ## Extended values for the reciprocal velocities

`calc_distance_to_facet` divides by `omega * speed`, which is zero for a
particle moving parallel to an axis. The C code relies on IEEE semantics there
(`1.0 / 0.0` is `+inf`), so the temporaries of that function are extended
values. The exact model has a single zero, which stands for `+0.0`. -/

/-- A finite value, `+inf`, `-inf` or NaN. -/
inductive XReal (K : Type) where
  | fin (v : K)
  | posInf
  | negInf
  | nan
  deriving DecidableEq

section Geometry

variable {K : Type} [LinearOrderedField K]

/-- The quotient `1.0 / d` of a finite `d`. -/
def XReal.recip (d : K) : XReal K :=
  if d = 0 then .posInf else .fin (1 / d)

/-- The product `a * u` of a finite `a` with an extended `u`. -/
def XReal.scale (a : K) : XReal K → XReal K
  | .fin v => .fin (a * v)
  | .posInf => if 0 < a then .posInf else if a < 0 then .negInf else .nan
  | .negInf => if 0 < a then .negInf else if a < 0 then .posInf else .nan
  | .nan => .nan

/-- The comparison `a < b` of two extended values (false when either is NaN). -/
def XReal.lt : XReal K → XReal K → Bool
  | .fin a, .fin b => decide (a < b)
  | .fin _, .posInf => true
  | .negInf, .fin _ => true
  | .negInf, .posInf => true
  | _, _ => false

/-- The function `calc_distance_to_facet`; the result is the pair
`(*distance_to_facet, *x_facet)`. Each conditional expression reads only the
edge of the branch it takes. The parameter `global_nx`, which the C function
does not use, is left out. -/
def calc_distance_to_facet (c : Constants K) (x y : K) (pad x_off y_off : Int)
    (omega_x omega_y speed : K) (particle_cellx particle_celly : Int)
    (edgex edgey : List K) : Except Fault (XReal K × Int) := do
  let cellx := particle_cellx - x_off + pad
  let celly := particle_celly - y_off + pad
  let u_x_inv := XReal.recip (omega_x * speed)
  let u_y_inv := XReal.recip (omega_y * speed)
  let dt_x ←
    if omega_x ≥ 0 then do
      let e ← readAt edgex (cellx + 1)
      pure (XReal.scale (e - x) u_x_inv)
    else do
      let e ← readAt edgex cellx
      pure (XReal.scale ((e - c.OPEN_BOUND_CORRECTION) - x) u_x_inv)
  let dt_y ←
    if omega_y ≥ 0 then do
      let e ← readAt edgey (celly + 1)
      pure (XReal.scale (e - y) u_y_inv)
    else do
      let e ← readAt edgey celly
      pure (XReal.scale ((e - c.OPEN_BOUND_CORRECTION) - y) u_y_inv)
  let x_facet : Int := if XReal.lt dt_x dt_y then 1 else 0
  let mag_u0 := speed
  if x_facet ≠ 0 then
    if omega_x ≥ 0 then do
      let e ← readAt edgex (cellx + 1)
      pure (XReal.scale ((e - x) * mag_u0) u_x_inv, x_facet)
    else do
      let e ← readAt edgex cellx
      pure (XReal.scale (((e - c.OPEN_BOUND_CORRECTION) - x) * mag_u0) u_x_inv, x_facet)
  else
    if omega_y ≥ 0 then do
      let e ← readAt edgey (celly + 1)
      pure (XReal.scale ((e - y) * mag_u0) u_y_inv, x_facet)
    else do
      let e ← readAt edgey celly
      pure (XReal.scale (((e - c.OPEN_BOUND_CORRECTION) - y) * mag_u0) u_y_inv, x_facet)

/-- Spec-side definition, following the words of the specification: the time
for a particle at coordinate `pos`, moving with direction component `omega`
at speed `speed`, to reach the facet ahead on that axis of a cell with edges
`lo` and `hi`: the upper edge for a non-negative component, the lower edge
minus `OPEN_BOUND_CORRECTION` for a negative one. -/
def time_to_facet (c : Constants K) (pos omega speed lo hi : K) : K :=
  ((if omega ≥ 0 then hi else lo - c.OPEN_BOUND_CORRECTION) - pos) / (omega * speed)

end Geometry

section Events

variable {K : Type} [LinearOrderedField K]

/-- The selection at the end of the event-classification loop of
`handle_particles`: the `if / else if / else` over the three distances. -/
def select_event (distance_to_collision distance_to_facet distance_to_census : K) :
    Event :=
  if distance_to_collision < distance_to_facet ∧
      distance_to_collision < distance_to_census then .PARTICLE_COLLISION
  else if distance_to_facet < distance_to_census then .PARTICLE_FACET
  else .PARTICLE_CENSUS

/-- The body of the event-classification loop of `handle_particles` for one
lane, given the particle row, the cached macroscopic cross sections and speed
of the lane, and the finite value `distance_to_facet` that
`calc_distance_to_facet` stored for it. Returns `(next_event, cell_mfp)`; for
a dead particle `cell_mfp` keeps its old value. -/
def calc_event (p : Particle K) (macroscopic_cs_scatter macroscopic_cs_absorb : K)
    (speed distance_to_facet cell_mfp_old : K) : Event × K :=
  if p.dead ≠ 0 then (.PARTICLE_DEAD, cell_mfp_old)
  else
    let cell_mfp := 1 / (macroscopic_cs_scatter + macroscopic_cs_absorb)
    let distance_to_collision := p.mfp_to_collision * cell_mfp
    let distance_to_census := speed * p.dt_to_census
    (select_event distance_to_collision distance_to_facet distance_to_census, cell_mfp)

/-- The function `calculate_energy_deposition` for the particle row `p`
(`particles->energy[ip]`, `particles->weight[ip]`). The parameters the C
function does not use are left out. -/
def calculate_energy_deposition (c : Constants K) (p : Particle K)
    (path_length number_density microscopic_cs_absorb microscopic_cs_total : K) : K :=
  let average_exit_energy_absorb : K := 0
  let absorption_heating :=
    (microscopic_cs_absorb / microscopic_cs_total) * average_exit_energy_absorb
  let average_exit_energy_scatter :=
    p.energy *
      ((c.MASS_NO * c.MASS_NO + c.MASS_NO + 1) / ((c.MASS_NO + 1) * (c.MASS_NO + 1)))
  let scattering_heating :=
    (1 - (microscopic_cs_absorb / microscopic_cs_total)) * average_exit_energy_scatter
  let heating_response := p.energy - scattering_heating - absorption_heating
  p.weight * path_length * (microscopic_cs_total * c.BARNS) * heating_response *
    number_density

end Events

/-! ## The math library and the random number generator

`sqrt`, `log`, `cos`, `sin` and `M_PI` come from `math.h`; they are the fields
of `Libm`, so every definition stays computable for a computable library.
The laws of the exact functions are stated separately and are hypotheses of
the results that need them.

The generator `generate_random_numbers(master_key, secondary_key, gid, &rn0,
&rn1)` enters the kernel as a function from the three keys to the pair
`(rn0, rn1)`. The 64-bit unsigned keys and counters are natural numbers,
reduced modulo `2 ^ 64` where the C code adds to them. -/

/-- The functions and the constant the kernel takes from `math.h`. -/
structure Libm (K : Type) where
  sqrt : K → K
  log : K → K
  cos : K → K
  sin : K → K
  M_PI : K

/-- The cached values of one lane of a block in `handle_particles`: entry `ip`
of each of the block-local arrays. -/
structure Lane (K : Type) where
  rn : K × K
  x_facet : Int
  absorb_cs_index : Int
  scatter_cs_index : Int
  cell_mfp : K
  cellx : Int
  celly : Int
  local_density : K
  microscopic_cs_scatter : K
  microscopic_cs_absorb : K
  number_density : K
  macroscopic_cs_scatter : K
  macroscopic_cs_absorb : K
  speed : K
  energy_deposition : K
  distance_to_facet : K
  next_event : Event

/-- What the event handlers read and write for one particle: its row of the
particle table, the cached values of its lane, and the tally grid
`energy_deposition_tally`. -/
structure KernelState (K : Type) where
  particle : Particle K
  lane : Lane K
  tally : List K

section Kernel

variable {K : Type} [LinearOrderedField K]

/-- Exactness of `sqrt` on its domain: for `x ≥ 0` the result is the
non-negative square root of `x`. -/
def Libm.sqrt_exact (m : Libm K) : Prop :=
  ∀ x : K, 0 ≤ x → 0 ≤ m.sqrt x ∧ m.sqrt x * m.sqrt x = x

/-- Exactness of `cos` and `sin`: the Pythagorean identity. -/
def Libm.trig_exact (m : Libm K) : Prop :=
  ∀ t : K, m.cos t * m.cos t + m.sin t * m.sin t = 1

/-- The update `a[i] += v` of a C array whose allocated length is `a.length`:
a fault when `i` is outside `0 .. a.length - 1`. -/
def addAt (a : List K) (i : Int) (v : K) : Except Fault (List K) :=
  if i < 0 then .error .outOfBounds
  else
    match a[i.toNat]? with
    | some old => .ok (a.set i.toNat (old + v))
    | none => .error .outOfBounds

/-- The function `update_tallies` (build without `MANUAL_ATOMIC`): the atomic
update `energy_deposition_tally[celly * nx + cellx] += energy_deposition *
inv_ntotal_particles` with `cellx`, `celly` the cell of the particle relative
to the offsets of the local mesh. -/
def update_tallies (nx x_off y_off : Int) (p : Particle K)
    (inv_ntotal_particles energy_deposition : K) (energy_deposition_tally : List K) :
    Except Fault (List K) :=
  let cellx := p.cellx - x_off
  let celly := p.celly - y_off
  addAt energy_deposition_tally (celly * nx + cellx)
    (energy_deposition * inv_ntotal_particles)

/-- The new energy `e_new` of the scatter branch of `collision_event`, from the
energy before the collision and the second random number `rn1[1]`. -/
def scatter_energy (c : Constants K) (energy rn1_1 : K) : K :=
  let mu_cm := 1 - 2 * rn1_1
  energy * (c.MASS_NO * c.MASS_NO + 2 * c.MASS_NO * mu_cm + 1) /
    ((c.MASS_NO + 1) * (c.MASS_NO + 1))

/-- The cosine `cos_theta` of the scattering angle in the laboratory frame, in
the scatter branch of `collision_event`. -/
def scatter_cos_theta (m : Libm K) (c : Constants K) (energy e_new : K) : K :=
  (1 / 2) * ((c.MASS_NO + 1) * m.sqrt (e_new / energy) -
    (c.MASS_NO - 1) * m.sqrt (energy / e_new))

/-- The first part of `collision_event`, up to the test `if (particles->dead[ip])`
(build without `TALLY_OUT`): the deposition of the streamed segment, the move
to the collision site, and the absorption or the elastic scatter drawn with
`generate_random_numbers(*master_key, particles->key[ip], counter_off, ..)`. -/
def collision_outcome (m : Libm K) (c : Constants K) (rng : Nat → Nat → Nat → K × K)
    (nx x_off y_off : Int) (inv_ntotal_particles distance_to_collision : K)
    (counter_off master_key : Nat) (s : KernelState K) : Except Fault (KernelState K) :=
  let energy_deposition := s.lane.energy_deposition +
    calculate_energy_deposition c s.particle distance_to_collision s.lane.number_density
      s.lane.microscopic_cs_absorb
      (s.lane.microscopic_cs_scatter + s.lane.microscopic_cs_absorb)
  let p := { s.particle with
    x := s.particle.x + distance_to_collision * s.particle.omega_x
    y := s.particle.y + distance_to_collision * s.particle.omega_y }
  let p_absorb := s.lane.macroscopic_cs_absorb /
    (s.lane.macroscopic_cs_scatter + s.lane.macroscopic_cs_absorb)
  let rn1 := rng master_key p.key counter_off
  if rn1.1 < p_absorb then
    let p := { p with weight := p.weight * (1 - p_absorb) }
    if p.energy < c.MIN_ENERGY_OF_INTEREST then do
      let p := { p with dead := 1 }
      let tally ← update_tallies nx x_off y_off p inv_ntotal_particles energy_deposition
        s.tally
      pure { particle := p, lane := { s.lane with energy_deposition := 0 }, tally := tally }
    else
      pure { s with particle := p, lane := { s.lane with energy_deposition := energy_deposition } }
  else
    let e_new := scatter_energy c p.energy rn1.2
    let cos_theta := scatter_cos_theta m c p.energy e_new
    let sin_theta := m.sqrt (1 - cos_theta * cos_theta)
    let omega_x_new := p.omega_x * cos_theta - p.omega_y * sin_theta
    let omega_y_new := p.omega_x * sin_theta + p.omega_y * cos_theta
    let p := { p with omega_x := omega_x_new, omega_y := omega_y_new, energy := e_new }
    pure { s with particle := p, lane := { s.lane with energy_deposition := energy_deposition } }

/-- The second part of `collision_event`, after the test for a dead particle:
the cross sections are looked up at the new energy, the macroscopic cross
sections recomputed, the number of mean free paths to the next collision is
drawn with the counter `counter_off + 1`, `dt_to_census` is decreased by the
time of the streamed segment at the old speed, and the speed is recomputed. -/
def collision_refresh (m : Libm K) (c : Constants K) (rng : Nat → Nat → Nat → K × K)
    (fuel : Nat) (distance_to_collision local_density : K)
    (cs_scatter_table cs_absorb_table : CrossSection K) (counter_off master_key : Nat)
    (s : KernelState K) : Except Fault (KernelState K) := do
  let scatter ← microscopic_cs_for_energy fuel cs_scatter_table s.particle.energy
    s.lane.scatter_cs_index
  let absorb ← microscopic_cs_for_energy fuel cs_absorb_table s.particle.energy
    s.lane.absorb_cs_index
  let number_density := local_density * c.AVOGADROS / c.MOLAR_MASS
  let macroscopic_cs_scatter := number_density * scatter.1 * c.BARNS
  let macroscopic_cs_absorb := number_density * absorb.1 * c.BARNS
  let rn := rng master_key s.particle.key ((counter_off + 1) % 2 ^ 64)
  let p := { s.particle with
    mfp_to_collision := -m.log rn.1 / macroscopic_cs_scatter
    dt_to_census := s.particle.dt_to_census - distance_to_collision / s.lane.speed }
  let speed := m.sqrt ((2 * p.energy * c.eV_TO_J) / c.PARTICLE_MASS)
  pure { s with
    particle := p
    lane := { s.lane with
      rn := rn
      scatter_cs_index := scatter.2
      absorb_cs_index := absorb.2
      microscopic_cs_scatter := scatter.1
      microscopic_cs_absorb := absorb.1
      number_density := number_density
      macroscopic_cs_scatter := macroscopic_cs_scatter
      macroscopic_cs_absorb := macroscopic_cs_absorb
      speed := speed } }

/-- The function `collision_event` (build without `TALLY_OUT`). `fuel` bounds
the loop tests of each cross-section lookup. The parameter `global_nx`, which
the C function only passes on, is left out. -/
def collision_event (m : Libm K) (c : Constants K) (rng : Nat → Nat → Nat → K × K)
    (fuel : Nat) (nx x_off y_off : Int)
    (inv_ntotal_particles distance_to_collision local_density : K)
    (cs_scatter_table cs_absorb_table : CrossSection K) (counter_off master_key : Nat)
    (s : KernelState K) : Except Fault (KernelState K) := do
  let s1 ← collision_outcome m c rng nx x_off y_off inv_ntotal_particles
    distance_to_collision counter_off master_key s
  if s1.particle.dead ≠ 0 then pure s1
  else
    collision_refresh m c rng fuel distance_to_collision local_density cs_scatter_table
      cs_absorb_table counter_off master_key s1

/-- The body of the facet loop of `handle_particles` for one lane: the code
that is compiled (everything under `#if 0` is left out) decreases
`mfp_to_collision` and `dt_to_census` of a lane whose event is the facet. -/
def facet_phase (s : KernelState K) : KernelState K :=
  if s.lane.next_event ≠ .PARTICLE_FACET then s
  else
    { s with particle := { s.particle with
        mfp_to_collision :=
          s.particle.mfp_to_collision - s.lane.distance_to_facet / s.lane.cell_mfp
        dt_to_census := s.particle.dt_to_census - s.lane.distance_to_facet / s.lane.speed } }

/-- The function `census_event` (the parameter `global_nx` is left out). -/
def census_event (c : Constants K) (nx x_off y_off : Int)
    (inv_ntotal_particles distance_to_census cell_mfp : K) (s : KernelState K) :
    Except Fault (KernelState K) := do
  let p := { s.particle with
    x := s.particle.x + distance_to_census * s.particle.omega_x
    y := s.particle.y + distance_to_census * s.particle.omega_y
    mfp_to_collision := s.particle.mfp_to_collision - distance_to_census / cell_mfp }
  let energy_deposition := s.lane.energy_deposition +
    calculate_energy_deposition c p distance_to_census s.lane.number_density
      s.lane.microscopic_cs_absorb
      (s.lane.microscopic_cs_scatter + s.lane.microscopic_cs_absorb)
  let tally ← update_tallies nx x_off y_off p inv_ntotal_particles energy_deposition s.tally
  pure { particle := { p with dt_to_census := 0 }
         lane := { s.lane with energy_deposition := energy_deposition }
         tally := tally }

/-- One pass of a lane through the phases of `handle_particles`: the
classification loop stores `cell_mfp` and `next_event`; then the collision
loop calls `collision_event` with `distance_to_collision = mfp_to_collision *
cell_mfp` for a collision lane, the facet loop runs `facet_phase` for a facet
lane, and the census loop (entered when the block has no collision or facet
lane left) calls `census_event` with `distance_to_census = speed *
dt_to_census` for a census lane. `counter_off` is the counter
`counter_off[ip] + counter` the collision loop passes on, and
`s.lane.distance_to_facet` is the finite distance that
`calc_distance_to_facet` stored for the lane in the classification loop. -/
def handle_event (m : Libm K) (c : Constants K) (rng : Nat → Nat → Nat → K × K)
    (fuel : Nat) (nx x_off y_off : Int) (inv_ntotal_particles : K)
    (cs_scatter_table cs_absorb_table : CrossSection K) (counter_off master_key : Nat)
    (s : KernelState K) : Except Fault (KernelState K) :=
  let classified := calc_event s.particle s.lane.macroscopic_cs_scatter
    s.lane.macroscopic_cs_absorb s.lane.speed s.lane.distance_to_facet s.lane.cell_mfp
  let s1 := { s with lane := { s.lane with
    cell_mfp := classified.2, next_event := classified.1 } }
  match classified.1 with
  | .PARTICLE_COLLISION =>
    collision_event m c rng fuel nx x_off y_off inv_ntotal_particles
      (s1.particle.mfp_to_collision * s1.lane.cell_mfp) s1.lane.local_density
      cs_scatter_table cs_absorb_table counter_off master_key s1
  | .PARTICLE_FACET => pure (facet_phase s1)
  | .PARTICLE_CENSUS =>
    census_event c nx x_off y_off inv_ntotal_particles
      (s1.lane.speed * s1.particle.dt_to_census) s1.lane.cell_mfp s1
  | .PARTICLE_DEAD => pure s1

/-- The direction `(omega_x, omega_y)` that `inject_particles` gives particle
`ii`: `theta = 2.0 * M_PI * rn[0]` with the random numbers of
`generate_random_numbers(master_key, 1, ii, ..)`, then `cos(theta)` and
`sin(theta)`. -/
def inject_direction (m : Libm K) (rng : Nat → Nat → Nat → K × K) (master_key ii : Nat) :
    K × K :=
  let rn := rng master_key 1 ii
  let theta := 2 * m.M_PI * rn.1
  (m.cos theta, m.sin theta)

/-- A cross-section table serves the lookup of `e` from the hint `hint` with
`fuel` loop tests: it is well formed, `keys[0] ≤ e < keys[nentries - 1]`, the
hint is at most `nentries - 1`, and the fuel is at least `2 * nentries + 5`. -/
def CrossSection.serves (cs : CrossSection K) (e : K) (hint : Int) (fuel : Nat) : Prop :=
  cs.valid ∧ cs.key 0 ≤ e ∧ e < cs.key (cs.nentries - 1).toNat ∧
    hint ≤ cs.nentries - 1 ∧ 2 * cs.nentries.toNat + 5 ≤ fuel

/-- The energy of the particle after the first part of `collision_event`:
unchanged by an absorption (`rn1[0] < p_absorb`), `e_new` after a scatter. -/
def energy_after_collision (c : Constants K) (rng : Nat → Nat → Nat → K × K)
    (counter_off master_key : Nat) (s : KernelState K) : K :=
  if (rng master_key s.particle.key counter_off).1 <
      s.lane.macroscopic_cs_absorb /
        (s.lane.macroscopic_cs_scatter + s.lane.macroscopic_cs_absorb) then
    s.particle.energy
  else scatter_energy c s.particle.energy (rng master_key s.particle.key counter_off).2

/-- The collision of the particle of `s` can be processed: the particle is
alive; if the collision kills it (an absorption below
`MIN_ENERGY_OF_INTEREST`) the tally entry of its cell is inside the grid;
otherwise both tables serve the lookup of the energy after the collision. -/
def collision_ready (c : Constants K) (rng : Nat → Nat → Nat → K × K) (fuel : Nat)
    (nx x_off y_off : Int) (cs_scatter_table cs_absorb_table : CrossSection K)
    (counter_off master_key : Nat) (s : KernelState K) : Prop :=
  s.particle.dead = 0 ∧
    if (rng master_key s.particle.key counter_off).1 <
          s.lane.macroscopic_cs_absorb /
            (s.lane.macroscopic_cs_scatter + s.lane.macroscopic_cs_absorb) ∧
        s.particle.energy < c.MIN_ENERGY_OF_INTEREST then
      0 ≤ (s.particle.celly - y_off) * nx + (s.particle.cellx - x_off) ∧
        (s.particle.celly - y_off) * nx + (s.particle.cellx - x_off) < s.tally.length
    else
      cs_scatter_table.serves (energy_after_collision c rng counter_off master_key s)
          s.lane.scatter_cs_index fuel ∧
        cs_absorb_table.serves (energy_after_collision c rng counter_off master_key s)
          s.lane.absorb_cs_index fuel

/-- The event that `handle_event` selects for `s` can be processed: a
collision as in `collision_ready`; for a census the tally entry of the cell
of the particle is inside the grid. -/
def event_ready (c : Constants K) (rng : Nat → Nat → Nat → K × K) (fuel : Nat)
    (nx x_off y_off : Int) (cs_scatter_table cs_absorb_table : CrossSection K)
    (counter_off master_key : Nat) (s : KernelState K) : Prop :=
  match (calc_event s.particle s.lane.macroscopic_cs_scatter s.lane.macroscopic_cs_absorb
      s.lane.speed s.lane.distance_to_facet s.lane.cell_mfp).1 with
  | .PARTICLE_COLLISION =>
    collision_ready c rng fuel nx x_off y_off cs_scatter_table cs_absorb_table counter_off
      master_key s
  | .PARTICLE_CENSUS =>
    0 ≤ (s.particle.celly - y_off) * nx + (s.particle.cellx - x_off) ∧
      (s.particle.celly - y_off) * nx + (s.particle.cellx - x_off) < s.tally.length
  | _ => True

end Kernel

/-! ## The random number generator (`generate_random_numbers`) -/

section Generator

variable {K : Type} [LinearOrderedField K]

/-- The function `generate_random_numbers(master_key, secondary_key, gid, &rn0,
&rn1)`; the result is the pair `(*rn0, *rn1)`. The generator `threefry2x64` of
the Random123 library is outside the sources and enters as a function from the
counter and the key, two 64-bit words each, to the two 64-bit words `rand.v`.
The conversion of the words to `double` is an exact cast. -/
def generate_random_numbers (threefry2x64 : Nat × Nat → Nat × Nat → Nat × Nat)
    (master_key secondary_key gid : Nat) : K × K :=
  let counter : Nat × Nat := (gid, 0)
  let key : Nat × Nat := (master_key, secondary_key)
  let rand := threefry2x64 counter key
  let max_uint64 : Nat := 0xFFFFFFFFFFFFFFFF
  let factor : K := 1 / ((max_uint64 : K) + 1)
  let half_factor : K := (1 / 2) * factor
  ((rand.1 : K) * factor + half_factor, (rand.2 : K) * factor + half_factor)

end Generator

/-! ## The partition of the particles over threads and blocks

`handle_particles` gives thread `tid` of `nthreads` a contiguous slice of the
particle table and works through the slice in blocks of `block_size`
particles. -/

/-- The constant `block_size` of `handle_particles`. -/
def block_size : Int := 32

/-- The value `np_per_thread = nparticles_to_process / nthreads` (the C
division truncates). -/
def np_per_thread (nparticles_to_process nthreads : Int) : Int :=
  Int.tdiv nparticles_to_process nthreads

/-- The value `np_remainder = nparticles_to_process % nthreads`. -/
def np_remainder (nparticles_to_process nthreads : Int) : Int :=
  Int.tmod nparticles_to_process nthreads

/-- The value `rem = (tid < np_remainder)` of thread `tid`. -/
def thread_rem (nparticles_to_process nthreads tid : Int) : Int :=
  if tid < np_remainder nparticles_to_process nthreads then 1 else 0

/-- The value `particles_off = tid * np_per_thread + min(tid, np_remainder)` of
thread `tid`. -/
def particles_off (nparticles_to_process nthreads tid : Int) : Int :=
  tid * np_per_thread nparticles_to_process nthreads +
    min tid (np_remainder nparticles_to_process nthreads)

/-- The blocks of the loop `for (pp = 0; pp < np_per_thread + rem; pp +=
block_size)` of thread `tid`, from the value `pp` of the loop variable on:
for each pass the pair `(p_off, np)` of the first particle and the number of
particles of the block. `fuel` bounds the number of passes. -/
def thread_blocks_from (nparticles_to_process nthreads tid : Int) :
    Nat → Int → List (Int × Int)
  | 0, _ => []
  | fuel + 1, pp =>
    if pp < np_per_thread nparticles_to_process nthreads +
        thread_rem nparticles_to_process nthreads tid then
      let p_off := particles_off nparticles_to_process nthreads tid + pp
      let diff := (np_per_thread nparticles_to_process nthreads +
        thread_rem nparticles_to_process nthreads tid) - pp
      let np := if diff > block_size then block_size else diff
      (p_off, np) :: thread_blocks_from nparticles_to_process nthreads tid fuel
        (pp + block_size)
    else []

/-- The blocks `(p_off, np)` of thread `tid`, in the order of the loop. The
loop variable grows by `block_size` in each pass, so `np_per_thread + rem`
passes are enough. -/
def thread_blocks (nparticles_to_process nthreads tid : Int) : List (Int × Int) :=
  thread_blocks_from nparticles_to_process nthreads tid
    (np_per_thread nparticles_to_process nthreads +
      thread_rem nparticles_to_process nthreads tid).toNat 0

/-- The particle indices `p_off + ip`, `ip = 0 .. np - 1`, of a block. -/
def block_indices (b : Int × Int) : List Int :=
  (List.range b.2.toNat).map (fun (ip : Nat) => b.1 + (ip : Int))

/-- The particle indices that `handle_particles` works on, thread by thread,
block by block and lane by lane. -/
def schedule (nparticles_to_process nthreads : Int) : List Int :=
  (List.range nthreads.toNat).flatMap (fun tid =>
    (thread_blocks nparticles_to_process nthreads tid).flatMap block_indices)

/-! ## The counters passed to the random number generator

Within a block the variable `counter` starts at 0, is passed on and
incremented once for every live particle in the cache-initialisation loop, and
grows by `2 * block_size` at the end of every pass of the `while` loop; the
collision loop passes `counter_off[ip] + counter` to `collision_event`, which
uses that value and the value plus one. -/

/-- The entry `counter_off[cc] = 2 * cc` of the array of counter offsets. -/
def counter_off (cc : Int) : Int := 2 * cc

/-- The counter bookkeeping of the cache-initialisation loop of the block at
`p_off`, for `k` lanes from lane `ip` on, entered with the value `counter`:
for each lane the counter passed to `generate_random_numbers` (none for a dead
particle, which the loop skips, and none when `initial` is 0), and the value
of `counter` after the loop. `dead` is the array `particles->dead`. -/
def cache_init_counters (dead : List Int) (initial : Int) (p_off : Int) :
    Nat → Int → Nat → Except Fault (List (Option Nat) × Nat)
  | 0, _, counter => pure ([], counter)
  | k + 1, ip, counter => do
    let d ← readAt dead (p_off + ip)
    if d ≠ 0 then do
      let r ← cache_init_counters dead initial p_off k (ip + 1) counter
      pure (none :: r.1, r.2)
    else if initial ≠ 0 then do
      let r ← cache_init_counters dead initial p_off k (ip + 1) ((counter + 1) % 2 ^ 64)
      pure (some counter :: r.1, r.2)
    else do
      let r ← cache_init_counters dead initial p_off k (ip + 1) counter
      pure (none :: r.1, r.2)

/-- The value of `counter` at the start of pass `k` of the `while` loop of a
block, `counter0` being its value after the cache initialisation: every pass
ends with `counter += 2 * block_size`. -/
def while_counter (counter0 : Nat) : Nat → Nat
  | 0 => counter0
  | k + 1 => (while_counter counter0 k + (2 * block_size).toNat) % 2 ^ 64

/-- The argument `counter_off[ip] + counter` that the collision loop passes to
`collision_event` for lane `ip`. -/
def collision_counter (ip : Int) (counter : Nat) : Nat :=
  ((counter_off ip).toNat + counter) % 2 ^ 64

/-- The block `(p_off, np)` in which `handle_particles` with `nthreads` threads
works on particle `pip`: the first block of the partition that contains the
index. -/
def block_of (nparticles_to_process nthreads pip : Int) : Option (Int × Int) :=
  ((List.range nthreads.toNat).flatMap
    (fun tid => thread_blocks nparticles_to_process nthreads tid)).find?
      (fun b => decide (b.1 ≤ pip ∧ pip < b.1 + b.2))

/-- The counters of particle `pip` in a call of `handle_particles` with
`initial = 1` and `nthreads` threads, `dead` being the array `particles->dead`
at the start of the call: the counter passed to `generate_random_numbers` for
it in the cache initialisation (none for a dead particle), and the counter
passed to `collision_event` for it in pass `k` of the `while` loop. -/
def particle_counters (dead : List Int) (nparticles_to_process nthreads pip : Int)
    (k : Nat) : Except Fault (Option Nat × Nat) :=
  match block_of nparticles_to_process nthreads pip with
  | none => .error .outOfBounds
  | some b => do
    let r ← cache_init_counters dead 1 b.1 b.2.toNat 0 0
    pure (r.1.getD (pip - b.1).toNat none,
      collision_counter (pip - b.1) (while_counter r.2 k))

/-- The number of live particles (`dead` flag 0) among the `k` entries of the
array `dead` from index `a` on. -/
def nlive (dead : List Int) : Nat → Int → Nat
  | 0, _ => 0
  | k + 1, a => (if dead.getD a.toNat 1 = 0 then 1 else 0) + nlive dead k (a + 1)

/-! ## The particle source (`inject_particles`)

The particle table is a list of rows. `inject_particles` allocates its arrays
with `allocate_data`, which is outside the sources: the table as allocated,
`nparticles * 1.5` rows with whatever content the allocation leaves, is the
parameter `particles0`. The iterations of the `parallel for` loop are run in
the order of the index. -/

/-- The write `a[i] = v` to a C array whose allocated length is `a.length`: a
fault when `i` is outside `0 .. a.length - 1`. -/
def writeAt {α : Type} (a : List α) (i : Int) (v : α) : Except Fault (List α) :=
  if i < 0 then .error .outOfBounds
  else if i.toNat < a.length then .ok (a.set i.toNat v)
  else .error .outOfBounds

section Source

variable {K : Type} [LinearOrderedField K]

/-- The cell search along one axis, as in `inject_particles` and in
`initialise_particle`: the loop
`for (int ii = 0; ii < local_n; ++ii) { if (c >= edge[ii + pad] && c <
edge[ii + pad + 1]) { cell = off + ii; break; } }` entered with `cell = 0`,
where `coord ii` is the read of the coordinate `c` in pass `ii`. Returns the
value of `cell` after the loop. -/
def find_cell (coord : Int → Except Fault K) (edge : List K) (pad off local_n : Int) :
    Nat → Int → Except Fault Int
  | 0, _ => .error .outOfFuel
  | fuel + 1, ii =>
    if ii < local_n then do
      let v ← coord ii
      let lo ← readAt edge (ii + pad)
      if v ≥ lo then do
        let hi ← readAt edge (ii + pad + 1)
        if v < hi then pure (off + ii)
        else find_cell coord edge pad off local_n fuel (ii + 1)
      else find_cell coord edge pad off local_n fuel (ii + 1)
    else pure 0

/-- The body of the loop of `inject_particles` for the particle index `ii`.
In the two cell searches the loop variable is again called `ii` and shadows
the particle index, so the searches read `particle->x[ii]` and
`particle->y[ii]` at the index of the cell under test. -/
def inject_particle (m : Libm K) (rng : Nat → Nat → Nat → K × K) (fuel : Nat)
    (local_nx local_ny pad : Int)
    (local_particle_left_off local_particle_bottom_off : K)
    (local_particle_width local_particle_height : K) (x_off y_off : Int) (dt : K)
    (edgex edgey : List K) (initial_energy : K) (master_key : Nat) (ii : Nat)
    (particles : List (Particle K)) : Except Fault (List (Particle K)) := do
  let rn := rng master_key 0 ii
  let row ← readAt particles ii
  let x := local_particle_left_off + rn.1 * local_particle_width
  let y := local_particle_bottom_off + rn.2 * local_particle_height
  let particles ← writeAt particles ii { row with x := x, y := y }
  let cellx ← find_cell (fun j => do let r ← readAt particles j; pure r.x) edgex pad x_off
    local_nx fuel 0
  let celly ← find_cell (fun j => do let r ← readAt particles j; pure r.y) edgey pad y_off
    local_ny fuel 0
  let omega := inject_direction m rng master_key ii
  writeAt particles ii
    { x := x, y := y, omega_x := omega.1, omega_y := omega.2, energy := initial_energy,
      weight := 1, dt_to_census := dt, mfp_to_collision := 0, cellx := cellx, celly := celly,
      dead := 0, key := ii }

/-- The function `inject_particles`; the result is the particle table. The
byte count it returns and the parameter `global_nx`, which it does not use,
are left out. `fuel` bounds the passes of each cell search. -/
def inject_particles (m : Libm K) (rng : Nat → Nat → Nat → K × K) (fuel : Nat)
    (nparticles local_nx local_ny pad : Int)
    (local_particle_left_off local_particle_bottom_off : K)
    (local_particle_width local_particle_height : K) (x_off y_off : Int) (dt : K)
    (edgex edgey : List K) (initial_energy : K) (master_key : Nat)
    (particles0 : List (Particle K)) : Except Fault (List (Particle K)) :=
  (List.range nparticles.toNat).foldlM
    (fun particles ii =>
      inject_particle m rng fuel local_nx local_ny pad local_particle_left_off
        local_particle_bottom_off local_particle_width local_particle_height x_off y_off dt
        edgex edgey initial_energy master_key ii particles)
    particles0

end Source

/-! ## The loops of `handle_particles`, lane by lane

The bodies of the loops over the lanes of a block, as functions on the
`KernelState` of one lane. -/

section Phases

variable {K : Type} [LinearOrderedField K]

/-- The body of the cache-initialisation loop of `handle_particles` for the
lane of a live particle; `counter` is the value of `counter` that is passed to
`generate_random_numbers` when `initial` is set. Both cross-section lookups
start without a hint (`-1`). -/
def cache_init_lane (m : Libm K) (c : Constants K) (rng : Nat → Nat → Nat → K × K)
    (fuel : Nat) (nx pad x_off y_off initial : Int) (dt : K) (density : List K)
    (cs_scatter_table cs_absorb_table : CrossSection K) (master_key counter : Nat)
    (s : KernelState K) : Except Fault (KernelState K) := do
  let cellx := s.particle.cellx - x_off + pad
  let celly := s.particle.celly - y_off + pad
  let local_density ← readAt density (celly * (nx + 2 * pad) + cellx)
  let scatter ← microscopic_cs_for_energy fuel cs_scatter_table s.particle.energy (-1)
  let absorb ← microscopic_cs_for_energy fuel cs_absorb_table s.particle.energy (-1)
  let number_density := local_density * c.AVOGADROS / c.MOLAR_MASS
  let macroscopic_cs_scatter := number_density * scatter.1 * c.BARNS
  let macroscopic_cs_absorb := number_density * absorb.1 * c.BARNS
  let speed := m.sqrt ((2 * s.particle.energy * c.eV_TO_J) / c.PARTICLE_MASS)
  let lane : Lane K :=
    { s.lane with
      x_facet := 0
      absorb_cs_index := absorb.2
      scatter_cs_index := scatter.2
      cell_mfp := 0
      energy_deposition := 0
      cellx := cellx
      celly := celly
      local_density := local_density
      microscopic_cs_scatter := scatter.1
      microscopic_cs_absorb := absorb.1
      number_density := number_density
      macroscopic_cs_scatter := macroscopic_cs_scatter
      macroscopic_cs_absorb := macroscopic_cs_absorb
      speed := speed }
  if initial ≠ 0 then
    let rn := rng master_key s.particle.key counter
    pure { s with
      particle := { s.particle with
        dt_to_census := dt
        mfp_to_collision := -m.log rn.1 / macroscopic_cs_scatter }
      lane := { lane with rn := rn } }
  else pure { s with lane := lane }

/-- The body of the event-classification loop of `handle_particles` for one
lane: a dead particle gets the event `PARTICLE_DEAD`; for a live one,
`cell_mfp`, the distance to the facet and the facet axis are stored and the
event is selected. The lane arrays hold field elements: a distance to the
facet that is not finite is reported as the fault `notFinite`. -/
def calc_events_lane (c : Constants K) (pad x_off y_off : Int) (edgex edgey : List K)
    (s : KernelState K) : Except Fault (KernelState K) :=
  if s.particle.dead ≠ 0 then
    pure { s with lane := { s.lane with next_event := .PARTICLE_DEAD } }
  else do
    let cell_mfp := 1 / (s.lane.macroscopic_cs_scatter + s.lane.macroscopic_cs_absorb)
    let r ← calc_distance_to_facet c s.particle.x s.particle.y pad x_off y_off
      s.particle.omega_x s.particle.omega_y s.lane.speed s.particle.cellx s.particle.celly
      edgex edgey
    match r.1 with
    | .fin distance_to_facet =>
      let distance_to_collision := s.particle.mfp_to_collision * cell_mfp
      let distance_to_census := s.lane.speed * s.particle.dt_to_census
      pure { s with lane := { s.lane with
        cell_mfp := cell_mfp
        distance_to_facet := distance_to_facet
        x_facet := r.2
        next_event :=
          select_event distance_to_collision distance_to_facet distance_to_census } }
    | _ => .error .notFinite

/-- The body of the collision loop of `handle_particles` for one lane;
`counter_off` is the value `counter_off[ip] + counter` of the lane. -/
def collision_phase (m : Libm K) (c : Constants K) (rng : Nat → Nat → Nat → K × K)
    (fuel : Nat) (nx x_off y_off : Int) (inv_ntotal_particles : K)
    (cs_scatter_table cs_absorb_table : CrossSection K) (counter_off master_key : Nat)
    (s : KernelState K) : Except Fault (KernelState K) :=
  if s.lane.next_event ≠ .PARTICLE_COLLISION then pure s
  else
    collision_event m c rng fuel nx x_off y_off inv_ntotal_particles
      (s.particle.mfp_to_collision * s.lane.cell_mfp) s.lane.local_density cs_scatter_table
      cs_absorb_table counter_off master_key s

/-- The body of the census loop of `handle_particles` for one lane. -/
def census_phase (c : Constants K) (nx x_off y_off : Int) (inv_ntotal_particles : K)
    (s : KernelState K) : Except Fault (KernelState K) :=
  if s.lane.next_event ≠ .PARTICLE_CENSUS then pure s
  else
    census_event c nx x_off y_off inv_ntotal_particles
      (s.lane.speed * s.particle.dt_to_census) s.lane.cell_mfp s

/-- The values that `calculate_energy_deposition` returns in the event of a
classified lane: one call in `collision_event`, one in `census_event`, none in
the facet loop. -/
def event_deposition (c : Constants K) (s : KernelState K) : List K :=
  match s.lane.next_event with
  | .PARTICLE_COLLISION =>
    [calculate_energy_deposition c s.particle (s.particle.mfp_to_collision * s.lane.cell_mfp)
      s.lane.number_density s.lane.microscopic_cs_absorb
      (s.lane.microscopic_cs_scatter + s.lane.microscopic_cs_absorb)]
  | .PARTICLE_CENSUS =>
    [calculate_energy_deposition c s.particle (s.lane.speed * s.particle.dt_to_census)
      s.lane.number_density s.lane.microscopic_cs_absorb
      (s.lane.microscopic_cs_scatter + s.lane.microscopic_cs_absorb)]
  | _ => []

/-- The passes of the `while (1)` loop of a block and the census loop after
it, as they act on lane `ip`: classification, collision loop and facet loop in
every pass, with `counter` growing by `2 * block_size` per pass, until the
lane is complete (its particle dead, or the census its next event), then the
census loop. The passes the block makes after the lane is complete classify
the lane again with the same result and are left out. Returns the final state
of the lane together with the values that `calculate_energy_deposition`
returned on the way. `passes` bounds the number of passes. -/
def lane_loop (m : Libm K) (c : Constants K) (rng : Nat → Nat → Nat → K × K) (fuel : Nat)
    (nx pad x_off y_off : Int) (inv_ntotal_particles : K) (edgex edgey : List K)
    (cs_scatter_table cs_absorb_table : CrossSection K) (master_key : Nat) (ip : Int) :
    Nat → Nat → KernelState K → Except Fault (KernelState K × List K)
  | 0, _, _ => .error .outOfFuel
  | passes + 1, counter, s => do
    let s1 ← calc_events_lane c pad x_off y_off edgex edgey s
    match s1.lane.next_event with
    | .PARTICLE_DEAD => pure (s1, [])
    | .PARTICLE_CENSUS => do
      let s2 ← census_phase c nx x_off y_off inv_ntotal_particles s1
      pure (s2, event_deposition c s1)
    | _ => do
      let s2 ← collision_phase m c rng fuel nx x_off y_off inv_ntotal_particles
        cs_scatter_table cs_absorb_table (collision_counter ip counter) master_key s1
      let s3 := facet_phase s2
      let r ← lane_loop m c rng fuel nx pad x_off y_off inv_ntotal_particles edgex edgey
        cs_scatter_table cs_absorb_table master_key ip passes
        ((counter + (2 * block_size).toNat) % 2 ^ 64) s3
      pure (r.1, event_deposition c s1 ++ r.2)

/-- What `handle_particles` does for the particle of one lane in a timestep:
the cache initialisation (skipped for a dead particle) with the counter
`counter`, then `lane_loop` from the value `counter0` that `counter` has after
the cache initialisation of the block. -/
def lane_timestep (m : Libm K) (c : Constants K) (rng : Nat → Nat → Nat → K × K)
    (fuel passes : Nat) (nx pad x_off y_off initial : Int) (dt inv_ntotal_particles : K)
    (density edgex edgey : List K) (cs_scatter_table cs_absorb_table : CrossSection K)
    (master_key : Nat) (ip : Int) (counter counter0 : Nat) (s : KernelState K) :
    Except Fault (KernelState K × List K) := do
  let s0 ←
    if s.particle.dead ≠ 0 then pure s
    else
      cache_init_lane m c rng fuel nx pad x_off y_off initial dt density cs_scatter_table
        cs_absorb_table master_key counter s
  lane_loop m c rng fuel nx pad x_off y_off inv_ntotal_particles edgex edgey cs_scatter_table
    cs_absorb_table master_key ip passes counter0 s0

end Phases

/-! ## The transport of a timestep (`handle_particles`, `solve_transport_2d`)

The threads of the parallel region are run one after the other in the order
of their number; a row of the particle table is touched by one thread only and
the additions to the tally grid are exact, so the order plays no role. The
number of threads and the content `lanes0` of the block-local arrays before
their first write are parameters. -/

/-- What a thread works on: the particle table, the block-local arrays (one
`Lane` per entry), the tally grid, the reduction variables `nfacets` and
`ncollisions`, and the loop variables `counter` and `ncompleted`. The variable
`nparticles`, which is only printed, is left out. -/
structure BlockState (K : Type) where
  particles : List (Particle K)
  lanes : List (Lane K)
  energy_deposition_tally : List K
  nfacets : Nat
  ncollisions : Nat
  counter : Nat
  ncompleted : Nat

/-- What `solve_transport_2d` reads and writes through its pointer arguments. -/
structure TransportState (K : Type) where
  nlocal_particles : Int
  master_key : Nat
  particles : List (Particle K)
  energy_deposition_tally : List K
  facet_events : Nat
  collision_events : Nat

section Transport

variable {K : Type} [LinearOrderedField K]

/-- Runs the body `f` of a loop over the lanes for lane `ip` of the block at
`p_off`: on row `p_off + ip` of the particle table, entry `ip` of the
block-local arrays and the tally grid. -/
def on_lane (p_off ip : Int) (f : KernelState K → Except Fault (KernelState K))
    (b : BlockState K) : Except Fault (BlockState K) := do
  let p ← readAt b.particles (p_off + ip)
  let l ← readAt b.lanes ip
  let s ← f { particle := p, lane := l, tally := b.energy_deposition_tally }
  let particles ← writeAt b.particles (p_off + ip) s.particle
  let lanes ← writeAt b.lanes ip s.lane
  pure { b with particles := particles, lanes := lanes, energy_deposition_tally := s.tally }

/-- The loop `for (int ip = 0; ip < np; ++ip)` over the lanes of a block. -/
def for_lanes (np : Int) (body : Int → BlockState K → Except Fault (BlockState K))
    (b : BlockState K) : Except Fault (BlockState K) :=
  (List.range np.toNat).foldlM (fun b (ip : Nat) => body (ip : Int) b) b

/-- One pass of the cache-initialisation loop: a dead particle is skipped; for
a live one the lane is initialised and, when `initial` is set, `counter` is
incremented. -/
def cache_init_body (m : Libm K) (c : Constants K) (rng : Nat → Nat → Nat → K × K)
    (fuel : Nat) (nx pad x_off y_off initial : Int) (dt : K) (density : List K)
    (cs_scatter_table cs_absorb_table : CrossSection K) (master_key : Nat) (p_off ip : Int)
    (b : BlockState K) : Except Fault (BlockState K) := do
  let p ← readAt b.particles (p_off + ip)
  if p.dead ≠ 0 then pure b
  else do
    let b1 ← on_lane p_off ip
      (cache_init_lane m c rng fuel nx pad x_off y_off initial dt density cs_scatter_table
        cs_absorb_table master_key b.counter) b
    if initial ≠ 0 then pure { b1 with counter := (b1.counter + 1) % 2 ^ 64 }
    else pure b1

/-- One pass of the event-classification loop: the lane is classified and the
event is counted in `ncompleted`, `ncollisions` or `nfacets`. -/
def calc_events_body (c : Constants K) (pad x_off y_off : Int) (edgex edgey : List K)
    (p_off ip : Int) (b : BlockState K) : Except Fault (BlockState K) := do
  let b1 ← on_lane p_off ip (calc_events_lane c pad x_off y_off edgex edgey) b
  let l ← readAt b1.lanes ip
  match l.next_event with
  | .PARTICLE_COLLISION => pure { b1 with ncollisions := (b1.ncollisions + 1) % 2 ^ 64 }
  | .PARTICLE_FACET => pure { b1 with nfacets := (b1.nfacets + 1) % 2 ^ 64 }
  | _ => pure { b1 with ncompleted := (b1.ncompleted + 1) % 2 ^ 64 }

/-- The loop `while (1)` of a block: classification loop, exit when every
lane is complete, collision loop, `counter += 2 * block_size`, facet loop.
`passes` bounds the number of passes. -/
def block_while (m : Libm K) (c : Constants K) (rng : Nat → Nat → Nat → K × K) (fuel : Nat)
    (nx pad x_off y_off : Int) (inv_ntotal_particles : K) (edgex edgey : List K)
    (cs_scatter_table cs_absorb_table : CrossSection K) (master_key : Nat) (p_off np : Int) :
    Nat → BlockState K → Except Fault (BlockState K)
  | 0, _ => .error .outOfFuel
  | passes + 1, b => do
    let b1 ← for_lanes np (calc_events_body c pad x_off y_off edgex edgey p_off)
      { b with ncompleted := 0 }
    if (b1.ncompleted : Int) = np then pure b1
    else do
      let b2 ← for_lanes np
        (fun ip => on_lane p_off ip
          (collision_phase m c rng fuel nx x_off y_off inv_ntotal_particles cs_scatter_table
            cs_absorb_table (collision_counter ip b1.counter) master_key)) b1
      let b3 := { b2 with counter := (b2.counter + (2 * block_size).toNat) % 2 ^ 64 }
      let b4 ← for_lanes np (fun ip => on_lane p_off ip (fun s => pure (facet_phase s))) b3
      block_while m c rng fuel nx pad x_off y_off inv_ntotal_particles edgex edgey
        cs_scatter_table cs_absorb_table master_key p_off np passes b4

/-- The body of the loop over the blocks of a thread, for the block
`(p_off, np)`: cache initialisation from `counter = 0`, the `while` loop, and
the census loop. -/
def handle_block (m : Libm K) (c : Constants K) (rng : Nat → Nat → Nat → K × K)
    (fuel passes : Nat) (nx pad x_off y_off initial : Int) (dt inv_ntotal_particles : K)
    (density edgex edgey : List K) (cs_scatter_table cs_absorb_table : CrossSection K)
    (master_key : Nat) (block : Int × Int) (b : BlockState K) :
    Except Fault (BlockState K) := do
  let b0 ← for_lanes block.2
    (cache_init_body m c rng fuel nx pad x_off y_off initial dt density cs_scatter_table
      cs_absorb_table master_key block.1) { b with counter := 0 }
  let b1 ← block_while m c rng fuel nx pad x_off y_off inv_ntotal_particles edgex edgey
    cs_scatter_table cs_absorb_table master_key block.1 block.2 passes b0
  for_lanes block.2
    (fun ip => on_lane block.1 ip (census_phase c nx x_off y_off inv_ntotal_particles)) b1

/-- The function `handle_particles`, on the state that `solve_transport_2d`
hands to it. The master key is incremented first and only read afterwards.
`fuel` bounds the loop tests of each cross-section lookup and `passes` the
passes of the `while` loop of each block. The parameters that the compiled
code does not use (`global_nx`, `global_ny`, `ny`, `neighbours`, `edgedx`,
`edgedy`, `nparticles_sent`) are left out. -/
def handle_particles (m : Libm K) (c : Constants K) (rng : Nat → Nat → Nat → K × K)
    (fuel passes : Nat) (nthreads : Int) (lanes0 : List (Lane K))
    (nx pad x_off y_off initial : Int) (dt : K) (density edgex edgey : List K)
    (ntotal_particles nparticles_to_process : Int)
    (cs_scatter_table cs_absorb_table : CrossSection K) (t : TransportState K) :
    Except Fault (TransportState K) := do
  let master_key := (t.master_key + 1) % 2 ^ 64
  let inv_ntotal_particles : K := 1 / (ntotal_particles : K)
  let b ← (List.range nthreads.toNat).foldlM
    (fun b (tid : Nat) =>
      (thread_blocks nparticles_to_process nthreads tid).foldlM
        (fun b block =>
          handle_block m c rng fuel passes nx pad x_off y_off initial dt inv_ntotal_particles
            density edgex edgey cs_scatter_table cs_absorb_table master_key block b)
        { b with lanes := lanes0 })
    { particles := t.particles, lanes := lanes0,
      energy_deposition_tally := t.energy_deposition_tally, nfacets := 0, ncollisions := 0,
      counter := 0, ncompleted := 0 }
  pure { t with
    master_key := master_key
    particles := b.particles
    energy_deposition_tally := b.energy_deposition_tally
    facet_events := (t.facet_events + b.nfacets) % 2 ^ 64
    collision_events := (t.collision_events + b.ncollisions) % 2 ^ 64 }

/-- The function `solve_transport_2d`: nothing is done when there are no local
particles; otherwise `handle_particles` is called with `initial = 1`. -/
def solve_transport_2d (m : Libm K) (c : Constants K) (rng : Nat → Nat → Nat → K × K)
    (fuel passes : Nat) (nthreads : Int) (lanes0 : List (Lane K)) (nx pad x_off y_off : Int)
    (dt : K) (ntotal_particles : Int) (density edgex edgey : List K)
    (cs_scatter_table cs_absorb_table : CrossSection K) (t : TransportState K) :
    Except Fault (TransportState K) :=
  let nparticles := t.nlocal_particles
  if nparticles = 0 then pure t
  else do
    let t1 ← handle_particles m c rng fuel passes nthreads lanes0 nx pad x_off y_off 1 dt
      density edgex edgey ntotal_particles nparticles cs_scatter_table cs_absorb_table t
    pure { t1 with nlocal_particles := nparticles }

end Transport

/-! ## Concrete inputs used in the examples -/

/-- A three-entry table over the rationals. -/
def table3 : CrossSection ℚ := ⟨[1, 2, 4], [10, 20, 40], 3⟩

/-- A two-entry table over the rationals. -/
def table2 : CrossSection ℚ := ⟨[1, 2], [10, 20], 2⟩

/-- A set of constants over the rationals. -/
def constants0 : Constants ℚ :=
  { MASS_NO := 100, BARNS := 1, AVOGADROS := 1, MOLAR_MASS := 1, eV_TO_J := 1,
    PARTICLE_MASS := 1, MIN_ENERGY_OF_INTEREST := 1, OPEN_BOUND_CORRECTION := 1 / 100 }

/-- A live particle in the middle of the unit cell `(0, 0)`, with direction
`(3/5, 4/5)`. -/
def particle0 : Particle ℚ :=
  { x := 1 / 2, y := 1 / 2, omega_x := 3 / 5, omega_y := 4 / 5, energy := 1, weight := 1,
    dt_to_census := 2, mfp_to_collision := 1, cellx := 0, celly := 0, dead := 0, key := 0 }

/-- The edge array of a one-cell mesh without padding, on either axis. -/
def unit_edges : List ℚ := [0, 1]

/-! ## Concrete inputs of the kernel, over any field -/

section KernelExamples

variable (K : Type) [LinearOrderedField K]

/-- The three-entry table `keys = [1, 2, 4]`, `values = [10, 20, 40]`. -/
def ex_table : CrossSection K := ⟨[1, 2, 4], [10, 20, 40], 3⟩

/-- Constants with mass number `A = 1` and `MIN_ENERGY_OF_INTEREST = 1`. -/
def ex_constants : Constants K :=
  { MASS_NO := 1, BARNS := 1, AVOGADROS := 1, MOLAR_MASS := 1, eV_TO_J := 1,
    PARTICLE_MASS := 1, MIN_ENERGY_OF_INTEREST := 1, OPEN_BOUND_CORRECTION := 1 / 100 }

/-- A generator that returns `(1/2, 1/2)` for every key and counter. -/
def ex_rng : Nat → Nat → Nat → K × K := fun _ _ _ => (1 / 2, 1 / 2)

/-- A live particle of energy 3 and weight 1 at `(x, 1/2)` in cell `(0, 0)`,
with direction `(omega_x, omega_y)`, `dt_to_census = 2` and
`mfp_to_collision = 1`. -/
def ex_particle (x omega_x omega_y : K) : Particle K :=
  { x := x, y := 1 / 2, omega_x := omega_x, omega_y := omega_y, energy := 3, weight := 1,
    dt_to_census := 2, mfp_to_collision := 1, cellx := 0, celly := 0, dead := 0, key := 0 }

/-- A lane with the given macroscopic cross sections, distance to the facet and
event, speed 1, no cross-section hints yet and nothing deposited. -/
def ex_lane (macroscopic_cs_scatter macroscopic_cs_absorb distance_to_facet : K)
    (next_event : Event) : Lane K :=
  { rn := (0, 0), x_facet := 1, absorb_cs_index := -1, scatter_cs_index := -1, cell_mfp := 1,
    cellx := 0, celly := 0, local_density := 1, microscopic_cs_scatter := 1,
    microscopic_cs_absorb := 1, number_density := 1,
    macroscopic_cs_scatter := macroscopic_cs_scatter,
    macroscopic_cs_absorb := macroscopic_cs_absorb, speed := 1, energy_deposition := 0,
    distance_to_facet := distance_to_facet, next_event := next_event }

/-- The particle `ex_particle (1/2) (3/5) (4/5)` with the lane `ex_lane` and a
tally grid of one cell (`nx = 1`, no offsets). -/
def ex_state (macroscopic_cs_scatter macroscopic_cs_absorb distance_to_facet : K) :
    KernelState K :=
  { particle := ex_particle K (1 / 2) (3 / 5) (4 / 5)
    lane := ex_lane K macroscopic_cs_scatter macroscopic_cs_absorb distance_to_facet
      .PARTICLE_COLLISION
    tally := [0] }

/-- A scatter table that is zero everywhere: `keys = [1, 2, 4]`,
`values = [0, 0, 0]`. -/
def ex_zero_table : CrossSection K := ⟨[1, 2, 4], [0, 0, 0], 3⟩

/-- The particle `ex_particle (1/2) (3/5) (4/5)` (energy 3, weight 1) in a pure
absorber: the lane caches the cross sections of `ex_zero_table` (scatter) and
`ex_table` (absorb) at energy 3 for density 1, `σ_s = Σ_s = 0` and
`σ_a = Σ_a = 30`, with the bracket index 1 as hint of both tables. -/
def pure_absorber_state : KernelState K :=
  { particle := ex_particle K (1 / 2) (3 / 5) (4 / 5)
    lane :=
      { rn := (0, 0), x_facet := 1, absorb_cs_index := 1, scatter_cs_index := 1,
        cell_mfp := 1 / 30, cellx := 0, celly := 0, local_density := 1,
        microscopic_cs_scatter := 0, microscopic_cs_absorb := 30, number_density := 1,
        macroscopic_cs_scatter := 0, macroscopic_cs_absorb := 30, speed := 1,
        energy_deposition := 0, distance_to_facet := 1, next_event := .PARTICLE_COLLISION }
    tally := [0] }

end KernelExamples

/-- A particle at `x = 9/10` in the only cell of a mesh with `global_nx = 1`,
moving in direction `(1, 0)`, with `Σ_s = Σ_a = 1/2`; its lane holds the x
facet at distance `1/10` as the next event. -/
def boundary_facet_state : KernelState ℚ :=
  { particle := ex_particle ℚ (9 / 10) 1 0
    lane := ex_lane ℚ (1 / 2) (1 / 2) (1 / 10) .PARTICLE_FACET
    tally := [0] }

/-- A particle at `(1/2, 1/2)` in cell `(0, 0)` of a mesh with `global_nx = 2`
(edges `[0, 1, 2]`), moving in direction `(4/5, 3/5)`, with
`Σ_s = Σ_a = 1/2`; its lane holds the x facet at distance `5/8` as the next
event. -/
def interior_facet_state : KernelState ℚ :=
  { particle := ex_particle ℚ (1 / 2) (4 / 5) (3 / 5)
    lane := ex_lane ℚ (1 / 2) (1 / 2) (5 / 8) .PARTICLE_FACET
    tally := [0, 0] }

/-- A stand-in for the Threefry generator: the two output words are the
smallest and the largest 64-bit word, whatever the counter and the key. -/
def ex_threefry : Nat × Nat → Nat × Nat → Nat × Nat := fun _ _ => (0, 2 ^ 64 - 1)

/-! ## Concrete inputs of the particle source -/

/-- Rational stand-ins for the functions of `math.h`: `sqrt x = x`,
`log x = x - 1`, `cos x = 1`, `sin x = 0`, `M_PI = 3`. -/
def ex_libm : Libm ℚ :=
  { sqrt := fun x => x, log := fun x => x - 1, cos := fun _ => 1, sin := fun _ => 0, M_PI := 3 }

/-- A generator for a source of two particles: the position numbers (secondary
key 0) are `(1/4, 1/4)` for particle 0 and `(3/4, 1/4)` for every other
particle; the direction numbers (secondary key 1) are `(1/2, 1/2)`. -/
def source_rng : Nat → Nat → Nat → ℚ × ℚ := fun _ secondary_key gid =>
  if secondary_key = 0 then (if gid = 0 then (1 / 4, 1 / 4) else (3 / 4, 1 / 4))
  else (1 / 2, 1 / 2)

/-- A row of the particle table with every entry zero. -/
def blank_particle : Particle ℚ :=
  { x := 0, y := 0, omega_x := 0, omega_y := 0, energy := 0, weight := 0, dt_to_census := 0,
    mfp_to_collision := 0, cellx := 0, celly := 0, dead := 0, key := 0 }

/-! ## Concrete inputs of the transport -/

/-- A lane with every entry zero, for the content of the block-local arrays
before their first write. -/
def blank_lane : Lane ℚ :=
  { rn := (0, 0), x_facet := 0, absorb_cs_index := 0, scatter_cs_index := 0, cell_mfp := 0,
    cellx := 0, celly := 0, local_density := 0, microscopic_cs_scatter := 0,
    microscopic_cs_absorb := 0, number_density := 0, macroscopic_cs_scatter := 0,
    macroscopic_cs_absorb := 0, speed := 0, energy_deposition := 0, distance_to_facet := 0,
    next_event := .PARTICLE_DEAD }

/-- A transport state with one live particle, `ex_particle (1/2) (3/5) (4/5)`,
the master key 7 and a tally grid of one cell. -/
def one_particle_state : TransportState ℚ :=
  { nlocal_particles := 1, master_key := 7, particles := [ex_particle ℚ (1 / 2) (3 / 5) (4 / 5)],
    energy_deposition_tally := [0], facet_events := 0, collision_events := 0 }

/-- The particle of `one_particle_state` after the cache initialisation with
`dt = 1/36000`: the generator `ex_rng` and the logarithm of `ex_libm` give
`mfp_to_collision = 1/60`. -/
def census_particle : Particle ℚ :=
  { ex_particle ℚ (1 / 2) (3 / 5) (4 / 5) with
    dt_to_census := 1 / 36000
    mfp_to_collision := 1 / 60 }

/-- The lane of `census_particle` after the cache initialisation from
`blank_lane`, for density 1 and the table `ex_table` for both reactions. -/
def census_lane : Lane ℚ :=
  { blank_lane with
    rn := (1 / 2, 1 / 2)
    absorb_cs_index := 1
    scatter_cs_index := 1
    local_density := 1
    microscopic_cs_scatter := 30
    microscopic_cs_absorb := 30
    number_density := 1
    macroscopic_cs_scatter := 30
    macroscopic_cs_absorb := 30
    speed := 6 }

/-- A transport state without local particles: the master key 7 and a tally
grid of one cell. -/
def no_particle_state : TransportState ℚ :=
  { nlocal_particles := 0, master_key := 7, particles := [], energy_deposition_tally := [5],
    facet_events := 3, collision_events := 4 }

/-- The lane state of the particle `ex_particle (1/2) (3/5) (4/5)` before the
timestep: the lane arrays not yet written, a tally grid of one cell. -/
def fresh_lane_state : KernelState ℚ :=
  { particle := ex_particle ℚ (1 / 2) (3 / 5) (4 / 5), lane := blank_lane, tally := [0] }

/-- A particle at `(1/2, 1/2)` in the unit cell `(0, 0)`, moving in direction
`(-1, 0)` at speed 1 with `Σ_s = Σ_a = 1/2`, `dt_to_census = 2` and
`mfp_to_collision = 101/200`: the collision comes at distance `101/200`, the
facet (at the lower edge minus the correction `1/100`) at `51/100`. -/
def sliver_state : KernelState ℚ :=
  { particle := { ex_particle ℚ (1 / 2) (-1) 0 with mfp_to_collision := 101 / 200 }
    lane := ex_lane ℚ (1 / 2) (1 / 2) 0 .PARTICLE_DEAD
    tally := [0] }

/-- A particle at `(1/2, 1/2)` in the unit cell `(0, 0)`, moving in direction
`(1, 0)` at speed 1 with `Σ_s = Σ_a = 1/2`, `dt_to_census = 1/2` and
`mfp_to_collision = 1`: the census comes at distance `1/2`, where the facet
is. -/
def edge_state : KernelState ℚ :=
  { particle := { ex_particle ℚ (1 / 2) 1 0 with dt_to_census := 1 / 2 }
    lane := ex_lane ℚ (1 / 2) (1 / 2) 0 .PARTICLE_DEAD
    tally := [0] }

/-! ## Concrete inputs of a collision and of a medium without absorption -/

/-- The particle of `sliver_state` with `mfp_to_collision = 0`. -/
def zero_mfp_state : KernelState ℚ :=
  { sliver_state with particle := { sliver_state.particle with mfp_to_collision := 0 } }

/-- The lane of `census_particle` after the cache initialisation from
`blank_lane`, for density 1, the table `ex_table` for the scatter and the
table `ex_zero_table` for the absorption: `σ_a = Σ_a = 0`. -/
def scatter_lane : Lane ℚ :=
  { census_lane with
    microscopic_cs_absorb := 0
    macroscopic_cs_absorb := 0 }

/-- The particle `ex_particle (1/2) (3/5) (4/5)` of energy 3 with
`Σ_s = 3`, `Σ_a = 1` and the cached speed 6, which is the speed that `ex_libm`
gives for the energy 3. -/
def streaming_state : KernelState ℚ :=
  { particle := ex_particle ℚ (1 / 2) (3 / 5) (4 / 5)
    lane := { ex_lane ℚ 3 1 1 .PARTICLE_COLLISION with speed := 6 }
    tally := [0] }

/-! ## Concrete inputs of the timesteps with a collision -/

/-- The particle of `one_particle_state` after the cache initialisation with
`dt = 1/6000`: `mfp_to_collision = 1/60` as for `census_particle`. -/
def collide_particle : Particle ℚ :=
  { ex_particle ℚ (1 / 2) (3 / 5) (4 / 5) with
    dt_to_census := 1 / 6000
    mfp_to_collision := 1 / 60 }

/-- The lane of `collide_particle` after the classification: the collision at
distance `1/3600` comes before the census at `1/1000` and the facet at
`5/8`. -/
def collide_lane : Lane ℚ :=
  { census_lane with
    cell_mfp := 1 / 60
    distance_to_facet := 5 / 8
    x_facet := 0
    next_event := .PARTICLE_COLLISION }

/-- The particle `collide_particle` after its collision at distance `1/3600`,
a scatter to the energy `3/2` (with the functions of `ex_libm`). -/
def scattered_particle : Particle ℚ :=
  { x := 3001 / 6000, y := 2251 / 4500, omega_x := -3 / 10, omega_y := 17 / 20,
    energy := 3 / 2, weight := 1, dt_to_census := 13 / 108000, mfp_to_collision := 1 / 30,
    cellx := 0, celly := 0, dead := 0, key := 0 }

/-- The lane of `scattered_particle` after the collision: the deposition
`1/32` of the streamed segment is held in `energy_deposition`, the cross
sections are those of `ex_table` at the energy `3/2`, the speed is 3. -/
def scattered_lane : Lane ℚ :=
  { collide_lane with
    rn := (1 / 2, 1 / 2)
    scatter_cs_index := 0
    absorb_cs_index := 0
    microscopic_cs_scatter := 15
    microscopic_cs_absorb := 15
    number_density := 1
    macroscopic_cs_scatter := 15
    macroscopic_cs_absorb := 15
    speed := 3
    energy_deposition := 1 / 32 }

/-- The constants `ex_constants` with `MIN_ENERGY_OF_INTEREST = 4`, above the
energy 3 of `ex_particle`. -/
def cutoff_constants : Constants ℚ :=
  { ex_constants ℚ with MIN_ENERGY_OF_INTEREST := 4 }

/-- A generator that returns `(1/4, 1/2)` for every key and counter. -/
def absorbing_rng : Nat → Nat → Nat → ℚ × ℚ := fun _ _ _ => (1 / 4, 1 / 2)

/-- The particle of `one_particle_state` after the cache initialisation with
`dt = 1/6000` and the generator `absorbing_rng`: `mfp_to_collision = 1/40`. -/
def doomed_particle : Particle ℚ :=
  { ex_particle ℚ (1 / 2) (3 / 5) (4 / 5) with
    dt_to_census := 1 / 6000
    mfp_to_collision := 1 / 40 }

/-- The lane of `doomed_particle` after the cache initialisation. -/
def doomed_lane : Lane ℚ :=
  { census_lane with rn := (1 / 4, 1 / 2) }

/-- The particle `doomed_particle` after its collision at distance `1/2400`:
an absorption, below the energy of interest of `cutoff_constants`, so the
particle is dead. -/
def absorbed_particle : Particle ℚ :=
  { ex_particle ℚ (2001 / 4000) (3 / 5) (4 / 5) with
    y := 1501 / 3000
    weight := 1 / 2
    dt_to_census := 1 / 6000
    mfp_to_collision := 1 / 40
    dead := 1 }

/-! # Lemmas -/

theorem readAt_neg {K : Type} (a : List K) (i : Int) (h : i < 0) :
    readAt a i = .error .outOfBounds := by
  simp [readAt, h]

theorem readAt_ge {K : Type} (a : List K) (i : Int) (h : (a.length : Int) ≤ i) :
    readAt a i = .error .outOfBounds := by
  have hge : a.length ≤ i.toNat := by omega
  have hnone : a[i.toNat]? = none := List.getElem?_eq_none hge
  unfold readAt
  split
  · rfl
  · rw [hnone]

section LookupLemmas

variable {K : Type} [LinearOrderedField K]

/-! ## Array reads -/

theorem readAt_ok (a : List K) (i : Int) (h0 : 0 ≤ i) (h1 : i < a.length) :
    readAt a i = .ok (a.getD i.toNat 0) := by
  have hlt : i.toNat < a.length := by omega
  simp [readAt, not_lt.mpr h0, List.getElem?_eq_getElem hlt, List.getD_eq_getElem _ _ hlt]

/-! ## One iteration of the two search loops -/

theorem binary_search_down {cs : CrossSection K} {e : K} {ind w : Int} {k : K}
    (fuel : Nat) (hk : readAt cs.keys ind = .ok k) (h : e < k) :
    binary_search cs e (fuel + 1) ind w =
      binary_search cs e fuel (ind + -w) (max 1 (Int.tdiv w 2)) := by
  simp [binary_search, hk, h, bind, Except.bind, pure, Except.pure]

theorem binary_search_up {cs : CrossSection K} {e : K} {ind w : Int} {k k1 : K}
    (fuel : Nat) (hk : readAt cs.keys ind = .ok k) (h : ¬ e < k)
    (hk1 : readAt cs.keys (ind + 1) = .ok k1) (h1 : k1 ≤ e) :
    binary_search cs e (fuel + 1) ind w =
      binary_search cs e fuel (ind + w) (max 1 (Int.tdiv w 2)) := by
  simp [binary_search, hk, h, hk1, h1, bind, Except.bind, pure, Except.pure]

theorem binary_search_found {cs : CrossSection K} {e : K} {ind w : Int} {k k1 : K}
    (fuel : Nat) (hk : readAt cs.keys ind = .ok k) (h : ¬ e < k)
    (hk1 : readAt cs.keys (ind + 1) = .ok k1) (h1 : e < k1) :
    binary_search cs e (fuel + 1) ind w = .ok ind := by
  simp [binary_search, hk, h, hk1, not_le.mpr h1, bind, Except.bind, pure, Except.pure]

theorem binary_search_fault {cs : CrossSection K} {e : K} {ind w : Int}
    (fuel : Nat) (hk : readAt cs.keys ind = .error .outOfBounds) :
    binary_search cs e (fuel + 1) ind w = .error .outOfBounds := by
  simp [binary_search, hk, bind, Except.bind]

theorem binary_search_fault_next {cs : CrossSection K} {e : K} {ind w : Int} {k : K}
    (fuel : Nat) (hk : readAt cs.keys ind = .ok k) (h : ¬ e < k)
    (hk1 : readAt cs.keys (ind + 1) = .error .outOfBounds) :
    binary_search cs e (fuel + 1) ind w = .error .outOfBounds := by
  simp [binary_search, hk, h, hk1, bind, Except.bind, pure, Except.pure]

theorem hinted_walk_exit {cs : CrossSection K} {e : K} {dir ind : Int} (fuel : Nat)
    (h : ¬ (0 ≤ ind ∧ ind < cs.nentries)) :
    hinted_walk cs e dir (fuel + 1) ind = .ok ind := by
  simp only [hinted_walk, if_neg h]; rfl

theorem hinted_walk_below {cs : CrossSection K} {e : K} {dir ind : Int} {k : K}
    (fuel : Nat) (hin : 0 ≤ ind ∧ ind < cs.nentries)
    (hk : readAt cs.keys ind = .ok k) (h : e < k) :
    hinted_walk cs e dir (fuel + 1) ind = hinted_walk cs e dir fuel (ind + dir) := by
  simp [hinted_walk, hin, hk, not_le.mpr h, bind, Except.bind]

theorem hinted_walk_above {cs : CrossSection K} {e : K} {dir ind : Int} {k k1 : K}
    (fuel : Nat) (hin : 0 ≤ ind ∧ ind < cs.nentries)
    (hk : readAt cs.keys ind = .ok k) (h : k ≤ e)
    (hk1 : readAt cs.keys (ind + 1) = .ok k1) (h1 : k1 ≤ e) :
    hinted_walk cs e dir (fuel + 1) ind = hinted_walk cs e dir fuel (ind + dir) := by
  simp [hinted_walk, hin, hk, h, hk1, not_lt.mpr h1, bind, Except.bind]

theorem hinted_walk_found {cs : CrossSection K} {e : K} {dir ind : Int} {k k1 : K}
    (fuel : Nat) (hin : 0 ≤ ind ∧ ind < cs.nentries)
    (hk : readAt cs.keys ind = .ok k) (h : k ≤ e)
    (hk1 : readAt cs.keys (ind + 1) = .ok k1) (h1 : e < k1) :
    hinted_walk cs e dir (fuel + 1) ind = .ok ind := by
  simp [hinted_walk, hin, hk, h, hk1, h1, bind, Except.bind, pure, Except.pure]

theorem hinted_walk_fault_next {cs : CrossSection K} {e : K} {dir ind : Int} {k : K}
    (fuel : Nat) (hin : 0 ≤ ind ∧ ind < cs.nentries)
    (hk : readAt cs.keys ind = .ok k) (h : k ≤ e)
    (hk1 : readAt cs.keys (ind + 1) = .error .outOfBounds) :
    hinted_walk cs e dir (fuel + 1) ind = .error .outOfBounds := by
  simp [hinted_walk, hin, hk, h, hk1, bind, Except.bind]

/-! ## Facts about well-formed tables -/

theorem CrossSection.key_lt_key {cs : CrossSection K} (hv : cs.valid) {i j : Nat}
    (hij : i < j) (hj : j < cs.keys.length) : cs.key i < cs.key j := by
  have hi : i < cs.keys.length := by omega
  have hp := List.pairwise_iff_getElem.mp hv.2.2.2 i j hi hj hij
  unfold CrossSection.key
  rw [List.getD_eq_getElem _ _ hj, List.getD_eq_getElem _ _ hi]
  exact hp

theorem CrossSection.key_le_key {cs : CrossSection K} (hv : cs.valid) {i j : Nat}
    (hij : i ≤ j) (hj : j < cs.keys.length) : cs.key i ≤ cs.key j := by
  rcases Nat.eq_or_lt_of_le hij with h | h
  · subst h; exact le_rfl
  · exact (cs.key_lt_key hv h hj).le

theorem CrossSection.read_key {cs : CrossSection K} (i : Int) (h0 : 0 ≤ i)
    (h1 : i < cs.keys.length) : readAt cs.keys i = .ok (cs.key i.toNat) :=
  readAt_ok cs.keys i h0 h1

theorem CrossSection.read_value {cs : CrossSection K} (i : Int) (h0 : 0 ≤ i)
    (h1 : i < cs.values.length) : readAt cs.values i = .ok (cs.value i.toNat) :=
  readAt_ok cs.values i h0 h1

/-- The bracket of an energy is unique: two indices whose half-open key
intervals contain `e` coincide. -/
theorem CrossSection.bracket_unique {cs : CrossSection K} (hv : cs.valid) {e : K}
    {i j : Nat} (hi : i + 1 < cs.keys.length) (hj : j + 1 < cs.keys.length)
    (hi0 : cs.key i ≤ e) (hi1 : e < cs.key (i + 1))
    (hj0 : cs.key j ≤ e) (hj1 : e < cs.key (j + 1)) : i = j := by
  by_contra hne
  rcases Nat.lt_or_gt_of_ne hne with h | h
  · have := cs.key_le_key hv (show i + 1 ≤ j by omega) (by omega)
    exact absurd (lt_of_lt_of_le hi1 (this.trans hj0)) (lt_irrefl _)
  · have := cs.key_le_key hv (show j + 1 ≤ i by omega) (by omega)
    exact absurd (lt_of_lt_of_le hj1 (this.trans hi0)) (lt_irrefl _)

/-- Every energy inside the table range has a bracket. -/
theorem CrossSection.bracket_exists {cs : CrossSection K} (hv : cs.valid) {e : K}
    (hlo : cs.key 0 ≤ e) (hhi : e < cs.key (cs.keys.length - 1)) :
    ∃ t : Nat, t + 1 < cs.keys.length ∧ cs.key t ≤ e ∧ e < cs.key (t + 1) := by
  have hn : 2 ≤ cs.keys.length := by have := hv.1; have := hv.2.1; omega
  -- the greatest index below the last whose key is at most `e`
  have key : ∀ d m : Nat, cs.keys.length - 2 - m ≤ d → m + 1 < cs.keys.length →
      cs.key m ≤ e →
      ∃ t : Nat, t + 1 < cs.keys.length ∧ cs.key t ≤ e ∧ e < cs.key (t + 1) := by
    intro d
    induction d with
    | zero =>
      intro m hd hm hme
      have hlast : m + 1 = cs.keys.length - 1 := by omega
      exact ⟨m, hm, hme, hlast ▸ hhi⟩
    | succ d ih =>
      intro m hd hm hme
      by_cases hnext : e < cs.key (m + 1)
      · exact ⟨m, hm, hme, hnext⟩
      · have hle : cs.key (m + 1) ≤ e := not_lt.mp hnext
        have hm2 : m + 1 + 1 < cs.keys.length := by
          by_contra hcon
          have hlast : m + 1 = cs.keys.length - 1 := by omega
          rw [hlast] at hle
          exact absurd (lt_of_lt_of_le hhi hle) (lt_irrefl _)
        exact ih (m + 1) (by omega) hm2 hle
  exact key (cs.keys.length - 2) 0 (by omega) (by omega) hlo

end LookupLemmas

section SearchLemmas

variable {K : Type} [LinearOrderedField K]

/-! ## The binary search inside the table range -/

/-- Invariant and variant of the binary search. While `width ≥ 2` the index
keeps a margin of `2 * width - 1` to both ends of the table (the total of all
later halved steps); with `width ≤ 1` every step moves towards the bracket. -/
theorem binary_search_finds {cs : CrossSection K} (hv : cs.valid) {e : K} {t : Nat}
    (ht : t + 1 < cs.keys.length) (h0 : cs.key t ≤ e) (h1 : e < cs.key (t + 1)) :
    ∀ (fuel : Nat) (ind w : Int), 0 ≤ ind → ind < cs.keys.length → 0 ≤ w →
      (2 ≤ w → 2 * w - 1 ≤ ind ∧ ind + (2 * w - 1) ≤ cs.keys.length - 1) →
      (w = 0 → ind - t + 4 < fuel ∧ t - ind + 4 < fuel) →
      (1 ≤ w → 3 * w + (ind - t) < fuel ∧ 3 * w + (t - ind) < fuel) →
      binary_search cs e fuel ind w = .ok (t : Int) := by
  intro fuel
  induction fuel with
  | zero =>
    intro ind w _ _ hw _ hm0 hm1
    exfalso
    rcases eq_or_lt_of_le hw with h | h
    · have := hm0 h.symm; omega
    · have := hm1 (by omega); omega
  | succ fuel ih =>
    intro ind w hi0 hi1 hw hinv hm0 hm1
    have hk := cs.read_key ind hi0 hi1
    have hdiv : Int.tdiv w 2 = w / 2 := Int.tdiv_eq_ediv hw (by norm_num)
    by_cases hlt : e < cs.key ind.toNat
    · -- the bracket is below `ind`
      have htl : t < ind.toNat := by
        by_contra hcon
        have := cs.key_le_key hv (show ind.toNat ≤ t by omega) (by omega)
        exact absurd (lt_of_lt_of_le hlt (this.trans h0)) (lt_irrefl _)
      rw [binary_search_down fuel hk hlt, hdiv]
      rcases (show w = 0 ∨ w = 1 ∨ 2 ≤ w by omega) with hw0 | hw1 | hw2
      · have := hm0 hw0
        subst hw0
        apply ih <;> omega
      · have := hm1 (by omega)
        subst hw1
        apply ih <;> omega
      · have := hm1 (by omega)
        have := hinv hw2
        apply ih <;> omega
    · have hge : cs.key ind.toNat ≤ e := not_lt.mp hlt
      have hle : ind.toNat ≤ t := by
        by_contra hcon
        have := cs.key_le_key hv (show t + 1 ≤ ind.toNat by omega) (by omega)
        exact absurd (lt_of_lt_of_le h1 (this.trans hge)) (lt_irrefl _)
      have hk1 := cs.read_key (ind + 1) (by omega) (by omega)
      have hnat : (ind + 1).toNat = ind.toNat + 1 := by omega
      rw [hnat] at hk1
      by_cases hnext : e < cs.key (ind.toNat + 1)
      · rw [binary_search_found fuel hk hlt hk1 hnext]
        have := cs.bracket_unique hv (show ind.toNat + 1 < cs.keys.length by omega) ht
          hge hnext h0 h1
        congr 1
        omega
      · have hge1 : cs.key (ind.toNat + 1) ≤ e := not_lt.mp hnext
        have hlt' : ind.toNat < t := by
          rcases Nat.eq_or_lt_of_le hle with h | h
          · rw [h] at hnext; exact absurd h1 hnext
          · exact h
        rw [binary_search_up fuel hk hlt hk1 hge1, hdiv]
        rcases (show w = 0 ∨ w = 1 ∨ 2 ≤ w by omega) with hw0 | hw1 | hw2
        · have := hm0 hw0
          subst hw0
          apply ih <;> omega
        · have := hm1 (by omega)
          subst hw1
          apply ih <;> omega
        · have := hm1 (by omega)
          have := hinv hw2
          apply ih <;> omega

/-! ## The hinted walk inside the table range -/

theorem hinted_walk_up {cs : CrossSection K} (hv : cs.valid) {e : K} {t : Nat}
    (ht : t + 1 < cs.keys.length) (h0 : cs.key t ≤ e) (h1 : e < cs.key (t + 1)) :
    ∀ (fuel : Nat) (ind : Int), 0 ≤ ind → ind ≤ t → cs.key ind.toNat ≤ e →
      t - ind < fuel → hinted_walk cs e 1 fuel ind = .ok (t : Int) := by
  intro fuel
  induction fuel with
  | zero => intro ind _ _ _ hm; omega
  | succ fuel ih =>
    intro ind hi0 hit hge hm
    have hn := hv.2.1
    have hin : 0 ≤ ind ∧ ind < cs.nentries := ⟨hi0, by omega⟩
    have hk := cs.read_key ind hi0 (by omega)
    have hk1 := cs.read_key (ind + 1) (by omega) (by omega)
    have hnat : (ind + 1).toNat = ind.toNat + 1 := by omega
    by_cases hnext : e < cs.key (ind + 1).toNat
    · rw [hinted_walk_found fuel hin hk hge hk1 hnext]
      rw [hnat] at hnext
      have := cs.bracket_unique hv (show ind.toNat + 1 < cs.keys.length by omega) ht
        hge hnext h0 h1
      congr 1
      omega
    · have hge1 : cs.key (ind + 1).toNat ≤ e := not_lt.mp hnext
      have hlt : ind.toNat < t := by
        by_contra hcon
        have hit' : ind.toNat = t := by omega
        rw [hnat, hit'] at hnext
        exact hnext h1
      rw [hinted_walk_above fuel hin hk hge hk1 hge1]
      exact ih (ind + 1) (by omega) (by omega) hge1 (by omega)

theorem hinted_walk_down {cs : CrossSection K} (hv : cs.valid) {e : K} {t : Nat}
    (ht : t + 1 < cs.keys.length) (h0 : cs.key t ≤ e) (h1 : e < cs.key (t + 1)) :
    ∀ (fuel : Nat) (ind : Int), (t : Int) ≤ ind → ind < cs.keys.length →
      ind - t < fuel → hinted_walk cs e (-1) fuel ind = .ok (t : Int) := by
  intro fuel
  induction fuel with
  | zero => intro ind _ _ hm; omega
  | succ fuel ih =>
    intro ind hti hin' hm
    have hn := hv.2.1
    have hin : 0 ≤ ind ∧ ind < cs.nentries := ⟨by omega, by omega⟩
    have hk := cs.read_key ind (by omega) hin'
    rcases eq_or_lt_of_le hti with heq | hlt
    · -- at the bracket
      subst heq
      have hk1 := cs.read_key ((t : Int) + 1) (by omega) (by omega)
      have hnat : ((t : Int) + 1).toNat = t + 1 := by omega
      have hnat0 : ((t : Int)).toNat = t := by omega
      rw [hnat] at hk1
      rw [hnat0] at hk
      exact hinted_walk_found fuel hin hk h0 hk1 h1
    · have hlt' : e < cs.key ind.toNat :=
        lt_of_lt_of_le h1 (cs.key_le_key hv (show t + 1 ≤ ind.toNat by omega) (by omega))
      rw [hinted_walk_below fuel hin hk hlt']
      exact ih (ind + -1) (by omega) (by omega) (by omega)

end SearchLemmas

section LookupResults

variable {K : Type} [LinearOrderedField K]

/-- Once the search has produced the bracket `t`, the function returns the
interpolated value and writes `t` back. -/
theorem lookup_of_search {cs : CrossSection K} (hv : cs.valid) {e : K} {t : Nat}
    (ht : t + 1 < cs.keys.length) (fuel : Nat) (hint : Int)
    (hs : find_energy_group fuel cs e hint = .ok (t : Int)) :
    microscopic_cs_for_energy fuel cs e hint =
      .ok (cs.value t + ((e - cs.key t) / (cs.key (t + 1) - cs.key t)) *
        (cs.value (t + 1) - cs.value t), (t : Int)) := by
  have hn := hv.2.1
  have hnv := hv.2.2.1
  have hk0 := cs.read_key (t : Int) (by omega) (by omega)
  have hk1 := cs.read_key ((t : Int) + 1) (by omega) (by omega)
  have hv0 := cs.read_value (t : Int) (by omega) (by omega)
  have hv1 := cs.read_value ((t : Int) + 1) (by omega) (by omega)
  have hnat : ((t : Int) + 1).toNat = t + 1 := by omega
  have hnat0 : ((t : Int)).toNat = t := by omega
  rw [hnat] at hk1 hv1
  rw [hnat0] at hk0 hv0
  unfold microscopic_cs_for_energy
  rw [hs]
  simp only [bind, Except.bind, hk0, hk1, hv0, hv1]
  rfl

/-- Binary-search mode inside the table range. -/
theorem lookup_binary {cs : CrossSection K} (hv : cs.valid) {e : K} {t : Nat}
    (ht : t + 1 < cs.keys.length) (h0 : cs.key t ≤ e) (h1 : e < cs.key (t + 1))
    (fuel : Nat) (hf : 2 * cs.keys.length + 5 ≤ fuel) (hint : Int) (hh : hint ≤ -1) :
    microscopic_cs_for_energy fuel cs e hint =
      .ok (cs.value t + ((e - cs.key t) / (cs.key (t + 1) - cs.key t)) *
        (cs.value (t + 1) - cs.value t), (t : Int)) := by
  apply lookup_of_search hv ht
  have hn := hv.2.1
  have h2 := hv.1
  unfold find_energy_group
  rw [if_neg (by omega)]
  have hd1 : Int.tdiv cs.nentries 2 = cs.nentries / 2 :=
    Int.tdiv_eq_ediv (by omega) (by norm_num)
  have hd2 : Int.tdiv (cs.nentries / 2) 2 = cs.nentries / 2 / 2 :=
    Int.tdiv_eq_ediv (by omega) (by norm_num)
  rw [hd1, hd2]
  apply binary_search_finds hv ht h0 h1 <;> omega

/-- Hinted mode inside the table range, from any starting index of the table. -/
theorem lookup_hinted {cs : CrossSection K} (hv : cs.valid) {e : K} {t : Nat}
    (ht : t + 1 < cs.keys.length) (h0 : cs.key t ≤ e) (h1 : e < cs.key (t + 1))
    (fuel : Nat) (hf : cs.keys.length ≤ fuel) (hint : Int) (hh0 : 0 ≤ hint)
    (hh1 : hint < cs.keys.length) :
    microscopic_cs_for_energy fuel cs e hint =
      .ok (cs.value t + ((e - cs.key t) / (cs.key (t + 1) - cs.key t)) *
        (cs.value (t + 1) - cs.value t), (t : Int)) := by
  apply lookup_of_search hv ht
  unfold find_energy_group
  rw [if_pos (by omega)]
  have hk := cs.read_key hint hh0 hh1
  simp only [bind, Except.bind, hk]
  by_cases hgt : e > cs.key hint.toNat
  · rw [if_pos hgt]
    have hle : hint.toNat ≤ t := by
      by_contra hcon
      have := cs.key_le_key hv (show t + 1 ≤ hint.toNat by omega) (by omega)
      exact absurd (lt_of_lt_of_le h1 this) (not_lt.mpr hgt.le)
    exact hinted_walk_up hv ht h0 h1 fuel hint hh0 (by omega) hgt.le (by omega)
  · rw [if_neg hgt]
    have hge : t ≤ hint.toNat := by
      by_contra hcon
      have := cs.key_lt_key hv (show hint.toNat < t by omega) (by omega)
      exact hgt (lt_of_lt_of_le this h0)
    exact hinted_walk_down hv ht h0 h1 fuel hint (by omega) hh1 (by omega)

end LookupResults

section OutOfRange

variable {K : Type} [LinearOrderedField K]

/-! ## Energies outside the table range -/

/-- Below the first key the binary search only steps down and leaves the
table at its lower end. -/
theorem binary_search_below {cs : CrossSection K} (hv : cs.valid) {e : K}
    (hlo : e < cs.key 0) :
    ∀ (fuel : Nat) (ind w : Int), 0 ≤ w → ind < cs.keys.length → 1 ≤ fuel →
      (w = 0 → ind + 3 ≤ fuel) → (1 ≤ w → ind + 2 ≤ fuel) →
      binary_search cs e fuel ind w = .error .outOfBounds := by
  intro fuel
  induction fuel with
  | zero => intro ind w _ _ hf; omega
  | succ fuel ih =>
    intro ind w hw hi1 _ hm0 hm1
    have hdiv : Int.tdiv w 2 = w / 2 := Int.tdiv_eq_ediv hw (by norm_num)
    by_cases hneg : ind < 0
    · exact binary_search_fault fuel (readAt_neg _ _ hneg)
    · have hk := cs.read_key ind (by omega) hi1
      have hlt : e < cs.key ind.toNat :=
        lt_of_lt_of_le hlo (cs.key_le_key hv (Nat.zero_le _) (by omega))
      rw [binary_search_down fuel hk hlt, hdiv]
      rcases (show w = 0 ∨ 1 ≤ w by omega) with hw0 | hw1
      · have := hm0 hw0
        subst hw0
        apply ih <;> omega
      · have := hm1 hw1
        apply ih <;> omega

/-- At or above the last key the binary search only steps up and leaves the
table at its upper end (at the latest through the read of `keys[ind + 1]`). -/
theorem binary_search_above {cs : CrossSection K} (hv : cs.valid) {e : K}
    (hhi : cs.key (cs.keys.length - 1) ≤ e) :
    ∀ (fuel : Nat) (ind w : Int), 0 ≤ w → 0 ≤ ind → 1 ≤ fuel →
      (w = 0 → cs.keys.length - ind + 2 ≤ fuel) →
      (1 ≤ w → cs.keys.length - ind + 1 ≤ fuel) →
      binary_search cs e fuel ind w = .error .outOfBounds := by
  intro fuel
  induction fuel with
  | zero => intro ind w _ _ hf; omega
  | succ fuel ih =>
    intro ind w hw hi0 _ hm0 hm1
    have hn2 : 2 ≤ cs.keys.length := by have := hv.1; have := hv.2.1; omega
    have hdiv : Int.tdiv w 2 = w / 2 := Int.tdiv_eq_ediv hw (by norm_num)
    by_cases hout : (cs.keys.length : Int) ≤ ind
    · exact binary_search_fault fuel (readAt_ge _ _ hout)
    · have hk := cs.read_key ind hi0 (by omega)
      have hge : ¬ e < cs.key ind.toNat :=
        not_lt.mpr ((cs.key_le_key hv (show ind.toNat ≤ cs.keys.length - 1 by omega)
          (by omega)).trans hhi)
      by_cases hlast : ind + 1 = cs.keys.length
      · exact binary_search_fault_next fuel hk hge (readAt_ge _ _ (by omega))
      · have hk1 := cs.read_key (ind + 1) (by omega) (by omega)
        have hge1 : cs.key (ind + 1).toNat ≤ e :=
          (cs.key_le_key hv (show (ind + 1).toNat ≤ cs.keys.length - 1 by omega)
            (by omega)).trans hhi
        rw [binary_search_up fuel hk hge hk1 hge1, hdiv]
        rcases (show w = 0 ∨ 1 ≤ w by omega) with hw0 | hw1
        · have := hm0 hw0
          subst hw0
          apply ih <;> omega
        · have := hm1 hw1
          apply ih <;> omega

/-- Below the first key the downward walk leaves the loop with `ind = -1`. -/
theorem hinted_walk_below_range {cs : CrossSection K} (hv : cs.valid) {e : K}
    (hlo : e < cs.key 0) :
    ∀ (fuel : Nat) (ind : Int), -1 ≤ ind → ind < cs.keys.length → ind + 2 ≤ fuel →
      hinted_walk cs e (-1) fuel ind = .ok (-1) := by
  intro fuel
  induction fuel with
  | zero => intro ind _ _ hf; omega
  | succ fuel ih =>
    intro ind hi0 hi1 hf
    have hn := hv.2.1
    by_cases hneg : ind < 0
    · have hex : ¬ (0 ≤ ind ∧ ind < cs.nentries) := by omega
      rw [hinted_walk_exit fuel hex]
      congr 1
      omega
    · have hin : 0 ≤ ind ∧ ind < cs.nentries := ⟨by omega, by omega⟩
      have hk := cs.read_key ind (by omega) hi1
      have hlt : e < cs.key ind.toNat :=
        lt_of_lt_of_le hlo (cs.key_le_key hv (Nat.zero_le _) (by omega))
      rw [hinted_walk_below fuel hin hk hlt]
      exact ih (ind + -1) (by omega) (by omega) (by omega)

/-- At or above the last key the upward walk reads `keys[nentries]`. -/
theorem hinted_walk_above_range {cs : CrossSection K} (hv : cs.valid) {e : K}
    (hhi : cs.key (cs.keys.length - 1) ≤ e) (dir : Int) :
    ∀ (fuel : Nat) (ind : Int), 0 ≤ ind → ind < cs.keys.length →
      (dir = 1 ∧ cs.keys.length - ind ≤ fuel ∨ ind + 1 = cs.keys.length ∧ 1 ≤ fuel) →
      hinted_walk cs e dir fuel ind = .error .outOfBounds := by
  intro fuel
  induction fuel with
  | zero => intro ind _ _ hf; omega
  | succ fuel ih =>
    intro ind hi0 hi1 hf
    have hn := hv.2.1
    have hin : 0 ≤ ind ∧ ind < cs.nentries := ⟨hi0, by omega⟩
    have hk := cs.read_key ind hi0 hi1
    have hge : cs.key ind.toNat ≤ e :=
      (cs.key_le_key hv (show ind.toNat ≤ cs.keys.length - 1 by omega) (by omega)).trans hhi
    by_cases hlast : ind + 1 = cs.keys.length
    · exact hinted_walk_fault_next fuel hin hk hge (readAt_ge _ _ (by omega))
    · have hk1 := cs.read_key (ind + 1) (by omega) (by omega)
      have hge1 : cs.key (ind + 1).toNat ≤ e :=
        (cs.key_le_key hv (show (ind + 1).toNat ≤ cs.keys.length - 1 by omega)
          (by omega)).trans hhi
      rw [hinted_walk_above fuel hin hk hge hk1 hge1]
      have hd : dir = 1 := by omega
      subst hd
      exact ih (ind + 1) (by omega) (by omega) (Or.inl ⟨rfl, by omega⟩)

/-- A fault of the search is a fault of the lookup. -/
theorem lookup_of_search_fault {cs : CrossSection K} {e : K} (fuel : Nat) (hint : Int)
    (hs : find_energy_group fuel cs e hint = .error .outOfBounds) :
    microscopic_cs_for_energy fuel cs e hint = .error .outOfBounds := by
  unfold microscopic_cs_for_energy
  rw [hs]
  rfl

/-- For an energy outside the table range the lookup reads outside the table,
in both modes and from every hint. -/
theorem lookup_out_of_range {cs : CrossSection K} (hv : cs.valid) {e : K}
    (hout : e < cs.key 0 ∨ cs.key (cs.keys.length - 1) ≤ e) (fuel : Nat)
    (hf : 2 * cs.keys.length + 5 ≤ fuel) (hint : Int) :
    microscopic_cs_for_energy fuel cs e hint = .error .outOfBounds := by
  have hn := hv.2.1
  have h2 := hv.1
  have hd1 : Int.tdiv cs.nentries 2 = cs.nentries / 2 :=
    Int.tdiv_eq_ediv (by omega) (by norm_num)
  have hd2 : Int.tdiv (cs.nentries / 2) 2 = cs.nentries / 2 / 2 :=
    Int.tdiv_eq_ediv (by omega) (by norm_num)
  by_cases hh : hint > -1
  · by_cases hbig : (cs.keys.length : Int) ≤ hint
    · apply lookup_of_search_fault
      unfold find_energy_group
      rw [if_pos hh, readAt_ge _ _ hbig]
      rfl
    · have hk := cs.read_key hint (by omega) (by omega)
      rcases hout with hlo | hhi
      · -- the walk ends at `ind = -1` and the interpolation reads `values[-1]`
        have hnot : ¬ e > cs.key hint.toNat :=
          not_lt.mpr ((cs.key_le_key hv (Nat.zero_le _) (by omega)).trans' hlo.le)
        have hs : find_energy_group fuel cs e hint = .ok (-1) := by
          unfold find_energy_group
          rw [if_pos hh]
          simp only [bind, Except.bind, hk, if_neg hnot]
          exact hinted_walk_below_range hv hlo fuel hint (by omega) (by omega) (by omega)
        unfold microscopic_cs_for_energy
        rw [hs]
        simp only [bind, Except.bind, readAt_neg cs.values (-1) (by omega)]
      · apply lookup_of_search_fault
        unfold find_energy_group
        rw [if_pos hh]
        simp only [bind, Except.bind, hk]
        apply hinted_walk_above_range hv hhi _ fuel hint (by omega) (by omega)
        by_cases hgt : e > cs.key hint.toNat
        · left
          rw [if_pos hgt]
          exact ⟨rfl, by omega⟩
        · right
          refine ⟨?_, by omega⟩
          by_contra hne
          have := cs.key_lt_key hv (show hint.toNat < cs.keys.length - 1 by omega)
            (by omega)
          exact hgt (lt_of_lt_of_le this hhi)
  · apply lookup_of_search_fault
    unfold find_energy_group
    rw [if_neg hh, hd1, hd2]
    rcases hout with hlo | hhi
    · apply binary_search_below hv hlo <;> omega
    · apply binary_search_above hv hhi <;> omega

end OutOfRange

section GeometryLemmas

variable {K : Type} [LinearOrderedField K]

/-! ## `calc_distance_to_facet` in closed form -/

theorem XReal.recip_of_ne {d : K} (h : d ≠ 0) : XReal.recip d = .fin (1 / d) := by
  simp [XReal.recip, h]

theorem XReal.recip_zero : XReal.recip (0 : K) = .posInf := by
  simp [XReal.recip]

theorem XReal.lt_fin_fin (a b : K) : XReal.lt (.fin a) (.fin b) = decide (a < b) := rfl

/-- With the four edges of the cell readable, the function returns the pair
built from the signed axis offsets `ax`, `ay` to the facets ahead. -/
theorem calc_distance_to_facet_eq (c : Constants K) (x y : K) (pad x_off y_off : Int)
    (omega_x omega_y speed : K) (particle_cellx particle_celly : Int)
    (edgex edgey : List K) (xl xh yl yh : K)
    (hxl : readAt edgex (particle_cellx - x_off + pad) = .ok xl)
    (hxh : readAt edgex (particle_cellx - x_off + pad + 1) = .ok xh)
    (hyl : readAt edgey (particle_celly - y_off + pad) = .ok yl)
    (hyh : readAt edgey (particle_celly - y_off + pad + 1) = .ok yh) :
    calc_distance_to_facet c x y pad x_off y_off omega_x omega_y speed particle_cellx
        particle_celly edgex edgey =
      .ok
        (if XReal.lt
            (XReal.scale (if omega_x ≥ 0 then xh - x else (xl - c.OPEN_BOUND_CORRECTION) - x)
              (XReal.recip (omega_x * speed)))
            (XReal.scale (if omega_y ≥ 0 then yh - y else (yl - c.OPEN_BOUND_CORRECTION) - y)
              (XReal.recip (omega_y * speed))) then
          XReal.scale
            ((if omega_x ≥ 0 then xh - x else (xl - c.OPEN_BOUND_CORRECTION) - x) * speed)
            (XReal.recip (omega_x * speed))
        else
          XReal.scale
            ((if omega_y ≥ 0 then yh - y else (yl - c.OPEN_BOUND_CORRECTION) - y) * speed)
            (XReal.recip (omega_y * speed)),
        if XReal.lt
            (XReal.scale (if omega_x ≥ 0 then xh - x else (xl - c.OPEN_BOUND_CORRECTION) - x)
              (XReal.recip (omega_x * speed)))
            (XReal.scale (if omega_y ≥ 0 then yh - y else (yl - c.OPEN_BOUND_CORRECTION) - y)
              (XReal.recip (omega_y * speed))) then 1 else 0) := by
  unfold calc_distance_to_facet
  by_cases hx : omega_x ≥ 0 <;> by_cases hy : omega_y ≥ 0 <;>
    simp only [hx, hy, hxl, hxh, hyl, hyh, bind, Except.bind, pure, Except.pure, if_true,
      if_false] <;>
    split_ifs <;> simp_all

theorem XReal.scale_recip_of_ne (a : K) {d : K} (h : d ≠ 0) :
    XReal.scale a (XReal.recip d) = .fin (a * (1 / d)) := by
  rw [XReal.recip_of_ne h]
  rfl

/-- The signed offset to the facet ahead divided by the velocity component is
positive when the offset has the sign of the direction component. -/
theorem offset_over_velocity_pos {a omega speed : K} (homega : omega ≠ 0)
    (hspeed : 0 < speed) (hpos : 0 ≤ omega → 0 < a) (hneg : ¬ 0 ≤ omega → a < 0) :
    0 < a * speed * (1 / (omega * speed)) := by
  by_cases h : 0 ≤ omega
  · have ho : 0 < omega := lt_of_le_of_ne h (Ne.symm homega)
    have := hpos h
    positivity
  · have ho : omega < 0 := not_le.mp h
    have ha := hneg h
    have h1 : a * speed < 0 := mul_neg_of_neg_of_pos ha hspeed
    have h2 : 1 / (omega * speed) < 0 :=
      one_div_neg.mpr (mul_neg_of_neg_of_pos ho hspeed)
    exact mul_pos_of_neg_of_neg h1 h2

end GeometryLemmas

section KernelLemmas

variable {K : Type} [LinearOrderedField K]

/-! ## Tally updates -/

theorem addAt_ok (a : List K) (i : Int) (v : K) (h0 : 0 ≤ i) (h1 : i < a.length) :
    addAt a i v = .ok (a.set i.toNat (a.getD i.toNat 0 + v)) := by
  have hlt : i.toNat < a.length := by omega
  simp [addAt, not_lt.mpr h0, List.getElem?_eq_getElem hlt, List.getD_eq_getElem _ _ hlt]

theorem update_tallies_ok (nx x_off y_off : Int) (p : Particle K) (inv dep : K)
    (tally : List K) (h0 : 0 ≤ (p.celly - y_off) * nx + (p.cellx - x_off))
    (h1 : (p.celly - y_off) * nx + (p.cellx - x_off) < tally.length) :
    update_tallies nx x_off y_off p inv dep tally =
      .ok (tally.set ((p.celly - y_off) * nx + (p.cellx - x_off)).toNat
        (tally.getD ((p.celly - y_off) * nx + (p.cellx - x_off)).toNat 0 + dep * inv)) := by
  unfold update_tallies
  exact addAt_ok _ _ _ h0 h1

/-! ## Lookups that are served -/

theorem CrossSection.lookup_served {cs : CrossSection K} {e : K} {hint : Int} {fuel : Nat}
    (h : cs.serves e hint fuel) :
    ∃ t : Nat, (t : Int) + 1 < cs.nentries ∧
      microscopic_cs_for_energy fuel cs e hint =
        .ok (cs.value t + ((e - cs.key t) / (cs.key (t + 1) - cs.key t)) *
          (cs.value (t + 1) - cs.value t), (t : Int)) := by
  obtain ⟨hv, hlo, hhi, hh, hf⟩ := h
  have hn := hv.2.1
  have hlast : (cs.nentries - 1).toNat = cs.keys.length - 1 := by omega
  rw [hlast] at hhi
  obtain ⟨t, ht, h0, h1⟩ := cs.bracket_exists hv hlo hhi
  refine ⟨t, by omega, ?_⟩
  by_cases hneg : hint ≤ -1
  · exact lookup_binary hv ht h0 h1 fuel (by omega) hint hneg
  · exact lookup_hinted hv ht h0 h1 fuel (by omega) hint (by omega) (by omega)

/-! ## The branches of `collision_event` -/

theorem collision_outcome_absorb_dead (m : Libm K) (c : Constants K)
    (rng : Nat → Nat → Nat → K × K) (nx x_off y_off : Int) (inv d : K)
    (counter_off master_key : Nat) (s : KernelState K)
    (habs : (rng master_key s.particle.key counter_off).1 <
      s.lane.macroscopic_cs_absorb /
        (s.lane.macroscopic_cs_scatter + s.lane.macroscopic_cs_absorb))
    (hlow : s.particle.energy < c.MIN_ENERGY_OF_INTEREST)
    (h0 : 0 ≤ (s.particle.celly - y_off) * nx + (s.particle.cellx - x_off))
    (h1 : (s.particle.celly - y_off) * nx + (s.particle.cellx - x_off) < s.tally.length) :
    collision_outcome m c rng nx x_off y_off inv d counter_off master_key s =
      .ok
        { particle := { s.particle with
            x := s.particle.x + d * s.particle.omega_x
            y := s.particle.y + d * s.particle.omega_y
            weight := s.particle.weight * (1 - s.lane.macroscopic_cs_absorb /
              (s.lane.macroscopic_cs_scatter + s.lane.macroscopic_cs_absorb))
            dead := 1 }
          lane := { s.lane with energy_deposition := 0 }
          tally := s.tally.set ((s.particle.celly - y_off) * nx +
              (s.particle.cellx - x_off)).toNat
            (s.tally.getD ((s.particle.celly - y_off) * nx +
              (s.particle.cellx - x_off)).toNat 0 +
              (s.lane.energy_deposition +
                calculate_energy_deposition c s.particle d s.lane.number_density
                  s.lane.microscopic_cs_absorb
                  (s.lane.microscopic_cs_scatter + s.lane.microscopic_cs_absorb)) * inv) } := by
  unfold collision_outcome
  simp only [if_pos habs, if_pos hlow, update_tallies]
  rw [addAt_ok _ _ _ h0 h1]
  rfl

theorem collision_outcome_absorb_live (m : Libm K) (c : Constants K)
    (rng : Nat → Nat → Nat → K × K) (nx x_off y_off : Int) (inv d : K)
    (counter_off master_key : Nat) (s : KernelState K)
    (habs : (rng master_key s.particle.key counter_off).1 <
      s.lane.macroscopic_cs_absorb /
        (s.lane.macroscopic_cs_scatter + s.lane.macroscopic_cs_absorb))
    (hlow : ¬ s.particle.energy < c.MIN_ENERGY_OF_INTEREST) :
    collision_outcome m c rng nx x_off y_off inv d counter_off master_key s =
      .ok
        { s with
          particle := { s.particle with
            x := s.particle.x + d * s.particle.omega_x
            y := s.particle.y + d * s.particle.omega_y
            weight := s.particle.weight * (1 - s.lane.macroscopic_cs_absorb /
              (s.lane.macroscopic_cs_scatter + s.lane.macroscopic_cs_absorb)) }
          lane := { s.lane with
            energy_deposition := s.lane.energy_deposition +
              calculate_energy_deposition c s.particle d s.lane.number_density
                s.lane.microscopic_cs_absorb
                (s.lane.microscopic_cs_scatter + s.lane.microscopic_cs_absorb) } } := by
  unfold collision_outcome
  simp only [if_pos habs, if_neg hlow]
  rfl

theorem collision_outcome_scatter (m : Libm K) (c : Constants K)
    (rng : Nat → Nat → Nat → K × K) (nx x_off y_off : Int) (inv d : K)
    (counter_off master_key : Nat) (s : KernelState K)
    (hsc : ¬ (rng master_key s.particle.key counter_off).1 <
      s.lane.macroscopic_cs_absorb /
        (s.lane.macroscopic_cs_scatter + s.lane.macroscopic_cs_absorb)) :
    collision_outcome m c rng nx x_off y_off inv d counter_off master_key s =
      .ok
        { s with
          particle := { s.particle with
            x := s.particle.x + d * s.particle.omega_x
            y := s.particle.y + d * s.particle.omega_y
            omega_x :=
              s.particle.omega_x * scatter_cos_theta m c s.particle.energy
                  (scatter_energy c s.particle.energy
                    (rng master_key s.particle.key counter_off).2) -
                s.particle.omega_y * m.sqrt (1 -
                  scatter_cos_theta m c s.particle.energy
                      (scatter_energy c s.particle.energy
                        (rng master_key s.particle.key counter_off).2) *
                    scatter_cos_theta m c s.particle.energy
                      (scatter_energy c s.particle.energy
                        (rng master_key s.particle.key counter_off).2))
            omega_y :=
              s.particle.omega_x * m.sqrt (1 -
                  scatter_cos_theta m c s.particle.energy
                      (scatter_energy c s.particle.energy
                        (rng master_key s.particle.key counter_off).2) *
                    scatter_cos_theta m c s.particle.energy
                      (scatter_energy c s.particle.energy
                        (rng master_key s.particle.key counter_off).2)) +
                s.particle.omega_y * scatter_cos_theta m c s.particle.energy
                  (scatter_energy c s.particle.energy
                    (rng master_key s.particle.key counter_off).2)
            energy := scatter_energy c s.particle.energy
              (rng master_key s.particle.key counter_off).2 }
          lane := { s.lane with
            energy_deposition := s.lane.energy_deposition +
              calculate_energy_deposition c s.particle d s.lane.number_density
                s.lane.microscopic_cs_absorb
                (s.lane.microscopic_cs_scatter + s.lane.microscopic_cs_absorb) } } := by
  unfold collision_outcome
  simp only [if_neg hsc]
  rfl

theorem collision_refresh_ok (m : Libm K) (c : Constants K)
    (rng : Nat → Nat → Nat → K × K) (fuel : Nat) (d local_density : K)
    (cs_s cs_a : CrossSection K) (counter_off master_key : Nat) (s : KernelState K)
    (rs ra : K × Int)
    (hs : microscopic_cs_for_energy fuel cs_s s.particle.energy s.lane.scatter_cs_index =
      .ok rs)
    (ha : microscopic_cs_for_energy fuel cs_a s.particle.energy s.lane.absorb_cs_index =
      .ok ra) :
    collision_refresh m c rng fuel d local_density cs_s cs_a counter_off master_key s =
      .ok
        { s with
          particle := { s.particle with
            mfp_to_collision :=
              -m.log (rng master_key s.particle.key ((counter_off + 1) % 2 ^ 64)).1 /
                (local_density * c.AVOGADROS / c.MOLAR_MASS * rs.1 * c.BARNS)
            dt_to_census := s.particle.dt_to_census - d / s.lane.speed }
          lane := { s.lane with
            rn := rng master_key s.particle.key ((counter_off + 1) % 2 ^ 64)
            scatter_cs_index := rs.2
            absorb_cs_index := ra.2
            microscopic_cs_scatter := rs.1
            microscopic_cs_absorb := ra.1
            number_density := local_density * c.AVOGADROS / c.MOLAR_MASS
            macroscopic_cs_scatter :=
              local_density * c.AVOGADROS / c.MOLAR_MASS * rs.1 * c.BARNS
            macroscopic_cs_absorb :=
              local_density * c.AVOGADROS / c.MOLAR_MASS * ra.1 * c.BARNS
            speed := m.sqrt ((2 * s.particle.energy * c.eV_TO_J) / c.PARTICLE_MASS) } } := by
  unfold collision_refresh
  rw [hs, ha]
  rfl

theorem collision_event_dead (m : Libm K) (c : Constants K)
    (rng : Nat → Nat → Nat → K × K) (fuel : Nat) (nx x_off y_off : Int)
    (inv d local_density : K) (cs_s cs_a : CrossSection K) (counter_off master_key : Nat)
    (s s1 : KernelState K)
    (h1 : collision_outcome m c rng nx x_off y_off inv d counter_off master_key s = .ok s1)
    (hd : s1.particle.dead ≠ 0) :
    collision_event m c rng fuel nx x_off y_off inv d local_density cs_s cs_a counter_off
      master_key s = .ok s1 := by
  unfold collision_event
  rw [h1]
  simp only [bind, Except.bind, if_pos hd]
  rfl

theorem collision_event_live (m : Libm K) (c : Constants K)
    (rng : Nat → Nat → Nat → K × K) (fuel : Nat) (nx x_off y_off : Int)
    (inv d local_density : K) (cs_s cs_a : CrossSection K) (counter_off master_key : Nat)
    (s s1 : KernelState K)
    (h1 : collision_outcome m c rng nx x_off y_off inv d counter_off master_key s = .ok s1)
    (hd : s1.particle.dead = 0) :
    collision_event m c rng fuel nx x_off y_off inv d local_density cs_s cs_a counter_off
      master_key s =
      collision_refresh m c rng fuel d local_density cs_s cs_a counter_off master_key s1 := by
  unfold collision_event
  rw [h1]
  simp only [bind, Except.bind, hd, ne_eq, not_true_eq_false, if_false]

/-- The state after the first part of `collision_event`, branch by branch. -/
theorem collision_outcome_spec (m : Libm K) (c : Constants K)
    (rng : Nat → Nat → Nat → K × K) (nx x_off y_off : Int) (inv d : K)
    (counter_off master_key : Nat) (s : KernelState K)
    (htally : (rng master_key s.particle.key counter_off).1 <
        s.lane.macroscopic_cs_absorb /
          (s.lane.macroscopic_cs_scatter + s.lane.macroscopic_cs_absorb) →
      s.particle.energy < c.MIN_ENERGY_OF_INTEREST →
      0 ≤ (s.particle.celly - y_off) * nx + (s.particle.cellx - x_off) ∧
        (s.particle.celly - y_off) * nx + (s.particle.cellx - x_off) < s.tally.length) :
    ∃ s1 : KernelState K,
      collision_outcome m c rng nx x_off y_off inv d counter_off master_key s = .ok s1 ∧
      s1.particle.x = s.particle.x + d * s.particle.omega_x ∧
      s1.particle.y = s.particle.y + d * s.particle.omega_y ∧
      s1.particle.cellx = s.particle.cellx ∧ s1.particle.celly = s.particle.celly ∧
      s1.particle.key = s.particle.key ∧
      s1.particle.dt_to_census = s.particle.dt_to_census ∧
      s1.particle.energy = energy_after_collision c rng counter_off master_key s ∧
      s1.lane.scatter_cs_index = s.lane.scatter_cs_index ∧
      s1.lane.absorb_cs_index = s.lane.absorb_cs_index ∧
      s1.lane.speed = s.lane.speed ∧
      ((rng master_key s.particle.key counter_off).1 <
          s.lane.macroscopic_cs_absorb /
            (s.lane.macroscopic_cs_scatter + s.lane.macroscopic_cs_absorb) →
        s1.particle.weight = s.particle.weight * (1 - s.lane.macroscopic_cs_absorb /
            (s.lane.macroscopic_cs_scatter + s.lane.macroscopic_cs_absorb)) ∧
          s1.particle.energy = s.particle.energy ∧
          s1.particle.omega_x = s.particle.omega_x ∧
          s1.particle.omega_y = s.particle.omega_y ∧
          (s.particle.energy < c.MIN_ENERGY_OF_INTEREST → s1.particle.dead = 1) ∧
          (¬ s.particle.energy < c.MIN_ENERGY_OF_INTEREST →
            s1.particle.dead = s.particle.dead)) ∧
      (¬ (rng master_key s.particle.key counter_off).1 <
          s.lane.macroscopic_cs_absorb /
            (s.lane.macroscopic_cs_scatter + s.lane.macroscopic_cs_absorb) →
        s1.particle.weight = s.particle.weight ∧
          s1.particle.energy =
            scatter_energy c s.particle.energy (rng master_key s.particle.key counter_off).2 ∧
          s1.particle.omega_x =
            s.particle.omega_x * scatter_cos_theta m c s.particle.energy
                (scatter_energy c s.particle.energy
                  (rng master_key s.particle.key counter_off).2) -
              s.particle.omega_y * m.sqrt (1 -
                scatter_cos_theta m c s.particle.energy
                    (scatter_energy c s.particle.energy
                      (rng master_key s.particle.key counter_off).2) *
                  scatter_cos_theta m c s.particle.energy
                    (scatter_energy c s.particle.energy
                      (rng master_key s.particle.key counter_off).2)) ∧
          s1.particle.omega_y =
            s.particle.omega_x * m.sqrt (1 -
                scatter_cos_theta m c s.particle.energy
                    (scatter_energy c s.particle.energy
                      (rng master_key s.particle.key counter_off).2) *
                  scatter_cos_theta m c s.particle.energy
                    (scatter_energy c s.particle.energy
                      (rng master_key s.particle.key counter_off).2)) +
              s.particle.omega_y * scatter_cos_theta m c s.particle.energy
                (scatter_energy c s.particle.energy
                  (rng master_key s.particle.key counter_off).2) ∧
          s1.particle.dead = s.particle.dead) := by
  by_cases habs : (rng master_key s.particle.key counter_off).1 <
      s.lane.macroscopic_cs_absorb /
        (s.lane.macroscopic_cs_scatter + s.lane.macroscopic_cs_absorb)
  · have he : energy_after_collision c rng counter_off master_key s = s.particle.energy := by
      unfold energy_after_collision; rw [if_pos habs]
    by_cases hlow : s.particle.energy < c.MIN_ENERGY_OF_INTEREST
    · have hb := htally habs hlow
      refine ⟨_, collision_outcome_absorb_dead m c rng nx x_off y_off inv d counter_off
        master_key s habs hlow hb.1 hb.2, rfl, rfl, rfl, rfl, rfl, rfl, he.symm, rfl, rfl, rfl,
        ?_, ?_⟩
      · intro _
        exact ⟨rfl, rfl, rfl, rfl, fun _ => rfl, fun h => absurd hlow h⟩
      · intro h; exact absurd habs h
    · refine ⟨_, collision_outcome_absorb_live m c rng nx x_off y_off inv d counter_off
        master_key s habs hlow, rfl, rfl, rfl, rfl, rfl, rfl, he.symm, rfl, rfl, rfl, ?_, ?_⟩
      · intro _
        exact ⟨rfl, rfl, rfl, rfl, fun h => absurd h hlow, fun _ => rfl⟩
      · intro h; exact absurd habs h
  · have he : energy_after_collision c rng counter_off master_key s =
        scatter_energy c s.particle.energy (rng master_key s.particle.key counter_off).2 := by
      unfold energy_after_collision; rw [if_neg habs]
    refine ⟨_, collision_outcome_scatter m c rng nx x_off y_off inv d counter_off
      master_key s habs, rfl, rfl, rfl, rfl, rfl, rfl, he.symm, rfl, rfl, rfl, ?_, ?_⟩
    · intro h; exact absurd h habs
    · intro _
      exact ⟨rfl, rfl, rfl, rfl, rfl⟩

/-- The second part of `collision_event` changes `mfp_to_collision` and
`dt_to_census` of the particle and nothing else of it. -/
theorem collision_refresh_spec (m : Libm K) (c : Constants K)
    (rng : Nat → Nat → Nat → K × K) (fuel : Nat) (d local_density : K)
    (cs_s cs_a : CrossSection K) (counter_off master_key : Nat) (s : KernelState K)
    (hs : cs_s.serves s.particle.energy s.lane.scatter_cs_index fuel)
    (ha : cs_a.serves s.particle.energy s.lane.absorb_cs_index fuel) :
    ∃ s' : KernelState K,
      collision_refresh m c rng fuel d local_density cs_s cs_a counter_off master_key s =
        .ok s' ∧
      s'.particle.x = s.particle.x ∧ s'.particle.y = s.particle.y ∧
      s'.particle.omega_x = s.particle.omega_x ∧ s'.particle.omega_y = s.particle.omega_y ∧
      s'.particle.energy = s.particle.energy ∧ s'.particle.weight = s.particle.weight ∧
      s'.particle.cellx = s.particle.cellx ∧ s'.particle.celly = s.particle.celly ∧
      s'.particle.dead = s.particle.dead ∧ s'.particle.key = s.particle.key ∧
      s'.particle.dt_to_census = s.particle.dt_to_census - d / s.lane.speed ∧
      s'.tally = s.tally := by
  obtain ⟨ts, -, hs'⟩ := CrossSection.lookup_served hs
  obtain ⟨ta, -, ha'⟩ := CrossSection.lookup_served ha
  exact ⟨_, collision_refresh_ok m c rng fuel d local_density cs_s cs_a counter_off master_key
    s _ _ hs' ha', rfl, rfl, rfl, rfl, rfl, rfl, rfl, rfl, rfl, rfl, rfl, rfl⟩

/-- What `collision_event` does to the particle, branch by branch. -/
theorem collision_event_spec (m : Libm K) (c : Constants K)
    (rng : Nat → Nat → Nat → K × K) (fuel : Nat) (nx x_off y_off : Int)
    (inv d local_density : K) (cs_s cs_a : CrossSection K) (counter_off master_key : Nat)
    (s : KernelState K)
    (hready : collision_ready c rng fuel nx x_off y_off cs_s cs_a counter_off master_key s) :
    ∃ s' : KernelState K,
      collision_event m c rng fuel nx x_off y_off inv d local_density cs_s cs_a counter_off
        master_key s = .ok s' ∧
      s'.particle.x = s.particle.x + d * s.particle.omega_x ∧
      s'.particle.y = s.particle.y + d * s.particle.omega_y ∧
      s'.particle.cellx = s.particle.cellx ∧ s'.particle.celly = s.particle.celly ∧
      s'.particle.key = s.particle.key ∧
      ((rng master_key s.particle.key counter_off).1 <
          s.lane.macroscopic_cs_absorb /
            (s.lane.macroscopic_cs_scatter + s.lane.macroscopic_cs_absorb) →
        s'.particle.weight = s.particle.weight * (1 - s.lane.macroscopic_cs_absorb /
            (s.lane.macroscopic_cs_scatter + s.lane.macroscopic_cs_absorb)) ∧
          s'.particle.energy = s.particle.energy ∧
          s'.particle.omega_x = s.particle.omega_x ∧
          s'.particle.omega_y = s.particle.omega_y ∧
          (s.particle.energy < c.MIN_ENERGY_OF_INTEREST →
            s'.particle.dead = 1 ∧ s'.particle.dt_to_census = s.particle.dt_to_census) ∧
          (¬ s.particle.energy < c.MIN_ENERGY_OF_INTEREST →
            s'.particle.dead = 0 ∧
              s'.particle.dt_to_census = s.particle.dt_to_census - d / s.lane.speed)) ∧
      (¬ (rng master_key s.particle.key counter_off).1 <
          s.lane.macroscopic_cs_absorb /
            (s.lane.macroscopic_cs_scatter + s.lane.macroscopic_cs_absorb) →
        s'.particle.weight = s.particle.weight ∧
          s'.particle.energy =
            scatter_energy c s.particle.energy (rng master_key s.particle.key counter_off).2 ∧
          s'.particle.omega_x =
            s.particle.omega_x * scatter_cos_theta m c s.particle.energy
                (scatter_energy c s.particle.energy
                  (rng master_key s.particle.key counter_off).2) -
              s.particle.omega_y * m.sqrt (1 -
                scatter_cos_theta m c s.particle.energy
                    (scatter_energy c s.particle.energy
                      (rng master_key s.particle.key counter_off).2) *
                  scatter_cos_theta m c s.particle.energy
                    (scatter_energy c s.particle.energy
                      (rng master_key s.particle.key counter_off).2)) ∧
          s'.particle.omega_y =
            s.particle.omega_x * m.sqrt (1 -
                scatter_cos_theta m c s.particle.energy
                    (scatter_energy c s.particle.energy
                      (rng master_key s.particle.key counter_off).2) *
                  scatter_cos_theta m c s.particle.energy
                    (scatter_energy c s.particle.energy
                      (rng master_key s.particle.key counter_off).2)) +
              s.particle.omega_y * scatter_cos_theta m c s.particle.energy
                (scatter_energy c s.particle.energy
                  (rng master_key s.particle.key counter_off).2) ∧
          s'.particle.dead = 0 ∧
          s'.particle.dt_to_census = s.particle.dt_to_census - d / s.lane.speed) := by
  obtain ⟨hlive, hr⟩ := hready
  have htally : (rng master_key s.particle.key counter_off).1 <
        s.lane.macroscopic_cs_absorb /
          (s.lane.macroscopic_cs_scatter + s.lane.macroscopic_cs_absorb) →
      s.particle.energy < c.MIN_ENERGY_OF_INTEREST →
      0 ≤ (s.particle.celly - y_off) * nx + (s.particle.cellx - x_off) ∧
        (s.particle.celly - y_off) * nx + (s.particle.cellx - x_off) < s.tally.length := by
    intro h1 h2
    rw [if_pos ⟨h1, h2⟩] at hr
    exact hr
  obtain ⟨s1, h1, hx, hy, hcx, hcy, hkey, hdt, hen, hsi, hai, hsp, habsf, hscf⟩ :=
    collision_outcome_spec m c rng nx x_off y_off inv d counter_off master_key s htally
  by_cases hdead : s1.particle.dead ≠ 0
  · -- the particle has died: an absorption below the energy of interest
    have h2 := collision_event_dead m c rng fuel nx x_off y_off inv d local_density cs_s cs_a
      counter_off master_key s s1 h1 hdead
    refine ⟨s1, h2, hx, hy, hcx, hcy, hkey, ?_, ?_⟩
    · intro habs
      obtain ⟨hw, he, hox, hoy, hd1, hd0⟩ := habsf habs
      refine ⟨hw, he, hox, hoy, fun _ => ⟨?_, hdt⟩, fun hlow => ?_⟩
      · by_contra hne
        by_cases hlow : s.particle.energy < c.MIN_ENERGY_OF_INTEREST
        · exact hne (hd1 hlow)
        · exact hdead ((hd0 hlow).trans hlive)
      · exact absurd ((hd0 hlow).trans hlive) hdead
    · intro hsc
      exact absurd ((hscf hsc).2.2.2.2.trans hlive) hdead
  · have hd0 : s1.particle.dead = 0 := not_not.mp hdead
    have hsurv : ¬ ((rng master_key s.particle.key counter_off).1 <
          s.lane.macroscopic_cs_absorb /
            (s.lane.macroscopic_cs_scatter + s.lane.macroscopic_cs_absorb) ∧
        s.particle.energy < c.MIN_ENERGY_OF_INTEREST) := by
      intro h
      have := (habsf h.1).2.2.2.2.1 h.2
      rw [hd0] at this
      exact zero_ne_one this
    rw [if_neg hsurv, ← hen, ← hsi, ← hai] at hr
    obtain ⟨s', h3, hx', hy', hox', hoy', he', hw', hcx', hcy', hd', hkey', hdt', -⟩ :=
      collision_refresh_spec m c rng fuel d local_density cs_s cs_a counter_off master_key s1
        hr.1 hr.2
    have h2 := collision_event_live m c rng fuel nx x_off y_off inv d local_density cs_s cs_a
      counter_off master_key s s1 h1 hd0
    rw [h3] at h2
    refine ⟨s', h2, hx'.trans hx, hy'.trans hy, hcx'.trans hcx, hcy'.trans hcy,
      hkey'.trans hkey, ?_, ?_⟩
    · intro habs
      obtain ⟨hw, he, hox, hoy, hd1, -⟩ := habsf habs
      refine ⟨hw'.trans hw, he'.trans he, hox'.trans hox, hoy'.trans hoy, fun hlow => ?_,
        fun _ => ⟨hd'.trans hd0, ?_⟩⟩
      · exact absurd ⟨habs, hlow⟩ hsurv
      · rw [hdt', hdt, hsp]
    · intro hsc
      obtain ⟨hw, he, hox, hoy, -⟩ := hscf hsc
      refine ⟨hw'.trans hw, he'.trans he, hox'.trans hox, hoy'.trans hoy, hd'.trans hd0, ?_⟩
      rw [hdt', hdt, hsp]

/-! ## The census event and the dispatch of `handle_event` -/

theorem census_event_spec (c : Constants K) (nx x_off y_off : Int) (inv d cell_mfp : K)
    (s : KernelState K)
    (h0 : 0 ≤ (s.particle.celly - y_off) * nx + (s.particle.cellx - x_off))
    (h1 : (s.particle.celly - y_off) * nx + (s.particle.cellx - x_off) < s.tally.length) :
    census_event c nx x_off y_off inv d cell_mfp s =
      .ok
        { particle := { s.particle with
            x := s.particle.x + d * s.particle.omega_x
            y := s.particle.y + d * s.particle.omega_y
            mfp_to_collision := s.particle.mfp_to_collision - d / cell_mfp
            dt_to_census := 0 }
          lane := { s.lane with
            energy_deposition := s.lane.energy_deposition +
              calculate_energy_deposition c s.particle d s.lane.number_density
                s.lane.microscopic_cs_absorb
                (s.lane.microscopic_cs_scatter + s.lane.microscopic_cs_absorb) }
          tally := s.tally.set ((s.particle.celly - y_off) * nx +
              (s.particle.cellx - x_off)).toNat
            (s.tally.getD ((s.particle.celly - y_off) * nx +
              (s.particle.cellx - x_off)).toNat 0 +
              (s.lane.energy_deposition +
                calculate_energy_deposition c s.particle d s.lane.number_density
                  s.lane.microscopic_cs_absorb
                  (s.lane.microscopic_cs_scatter + s.lane.microscopic_cs_absorb)) * inv) } := by
  unfold census_event
  simp only [update_tallies]
  rw [addAt_ok _ _ _ h0 h1]
  rfl

/-- The event `handle_event` selects for a live particle. -/
theorem calc_event_live (p : Particle K) (ss sa speed d_fac old : K) (hlive : p.dead = 0) :
    calc_event p ss sa speed d_fac old =
      (select_event (p.mfp_to_collision * (1 / (ss + sa))) d_fac (speed * p.dt_to_census),
        1 / (ss + sa)) := by
  unfold calc_event
  rw [if_neg (not_not.mpr hlive)]

theorem select_event_collision {a f b : K} (h : a < f ∧ a < b) :
    select_event a f b = .PARTICLE_COLLISION := by
  unfold select_event; rw [if_pos h]

theorem select_event_facet {a f b : K} (h : ¬ (a < f ∧ a < b)) (h2 : f < b) :
    select_event a f b = .PARTICLE_FACET := by
  unfold select_event; rw [if_neg h, if_pos h2]

theorem select_event_census {a f b : K} (h : ¬ (a < f ∧ a < b)) (h2 : ¬ f < b) :
    select_event a f b = .PARTICLE_CENSUS := by
  unfold select_event; rw [if_neg h, if_neg h2]

theorem select_event_cases (a f b : K) :
    (select_event a f b = .PARTICLE_COLLISION ∧ a < f ∧ a < b) ∨
      (select_event a f b = .PARTICLE_FACET ∧ f ≤ a ∧ f < b) ∨
      (select_event a f b = .PARTICLE_CENSUS ∧ b ≤ a ∧ b ≤ f) := by
  by_cases h : a < f ∧ a < b
  · exact Or.inl ⟨select_event_collision h, h⟩
  · by_cases h2 : f < b
    · refine Or.inr (Or.inl ⟨select_event_facet h h2, ?_, h2⟩)
      by_contra hc
      exact h ⟨not_le.mp hc, (not_le.mp hc).trans h2⟩
    · refine Or.inr (Or.inr ⟨select_event_census h h2, ?_, not_lt.mp h2⟩)
      by_contra hc
      exact h ⟨(not_le.mp hc).trans_le (not_lt.mp h2), not_le.mp hc⟩

theorem handle_event_collision (m : Libm K) (c : Constants K)
    (rng : Nat → Nat → Nat → K × K) (fuel : Nat) (nx x_off y_off : Int) (inv : K)
    (cs_s cs_a : CrossSection K) (counter_off master_key : Nat) (s : KernelState K)
    (cell_mfp : K)
    (h : calc_event s.particle s.lane.macroscopic_cs_scatter s.lane.macroscopic_cs_absorb
      s.lane.speed s.lane.distance_to_facet s.lane.cell_mfp =
        (.PARTICLE_COLLISION, cell_mfp)) :
    handle_event m c rng fuel nx x_off y_off inv cs_s cs_a counter_off master_key s =
      collision_event m c rng fuel nx x_off y_off inv
        (s.particle.mfp_to_collision * cell_mfp) s.lane.local_density cs_s cs_a counter_off
        master_key
        { s with lane := { s.lane with
            cell_mfp := cell_mfp, next_event := .PARTICLE_COLLISION } } := by
  unfold handle_event
  simp only [h]

theorem handle_event_facet (m : Libm K) (c : Constants K)
    (rng : Nat → Nat → Nat → K × K) (fuel : Nat) (nx x_off y_off : Int) (inv : K)
    (cs_s cs_a : CrossSection K) (counter_off master_key : Nat) (s : KernelState K)
    (cell_mfp : K)
    (h : calc_event s.particle s.lane.macroscopic_cs_scatter s.lane.macroscopic_cs_absorb
      s.lane.speed s.lane.distance_to_facet s.lane.cell_mfp = (.PARTICLE_FACET, cell_mfp)) :
    handle_event m c rng fuel nx x_off y_off inv cs_s cs_a counter_off master_key s =
      .ok (facet_phase { s with lane := { s.lane with
        cell_mfp := cell_mfp, next_event := .PARTICLE_FACET } }) := by
  unfold handle_event
  simp only [h]
  rfl

theorem handle_event_census (m : Libm K) (c : Constants K)
    (rng : Nat → Nat → Nat → K × K) (fuel : Nat) (nx x_off y_off : Int) (inv : K)
    (cs_s cs_a : CrossSection K) (counter_off master_key : Nat) (s : KernelState K)
    (cell_mfp : K)
    (h : calc_event s.particle s.lane.macroscopic_cs_scatter s.lane.macroscopic_cs_absorb
      s.lane.speed s.lane.distance_to_facet s.lane.cell_mfp = (.PARTICLE_CENSUS, cell_mfp)) :
    handle_event m c rng fuel nx x_off y_off inv cs_s cs_a counter_off master_key s =
      census_event c nx x_off y_off inv (s.lane.speed * s.particle.dt_to_census) cell_mfp
        { s with lane := { s.lane with
            cell_mfp := cell_mfp, next_event := .PARTICLE_CENSUS } } := by
  unfold handle_event
  simp only [h]

/-- The particle row after the facet phase of a facet lane. -/
theorem facet_phase_facet (s : KernelState K) (h : s.lane.next_event = .PARTICLE_FACET) :
    facet_phase s =
      { s with particle := { s.particle with
          mfp_to_collision :=
            s.particle.mfp_to_collision - s.lane.distance_to_facet / s.lane.cell_mfp
          dt_to_census :=
            s.particle.dt_to_census - s.lane.distance_to_facet / s.lane.speed } } := by
  unfold facet_phase
  rw [if_neg (not_not.mpr h)]

/-! ## The scattering angle -/

/-- In exact arithmetic the argument of the square root that gives `sin_theta`
is `4 A² u (1 - u) / (A² + 2 A (1 - 2u) + 1)`, which is not negative. -/
theorem one_sub_cos_theta_sq (m : Libm K) (hsq : m.sqrt_exact) (c : Constants K) (e u : K)
    (he : e ≠ 0) (hA : 1 ≤ c.MASS_NO) (hu0 : 0 < u) (hu1 : u < 1) :
    1 - scatter_cos_theta m c e (scatter_energy c e u) *
        scatter_cos_theta m c e (scatter_energy c e u) =
      4 * c.MASS_NO ^ 2 * u * (1 - u) /
        (c.MASS_NO * c.MASS_NO + 2 * c.MASS_NO * (1 - 2 * u) + 1) ∧
    0 < c.MASS_NO * c.MASS_NO + 2 * c.MASS_NO * (1 - 2 * u) + 1 := by
  generalize hAdef : c.MASS_NO = A at hA
  have hA0 : 0 < A := by linarith
  have hN : 0 < A * A + 2 * A * (1 - 2 * u) + 1 := by
    have h1 : 0 < A * (1 - u) := mul_pos hA0 (by linarith)
    nlinarith [mul_self_nonneg (A - 1)]
  have hD : 0 < (A + 1) * (A + 1) := by positivity
  have hr1 : scatter_energy c e u / e = (A * A + 2 * A * (1 - 2 * u) + 1) / ((A + 1) * (A + 1)) := by
    unfold scatter_energy
    rw [hAdef]
    field_simp
    ring
  have hr2 : e / scatter_energy c e u = ((A + 1) * (A + 1)) / (A * A + 2 * A * (1 - 2 * u) + 1) := by
    unfold scatter_energy
    rw [hAdef]
    field_simp
    ring
  obtain ⟨ha0, ha2⟩ := hsq (scatter_energy c e u / e) (by rw [hr1]; positivity)
  obtain ⟨hb0, hb2⟩ := hsq (e / scatter_energy c e u) (by rw [hr2]; positivity)
  replace ha2 := ha2.trans hr1
  replace hb2 := hb2.trans hr2
  have hab : m.sqrt (scatter_energy c e u / e) * m.sqrt (e / scatter_energy c e u) = 1 := by
    have hsq1 : (m.sqrt (scatter_energy c e u / e) * m.sqrt (e / scatter_energy c e u)) *
        (m.sqrt (scatter_energy c e u / e) * m.sqrt (e / scatter_energy c e u)) = 1 := by
      calc _ = (m.sqrt (scatter_energy c e u / e) * m.sqrt (scatter_energy c e u / e)) *
            (m.sqrt (e / scatter_energy c e u) * m.sqrt (e / scatter_energy c e u)) := by ring
        _ = 1 := by rw [ha2, hb2]; field_simp
    have hnn := mul_nonneg ha0 hb0
    nlinarith
  refine ⟨?_, hN⟩
  unfold scatter_cos_theta
  rw [hAdef]
  generalize m.sqrt (scatter_energy c e u / e) = a at ha0 ha2 hab
  generalize m.sqrt (e / scatter_energy c e u) = b at hb0 hb2 hab
  have hexp : 1 - 1 / 2 * ((A + 1) * a - (A - 1) * b) * (1 / 2 * ((A + 1) * a - (A - 1) * b)) =
      1 - (1 / 4) * ((A + 1) * (A + 1) * (a * a) - 2 * (A + 1) * (A - 1) * (a * b) +
        (A - 1) * (A - 1) * (b * b)) := by ring
  rw [hexp, ha2, hb2, hab]
  field_simp
  ring

/-- A rotation by `(cos_theta, sin_theta)` keeps a unit direction a unit
direction when `sin_theta` is the square root of `1 - cos_theta²`. -/
theorem rotation_unit {ox oy ct st : K} (hunit : ox ^ 2 + oy ^ 2 = 1)
    (hst : st * st = 1 - ct * ct) :
    (ox * ct - oy * st) ^ 2 + (ox * st + oy * ct) ^ 2 = 1 := by
  have h : (ox * ct - oy * st) ^ 2 + (ox * st + oy * ct) ^ 2 =
      (ox ^ 2 + oy ^ 2) * (ct * ct + st * st) := by ring
  rw [h, hunit, hst]
  ring

/-! ## Readiness of the concrete inputs -/

theorem ex_table_serves (e : K) (hint : Int) (h1 : 1 ≤ e) (h2 : e < 4) (hh : hint ≤ 2) :
    (ex_table K).serves e hint 11 := by
  refine ⟨?_, ?_, ?_, ?_, ?_⟩
  · norm_num [CrossSection.valid, ex_table]
  · simpa [CrossSection.key, ex_table] using h1
  · have hlast : ((ex_table K).nentries - 1).toNat = 2 := rfl
    rw [hlast]
    simpa [CrossSection.key, ex_table] using h2
  · exact hh
  · show 2 * (3 : Int).toNat + 5 ≤ 11
    decide

theorem ex_state_ready (ss sa d : K) :
    collision_ready (ex_constants K) (ex_rng K) 11 1 0 0 (ex_table K) (ex_table K) 0 0
      (ex_state K ss sa d) := by
  refine ⟨rfl, ?_⟩
  have hhigh : ¬ (ex_state K ss sa d).particle.energy <
      (ex_constants K).MIN_ENERGY_OF_INTEREST := by
    norm_num [ex_state, ex_particle, ex_constants]
  rw [if_neg (fun h => hhigh h.2)]
  have hen : energy_after_collision (ex_constants K) (ex_rng K) 0 0 (ex_state K ss sa d) = 3 ∨
      energy_after_collision (ex_constants K) (ex_rng K) 0 0 (ex_state K ss sa d) = 3 / 2 := by
    unfold energy_after_collision
    split_ifs
    · left; rfl
    · right
      norm_num [scatter_energy, ex_state, ex_particle, ex_constants, ex_rng]
  rcases hen with h | h <;> rw [h] <;>
    exact ⟨ex_table_serves _ _ (by norm_num) (by norm_num) (show (-1 : Int) ≤ 2 by decide),
      ex_table_serves _ _ (by norm_num) (by norm_num) (show (-1 : Int) ≤ 2 by decide)⟩

theorem pure_absorber_ready :
    collision_ready (ex_constants K) (ex_rng K) 11 1 0 0 (ex_zero_table K) (ex_table K) 0 0
      (pure_absorber_state K) := by
  refine ⟨rfl, ?_⟩
  have hhigh : ¬ (pure_absorber_state K).particle.energy <
      (ex_constants K).MIN_ENERGY_OF_INTEREST := by
    norm_num [pure_absorber_state, ex_particle, ex_constants]
  rw [if_neg (fun h => hhigh h.2)]
  have hen : energy_after_collision (ex_constants K) (ex_rng K) 0 0 (pure_absorber_state K) =
      3 := by
    unfold energy_after_collision
    rw [if_pos (by norm_num [pure_absorber_state, ex_particle, ex_rng])]
    rfl
  rw [hen]
  refine ⟨⟨?_, ?_, ?_, ?_, ?_⟩, ex_table_serves _ _ (by norm_num) (by norm_num)
    (show (1 : Int) ≤ 2 by decide)⟩
  · norm_num [CrossSection.valid, ex_zero_table]
  · norm_num [CrossSection.key, ex_zero_table]
  · have hlast : ((ex_zero_table K).nentries - 1).toNat = 2 := rfl
    rw [hlast]
    norm_num [CrossSection.key, ex_zero_table]
  · show (1 : Int) ≤ 3 - 1
    decide
  · show 2 * (3 : Int).toNat + 5 ≤ 11
    decide

theorem ex_state_selects_collision :
    calc_event (ex_state K 3 1 1).particle (ex_state K 3 1 1).lane.macroscopic_cs_scatter
      (ex_state K 3 1 1).lane.macroscopic_cs_absorb (ex_state K 3 1 1).lane.speed
      (ex_state K 3 1 1).lane.distance_to_facet (ex_state K 3 1 1).lane.cell_mfp =
        (.PARTICLE_COLLISION, 1 / (3 + 1)) := by
  rw [calc_event_live _ _ _ _ _ _ rfl]
  rw [select_event_collision]
  · rfl
  · norm_num [ex_state, ex_particle, ex_lane]

theorem ex_state_selects_facet :
    calc_event (ex_state K (1 / 2) (1 / 2) (1 / 2)).particle
      (ex_state K (1 / 2) (1 / 2) (1 / 2)).lane.macroscopic_cs_scatter
      (ex_state K (1 / 2) (1 / 2) (1 / 2)).lane.macroscopic_cs_absorb
      (ex_state K (1 / 2) (1 / 2) (1 / 2)).lane.speed
      (ex_state K (1 / 2) (1 / 2) (1 / 2)).lane.distance_to_facet
      (ex_state K (1 / 2) (1 / 2) (1 / 2)).lane.cell_mfp =
        (.PARTICLE_FACET, 1 / (1 / 2 + 1 / 2)) := by
  rw [calc_event_live _ _ _ _ _ _ rfl]
  rw [select_event_facet]
  · rfl
  · norm_num [ex_state, ex_particle, ex_lane]
  · norm_num [ex_state, ex_particle, ex_lane]

theorem ex_state_event_ready_collision :
    event_ready (ex_constants K) (ex_rng K) 11 1 0 0 (ex_table K) (ex_table K) 0 0
      (ex_state K 3 1 1) := by
  unfold event_ready
  rw [ex_state_selects_collision]
  exact ex_state_ready 3 1 1

theorem ex_state_event_ready_facet :
    event_ready (ex_constants K) (ex_rng K) 11 1 0 0 (ex_table K) (ex_table K) 0 0
      (ex_state K (1 / 2) (1 / 2) (1 / 2)) := by
  unfold event_ready
  rw [ex_state_selects_facet]
  trivial

theorem real_sqrt_exact :
    (⟨Real.sqrt, Real.log, Real.cos, Real.sin, Real.pi⟩ : Libm ℝ).sqrt_exact :=
  fun x hx => ⟨Real.sqrt_nonneg x, Real.mul_self_sqrt hx⟩

theorem real_trig_exact :
    (⟨Real.sqrt, Real.log, Real.cos, Real.sin, Real.pi⟩ : Libm ℝ).trig_exact := by
  intro t
  have h := Real.cos_sq_add_sin_sq t
  rw [pow_two, pow_two] at h
  exact h

end KernelLemmas

section TallyLemmas

variable {K : Type} [LinearOrderedField K]

theorem addAt_eq_ok (a : List K) (i : Int) (v : K) (h0 : 0 ≤ i) (h1 : i < a.length) :
    ∃ old : K, readAt a i = .ok old ∧ addAt a i v = .ok (a.set i.toNat (old + v)) :=
  ⟨_, readAt_ok a i h0 h1, addAt_ok a i v h0 h1⟩

end TallyLemmas

section ScheduleLemmas

theorem block_indices_append (a : Int) (k l : Nat) :
    block_indices (a, (k : Int)) ++ block_indices (a + k, (l : Int)) =
      block_indices (a, ((k + l : Nat) : Int)) := by
  simp only [block_indices, Int.toNat_ofNat]
  rw [List.range_add, List.map_append, List.map_map]
  congr 1
  apply List.map_congr_left
  intro x _
  simp only [Function.comp]
  push_cast
  ring

theorem np_remainder_nonneg (n T : Int) (hn : 0 ≤ n) : 0 ≤ np_remainder n T := by
  unfold np_remainder
  exact Int.tmod_nonneg _ hn

theorem np_remainder_lt (n T : Int) (hT : 1 ≤ T) : np_remainder n T < T := by
  unfold np_remainder
  exact Int.tmod_lt_of_pos _ (by omega)

theorem np_per_thread_nonneg (n T : Int) (hn : 0 ≤ n) (hT : 1 ≤ T) :
    0 ≤ np_per_thread n T := by
  unfold np_per_thread
  rw [Int.tdiv_eq_ediv hn (by omega)]
  exact Int.ediv_nonneg hn (by omega)

theorem np_split (n T : Int) : T * np_per_thread n T + np_remainder n T = n := by
  unfold np_per_thread np_remainder
  have := Int.tmod_add_tdiv n T
  omega

theorem particles_off_zero (n T : Int) (hn : 0 ≤ n) : particles_off n T 0 = 0 := by
  have := np_remainder_nonneg n T hn
  unfold particles_off
  omega

theorem particles_off_succ (n T tid : Int) :
    particles_off n T (tid + 1) =
      particles_off n T tid + (np_per_thread n T + thread_rem n T tid) := by
  unfold particles_off thread_rem
  rw [add_mul]
  split_ifs <;> omega

theorem particles_off_last (n T : Int) (hT : 1 ≤ T) : particles_off n T T = n := by
  have h1 := np_remainder_lt n T hT
  have h2 := np_split n T
  unfold particles_off
  omega

theorem thread_rem_nonneg (n T tid : Int) : 0 ≤ thread_rem n T tid := by
  unfold thread_rem
  split_ifs <;> omega

/-- The blocks of a thread from `pp` on cover the rest of its slice, each index
once and in order, in blocks of 1 to 32 particles. -/
theorem thread_blocks_from_cover (n T tid : Int) (fuel : Nat) (pp : Int) (hpp : 0 ≤ pp)
    (hfuel : (np_per_thread n T + thread_rem n T tid - pp).toNat ≤ fuel) :
    (thread_blocks_from n T tid fuel pp).flatMap block_indices =
        block_indices (particles_off n T tid + pp,
          ((np_per_thread n T + thread_rem n T tid - pp).toNat : Int)) ∧
      ∀ b ∈ thread_blocks_from n T tid fuel pp, 0 < b.2 ∧ b.2 ≤ 32 := by
  induction fuel generalizing pp with
  | zero =>
    have h0 : (np_per_thread n T + thread_rem n T tid - pp).toNat = 0 := by omega
    rw [h0]
    simp [thread_blocks_from, block_indices]
  | succ fuel ih =>
    unfold thread_blocks_from
    by_cases hlt : pp < np_per_thread n T + thread_rem n T tid
    · rw [if_pos hlt]
      have hrec := ih (pp + block_size) (by unfold block_size; omega)
        (by unfold block_size; omega)
      simp only [List.flatMap_cons, List.mem_cons]
      constructor
      · rw [hrec.1]
        by_cases hbig : np_per_thread n T + thread_rem n T tid - pp > block_size
        · rw [if_pos hbig]
          have e1 : ((np_per_thread n T + thread_rem n T tid - pp).toNat : Int) =
              ((32 + (np_per_thread n T + thread_rem n T tid - (pp + block_size)).toNat :
                Nat) : Int) := by
            unfold block_size at hbig ⊢
            omega
          rw [e1, ← block_indices_append]
          unfold block_size
          congr 2
          ring_nf
        · rw [if_neg hbig]
          have e0 : (np_per_thread n T + thread_rem n T tid - (pp + block_size)).toNat = 0 := by
            unfold block_size at hbig ⊢
            omega
          rw [e0]
          have e1 : ((np_per_thread n T + thread_rem n T tid - pp).toNat : Int) =
              np_per_thread n T + thread_rem n T tid - pp := by omega
          rw [e1]
          simp [block_indices]
      · intro b hb
        rcases hb with hb | hb
        · rw [hb]
          simp only
          unfold block_size
          split_ifs <;> omega
        · exact hrec.2 b hb
    · rw [if_neg hlt]
      have h0 : (np_per_thread n T + thread_rem n T tid - pp).toNat = 0 := by omega
      rw [h0]
      simp [block_indices]

theorem thread_blocks_cover (n T tid : Int) :
    (thread_blocks n T tid).flatMap block_indices =
        block_indices (particles_off n T tid,
          ((np_per_thread n T + thread_rem n T tid).toNat : Int)) ∧
      ∀ b ∈ thread_blocks n T tid, 0 < b.2 ∧ b.2 ≤ 32 := by
  have h := thread_blocks_from_cover n T tid
    (np_per_thread n T + thread_rem n T tid).toNat 0 le_rfl (by simp)
  simpa [thread_blocks] using h

/-- The first `k` threads work on the indices `0 .. particles_off k - 1`, each
once and in order. -/
theorem schedule_first_threads (n T : Int) (hn : 0 ≤ n) (hT : 1 ≤ T) (k : Nat) :
    (List.range k).flatMap (fun tid => (thread_blocks n T tid).flatMap block_indices) =
      block_indices (0, particles_off n T k) ∧ 0 ≤ particles_off n T k := by
  induction k with
  | zero =>
    simp [particles_off_zero n T hn, block_indices]
  | succ k ih =>
    have hq := np_per_thread_nonneg n T hn hT
    have hr := thread_rem_nonneg n T k
    have hsucc := particles_off_succ n T k
    push_cast
    rw [List.range_succ, List.flatMap_append, ih.1, List.flatMap_singleton,
      (thread_blocks_cover n T k).1, hsucc]
    refine ⟨?_, by omega⟩
    have e1 : particles_off n T k = ((particles_off n T k).toNat : Int) := by omega
    have e2 : particles_off n T k + (np_per_thread n T + thread_rem n T k) =
        (((particles_off n T k).toNat + (np_per_thread n T + thread_rem n T k).toNat : Nat) :
          Int) := by omega
    rw [e2, ← block_indices_append, ← e1]
    simp

end ScheduleLemmas

section CounterLemmas

theorem readAt_int_ok (a : List Int) (i : Int) (h0 : 0 ≤ i) (h1 : i < a.length) :
    readAt a i = .ok (a.getD i.toNat 1) := by
  have hlt : i.toNat < a.length := by omega
  simp [readAt, not_lt.mpr h0, List.getElem?_eq_getElem hlt, List.getD_eq_getElem _ _ hlt]

theorem nlive_le (dead : List Int) (k : Nat) (a : Int) : nlive dead k a ≤ k := by
  induction k generalizing a with
  | zero => simp [nlive]
  | succ k ih =>
    have := ih (a + 1)
    unfold nlive
    split_ifs <;> omega

/-- The cache-initialisation loop numbers the live particles of a block in
lane order. -/
theorem cache_init_counters_eq (dead : List Int) (p_off : Int) (k : Nat) (ip : Int) (c : Nat)
    (h0 : 0 ≤ p_off + ip) (h1 : p_off + ip + k ≤ dead.length) (hc : c + k < 2 ^ 64) :
    cache_init_counters dead 1 p_off k ip c =
      .ok ((List.range k).map (fun (j : Nat) =>
          if dead.getD (p_off + ip + (j : Int)).toNat 1 = 0 then
            some (c + nlive dead j (p_off + ip))
          else none),
        c + nlive dead k (p_off + ip)) := by
  induction k generalizing ip c with
  | zero => simp [cache_init_counters, nlive, pure, Except.pure]
  | succ k ih =>
    have hread := readAt_int_ok dead (p_off + ip) h0 (by omega)
    have e1 : p_off + (ip + 1) = p_off + ip + 1 := by ring
    unfold cache_init_counters
    rw [hread, List.range_succ_eq_map]
    simp only [bind, Except.bind, pure, Except.pure, List.map_cons, List.map_map]
    by_cases hd : dead.getD (p_off + ip).toNat 1 = 0
    · have hmod : (c + 1) % 2 ^ 64 = c + 1 := Nat.mod_eq_of_lt (by omega)
      rw [if_neg (not_not.mpr hd), if_pos (one_ne_zero : (1 : Int) ≠ 0), hmod,
        ih (ip + 1) (c + 1) (by omega) (by omega) (by omega)]
      simp only [e1, Except.ok.injEq, Prod.mk.injEq]
      refine ⟨?_, ?_⟩
      · congr 1
        · simp only [Nat.cast_zero, add_zero, nlive]
          rw [if_pos hd]
        · apply List.map_congr_left
          intro j _
          simp only [Function.comp]
          have e2 : p_off + ip + 1 + (j : Int) = p_off + ip + ((j + 1 : Nat) : Int) := by
            push_cast; ring
          rw [e2]
          have e3 : nlive dead (j + 1) (p_off + ip) = 1 + nlive dead j (p_off + ip + 1) := by
            rw [nlive, if_pos hd]
          rw [e3, ← add_assoc]
      · rw [nlive, if_pos hd, ← add_assoc]
    · rw [if_pos hd, ih (ip + 1) c (by omega) (by omega) (by omega)]
      simp only [e1, Except.ok.injEq, Prod.mk.injEq]
      refine ⟨?_, ?_⟩
      · congr 1
        · simp only [Nat.cast_zero, add_zero]
          rw [if_neg hd]
        · apply List.map_congr_left
          intro j _
          simp only [Function.comp]
          have e2 : p_off + ip + 1 + (j : Int) = p_off + ip + ((j + 1 : Nat) : Int) := by
            push_cast; ring
          rw [e2]
          have e3 : nlive dead (j + 1) (p_off + ip) = nlive dead j (p_off + ip + 1) := by
            rw [nlive, if_neg hd, zero_add]
          rw [e3]
      · rw [nlive, if_neg hd, zero_add]

theorem while_counter_eq (c0 k : Nat) (h : c0 < 2 ^ 64) :
    while_counter c0 k = (c0 + 64 * k) % 2 ^ 64 := by
  induction k with
  | zero => simp only [while_counter, Nat.mul_zero, Nat.add_zero]; exact (Nat.mod_eq_of_lt h).symm
  | succ k ih =>
    unfold while_counter
    rw [ih]
    have : (2 * block_size).toNat = 64 := by decide
    rw [this]
    omega

/-- Every particle index below the particle count lies in a block of the
partition; the block found for it has 1 to 32 lanes and lies inside the
particle range. -/
theorem block_of_spec (n T pip : Int) (hn : 0 ≤ n) (hT : 1 ≤ T) (h0 : 0 ≤ pip)
    (h1 : pip < n) :
    ∃ b : Int × Int, block_of n T pip = some b ∧ b.1 ≤ pip ∧ pip < b.1 + b.2 ∧
      b.2 ≤ 32 ∧ 0 ≤ b.1 ∧ b.1 + b.2 ≤ n := by
  have hsched := (schedule_first_threads n T hn hT T.toNat).1
  have e : ((T.toNat : Nat) : Int) = T := by omega
  rw [e, particles_off_last n T hT] at hsched
  have hmem : pip ∈ (List.range T.toNat).flatMap
      (fun tid => (thread_blocks n T tid).flatMap block_indices) := by
    rw [hsched]
    simp only [block_indices, List.mem_map, List.mem_range]
    exact ⟨pip.toNat, by omega, by omega⟩
  obtain ⟨tid, htid, hb⟩ := List.mem_flatMap.mp hmem
  obtain ⟨b0, hb0, hpip⟩ := List.mem_flatMap.mp hb
  have hin0 : b0.1 ≤ pip ∧ pip < b0.1 + b0.2 := by
    simp only [block_indices, List.mem_map, List.mem_range] at hpip
    obtain ⟨j, hj, hjp⟩ := hpip
    omega
  have hall : b0 ∈ (List.range T.toNat).flatMap (fun tid => thread_blocks n T tid) :=
    List.mem_flatMap.mpr ⟨tid, htid, hb0⟩
  have hsome : (block_of n T pip).isSome = true := by
    unfold block_of
    rw [List.find?_isSome]
    exact ⟨b0, hall, by simpa using hin0⟩
  obtain ⟨b, hb⟩ := Option.isSome_iff_exists.mp hsome
  have hpred := List.find?_some hb
  have hbmem := List.mem_of_find?_eq_some hb
  simp only [decide_eq_true_eq] at hpred
  obtain ⟨tid', htid', hb'⟩ := List.mem_flatMap.mp hbmem
  have hsize := (thread_blocks_cover n T tid').2 b hb'
  -- the first and the last index of the block are indices of the schedule
  have hsub : ∀ i ∈ block_indices b, 0 ≤ i ∧ i < n := by
    intro i hi
    have hi' : i ∈ (List.range T.toNat).flatMap
        (fun tid => (thread_blocks n T tid).flatMap block_indices) :=
      List.mem_flatMap.mpr ⟨tid', htid', List.mem_flatMap.mpr ⟨b, hb', hi⟩⟩
    rw [hsched] at hi'
    simp only [block_indices, List.mem_map, List.mem_range] at hi'
    obtain ⟨j, hj, hji⟩ := hi'
    omega
  have hfirst := hsub b.1 (by
    simp only [block_indices, List.mem_map, List.mem_range]
    exact ⟨0, by omega, by simp⟩)
  have hlast := hsub (b.1 + (b.2 - 1)) (by
    simp only [block_indices, List.mem_map, List.mem_range]
    exact ⟨(b.2 - 1).toNat, by omega, by omega⟩)
  exact ⟨b, hb, hpred.1, hpred.2, hsize.2, hfirst.1, by omega⟩

/-- The counters of a particle in closed form, from the block it is worked on
in. -/
theorem particle_counters_eq (dead : List Int) (n T pip : Int) (k : Nat) (hn : 0 ≤ n)
    (hT : 1 ≤ T) (h0 : 0 ≤ pip) (h1 : pip < n) (hdead : n ≤ dead.length) :
    ∃ b : Int × Int, block_of n T pip = some b ∧ b.1 ≤ pip ∧ pip < b.1 + b.2 ∧
      b.2 ≤ 32 ∧
      particle_counters dead n T pip k =
        .ok (if dead.getD pip.toNat 1 = 0 then some (nlive dead (pip - b.1).toNat b.1)
            else none,
          (2 * (pip - b.1).toNat + nlive dead b.2.toNat b.1 + 64 * k) % 2 ^ 64) := by
  obtain ⟨b, hb, hlo, hhi, hsz, hb0, hbn⟩ := block_of_spec n T pip hn hT h0 h1
  refine ⟨b, hb, hlo, hhi, hsz, ?_⟩
  have hnl := nlive_le dead b.2.toNat b.1
  unfold particle_counters
  rw [hb]
  simp only
  rw [cache_init_counters_eq dead b.1 b.2.toNat 0 0 (by omega) (by omega) (by omega)]
  simp only [bind, Except.bind, pure, Except.pure, add_zero, zero_add, Except.ok.injEq,
    Prod.mk.injEq]
  constructor
  · have hlt : (pip - b.1).toNat < b.2.toNat := by omega
    rw [List.getD_eq_getElem?_getD, List.getElem?_map, List.getElem?_range hlt]
    have e : b.1 + ((pip - b.1).toNat : Int) = pip := by omega
    simp only [Option.map_some', Option.getD_some, e]
  · rw [while_counter_eq _ _ (by omega)]
    unfold collision_counter counter_off
    have e : (2 * (pip - b.1)).toNat = 2 * (pip - b.1).toNat := by omega
    rw [e]
    omega

end CounterLemmas

section SourceLemmas

variable {K : Type} [LinearOrderedField K]

theorem readAt_eq_ok_iff {α : Type} (a : List α) (i : Int) (v : α) :
    readAt a i = .ok v ↔ 0 ≤ i ∧ a[i.toNat]? = some v := by
  unfold readAt
  by_cases h : i < 0
  · simp [h]
  · rw [if_neg h]
    cases hv : a[i.toNat]? with
    | none => simp
    | some w =>
      simp only [Except.ok.injEq, Option.some.injEq]
      exact ⟨fun e => ⟨not_lt.mp h, e⟩, fun e => e.2⟩

theorem readAt_exists {α : Type} (a : List α) (i : Int) (h0 : 0 ≤ i) (h1 : i < a.length) :
    ∃ v, readAt a i = .ok v := by
  have hlt : i.toNat < a.length := by omega
  exact ⟨a[i.toNat], (readAt_eq_ok_iff a i _).mpr ⟨h0, List.getElem?_eq_getElem hlt⟩⟩

theorem writeAt_ok {α : Type} (a : List α) (i : Int) (v : α) (h0 : 0 ≤ i)
    (h1 : i < a.length) : writeAt a i v = .ok (a.set i.toNat v) := by
  have hlt : i.toNat < a.length := by omega
  simp [writeAt, not_lt.mpr h0, hlt]

theorem readAt_set_self {α : Type} (a : List α) (i : Int) (v : α) (h0 : 0 ≤ i)
    (h1 : i < a.length) : readAt (a.set i.toNat v) i = .ok v := by
  rw [readAt_eq_ok_iff]
  refine ⟨h0, ?_⟩
  have hlt : i.toNat < a.length := by omega
  simp [List.getElem?_set_self, hlt]

theorem readAt_set_ne {α : Type} (a : List α) (i j : Int) (v : α) (h0 : 0 ≤ i)
    (hne : j ≠ i) : readAt (a.set i.toNat v) j = readAt a j := by
  unfold readAt
  by_cases hj : j < 0
  · simp [hj]
  · rw [if_neg hj, if_neg hj]
    have : i.toNat ≠ j.toNat := by omega
    rw [List.getElem?_set_ne this]

/-- The cell search returns when every coordinate and every edge it may read
can be read. -/
theorem find_cell_total (coord : Int → Except Fault K) (edge : List K)
    (pad off local_n : Int) (fuel : Nat) (ii : Int) (hii : 0 ≤ ii)
    (hfuel : (local_n - ii).toNat + 1 ≤ fuel)
    (hcoord : ∀ j : Int, 0 ≤ j → j < local_n → ∃ v, coord j = .ok v)
    (hpad : 0 ≤ pad) (hedge : local_n + pad + 1 ≤ edge.length) :
    ∃ cell : Int, find_cell coord edge pad off local_n fuel ii = .ok cell := by
  induction fuel generalizing ii with
  | zero => omega
  | succ fuel ih =>
    unfold find_cell
    by_cases hlt : ii < local_n
    · rw [if_pos hlt]
      obtain ⟨v, hv⟩ := hcoord ii hii hlt
      obtain ⟨lo, hlo⟩ := readAt_exists edge (ii + pad) (by omega) (by omega)
      obtain ⟨hi, hhi⟩ := readAt_exists edge (ii + pad + 1) (by omega) (by omega)
      have hrec := ih (ii + 1) (by omega) (by omega)
      rw [hv, hlo]
      simp only [bind, Except.bind]
      by_cases h1 : v ≥ lo
      · rw [if_pos h1, hhi]
        simp only
        by_cases h2 : v < hi
        · rw [if_pos h2]
          exact ⟨_, rfl⟩
        · rw [if_neg h2]
          exact hrec
      · rw [if_neg h1]
        exact hrec
    · rw [if_neg hlt]
      exact ⟨0, rfl⟩

/-- One pass of the loop of `inject_particles` returns, writes row `ii` and
leaves the other rows as they are. -/
theorem inject_particle_spec (m : Libm K) (rng : Nat → Nat → Nat → K × K) (fuel : Nat)
    (local_nx local_ny pad : Int) (left bottom width height : K) (x_off y_off : Int)
    (dt : K) (edgex edgey : List K) (initial_energy : K) (master_key : Nat) (ii : Nat)
    (particles : List (Particle K)) (hii : ii < particles.length)
    (hnx : local_nx ≤ particles.length) (hny : local_ny ≤ particles.length)
    (hpad : 0 ≤ pad) (hex : local_nx + pad + 1 ≤ edgex.length)
    (hey : local_ny + pad + 1 ≤ edgey.length)
    (hfx : local_nx.toNat + 1 ≤ fuel) (hfy : local_ny.toNat + 1 ≤ fuel) :
    ∃ (particles' : List (Particle K)) (p : Particle K),
      inject_particle m rng fuel local_nx local_ny pad left bottom width height x_off y_off
        dt edgex edgey initial_energy master_key ii particles = .ok particles' ∧
      particles' = particles.set ii p ∧
      p.x = left + (rng master_key 0 ii).1 * width ∧
      p.y = bottom + (rng master_key 0 ii).2 * height ∧
      p.omega_x = (inject_direction m rng master_key ii).1 ∧
      p.omega_y = (inject_direction m rng master_key ii).2 ∧
      p.energy = initial_energy ∧ p.weight = 1 ∧ p.dt_to_census = dt ∧
      p.mfp_to_collision = 0 ∧ p.dead = 0 ∧ p.key = ii := by
  obtain ⟨row, hrow⟩ := readAt_exists particles (ii : Int) (by omega) (by omega)
  obtain ⟨row1, hrow1⟩ : ∃ r : Particle K, r =
      { row with
        x := left + (rng master_key 0 ii).1 * width
        y := bottom + (rng master_key 0 ii).2 * height } := ⟨_, rfl⟩
  have hw1 := writeAt_ok particles (ii : Int) row1 (by omega) (by omega)
  rw [Int.toNat_ofNat] at hw1
  have hlen : (particles.set ii row1).length = particles.length := List.length_set _ _ _
  obtain ⟨cx, hcx⟩ := find_cell_total
    (fun j => do
      let r ← readAt (particles.set ii row1) j
      pure r.x) edgex pad x_off local_nx fuel 0 le_rfl (by simpa using hfx)
    (by
      intro j hj0 hj1
      obtain ⟨r, hr⟩ := readAt_exists (particles.set ii row1) j hj0 (by rw [hlen]; omega)
      exact ⟨r.x, by simp only [hr, bind, Except.bind]; rfl⟩) hpad hex
  obtain ⟨cy, hcy⟩ := find_cell_total
    (fun j => do
      let r ← readAt (particles.set ii row1) j
      pure r.y) edgey pad y_off local_ny fuel 0 le_rfl (by simpa using hfy)
    (by
      intro j hj0 hj1
      obtain ⟨r, hr⟩ := readAt_exists (particles.set ii row1) j hj0 (by rw [hlen]; omega)
      exact ⟨r.y, by simp only [hr, bind, Except.bind]; rfl⟩) hpad hey
  unfold inject_particle
  simp only [hrow, bind, Except.bind]
  rw [← hrow1, hw1]
  simp only [bind, Except.bind] at hcx hcy
  simp only
  rw [hcx]
  simp only
  rw [hcy]
  simp only
  rw [writeAt_ok _ _ _ (by omega) (by rw [hlen]; omega), Int.toNat_ofNat, List.set_set]
  exact ⟨_, _, rfl, rfl, rfl, rfl, rfl, rfl, rfl, rfl, rfl, rfl, rfl, rfl⟩

/-- The first `k` passes of the loop of `inject_particles` return and set the
rows `0 .. k - 1`. -/
theorem inject_particles_first_rows (m : Libm K) (rng : Nat → Nat → Nat → K × K) (fuel : Nat)
    (local_nx local_ny pad : Int) (left bottom width height : K) (x_off y_off : Int)
    (dt : K) (edgex edgey : List K) (initial_energy : K) (master_key : Nat)
    (particles0 : List (Particle K))
    (hnx : local_nx ≤ particles0.length) (hny : local_ny ≤ particles0.length)
    (hpad : 0 ≤ pad) (hex : local_nx + pad + 1 ≤ edgex.length)
    (hey : local_ny + pad + 1 ≤ edgey.length)
    (hfx : local_nx.toNat + 1 ≤ fuel) (hfy : local_ny.toNat + 1 ≤ fuel)
    (k : Nat) (hk : k ≤ particles0.length) :
    ∃ particles : List (Particle K),
      (List.range k).foldlM
        (fun particles ii =>
          inject_particle m rng fuel local_nx local_ny pad left bottom width height x_off
            y_off dt edgex edgey initial_energy master_key ii particles) particles0 =
        .ok particles ∧
      particles.length = particles0.length ∧
      (∀ i : Nat, k ≤ i → particles[i]? = particles0[i]?) ∧
      ∀ i : Nat, i < k → ∃ p : Particle K, particles[i]? = some p ∧
        p.x = left + (rng master_key 0 i).1 * width ∧
        p.y = bottom + (rng master_key 0 i).2 * height ∧
        p.omega_x = (inject_direction m rng master_key i).1 ∧
        p.omega_y = (inject_direction m rng master_key i).2 ∧
        p.energy = initial_energy ∧ p.weight = 1 ∧ p.dt_to_census = dt ∧
        p.mfp_to_collision = 0 ∧ p.dead = 0 ∧ p.key = i := by
  induction k with
  | zero =>
    exact ⟨particles0, rfl, rfl, fun _ _ => rfl, fun i hi => absurd hi (Nat.not_lt_zero i)⟩
  | succ k ih =>
    obtain ⟨ps, hrun, hlen, hrest, hrows⟩ := ih (by omega)
    obtain ⟨ps', p, hstep, hset, hp⟩ := inject_particle_spec m rng fuel local_nx local_ny pad
      left bottom width height x_off y_off dt edgex edgey initial_energy master_key k ps
      (by omega) (by omega) (by omega) hpad hex hey hfx hfy
    refine ⟨ps', ?_, ?_, ?_, ?_⟩
    · rw [List.range_succ, List.foldlM_append, hrun]
      simp only [bind, Except.bind, List.foldlM_cons, List.foldlM_nil]
      rw [hstep]
      rfl
    · rw [hset, List.length_set, hlen]
    · intro i hi
      rw [hset, List.getElem?_set_ne (by omega)]
      exact hrest i (by omega)
    · intro i hi
      by_cases hik : i = k
      · subst hik
        refine ⟨p, ?_, hp⟩
        rw [hset, List.getElem?_set_self (by omega)]
      · obtain ⟨q, hq, hqf⟩ := hrows i (by omega)
        refine ⟨q, ?_, hqf⟩
        rw [hset, List.getElem?_set_ne (by omega)]
        exact hq

end SourceLemmas

section LaneLemmas

variable {K : Type} [LinearOrderedField K]

/-! ## The tally along the passes of a lane -/

theorem addAt_sum (a a' : List K) (i : Int) (v : K) (h : addAt a i v = .ok a') :
    a'.sum = a.sum + v := by
  unfold addAt at h
  by_cases hi : i < 0
  · rw [if_pos hi] at h
    exact nomatch h
  · rw [if_neg hi] at h
    cases hget : a[i.toNat]? with
    | none =>
      rw [hget] at h
      exact nomatch h
    | some old =>
      rw [hget] at h
      simp only [Except.ok.injEq] at h
      obtain ⟨hlt, hval⟩ := List.getElem?_eq_some_iff.mp hget
      rw [← h, List.sum_set', dif_pos hlt, hval]
      ring

theorem update_tallies_sum (nx x_off y_off : Int) (p : Particle K) (inv dep : K)
    (t t' : List K) (h : update_tallies nx x_off y_off p inv dep t = .ok t') :
    t'.sum = t.sum + dep * inv :=
  addAt_sum _ _ _ _ h

theorem select_event_ne_dead (a f b : K) : select_event a f b ≠ .PARTICLE_DEAD := by
  unfold select_event
  split_ifs <;> exact fun h => nomatch h

/-- The classification of a lane leaves the particle, the tally grid and the
deposition of the lane as they are, and marks exactly the dead particles as
dead. -/
theorem calc_events_lane_frame (c : Constants K) (pad x_off y_off : Int)
    (edgex edgey : List K) (s s1 : KernelState K)
    (h : calc_events_lane c pad x_off y_off edgex edgey s = .ok s1) :
    s1.particle = s.particle ∧ s1.tally = s.tally ∧
      s1.lane.energy_deposition = s.lane.energy_deposition ∧
      s1.lane.number_density = s.lane.number_density ∧
      s1.lane.microscopic_cs_scatter = s.lane.microscopic_cs_scatter ∧
      s1.lane.microscopic_cs_absorb = s.lane.microscopic_cs_absorb ∧
      (s1.lane.next_event = .PARTICLE_DEAD ↔ s.particle.dead ≠ 0) := by
  unfold calc_events_lane at h
  by_cases hd : s.particle.dead ≠ 0
  · rw [if_pos hd] at h
    simp only [pure, Except.pure, Except.ok.injEq] at h
    rw [← h]
    exact ⟨rfl, rfl, rfl, rfl, rfl, rfl, fun _ => hd, fun _ => rfl⟩
  · rw [if_neg hd] at h
    cases hr : calc_distance_to_facet c s.particle.x s.particle.y pad x_off y_off
        s.particle.omega_x s.particle.omega_y s.lane.speed s.particle.cellx s.particle.celly
        edgex edgey with
    | error e =>
      rw [hr] at h
      exact nomatch h
    | ok r =>
      rw [hr] at h
      simp only [bind, Except.bind] at h
      cases hr1 : r.1 with
      | fin d =>
        rw [hr1] at h
        simp only [pure, Except.pure, Except.ok.injEq] at h
        rw [← h]
        refine ⟨rfl, rfl, rfl, rfl, rfl, rfl, fun hdead => ?_, fun hdead => absurd hdead hd⟩
        exact absurd hdead (select_event_ne_dead _ _ _)
      | posInf => rw [hr1] at h; exact nomatch h
      | negInf => rw [hr1] at h; exact nomatch h
      | nan => rw [hr1] at h; exact nomatch h

theorem facet_phase_frame (s : KernelState K) :
    (facet_phase s).tally = s.tally ∧ (facet_phase s).lane = s.lane ∧
      (facet_phase s).particle.dead = s.particle.dead := by
  unfold facet_phase
  split_ifs <;> exact ⟨rfl, rfl, rfl⟩

theorem collision_refresh_frame (m : Libm K) (c : Constants K)
    (rng : Nat → Nat → Nat → K × K) (fuel : Nat) (d local_density : K)
    (cs_s cs_a : CrossSection K) (counter_off master_key : Nat) (s s' : KernelState K)
    (h : collision_refresh m c rng fuel d local_density cs_s cs_a counter_off master_key s =
      .ok s') :
    s'.tally = s.tally ∧ s'.lane.energy_deposition = s.lane.energy_deposition ∧
      s'.particle.dead = s.particle.dead ∧ s'.lane.next_event = s.lane.next_event := by
  unfold collision_refresh at h
  cases h1 : microscopic_cs_for_energy fuel cs_s s.particle.energy s.lane.scatter_cs_index with
  | error e => rw [h1] at h; exact nomatch h
  | ok r1 =>
    cases h2 : microscopic_cs_for_energy fuel cs_a s.particle.energy s.lane.absorb_cs_index with
    | error e => rw [h1, h2] at h; exact nomatch h
    | ok r2 =>
      rw [h1, h2] at h
      simp only [bind, Except.bind, pure, Except.pure, Except.ok.injEq] at h
      rw [← h]
      exact ⟨rfl, rfl, rfl, rfl⟩

/-- The first part of `collision_event` on a live particle: the tally grid and
the deposition of the lane together grow by the deposition of the streamed
segment, and a particle that dies leaves nothing in the lane. -/
theorem collision_outcome_tally (m : Libm K) (c : Constants K)
    (rng : Nat → Nat → Nat → K × K) (nx x_off y_off : Int) (inv d : K)
    (counter_off master_key : Nat) (s s1 : KernelState K)
    (h : collision_outcome m c rng nx x_off y_off inv d counter_off master_key s = .ok s1) :
    s1.tally.sum + s1.lane.energy_deposition * inv =
        s.tally.sum + (s.lane.energy_deposition +
          calculate_energy_deposition c s.particle d s.lane.number_density
            s.lane.microscopic_cs_absorb
            (s.lane.microscopic_cs_scatter + s.lane.microscopic_cs_absorb)) * inv ∧
      (s.particle.dead = 0 → s1.particle.dead ≠ 0 → s1.lane.energy_deposition = 0) ∧
      s1.lane.next_event = s.lane.next_event := by
  unfold collision_outcome at h
  by_cases habs : (rng master_key s.particle.key counter_off).1 <
      s.lane.macroscopic_cs_absorb /
        (s.lane.macroscopic_cs_scatter + s.lane.macroscopic_cs_absorb)
  · by_cases hlow : s.particle.energy < c.MIN_ENERGY_OF_INTEREST
    · simp only [if_pos habs, if_pos hlow] at h
      cases hu : update_tallies nx x_off y_off
          { s.particle with
            x := s.particle.x + d * s.particle.omega_x
            y := s.particle.y + d * s.particle.omega_y
            weight := s.particle.weight * (1 - s.lane.macroscopic_cs_absorb /
              (s.lane.macroscopic_cs_scatter + s.lane.macroscopic_cs_absorb))
            dead := 1 } inv
          (s.lane.energy_deposition +
            calculate_energy_deposition c s.particle d s.lane.number_density
              s.lane.microscopic_cs_absorb
              (s.lane.microscopic_cs_scatter + s.lane.microscopic_cs_absorb)) s.tally with
      | error e =>
        rw [hu] at h
        exact nomatch h
      | ok t' =>
        rw [hu] at h
        simp only [bind, Except.bind, pure, Except.pure, Except.ok.injEq] at h
        have hsum := update_tallies_sum _ _ _ _ _ _ _ _ hu
        rw [← h]
        refine ⟨?_, fun _ _ => rfl, rfl⟩
        show t'.sum + 0 * inv = _
        rw [hsum]
        ring
    · simp only [if_pos habs, if_neg hlow, pure, Except.pure, Except.ok.injEq] at h
      rw [← h]
      exact ⟨rfl, fun h0 h1 => absurd h0 h1, rfl⟩
  · simp only [if_neg habs, pure, Except.pure, Except.ok.injEq] at h
    rw [← h]
    exact ⟨rfl, fun h0 h1 => absurd h0 h1, rfl⟩

theorem collision_event_tally (m : Libm K) (c : Constants K)
    (rng : Nat → Nat → Nat → K × K) (fuel : Nat) (nx x_off y_off : Int)
    (inv d local_density : K) (cs_s cs_a : CrossSection K) (counter_off master_key : Nat)
    (s s' : KernelState K)
    (h : collision_event m c rng fuel nx x_off y_off inv d local_density cs_s cs_a counter_off
      master_key s = .ok s') :
    s'.tally.sum + s'.lane.energy_deposition * inv =
        s.tally.sum + (s.lane.energy_deposition +
          calculate_energy_deposition c s.particle d s.lane.number_density
            s.lane.microscopic_cs_absorb
            (s.lane.microscopic_cs_scatter + s.lane.microscopic_cs_absorb)) * inv ∧
      (s.particle.dead = 0 → s'.particle.dead ≠ 0 → s'.lane.energy_deposition = 0) ∧
      s'.lane.next_event = s.lane.next_event := by
  unfold collision_event at h
  cases h1 : collision_outcome m c rng nx x_off y_off inv d counter_off master_key s with
  | error e => rw [h1] at h; exact nomatch h
  | ok s1 =>
    rw [h1] at h
    simp only [bind, Except.bind] at h
    obtain ⟨hsum, hdead, hev⟩ := collision_outcome_tally m c rng nx x_off y_off inv d counter_off
      master_key s s1 h1
    by_cases hd : s1.particle.dead ≠ 0
    · rw [if_pos hd] at h
      simp only [pure, Except.pure, Except.ok.injEq] at h
      rw [← h]
      exact ⟨hsum, hdead, hev⟩
    · rw [if_neg hd] at h
      obtain ⟨ht, he, hdd, hne⟩ := collision_refresh_frame m c rng fuel d local_density cs_s cs_a
        counter_off master_key s1 s' h
      rw [ht, he, hdd, hne]
      exact ⟨hsum, hdead, hev⟩

theorem census_event_tally (c : Constants K) (nx x_off y_off : Int) (inv d cell_mfp : K)
    (s s' : KernelState K) (h : census_event c nx x_off y_off inv d cell_mfp s = .ok s') :
    s'.tally.sum =
      s.tally.sum + (s.lane.energy_deposition +
        calculate_energy_deposition c s.particle d s.lane.number_density
          s.lane.microscopic_cs_absorb
          (s.lane.microscopic_cs_scatter + s.lane.microscopic_cs_absorb)) * inv := by
  unfold census_event at h
  simp only [bind, Except.bind] at h
  split at h
  · exact nomatch h
  · rename_i t' hu
    simp only [pure, Except.pure, Except.ok.injEq] at h
    rw [← h]
    exact update_tallies_sum _ _ _ _ _ _ _ _ hu

/-- Along the passes of a lane the tally grid grows by what the lane held at
the start (for a live particle) plus the depositions of the events. -/
theorem lane_loop_tally (m : Libm K) (c : Constants K) (rng : Nat → Nat → Nat → K × K)
    (fuel : Nat) (nx pad x_off y_off : Int) (inv : K) (edgex edgey : List K)
    (cs_s cs_a : CrossSection K) (master_key : Nat) (ip : Int) (passes counter : Nat)
    (s s' : KernelState K) (log : List K)
    (h : lane_loop m c rng fuel nx pad x_off y_off inv edgex edgey cs_s cs_a master_key ip
      passes counter s = .ok (s', log)) :
    s'.tally.sum =
      (if s.particle.dead = 0 then s.tally.sum + s.lane.energy_deposition * inv
        else s.tally.sum) + log.sum * inv := by
  induction passes generalizing counter s s' log with
  | zero => exact nomatch h
  | succ passes ih =>
    unfold lane_loop at h
    cases h1 : calc_events_lane c pad x_off y_off edgex edgey s with
    | error e => rw [h1] at h; exact nomatch h
    | ok s1 =>
      rw [h1] at h
      simp only [bind, Except.bind] at h
      obtain ⟨hp, ht, he, hn, hss, hsa, hdead⟩ :=
        calc_events_lane_frame c pad x_off y_off edgex edgey s s1 h1
      cases hev : s1.lane.next_event with
      | PARTICLE_DEAD =>
        rw [hev] at h
        simp only [pure, Except.pure, Except.ok.injEq, Prod.mk.injEq] at h
        obtain ⟨hs', hlog⟩ := h
        have hd := hdead.mp hev
        rw [if_neg hd, ← hs', ← hlog, ht]
        simp
      | PARTICLE_CENSUS =>
        rw [hev] at h
        simp only at h
        have hlive : s.particle.dead = 0 := by
          by_contra hd
          have := hdead.mpr hd
          rw [hev] at this
          exact nomatch this
        cases h2 : census_phase c nx x_off y_off inv s1 with
        | error e => rw [h2] at h; exact nomatch h
        | ok s2 =>
          rw [h2] at h
          simp only [pure, Except.pure, Except.ok.injEq, Prod.mk.injEq] at h
          obtain ⟨hs', hlog⟩ := h
          unfold census_phase at h2
          rw [if_neg (not_not.mpr hev)] at h2
          have hsum := census_event_tally c nx x_off y_off inv _ _ s1 s2 h2
          rw [if_pos hlive, ← hs', ← hlog, hsum, ht, he]
          simp only [event_deposition, hev, List.sum_cons, List.sum_nil, add_zero]
          rw [hp]
          ring
      | PARTICLE_COLLISION =>
        rw [hev] at h
        simp only at h
        have hlive : s.particle.dead = 0 := by
          by_contra hd
          have := hdead.mpr hd
          rw [hev] at this
          exact nomatch this
        cases h2 : collision_phase m c rng fuel nx x_off y_off inv cs_s cs_a
            (collision_counter ip counter) master_key s1 with
        | error e => rw [h2] at h; exact nomatch h
        | ok s2 =>
          rw [h2] at h
          simp only at h
          cases h3 : lane_loop m c rng fuel nx pad x_off y_off inv edgex edgey cs_s cs_a
              master_key ip passes ((counter + (2 * block_size).toNat) % 2 ^ 64)
              (facet_phase s2) with
          | error e => rw [h3] at h; exact nomatch h
          | ok r =>
            rw [h3] at h
            simp only [pure, Except.pure, Except.ok.injEq, Prod.mk.injEq] at h
            obtain ⟨hs', hlog⟩ := h
            have hrec := ih _ _ _ _ (show lane_loop m c rng fuel nx pad x_off y_off inv edgex
              edgey cs_s cs_a master_key ip passes _ (facet_phase s2) = .ok (r.1, r.2) from h3)
            obtain ⟨hft, hfl, hfd⟩ := facet_phase_frame s2
            unfold collision_phase at h2
            rw [if_neg (not_not.mpr hev)] at h2
            obtain ⟨hsum, hdd, -⟩ := collision_event_tally m c rng fuel nx x_off y_off inv _ _
              cs_s cs_a _ master_key s1 s2 h2
            rw [hft, hfl, hfd] at hrec
            rw [if_pos hlive, ← hs', ← hlog, hrec]
            simp only [event_deposition, hev, List.singleton_append, List.sum_cons]
            rw [ht, he, hp] at hsum
            rw [hp]
            by_cases hd2 : s2.particle.dead = 0
            · rw [if_pos hd2, hsum]
              ring
            · rw [if_neg hd2]
              have h0 := hdd (by rw [hp]; exact hlive) hd2
              rw [h0] at hsum
              have : s2.tally.sum = s.tally.sum + (s.lane.energy_deposition +
                  calculate_energy_deposition c s.particle
                    (s.particle.mfp_to_collision * s1.lane.cell_mfp) s1.lane.number_density
                    s1.lane.microscopic_cs_absorb
                    (s1.lane.microscopic_cs_scatter + s1.lane.microscopic_cs_absorb)) * inv := by
                linarith
              rw [this]
              ring
      | PARTICLE_FACET =>
        rw [hev] at h
        simp only at h
        have hlive : s.particle.dead = 0 := by
          by_contra hd
          have := hdead.mpr hd
          rw [hev] at this
          exact nomatch this
        have h2 : collision_phase m c rng fuel nx x_off y_off inv cs_s cs_a
            (collision_counter ip counter) master_key s1 = .ok s1 := by
          unfold collision_phase
          rw [if_pos (by rw [hev]; exact fun hh => nomatch hh)]
          rfl
        rw [h2] at h
        simp only at h
        cases h3 : lane_loop m c rng fuel nx pad x_off y_off inv edgex edgey cs_s cs_a
            master_key ip passes ((counter + (2 * block_size).toNat) % 2 ^ 64)
            (facet_phase s1) with
        | error e => rw [h3] at h; exact nomatch h
        | ok r =>
          rw [h3] at h
          simp only [pure, Except.pure, Except.ok.injEq, Prod.mk.injEq] at h
          obtain ⟨hs', hlog⟩ := h
          have hrec := ih _ _ _ _ (show lane_loop m c rng fuel nx pad x_off y_off inv edgex
            edgey cs_s cs_a master_key ip passes _ (facet_phase s1) = .ok (r.1, r.2) from h3)
          obtain ⟨hft, hfl, hfd⟩ := facet_phase_frame s1
          rw [hft, hfl, hfd, hp, if_pos hlive, ht, he] at hrec
          rw [if_pos hlive, ← hs', ← hlog, hrec]
          simp [event_deposition, hev]

theorem cache_init_lane_frame (m : Libm K) (c : Constants K)
    (rng : Nat → Nat → Nat → K × K) (fuel : Nat) (nx pad x_off y_off initial : Int) (dt : K)
    (density : List K) (cs_s cs_a : CrossSection K) (master_key counter : Nat)
    (s s0 : KernelState K)
    (h : cache_init_lane m c rng fuel nx pad x_off y_off initial dt density cs_s cs_a
      master_key counter s = .ok s0) :
    s0.tally = s.tally ∧ s0.lane.energy_deposition = 0 ∧ s0.particle.dead = s.particle.dead := by
  unfold cache_init_lane at h
  dsimp only at h
  cases h0 : readAt density ((s.particle.celly - y_off + pad) * (nx + 2 * pad) +
      (s.particle.cellx - x_off + pad)) with
  | error e => rw [h0] at h; exact nomatch h
  | ok ld =>
    cases h1 : microscopic_cs_for_energy fuel cs_s s.particle.energy (-1) with
    | error e => rw [h0, h1] at h; exact nomatch h
    | ok r1 =>
      cases h2 : microscopic_cs_for_energy fuel cs_a s.particle.energy (-1) with
      | error e => rw [h0, h1, h2] at h; exact nomatch h
      | ok r2 =>
        rw [h0, h1, h2] at h
        simp only [bind, Except.bind] at h
        split_ifs at h <;>
          · simp only [pure, Except.pure, Except.ok.injEq] at h
            rw [← h]
            exact ⟨rfl, rfl, rfl⟩

end LaneLemmas

section PositionLemmas

variable {K : Type} [LinearOrderedField K]

/-! ## The distance to the facet as a bound on the move -/

theorem XReal.scale_posInf_ne_fin (a d : K) : XReal.scale a (.posInf : XReal K) ≠ .fin d := by
  unfold XReal.scale
  split_ifs <;> exact fun h => nomatch h

/-- A finite distance selected from the two axes bounds the move along each
axis by the signed offset to the facet ahead. -/
theorem facet_selection_bound (ax ay ox oy speed d : K) (hs : 0 < speed)
    (h : (if XReal.lt (XReal.scale ax (XReal.recip (ox * speed)))
          (XReal.scale ay (XReal.recip (oy * speed))) then
        XReal.scale (ax * speed) (XReal.recip (ox * speed))
      else XReal.scale (ay * speed) (XReal.recip (oy * speed))) = .fin d) :
    (0 < ox → d * ox ≤ ax) ∧ (ox < 0 → ax ≤ d * ox) ∧
      (0 < oy → d * oy ≤ ay) ∧ (oy < 0 → ay ≤ d * oy) := by
  have hs0 : speed ≠ 0 := ne_of_gt hs
  have hmove : ∀ (a o : K), o ≠ 0 → a * speed * (1 / (o * speed)) * o = a := by
    intro a o ho
    field_simp
    ring
  by_cases hox : ox = 0
  · -- no velocity along x: the y facet is the finite one
    subst hox
    have hsel : ¬ XReal.lt (XReal.scale ax (XReal.recip (0 * speed)))
        (XReal.scale ay (XReal.recip (oy * speed))) = true := by
      intro hlt
      rw [if_pos hlt, zero_mul, XReal.recip_zero] at h
      exact XReal.scale_posInf_ne_fin _ _ h
    rw [if_neg hsel] at h
    refine ⟨fun h0 => absurd h0 (lt_irrefl _), fun h0 => absurd h0 (lt_irrefl _), ?_, ?_⟩
    · intro ho
      rw [XReal.scale_recip_of_ne _ (mul_ne_zero (ne_of_gt ho) hs0)] at h
      simp only [XReal.fin.injEq] at h
      rw [← h, hmove _ _ (ne_of_gt ho)]
    · intro ho
      rw [XReal.scale_recip_of_ne _ (mul_ne_zero (ne_of_lt ho) hs0)] at h
      simp only [XReal.fin.injEq] at h
      rw [← h, hmove _ _ (ne_of_lt ho)]
  · by_cases hoy : oy = 0
    · subst hoy
      have hsel : XReal.lt (XReal.scale ax (XReal.recip (ox * speed)))
          (XReal.scale ay (XReal.recip (0 * speed))) = true := by
        by_contra hlt
        rw [if_neg hlt, zero_mul, XReal.recip_zero] at h
        exact XReal.scale_posInf_ne_fin _ _ h
      rw [if_pos hsel, XReal.scale_recip_of_ne _ (mul_ne_zero hox hs0)] at h
      simp only [XReal.fin.injEq] at h
      refine ⟨?_, ?_, fun h0 => absurd h0 (lt_irrefl _), fun h0 => absurd h0 (lt_irrefl _)⟩
      · intro _
        rw [← h, hmove _ _ hox]
      · intro _
        rw [← h, hmove _ _ hox]
    · have hdx : ox * speed ≠ 0 := mul_ne_zero hox hs0
      have hdy : oy * speed ≠ 0 := mul_ne_zero hoy hs0
      rw [XReal.scale_recip_of_ne _ hdx, XReal.scale_recip_of_ne _ hdy,
        XReal.scale_recip_of_ne _ hdx, XReal.scale_recip_of_ne _ hdy, XReal.lt_fin_fin] at h
      -- the two candidate distances
      have hx : ax * speed * (1 / (ox * speed)) * ox = ax := hmove ax ox hox
      have hy : ay * speed * (1 / (oy * speed)) * oy = ay := hmove ay oy hoy
      have hrel : ax * (1 / (ox * speed)) < ay * (1 / (oy * speed)) ↔
          ax * speed * (1 / (ox * speed)) < ay * speed * (1 / (oy * speed)) := by
        have e1 : ax * speed * (1 / (ox * speed)) = ax * (1 / (ox * speed)) * speed := by ring
        have e2 : ay * speed * (1 / (oy * speed)) = ay * (1 / (oy * speed)) * speed := by ring
        rw [e1, e2]
        exact (mul_lt_mul_right hs).symm
      by_cases hlt : ax * (1 / (ox * speed)) < ay * (1 / (oy * speed))
      · rw [if_pos (decide_eq_true hlt)] at h
        simp only [XReal.fin.injEq] at h
        have hle : d ≤ ay * speed * (1 / (oy * speed)) := by
          rw [← h]
          exact (hrel.mp hlt).le
        refine ⟨fun _ => ?_, fun _ => ?_, fun ho => ?_, fun ho => ?_⟩
        · rw [← h, hx]
        · rw [← h, hx]
        · calc d * oy ≤ ay * speed * (1 / (oy * speed)) * oy :=
                mul_le_mul_of_nonneg_right hle ho.le
            _ = ay := hy
        · calc ay = ay * speed * (1 / (oy * speed)) * oy := hy.symm
            _ ≤ d * oy := mul_le_mul_of_nonpos_right hle ho.le
      · rw [if_neg (by simpa using hlt)] at h
        simp only [XReal.fin.injEq] at h
        have hle : d ≤ ax * speed * (1 / (ox * speed)) := by
          rw [← h]
          exact not_lt.mp (fun hh => hlt (hrel.mpr hh))
        refine ⟨fun ho => ?_, fun ho => ?_, fun _ => ?_, fun _ => ?_⟩
        · calc d * ox ≤ ax * speed * (1 / (ox * speed)) * ox :=
                mul_le_mul_of_nonneg_right hle ho.le
            _ = ax := hx
        · calc ax = ax * speed * (1 / (ox * speed)) * ox := hx.symm
            _ ≤ d * ox := mul_le_mul_of_nonpos_right hle ho.le
        · rw [← h, hy]
        · rw [← h, hy]

/-- A finite distance returned by `calc_distance_to_facet` bounds the move
along each axis: up to the upper edge in the positive direction, down to the
lower edge minus `OPEN_BOUND_CORRECTION` in the negative direction. -/
theorem calc_distance_to_facet_bound (c : Constants K) (x y : K) (pad x_off y_off : Int)
    (omega_x omega_y speed : K) (particle_cellx particle_celly : Int)
    (edgex edgey : List K) (xl xh yl yh : K)
    (hxl : readAt edgex (particle_cellx - x_off + pad) = .ok xl)
    (hxh : readAt edgex (particle_cellx - x_off + pad + 1) = .ok xh)
    (hyl : readAt edgey (particle_celly - y_off + pad) = .ok yl)
    (hyh : readAt edgey (particle_celly - y_off + pad + 1) = .ok yh)
    (hspeed : 0 < speed) (d : K) (x_facet : Int)
    (h : calc_distance_to_facet c x y pad x_off y_off omega_x omega_y speed particle_cellx
      particle_celly edgex edgey = .ok (.fin d, x_facet)) :
    (0 < omega_x → d * omega_x ≤ xh - x) ∧
      (omega_x < 0 → (xl - c.OPEN_BOUND_CORRECTION) - x ≤ d * omega_x) ∧
      (0 < omega_y → d * omega_y ≤ yh - y) ∧
      (omega_y < 0 → (yl - c.OPEN_BOUND_CORRECTION) - y ≤ d * omega_y) := by
  rw [calc_distance_to_facet_eq c x y pad x_off y_off omega_x omega_y speed particle_cellx
    particle_celly edgex edgey xl xh yl yh hxl hxh hyl hyh] at h
  simp only [Except.ok.injEq, Prod.mk.injEq] at h
  obtain ⟨b1, b2, b3, b4⟩ := facet_selection_bound _ _ _ _ _ _ hspeed h.1
  refine ⟨fun ho => ?_, fun ho => ?_, fun ho => ?_, fun ho => ?_⟩
  · have := b1 ho
    rwa [if_pos ho.le] at this
  · have := b2 ho
    rwa [if_neg (not_le.mpr ho)] at this
  · have := b3 ho
    rwa [if_pos ho.le] at this
  · have := b4 ho
    rwa [if_neg (not_le.mpr ho)] at this

/-- For a particle below the upper edges of its cell, with positive speed and
a direction that is not zero, the distance to the facet is finite. -/
theorem calc_distance_to_facet_finite (c : Constants K) (x y : K) (pad x_off y_off : Int)
    (omega_x omega_y speed : K) (particle_cellx particle_celly : Int)
    (edgex edgey : List K) (xl xh yl yh : K)
    (hxl : readAt edgex (particle_cellx - x_off + pad) = .ok xl)
    (hxh : readAt edgex (particle_cellx - x_off + pad + 1) = .ok xh)
    (hyl : readAt edgey (particle_celly - y_off + pad) = .ok yl)
    (hyh : readAt edgey (particle_celly - y_off + pad + 1) = .ok yh)
    (hx1 : x < xh) (hy1 : y < yh) (hspeed : 0 < speed)
    (hdir : omega_x ≠ 0 ∨ omega_y ≠ 0) :
    ∃ (d : K) (x_facet : Int),
      calc_distance_to_facet c x y pad x_off y_off omega_x omega_y speed particle_cellx
        particle_celly edgex edgey = .ok (.fin d, x_facet) := by
  rw [calc_distance_to_facet_eq c x y pad x_off y_off omega_x omega_y speed particle_cellx
    particle_celly edgex edgey xl xh yl yh hxl hxh hyl hyh]
  have hs0 : speed ≠ 0 := ne_of_gt hspeed
  by_cases hox : omega_x = 0
  · have hoy : omega_y ≠ 0 := hdir.resolve_left (not_not.mpr hox)
    subst hox
    have hsel : ¬ XReal.lt
        (XReal.scale (if (0 : K) ≥ 0 then xh - x else (xl - c.OPEN_BOUND_CORRECTION) - x)
          (XReal.recip (0 * speed)))
        (XReal.scale (if omega_y ≥ 0 then yh - y else (yl - c.OPEN_BOUND_CORRECTION) - y)
          (XReal.recip (omega_y * speed))) = true := by
      rw [if_pos le_rfl, zero_mul, XReal.recip_zero,
        XReal.scale_recip_of_ne _ (mul_ne_zero hoy hs0)]
      have : 0 < xh - x := by linarith
      simp [XReal.scale, XReal.lt, this]
    rw [if_neg hsel, if_neg hsel, XReal.scale_recip_of_ne _ (mul_ne_zero hoy hs0)]
    exact ⟨_, _, rfl⟩
  · by_cases hoy : omega_y = 0
    · subst hoy
      have hsel : XReal.lt
          (XReal.scale (if omega_x ≥ 0 then xh - x else (xl - c.OPEN_BOUND_CORRECTION) - x)
            (XReal.recip (omega_x * speed)))
          (XReal.scale (if (0 : K) ≥ 0 then yh - y else (yl - c.OPEN_BOUND_CORRECTION) - y)
            (XReal.recip (0 * speed))) = true := by
        rw [if_pos le_rfl, zero_mul, XReal.recip_zero,
          XReal.scale_recip_of_ne _ (mul_ne_zero hox hs0)]
        have : 0 < yh - y := by linarith
        simp [XReal.scale, XReal.lt, this]
      rw [if_pos hsel, if_pos hsel, XReal.scale_recip_of_ne _ (mul_ne_zero hox hs0)]
      exact ⟨_, _, rfl⟩
    · rw [XReal.scale_recip_of_ne _ (mul_ne_zero hox hs0),
        XReal.scale_recip_of_ne _ (mul_ne_zero hoy hs0),
        XReal.scale_recip_of_ne _ (mul_ne_zero hox hs0),
        XReal.scale_recip_of_ne _ (mul_ne_zero hoy hs0)]
      split_ifs <;> exact ⟨_, _, rfl⟩

/-- The classification of the lane of a live particle with a finite distance
to the facet. -/
theorem calc_events_lane_live (c : Constants K) (pad x_off y_off : Int) (edgex edgey : List K)
    (s : KernelState K) (d : K) (x_facet : Int) (hlive : s.particle.dead = 0)
    (h : calc_distance_to_facet c s.particle.x s.particle.y pad x_off y_off s.particle.omega_x
      s.particle.omega_y s.lane.speed s.particle.cellx s.particle.celly edgex edgey =
        .ok (.fin d, x_facet)) :
    calc_events_lane c pad x_off y_off edgex edgey s =
      .ok { s with lane := { s.lane with
        cell_mfp := 1 / (s.lane.macroscopic_cs_scatter + s.lane.macroscopic_cs_absorb)
        distance_to_facet := d
        x_facet := x_facet
        next_event := select_event
          (s.particle.mfp_to_collision *
            (1 / (s.lane.macroscopic_cs_scatter + s.lane.macroscopic_cs_absorb)))
          d (s.lane.speed * s.particle.dt_to_census) } } := by
  unfold calc_events_lane
  rw [if_neg (not_not.mpr hlive), h]
  rfl

end PositionLemmas

section AxisLemmas

variable {K : Type} [LinearOrderedField K]

/-- A move by `d'` along one axis, for a coordinate in `[lo, hi)` and a move
`d ≥ d'` that stays within the facets ahead. -/
theorem axis_move_bound (x o d d' lo hi obc : K) (hx0 : lo ≤ x) (hx1 : x < hi)
    (hobc : 0 < obc) (hd0 : 0 ≤ d') (hle : d' ≤ d) (hpos : 0 < o → d * o ≤ hi - x)
    (hneg : o < 0 → (lo - obc) - x ≤ d * o) :
    lo - obc ≤ x + d' * o ∧ x + d' * o ≤ hi ∧ (0 ≤ o → lo ≤ x + d' * o) ∧
      (d' < d → lo - obc < x + d' * o ∧ x + d' * o < hi) := by
  rcases lt_trichotomy o 0 with ho | ho | ho
  · have h1 : d * o ≤ d' * o := mul_le_mul_of_nonpos_right hle ho.le
    have h2 : d' * o ≤ 0 := mul_nonpos_of_nonneg_of_nonpos hd0 ho.le
    have h3 := hneg ho
    refine ⟨by linarith, by linarith, fun h => absurd ho (not_lt.mpr h), fun hlt => ?_⟩
    have h4 : d * o < d' * o := mul_lt_mul_of_neg_right hlt ho
    constructor <;> linarith
  · subst ho
    simp only [mul_zero, add_zero]
    exact ⟨by linarith, hx1.le, fun _ => hx0, fun _ => ⟨by linarith, hx1⟩⟩
  · have h1 : d' * o ≤ d * o := mul_le_mul_of_nonneg_right hle ho.le
    have h2 : 0 ≤ d' * o := mul_nonneg hd0 ho.le
    have h3 := hpos ho
    refine ⟨by linarith, by linarith, fun _ => by linarith, fun hlt => ?_⟩
    have h4 : d' * o < d * o := mul_lt_mul_of_pos_right hlt ho
    constructor <;> linarith

end AxisLemmas

section PhaseLemmas

variable {K : Type} [LinearOrderedField K]

theorem collision_phase_collision (m : Libm K) (c : Constants K)
    (rng : Nat → Nat → Nat → K × K) (fuel : Nat) (nx x_off y_off : Int) (inv : K)
    (cs_s cs_a : CrossSection K) (counter_off master_key : Nat) (s : KernelState K)
    (h : s.lane.next_event = .PARTICLE_COLLISION) :
    collision_phase m c rng fuel nx x_off y_off inv cs_s cs_a counter_off master_key s =
      collision_event m c rng fuel nx x_off y_off inv
        (s.particle.mfp_to_collision * s.lane.cell_mfp) s.lane.local_density cs_s cs_a
        counter_off master_key s := by
  unfold collision_phase
  rw [if_neg (not_not.mpr h)]

theorem collision_phase_skip (m : Libm K) (c : Constants K)
    (rng : Nat → Nat → Nat → K × K) (fuel : Nat) (nx x_off y_off : Int) (inv : K)
    (cs_s cs_a : CrossSection K) (counter_off master_key : Nat) (s : KernelState K)
    (h : s.lane.next_event ≠ .PARTICLE_COLLISION) :
    collision_phase m c rng fuel nx x_off y_off inv cs_s cs_a counter_off master_key s =
      .ok s := by
  unfold collision_phase
  rw [if_pos h]
  rfl

theorem census_phase_census (c : Constants K) (nx x_off y_off : Int) (inv : K)
    (s : KernelState K) (h : s.lane.next_event = .PARTICLE_CENSUS) :
    census_phase c nx x_off y_off inv s =
      census_event c nx x_off y_off inv (s.lane.speed * s.particle.dt_to_census)
        s.lane.cell_mfp s := by
  unfold census_phase
  rw [if_neg (not_not.mpr h)]

theorem census_phase_skip (c : Constants K) (nx x_off y_off : Int) (inv : K)
    (s : KernelState K) (h : s.lane.next_event ≠ .PARTICLE_CENSUS) :
    census_phase c nx x_off y_off inv s = .ok s := by
  unfold census_phase
  rw [if_pos h]
  rfl

end PhaseLemmas

section BlockLemmas

variable {K : Type}

/-! ## A block of one lane -/

/-- The body of a loop over the lanes, run on the lane whose state is `s`,
writes the new state of the lane back and leaves the loop variables alone. -/
theorem on_lane_spec (p_off : Int) (f : KernelState K → Except Fault (KernelState K))
    (b : BlockState K) (s s' : KernelState K)
    (hp : readAt b.particles (p_off + 0) = .ok s.particle)
    (hl : readAt b.lanes 0 = .ok s.lane) (ht : b.energy_deposition_tally = s.tally)
    (hf : f s = .ok s') :
    ∃ b' : BlockState K, on_lane p_off 0 f b = .ok b' ∧
      readAt b'.particles (p_off + 0) = .ok s'.particle ∧
      readAt b'.lanes 0 = .ok s'.lane ∧ b'.energy_deposition_tally = s'.tally ∧
      b'.counter = b.counter ∧ b'.ncompleted = b.ncompleted := by
  obtain ⟨hp0, hp1⟩ := (readAt_eq_ok_iff _ _ _).mp hp
  obtain ⟨hl0, hl1⟩ := (readAt_eq_ok_iff _ _ _).mp hl
  have hplt : (p_off + 0).toNat < b.particles.length := (List.getElem?_eq_some_iff.mp hp1).1
  have hllt : (0 : Int).toNat < b.lanes.length := (List.getElem?_eq_some_iff.mp hl1).1
  refine ⟨{ b with
      particles := b.particles.set (p_off + 0).toNat s'.particle
      lanes := b.lanes.set (0 : Int).toNat s'.lane
      energy_deposition_tally := s'.tally }, ?_,
    readAt_set_self _ _ _ hp0 (by omega), readAt_set_self _ _ _ hl0 (by omega), rfl, rfl, rfl⟩
  unfold on_lane
  rw [hp, hl, ht]
  simp only [bind, Except.bind]
  rw [hf]
  simp only
  rw [writeAt_ok _ _ _ hp0 (by omega), writeAt_ok _ _ _ hl0 (by omega)]
  rfl

theorem for_lanes_one (body : Int → BlockState K → Except Fault (BlockState K))
    (b : BlockState K) : for_lanes 1 body b = body 0 b := by
  unfold for_lanes
  have hr : List.range (1 : Int).toNat = [0] := rfl
  rw [hr]
  simp only [List.foldlM, bind, Except.bind, pure, Except.pure, Nat.cast_zero]
  cases body 0 b <;> rfl

variable [LinearOrderedField K]

/-- The classification loop of a block of one lane. -/
theorem calc_events_body_spec (c : Constants K) (pad x_off y_off : Int) (edgex edgey : List K)
    (p_off : Int) (b : BlockState K) (s s1 : KernelState K)
    (hp : readAt b.particles (p_off + 0) = .ok s.particle)
    (hl : readAt b.lanes 0 = .ok s.lane) (ht : b.energy_deposition_tally = s.tally)
    (h1 : calc_events_lane c pad x_off y_off edgex edgey s = .ok s1) :
    ∃ b1 : BlockState K,
      calc_events_body c pad x_off y_off edgex edgey p_off 0 b = .ok b1 ∧
      readAt b1.particles (p_off + 0) = .ok s1.particle ∧
      readAt b1.lanes 0 = .ok s1.lane ∧ b1.energy_deposition_tally = s1.tally ∧
      b1.counter = b.counter ∧
      b1.ncompleted =
        (if s1.lane.next_event = .PARTICLE_COLLISION ∨ s1.lane.next_event = .PARTICLE_FACET
          then b.ncompleted else (b.ncompleted + 1) % 2 ^ 64) := by
  obtain ⟨b0, hb0, hp0, hl0, ht0, hc0, hn0⟩ := on_lane_spec p_off
    (calc_events_lane c pad x_off y_off edgex edgey) b s s1 hp hl ht h1
  unfold calc_events_body
  rw [hb0]
  simp only [bind, Except.bind]
  rw [hl0]
  simp only
  cases hev : s1.lane.next_event with
  | PARTICLE_COLLISION =>
    exact ⟨_, rfl, hp0, hl0, ht0, hc0, by simpa using hn0⟩
  | PARTICLE_FACET =>
    exact ⟨_, rfl, hp0, hl0, ht0, hc0, by simpa using hn0⟩
  | PARTICLE_CENSUS =>
    refine ⟨_, rfl, hp0, hl0, ht0, hc0, ?_⟩
    rw [if_neg (by simp)]
    show (b0.ncompleted + 1) % 2 ^ 64 = _
    rw [hn0]
  | PARTICLE_DEAD =>
    refine ⟨_, rfl, hp0, hl0, ht0, hc0, ?_⟩
    rw [if_neg (by simp)]
    show (b0.ncompleted + 1) % 2 ^ 64 = _
    rw [hn0]

theorem block_while_break (m : Libm K) (c : Constants K) (rng : Nat → Nat → Nat → K × K)
    (fuel : Nat) (nx pad x_off y_off : Int) (inv : K) (edgex edgey : List K)
    (cs_s cs_a : CrossSection K) (master_key : Nat) (p_off np : Int) (passes : Nat)
    (b b1 : BlockState K)
    (h1 : for_lanes np (calc_events_body c pad x_off y_off edgex edgey p_off)
      { b with ncompleted := 0 } = .ok b1)
    (heq : (b1.ncompleted : Int) = np) :
    block_while m c rng fuel nx pad x_off y_off inv edgex edgey cs_s cs_a master_key p_off np
      (passes + 1) b = .ok b1 := by
  unfold block_while
  rw [h1]
  simp only [bind, Except.bind]
  rw [if_pos heq]
  rfl

theorem block_while_continue (m : Libm K) (c : Constants K) (rng : Nat → Nat → Nat → K × K)
    (fuel : Nat) (nx pad x_off y_off : Int) (inv : K) (edgex edgey : List K)
    (cs_s cs_a : CrossSection K) (master_key : Nat) (p_off np : Int) (passes : Nat)
    (b b1 b2 b4 : BlockState K)
    (h1 : for_lanes np (calc_events_body c pad x_off y_off edgex edgey p_off)
      { b with ncompleted := 0 } = .ok b1)
    (hne : (b1.ncompleted : Int) ≠ np)
    (h2 : for_lanes np
      (fun ip => on_lane p_off ip
        (collision_phase m c rng fuel nx x_off y_off inv cs_s cs_a
          (collision_counter ip b1.counter) master_key)) b1 = .ok b2)
    (h4 : for_lanes np (fun ip => on_lane p_off ip (fun s => pure (facet_phase s)))
      { b2 with counter := (b2.counter + (2 * block_size).toNat) % 2 ^ 64 } = .ok b4) :
    block_while m c rng fuel nx pad x_off y_off inv edgex edgey cs_s cs_a master_key p_off np
        (passes + 1) b =
      block_while m c rng fuel nx pad x_off y_off inv edgex edgey cs_s cs_a master_key p_off np
        passes b4 := by
  conv_lhs => unfold block_while
  rw [h1]
  simp only [bind, Except.bind]
  rw [if_neg hne, h2]
  simp only
  rw [h4]

/-- For a block of one lane, the `while` loop and the census loop of the block
do to the lane what `lane_loop` does. -/
theorem block_while_one_lane (m : Libm K) (c : Constants K) (rng : Nat → Nat → Nat → K × K)
    (fuel : Nat) (nx pad x_off y_off : Int) (inv : K) (edgex edgey : List K)
    (cs_s cs_a : CrossSection K) (master_key : Nat) (p_off : Int) (passes : Nat)
    (b : BlockState K) (s s' : KernelState K) (log : List K)
    (hp : readAt b.particles (p_off + 0) = .ok s.particle)
    (hl : readAt b.lanes 0 = .ok s.lane) (ht : b.energy_deposition_tally = s.tally)
    (h : lane_loop m c rng fuel nx pad x_off y_off inv edgex edgey cs_s cs_a master_key 0
      passes b.counter s = .ok (s', log)) :
    ∃ b1 b' : BlockState K,
      block_while m c rng fuel nx pad x_off y_off inv edgex edgey cs_s cs_a master_key p_off 1
        passes b = .ok b1 ∧
      for_lanes 1 (fun ip => on_lane p_off ip (census_phase c nx x_off y_off inv)) b1 =
        .ok b' ∧
      readAt b'.particles (p_off + 0) = .ok s'.particle ∧
      readAt b'.lanes 0 = .ok s'.lane ∧ b'.energy_deposition_tally = s'.tally := by
  induction passes generalizing b s log with
  | zero => exact nomatch h
  | succ passes ih =>
    unfold lane_loop at h
    cases h1 : calc_events_lane c pad x_off y_off edgex edgey s with
    | error e => rw [h1] at h; exact nomatch h
    | ok s1 =>
      rw [h1] at h
      simp only [bind, Except.bind] at h
      -- the classification loop
      obtain ⟨b1, hb1, hp1, hl1, ht1, hc1, hn1⟩ := calc_events_body_spec c pad x_off y_off edgex
        edgey p_off { b with ncompleted := 0 } s s1 hp hl ht h1
      have hcl : for_lanes 1 (calc_events_body c pad x_off y_off edgex edgey p_off)
          { b with ncompleted := 0 } = .ok b1 := (for_lanes_one _ _).trans hb1
      have hcount : b1.counter = b.counter := hc1
      by_cases hgo : s1.lane.next_event = .PARTICLE_COLLISION ∨
          s1.lane.next_event = .PARTICLE_FACET
      · -- the lane has a collision or a facet: one more pass
        rw [if_pos hgo] at hn1
        have hne : (b1.ncompleted : Int) ≠ 1 := by
          rw [hn1]
          show ((0 : Nat) : Int) ≠ 1
          decide
        have hrun : ∃ (s2 : KernelState K) (log' : List K),
            collision_phase m c rng fuel nx x_off y_off inv cs_s cs_a
              (collision_counter 0 b.counter) master_key s1 = .ok s2 ∧
            lane_loop m c rng fuel nx pad x_off y_off inv edgex edgey cs_s cs_a master_key 0
              passes ((b.counter + (2 * block_size).toNat) % 2 ^ 64) (facet_phase s2) =
                .ok (s', log') := by
          rcases hgo with hev | hev <;> rw [hev] at h <;> simp only at h
          · cases h2 : collision_phase m c rng fuel nx x_off y_off inv cs_s cs_a
                (collision_counter 0 b.counter) master_key s1 with
            | error e => rw [h2] at h; exact nomatch h
            | ok s2 =>
              rw [h2] at h
              simp only at h
              cases h3 : lane_loop m c rng fuel nx pad x_off y_off inv edgex edgey cs_s cs_a
                  master_key 0 passes ((b.counter + (2 * block_size).toNat) % 2 ^ 64)
                  (facet_phase s2) with
              | error e => rw [h3] at h; exact nomatch h
              | ok r =>
                rw [h3] at h
                simp only [pure, Except.pure, Except.ok.injEq, Prod.mk.injEq] at h
                exact ⟨s2, r.2, rfl, by rw [h3, ← h.1]⟩
          · cases h2 : collision_phase m c rng fuel nx x_off y_off inv cs_s cs_a
                (collision_counter 0 b.counter) master_key s1 with
            | error e => rw [h2] at h; exact nomatch h
            | ok s2 =>
              rw [h2] at h
              simp only at h
              cases h3 : lane_loop m c rng fuel nx pad x_off y_off inv edgex edgey cs_s cs_a
                  master_key 0 passes ((b.counter + (2 * block_size).toNat) % 2 ^ 64)
                  (facet_phase s2) with
              | error e => rw [h3] at h; exact nomatch h
              | ok r =>
                rw [h3] at h
                simp only [pure, Except.pure, Except.ok.injEq, Prod.mk.injEq] at h
                exact ⟨s2, r.2, rfl, by rw [h3, ← h.1]⟩
        obtain ⟨s2, log', h2, h3⟩ := hrun
        rw [← hcount] at h2
        obtain ⟨b2, hb2, hp2, hl2, ht2, hc2, -⟩ := on_lane_spec p_off
          (collision_phase m c rng fuel nx x_off y_off inv cs_s cs_a
            (collision_counter 0 b1.counter) master_key) b1 s1 s2 hp1 hl1 ht1 h2
        have hco : for_lanes 1
            (fun ip => on_lane p_off ip
              (collision_phase m c rng fuel nx x_off y_off inv cs_s cs_a
                (collision_counter ip b1.counter) master_key)) b1 = .ok b2 :=
          (for_lanes_one _ _).trans hb2
        obtain ⟨b4, hb4, hp4, hl4, ht4, hc4, -⟩ := on_lane_spec p_off
          (fun s => pure (facet_phase s))
          { b2 with counter := (b2.counter + (2 * block_size).toNat) % 2 ^ 64 } s2
          (facet_phase s2) hp2 hl2 ht2 rfl
        have hfa : for_lanes 1 (fun ip => on_lane p_off ip (fun s => pure (facet_phase s)))
            { b2 with counter := (b2.counter + (2 * block_size).toNat) % 2 ^ 64 } = .ok b4 :=
          (for_lanes_one _ _).trans hb4
        rw [block_while_continue m c rng fuel nx pad x_off y_off inv edgex edgey cs_s cs_a
          master_key p_off 1 passes b b1 b2 b4 hcl hne hco hfa]
        have hc4' : b4.counter = (b.counter + (2 * block_size).toNat) % 2 ^ 64 := by
          rw [hc4]
          show (b2.counter + (2 * block_size).toNat) % 2 ^ 64 = _
          rw [hc2, hcount]
        rw [← hc4'] at h3
        exact ih b4 (facet_phase s2) log' hp4 hl4 ht4 h3
      · -- the lane is complete: the loop is left and the census loop runs
        rw [if_neg hgo] at hn1
        have heq : (b1.ncompleted : Int) = 1 := by
          rw [hn1]
          show (((0 + 1) % 2 ^ 64 : Nat) : Int) = 1
          decide
        have hbr := block_while_break m c rng fuel nx pad x_off y_off inv edgex edgey cs_s cs_a
          master_key p_off 1 passes b b1 hcl heq
        have hcen : census_phase c nx x_off y_off inv s1 = .ok s' := by
          cases hev : s1.lane.next_event with
          | PARTICLE_COLLISION => exact absurd (Or.inl hev) hgo
          | PARTICLE_FACET => exact absurd (Or.inr hev) hgo
          | PARTICLE_DEAD =>
            rw [hev] at h
            simp only [pure, Except.pure, Except.ok.injEq, Prod.mk.injEq] at h
            rw [← h.1]
            exact census_phase_skip c nx x_off y_off inv s1
              (by rw [hev]; exact fun hh => nomatch hh)
          | PARTICLE_CENSUS =>
            rw [hev] at h
            simp only at h
            cases h2 : census_phase c nx x_off y_off inv s1 with
            | error e => rw [h2] at h; exact nomatch h
            | ok s2 =>
              rw [h2] at h
              simp only [pure, Except.pure, Except.ok.injEq, Prod.mk.injEq] at h
              rw [← h.1]
        obtain ⟨b', hb', hp', hl', ht', -, -⟩ := on_lane_spec p_off
          (census_phase c nx x_off y_off inv) b1 s1 s' hp1 hl1 ht1 hcen
        exact ⟨b1, b', hbr, (for_lanes_one _ _).trans hb', hp', hl', ht'⟩

end BlockLemmas

section OneParticleLemmas

variable {K : Type} [LinearOrderedField K]

/-- For a block of one lane, `handle_block` does to the lane what
`lane_timestep` does, with the counter 0 in the cache initialisation and the
counter 1 after it when a live particle has drawn its random numbers. -/
theorem handle_block_one_lane (m : Libm K) (c : Constants K) (rng : Nat → Nat → Nat → K × K)
    (fuel passes : Nat) (nx pad x_off y_off initial : Int) (dt inv : K)
    (density edgex edgey : List K) (cs_s cs_a : CrossSection K) (master_key : Nat)
    (p_off : Int) (b : BlockState K) (s s' : KernelState K) (log : List K)
    (hp : readAt b.particles (p_off + 0) = .ok s.particle)
    (hl : readAt b.lanes 0 = .ok s.lane) (ht : b.energy_deposition_tally = s.tally)
    (h : lane_timestep m c rng fuel passes nx pad x_off y_off initial dt inv density edgex edgey
      cs_s cs_a master_key 0 0 (if s.particle.dead = 0 ∧ initial ≠ 0 then 1 else 0) s =
        .ok (s', log)) :
    ∃ b' : BlockState K,
      handle_block m c rng fuel passes nx pad x_off y_off initial dt inv density edgex edgey
        cs_s cs_a master_key (p_off, 1) b = .ok b' ∧
      readAt b'.particles (p_off + 0) = .ok s'.particle ∧
      readAt b'.lanes 0 = .ok s'.lane ∧ b'.energy_deposition_tally = s'.tally := by
  unfold lane_timestep at h
  -- the cache initialisation
  have hinit : ∃ (b0 : BlockState K) (s0 : KernelState K),
      for_lanes 1
        (cache_init_body m c rng fuel nx pad x_off y_off initial dt density cs_s cs_a
          master_key p_off) { b with counter := 0 } = .ok b0 ∧
      readAt b0.particles (p_off + 0) = .ok s0.particle ∧
      readAt b0.lanes 0 = .ok s0.lane ∧ b0.energy_deposition_tally = s0.tally ∧
      lane_loop m c rng fuel nx pad x_off y_off inv edgex edgey cs_s cs_a master_key 0 passes
        b0.counter s0 = .ok (s', log) := by
    rw [for_lanes_one]
    unfold cache_init_body
    have hp' : readAt ({ b with counter := 0 } : BlockState K).particles (p_off + 0) =
        .ok s.particle := hp
    rw [hp']
    simp only [bind, Except.bind]
    by_cases hd : s.particle.dead ≠ 0
    · rw [if_pos hd] at h
      simp only [bind, Except.bind, pure, Except.pure] at h
      rw [if_pos hd]
      have hc : (if s.particle.dead = 0 ∧ initial ≠ 0 then 1 else 0) = 0 :=
        if_neg (fun hh => hd hh.1)
      rw [hc] at h
      exact ⟨_, s, rfl, hp, hl, ht, h⟩
    · rw [if_neg hd] at h
      rw [if_neg hd]
      cases h0 : cache_init_lane m c rng fuel nx pad x_off y_off initial dt density cs_s cs_a
          master_key 0 s with
      | error e => rw [h0] at h; exact nomatch h
      | ok s0 =>
        rw [h0] at h
        simp only [bind, Except.bind] at h
        obtain ⟨b1, hb1, hp1, hl1, ht1, hc1, -⟩ := on_lane_spec p_off
          (cache_init_lane m c rng fuel nx pad x_off y_off initial dt density cs_s cs_a
            master_key 0) { b with counter := 0 } s s0 hp hl ht h0
        have hb1' : on_lane p_off 0
            (cache_init_lane m c rng fuel nx pad x_off y_off initial dt density cs_s cs_a
              master_key ({ b with counter := 0 } : BlockState K).counter)
            { b with counter := 0 } = .ok b1 := hb1
        rw [hb1']
        simp only
        by_cases hi : initial ≠ 0
        · rw [if_pos hi]
          rw [if_pos ⟨not_not.mp hd, hi⟩] at h
          refine ⟨_, s0, rfl, hp1, hl1, ht1, ?_⟩
          show lane_loop m c rng fuel nx pad x_off y_off inv edgex edgey cs_s cs_a master_key 0
            passes ((b1.counter + 1) % 2 ^ 64) s0 = _
          rw [hc1]
          exact h
        · rw [if_neg hi]
          rw [if_neg (fun hh => hi hh.2)] at h
          refine ⟨_, s0, rfl, hp1, hl1, ht1, ?_⟩
          show lane_loop m c rng fuel nx pad x_off y_off inv edgex edgey cs_s cs_a master_key 0
            passes b1.counter s0 = _
          rw [hc1]
          exact h
  obtain ⟨b0, s0, hb0, hp0, hl0, ht0, hloop⟩ := hinit
  obtain ⟨b1, b', hw, hcen, hp', hl', ht'⟩ := block_while_one_lane m c rng fuel nx pad x_off
    y_off inv edgex edgey cs_s cs_a master_key p_off passes b0 s0 s' log hp0 hl0 ht0 hloop
  refine ⟨b', ?_, hp', hl', ht'⟩
  unfold handle_block
  simp only [bind, Except.bind]
  rw [hb0]
  simp only
  rw [hw]
  exact hcen

/-- For one local particle and one thread, `solve_transport_2d` does to the
particle what `lane_timestep` does with the incremented master key. -/
theorem solve_transport_2d_one_particle (m : Libm K) (c : Constants K)
    (rng : Nat → Nat → Nat → K × K) (fuel passes : Nat) (lanes0 : List (Lane K))
    (nx pad x_off y_off : Int) (dt : K) (ntotal_particles : Int)
    (density edgex edgey : List K) (cs_s cs_a : CrossSection K) (t : TransportState K)
    (s s' : KernelState K) (log : List K) (hn : t.nlocal_particles = 1)
    (hp : readAt t.particles 0 = .ok s.particle) (hl : readAt lanes0 0 = .ok s.lane)
    (ht : t.energy_deposition_tally = s.tally)
    (h : lane_timestep m c rng fuel passes nx pad x_off y_off 1 dt
      (1 / (ntotal_particles : K)) density edgex edgey cs_s cs_a
      ((t.master_key + 1) % 2 ^ 64) 0 0 (if s.particle.dead = 0 then 1 else 0) s =
        .ok (s', log)) :
    ∃ t' : TransportState K,
      solve_transport_2d m c rng fuel passes 1 lanes0 nx pad x_off y_off dt ntotal_particles
        density edgex edgey cs_s cs_a t = .ok t' ∧
      readAt t'.particles 0 = .ok s'.particle ∧ t'.energy_deposition_tally = s'.tally ∧
      t'.master_key = (t.master_key + 1) % 2 ^ 64 := by
  have hc : (if s.particle.dead = 0 then 1 else 0) =
      (if s.particle.dead = 0 ∧ (1 : Int) ≠ 0 then 1 else 0) := by
    by_cases hd : s.particle.dead = 0
    · rw [if_pos hd, if_pos ⟨hd, one_ne_zero⟩]
    · rw [if_neg hd, if_neg (fun hh => hd hh.1)]
  rw [hc] at h
  obtain ⟨b', hb', hp', -, ht'⟩ := handle_block_one_lane m c rng fuel passes nx pad x_off y_off 1
    dt (1 / (ntotal_particles : K)) density edgex edgey cs_s cs_a
    ((t.master_key + 1) % 2 ^ 64) 0
    { particles := t.particles, lanes := lanes0,
      energy_deposition_tally := t.energy_deposition_tally, nfacets := 0, ncollisions := 0,
      counter := 0, ncompleted := 0 } s s' log
    (by simpa using hp) hl ht h
  have hr : List.range (1 : Int).toNat = [0] := rfl
  have hb : thread_blocks 1 1 ((0 : Nat) : Int) = [(0, 1)] := by decide
  refine ⟨{ t with
      master_key := (t.master_key + 1) % 2 ^ 64
      particles := b'.particles
      energy_deposition_tally := b'.energy_deposition_tally
      facet_events := (t.facet_events + b'.nfacets) % 2 ^ 64
      collision_events := (t.collision_events + b'.ncollisions) % 2 ^ 64
      nlocal_particles := 1 }, ?_, by simpa using hp', ht', rfl⟩
  unfold solve_transport_2d
  simp only
  rw [if_neg (by rw [hn]; decide), hn]
  unfold handle_particles
  rw [hr]
  simp only [List.foldlM_cons, List.foldlM_nil]
  rw [hb]
  simp only [List.foldlM_cons, List.foldlM_nil, bind, Except.bind, pure, Except.pure]
  rw [hb']

end OneParticleLemmas

/-! ## Concrete runs of a lane -/

theorem ex_table_valid : (ex_table ℚ).valid := by
  norm_num [CrossSection.valid, ex_table]

theorem ex_table_lookup_3 : microscopic_cs_for_energy 11 (ex_table ℚ) 3 (-1) = .ok (30, 1) := by
  have h := @lookup_binary ℚ _ (ex_table ℚ) ex_table_valid 3 1 (by decide)
    (by norm_num [CrossSection.key, ex_table]) (by norm_num [CrossSection.key, ex_table]) 11
    (by decide) (-1) (by decide)
  rw [h]
  norm_num [CrossSection.key, CrossSection.value, ex_table]

theorem fresh_lane_init :
    cache_init_lane ex_libm (ex_constants ℚ) (ex_rng ℚ) 11 1 0 0 0 1 (1 / 36000) [1]
        (ex_table ℚ) (ex_table ℚ) 8 0 fresh_lane_state =
      .ok { particle := census_particle, lane := census_lane, tally := [0] } := by
  have he : fresh_lane_state.particle.energy = 3 := rfl
  unfold cache_init_lane
  rw [he, ex_table_lookup_3]
  norm_num [readAt, fresh_lane_state, ex_particle, ex_constants, ex_rng, ex_libm, blank_lane,
    census_particle, census_lane, bind, Except.bind, pure, Except.pure]

theorem census_lane_classified :
    calc_events_lane (ex_constants ℚ) 0 0 0 unit_edges unit_edges
        { particle := census_particle, lane := census_lane, tally := [0] } =
      .ok { particle := census_particle
            lane := { census_lane with
              cell_mfp := 1 / 60
              distance_to_facet := 5 / 8
              x_facet := 0
              next_event := .PARTICLE_CENSUS }
            tally := [0] } := by
  have hd : calc_distance_to_facet (ex_constants ℚ) census_particle.x census_particle.y 0 0 0
      census_particle.omega_x census_particle.omega_y census_lane.speed census_particle.cellx
      census_particle.celly unit_edges unit_edges = .ok (.fin (5 / 8), 0) := by
    rw [calc_distance_to_facet_eq (ex_constants ℚ) census_particle.x census_particle.y 0 0 0
      census_particle.omega_x census_particle.omega_y census_lane.speed census_particle.cellx
      census_particle.celly unit_edges unit_edges 0 1 0 1 rfl rfl rfl rfl]
    norm_num [XReal.recip, XReal.scale, XReal.lt, census_particle, census_lane, ex_particle,
      blank_lane]
  rw [calc_events_lane_live (ex_constants ℚ) 0 0 0 unit_edges unit_edges
    { particle := census_particle, lane := census_lane, tally := [0] } (5 / 8) 0 rfl hd]
  norm_num [select_event, census_particle, census_lane, ex_particle, blank_lane]

/-- A timestep of one lane: the particle of `fresh_lane_state` streams to the
census. -/
theorem fresh_lane_run :
    ∃ (s' : KernelState ℚ) (deposited : List ℚ),
      lane_timestep ex_libm (ex_constants ℚ) (ex_rng ℚ) 11 2 1 0 0 0 1 (1 / 36000)
        (1 / ((1 : Int) : ℚ)) [1] unit_edges unit_edges (ex_table ℚ) (ex_table ℚ) 8 0 0 1
        fresh_lane_state = .ok (s', deposited) ∧ deposited.length = 1 := by
  have hlive : ¬ fresh_lane_state.particle.dead ≠ 0 := not_not.mpr rfl
  unfold lane_timestep
  rw [if_neg hlive, fresh_lane_init]
  simp only [bind, Except.bind]
  unfold lane_loop
  rw [census_lane_classified]
  simp only [bind, Except.bind]
  unfold census_phase
  rw [if_neg (not_not.mpr rfl)]
  rw [census_event_spec (ex_constants ℚ) 1 0 0 (1 / ((1 : Int) : ℚ)) _ _ _ (by decide)
    (by decide)]
  exact ⟨_, _, rfl, rfl⟩

/-- A timestep of one particle on one thread. -/
theorem one_particle_run :
    ∃ t' : TransportState ℚ,
      solve_transport_2d ex_libm (ex_constants ℚ) (ex_rng ℚ) 11 2 1
        (List.replicate 32 blank_lane) 1 0 0 0 (1 / 36000) 1 [1] unit_edges unit_edges
        (ex_table ℚ) (ex_table ℚ) one_particle_state = .ok t' := by
  obtain ⟨s', deposited, h, -⟩ := fresh_lane_run
  obtain ⟨t', ht', -⟩ := solve_transport_2d_one_particle ex_libm (ex_constants ℚ) (ex_rng ℚ) 11
    2 (List.replicate 32 blank_lane) 1 0 0 0 (1 / 36000) 1 [1] unit_edges unit_edges
    (ex_table ℚ) (ex_table ℚ) one_particle_state fresh_lane_state s' deposited rfl rfl rfl rfl h
  exact ⟨t', ht'⟩

/-! ## Concrete runs of the position examples -/

theorem sliver_state_ready :
    collision_ready (ex_constants ℚ) (ex_rng ℚ) 11 1 0 0 (ex_table ℚ) (ex_table ℚ) 0 0
      sliver_state :=
  @ex_state_ready ℚ _ (1 / 2) (1 / 2) 0

theorem sliver_state_distance :
    calc_distance_to_facet (ex_constants ℚ) sliver_state.particle.x sliver_state.particle.y
        0 0 0 sliver_state.particle.omega_x sliver_state.particle.omega_y
        sliver_state.lane.speed sliver_state.particle.cellx sliver_state.particle.celly
        unit_edges unit_edges = .ok (.fin (51 / 100), 1) := by
  rw [calc_distance_to_facet_eq (ex_constants ℚ) sliver_state.particle.x
    sliver_state.particle.y 0 0 0 sliver_state.particle.omega_x sliver_state.particle.omega_y
    sliver_state.lane.speed sliver_state.particle.cellx sliver_state.particle.celly
    unit_edges unit_edges 0 1 0 1 rfl rfl rfl rfl]
  norm_num [XReal.recip, XReal.scale, XReal.lt, sliver_state, ex_particle, ex_lane,
    ex_constants]

theorem edge_state_distance :
    calc_distance_to_facet (ex_constants ℚ) edge_state.particle.x edge_state.particle.y
        0 0 0 edge_state.particle.omega_x edge_state.particle.omega_y
        edge_state.lane.speed edge_state.particle.cellx edge_state.particle.celly
        unit_edges unit_edges = .ok (.fin (1 / 2), 1) := by
  rw [calc_distance_to_facet_eq (ex_constants ℚ) edge_state.particle.x
    edge_state.particle.y 0 0 0 edge_state.particle.omega_x edge_state.particle.omega_y
    edge_state.lane.speed edge_state.particle.cellx edge_state.particle.celly
    unit_edges unit_edges 0 1 0 1 rfl rfl rfl rfl]
  norm_num [XReal.recip, XReal.scale, XReal.lt, edge_state, ex_particle, ex_lane,
    ex_constants]

/-! ## The energy deposition -/

section DepositionLemmas

variable {K : Type} [LinearOrderedField K]

theorem mass_ratio_le_one (A : K) (hA : 0 ≤ A) :
    (A * A + A + 1) / ((A + 1) * (A + 1)) ≤ 1 := by
  have hpos : (0 : K) < (A + 1) * (A + 1) := by positivity
  rw [div_le_one hpos]
  nlinarith

theorem mass_ratio_nonneg (A : K) (hA : 0 ≤ A) :
    0 ≤ (A * A + A + 1) / ((A + 1) * (A + 1)) := by
  positivity

end DepositionLemmas

/-! ## Fuel of the binary search -/

theorem readAt_error {α : Type} (a : List α) (i : Int) (f : Fault)
    (h : readAt a i = .error f) : f = .outOfBounds := by
  unfold readAt at h
  split at h
  · exact (Except.error.inj h).symm
  · split at h
    · exact nomatch h
    · exact (Except.error.inj h).symm

section FuelLemmas

variable {K : Type} [LinearOrderedField K]

/-- More fuel does not change a result of the binary search other than
running out of fuel. -/
theorem binary_search_fuel_mono (cs : CrossSection K) (e : K) (fuel : Nat) :
    ∀ (ind w : Int) (r : Except Fault Int), binary_search cs e fuel ind w = r →
      r ≠ .error .outOfFuel → ∀ k : Nat, binary_search cs e (fuel + k) ind w = r := by
  induction fuel with
  | zero =>
    intro ind w r h hr
    exact absurd h.symm hr
  | succ fuel ih =>
    intro ind w r h hr k
    have hk : fuel + 1 + k = (fuel + k) + 1 := by omega
    rw [hk]
    cases hk0 : readAt cs.keys ind with
    | error f =>
      have hf := readAt_error _ _ _ hk0
      subst hf
      rw [binary_search_fault fuel hk0] at h
      rw [binary_search_fault (fuel + k) hk0]
      exact h
    | ok k0 =>
      by_cases hlt : e < k0
      · rw [binary_search_down fuel hk0 hlt] at h
        rw [binary_search_down (fuel + k) hk0 hlt]
        exact ih _ _ r h hr k
      · cases hk1 : readAt cs.keys (ind + 1) with
        | error f =>
          have hf := readAt_error _ _ _ hk1
          subst hf
          rw [binary_search_fault_next fuel hk0 hlt hk1] at h
          rw [binary_search_fault_next (fuel + k) hk0 hlt hk1]
          exact h
        | ok k1 =>
          by_cases hge : k1 ≤ e
          · rw [binary_search_up fuel hk0 hlt hk1 hge] at h
            rw [binary_search_up (fuel + k) hk0 hlt hk1 hge]
            exact ih _ _ r h hr k
          · rw [binary_search_found fuel hk0 hlt hk1 (not_le.mp hge)] at h
            rw [binary_search_found (fuel + k) hk0 hlt hk1 (not_le.mp hge)]
            exact h

/-- In binary-search mode a lookup that does not run out of fuel gives the same
result with more fuel. -/
theorem binary_lookup_fuel_mono (cs : CrossSection K) (e : K) (fuel k : Nat) (hint : Int)
    (hh : hint ≤ -1)
    (h : microscopic_cs_for_energy fuel cs e hint ≠ .error .outOfFuel) :
    microscopic_cs_for_energy (fuel + k) cs e hint = microscopic_cs_for_energy fuel cs e hint := by
  have hneg : ¬ hint > -1 := by omega
  cases hr : binary_search cs e fuel (Int.tdiv cs.nentries 2)
      (Int.tdiv (Int.tdiv cs.nentries 2) 2) with
  | error f =>
    by_cases hf : f = .outOfFuel
    · subst hf
      exfalso
      apply h
      unfold microscopic_cs_for_energy find_energy_group
      rw [if_neg hneg, hr]
      rfl
    · have hne : (Except.error f : Except Fault Int) ≠ .error .outOfFuel :=
        fun hc => hf (Except.error.inj hc)
      have hr' := binary_search_fuel_mono cs e fuel _ _ _ hr hne k
      unfold microscopic_cs_for_energy find_energy_group
      rw [if_neg hneg, if_neg hneg, hr, hr']
  | ok ind =>
    have hr' := binary_search_fuel_mono cs e fuel _ _ _ hr (fun hc => nomatch hc) k
    unfold microscopic_cs_for_energy find_energy_group
    rw [if_neg hneg, if_neg hneg, hr, hr']

end FuelLemmas

/-! ## Live particles of a block -/

theorem nlive_add (dead : List Int) (j k : Nat) (a : Int) :
    nlive dead (j + k) a = nlive dead j a + nlive dead k (a + j) := by
  induction j generalizing a with
  | zero => simp [nlive]
  | succ j ih =>
    have e : j + 1 + k = (j + k) + 1 := by omega
    rw [e, nlive, nlive, ih (a + 1)]
    have e2 : a + 1 + (j : Int) = a + ((j + 1 : Nat) : Int) := by push_cast; ring
    rw [e2]
    omega

/-- A live particle of a block: the live particles before it are fewer than
the live particles of the block. -/
theorem nlive_before_lt (dead : List Int) (a : Int) (lane np : Nat) (hl : lane < np)
    (hlive : dead.getD (a + lane).toNat 1 = 0) :
    nlive dead lane a < nlive dead np a := by
  obtain ⟨r, rfl⟩ : ∃ r, np = lane + (1 + r) := ⟨np - lane - 1, by omega⟩
  rw [nlive_add, nlive_add dead 1 r]
  have h1 : nlive dead 1 (a + lane) = 1 := by
    simp only [nlive]
    rw [if_pos hlive]
  omega

/-! ## The lane after a collision -/

section RefreshLemmas

variable {K : Type} [LinearOrderedField K]

/-- A served lookup gives the result of the lookup without a hint. -/
theorem CrossSection.lookup_served_binary {cs : CrossSection K} {e : K} {hint : Int}
    {fuel : Nat} (h : cs.serves e hint fuel) :
    microscopic_cs_for_energy fuel cs e hint = microscopic_cs_for_energy fuel cs e (-1) := by
  obtain ⟨hv, hlo, hhi, hh, hf⟩ := h
  have hn := hv.2.1
  have hlast : (cs.nentries - 1).toNat = cs.keys.length - 1 := by omega
  rw [hlast] at hhi
  obtain ⟨t, ht, h0, h1⟩ := cs.bracket_exists hv hlo hhi
  rw [lookup_binary hv ht h0 h1 fuel (by omega) (-1) le_rfl]
  by_cases hneg : hint ≤ -1
  · exact lookup_binary hv ht h0 h1 fuel (by omega) hint hneg
  · exact lookup_hinted hv ht h0 h1 fuel (by omega) hint (by omega) (by omega)

/-- The state of a particle that survives `collision_event`, and of its
lane. -/
theorem collision_event_refreshed (m : Libm K) (c : Constants K)
    (rng : Nat → Nat → Nat → K × K) (fuel : Nat) (nx x_off y_off : Int)
    (inv d local_density : K) (cs_s cs_a : CrossSection K) (counter_off master_key : Nat)
    (s : KernelState K)
    (hready : collision_ready c rng fuel nx x_off y_off cs_s cs_a counter_off master_key s) :
    ∃ s' : KernelState K,
      collision_event m c rng fuel nx x_off y_off inv d local_density cs_s cs_a counter_off
        master_key s = .ok s' ∧
      (s'.particle.dead = 0 →
        s'.particle.energy = energy_after_collision c rng counter_off master_key s ∧
        s'.particle.key = s.particle.key ∧
        s'.particle.dt_to_census = s.particle.dt_to_census - d / s.lane.speed ∧
        cs_s.serves s'.particle.energy s.lane.scatter_cs_index fuel ∧
        cs_a.serves s'.particle.energy s.lane.absorb_cs_index fuel ∧
        microscopic_cs_for_energy fuel cs_s s'.particle.energy s.lane.scatter_cs_index =
          .ok (s'.lane.microscopic_cs_scatter, s'.lane.scatter_cs_index) ∧
        microscopic_cs_for_energy fuel cs_a s'.particle.energy s.lane.absorb_cs_index =
          .ok (s'.lane.microscopic_cs_absorb, s'.lane.absorb_cs_index) ∧
        s'.lane.number_density = local_density * c.AVOGADROS / c.MOLAR_MASS ∧
        s'.lane.macroscopic_cs_scatter =
          local_density * c.AVOGADROS / c.MOLAR_MASS * s'.lane.microscopic_cs_scatter *
            c.BARNS ∧
        s'.lane.macroscopic_cs_absorb =
          local_density * c.AVOGADROS / c.MOLAR_MASS * s'.lane.microscopic_cs_absorb *
            c.BARNS ∧
        s'.lane.speed = m.sqrt ((2 * s'.particle.energy * c.eV_TO_J) / c.PARTICLE_MASS) ∧
        s'.lane.rn = rng master_key s.particle.key ((counter_off + 1) % 2 ^ 64) ∧
        s'.particle.mfp_to_collision =
          -m.log (rng master_key s.particle.key ((counter_off + 1) % 2 ^ 64)).1 /
            s'.lane.macroscopic_cs_scatter) := by
  obtain ⟨hlive, hr⟩ := hready
  have htally : (rng master_key s.particle.key counter_off).1 <
        s.lane.macroscopic_cs_absorb /
          (s.lane.macroscopic_cs_scatter + s.lane.macroscopic_cs_absorb) →
      s.particle.energy < c.MIN_ENERGY_OF_INTEREST →
      0 ≤ (s.particle.celly - y_off) * nx + (s.particle.cellx - x_off) ∧
        (s.particle.celly - y_off) * nx + (s.particle.cellx - x_off) < s.tally.length := by
    intro h1 h2
    rw [if_pos ⟨h1, h2⟩] at hr
    exact hr
  obtain ⟨s1, h1, -, -, -, -, hkey, hdt, hen, hsi, hai, hsp, habsf, -⟩ :=
    collision_outcome_spec m c rng nx x_off y_off inv d counter_off master_key s htally
  by_cases hdead : s1.particle.dead ≠ 0
  · exact ⟨s1, collision_event_dead m c rng fuel nx x_off y_off inv d local_density cs_s cs_a
      counter_off master_key s s1 h1 hdead, fun h => absurd h hdead⟩
  · have hd0 : s1.particle.dead = 0 := not_not.mp hdead
    have hsurv : ¬ ((rng master_key s.particle.key counter_off).1 <
          s.lane.macroscopic_cs_absorb /
            (s.lane.macroscopic_cs_scatter + s.lane.macroscopic_cs_absorb) ∧
        s.particle.energy < c.MIN_ENERGY_OF_INTEREST) := by
      intro h
      have := (habsf h.1).2.2.2.2.1 h.2
      rw [hd0] at this
      exact zero_ne_one this
    rw [if_neg hsurv, ← hen, ← hsi, ← hai] at hr
    obtain ⟨ts, -, hs'⟩ := CrossSection.lookup_served hr.1
    obtain ⟨ta, -, ha'⟩ := CrossSection.lookup_served hr.2
    have h3 := collision_refresh_ok m c rng fuel d local_density cs_s cs_a counter_off
      master_key s1 _ _ hs' ha'
    have h2 := collision_event_live m c rng fuel nx x_off y_off inv d local_density cs_s cs_a
      counter_off master_key s s1 h1 hd0
    rw [h3] at h2
    refine ⟨_, h2, fun _ => ⟨hen, hkey, ?_, ?_, ?_, ?_, ?_, rfl, rfl, rfl, rfl, ?_, ?_⟩⟩
    · show s1.particle.dt_to_census - d / s1.lane.speed = _
      rw [hdt, hsp]
    · rw [← hsi]; exact hr.1
    · rw [← hai]; exact hr.2
    · rw [← hsi]; exact hs'
    · rw [← hai]; exact ha'
    · show rng master_key s1.particle.key _ = _
      rw [hkey]
    · show -m.log (rng master_key s1.particle.key _).1 / _ = _
      rw [hkey]

end RefreshLemmas

/-! ## Concrete runs without absorption, and of a scatter -/

theorem ex_zero_table_valid : (ex_zero_table ℚ).valid := by
  norm_num [CrossSection.valid, ex_zero_table]

theorem ex_zero_table_lookup_3 :
    microscopic_cs_for_energy 11 (ex_zero_table ℚ) 3 (-1) = .ok (0, 1) := by
  have h := @lookup_binary ℚ _ (ex_zero_table ℚ) ex_zero_table_valid 3 1 (by decide)
    (by norm_num [CrossSection.key, ex_zero_table])
    (by norm_num [CrossSection.key, ex_zero_table]) 11 (by decide) (-1) (by decide)
  rw [h]
  norm_num [CrossSection.key, CrossSection.value, ex_zero_table]

theorem scatter_lane_init :
    cache_init_lane ex_libm (ex_constants ℚ) (ex_rng ℚ) 11 1 0 0 0 1 (1 / 36000) [1]
        (ex_table ℚ) (ex_zero_table ℚ) 8 0 fresh_lane_state =
      .ok { particle := census_particle, lane := scatter_lane, tally := [0] } := by
  have he : fresh_lane_state.particle.energy = 3 := rfl
  unfold cache_init_lane
  rw [he, ex_table_lookup_3, ex_zero_table_lookup_3]
  norm_num [readAt, fresh_lane_state, ex_particle, ex_constants, ex_rng, ex_libm, blank_lane,
    census_particle, census_lane, scatter_lane, bind, Except.bind, pure, Except.pure]

theorem scatter_lane_classified :
    calc_events_lane (ex_constants ℚ) 0 0 0 unit_edges unit_edges
        { particle := census_particle, lane := scatter_lane, tally := [0] } =
      .ok { particle := census_particle
            lane := { scatter_lane with
              cell_mfp := 1 / 30
              distance_to_facet := 5 / 8
              x_facet := 0
              next_event := .PARTICLE_CENSUS }
            tally := [0] } := by
  have hd : calc_distance_to_facet (ex_constants ℚ) census_particle.x census_particle.y 0 0 0
      census_particle.omega_x census_particle.omega_y scatter_lane.speed census_particle.cellx
      census_particle.celly unit_edges unit_edges = .ok (.fin (5 / 8), 0) := by
    rw [calc_distance_to_facet_eq (ex_constants ℚ) census_particle.x census_particle.y 0 0 0
      census_particle.omega_x census_particle.omega_y scatter_lane.speed census_particle.cellx
      census_particle.celly unit_edges unit_edges 0 1 0 1 rfl rfl rfl rfl]
    norm_num [XReal.recip, XReal.scale, XReal.lt, census_particle, census_lane, scatter_lane,
      ex_particle, blank_lane]
  rw [calc_events_lane_live (ex_constants ℚ) 0 0 0 unit_edges unit_edges
    { particle := census_particle, lane := scatter_lane, tally := [0] } (5 / 8) 0 rfl hd]
  norm_num [select_event, census_particle, census_lane, scatter_lane, ex_particle, blank_lane]

/-- A timestep of one lane without absorption: the particle of
`fresh_lane_state` streams to the census and deposits `3/800`. -/
theorem scatter_lane_run :
    ∃ (s' : KernelState ℚ) (deposited : List ℚ),
      lane_timestep ex_libm (ex_constants ℚ) (ex_rng ℚ) 11 2 1 0 0 0 1 (1 / 36000)
        (1 / ((1 : Int) : ℚ)) [1] unit_edges unit_edges (ex_table ℚ) (ex_zero_table ℚ) 8 0 0 1
        fresh_lane_state = .ok (s', deposited) ∧
      s'.tally = [3 / 800] ∧ s'.particle.weight = 1 ∧ s'.particle.dead = 0 ∧
      s'.particle.dt_to_census = 0 := by
  have hlive : ¬ fresh_lane_state.particle.dead ≠ 0 := not_not.mpr rfl
  unfold lane_timestep
  rw [if_neg hlive, scatter_lane_init]
  simp only [bind, Except.bind]
  unfold lane_loop
  rw [scatter_lane_classified]
  simp only [bind, Except.bind]
  unfold census_phase
  rw [if_neg (not_not.mpr rfl)]
  rw [census_event_spec (ex_constants ℚ) 1 0 0 (1 / ((1 : Int) : ℚ)) _ _ _ (by decide)
    (by decide)]
  refine ⟨_, _, rfl, ?_, rfl, rfl, rfl⟩
  norm_num [calculate_energy_deposition, census_particle, scatter_lane, census_lane,
    ex_particle, ex_constants, blank_lane]

/-- A timestep of one particle on one thread without absorption: the particle
reaches its census alive with its weight unchanged, and the tally entry of its
cell is `3/800`. -/
theorem scatter_only_run :
    ∃ (t' : TransportState ℚ) (p : Particle ℚ),
      solve_transport_2d ex_libm (ex_constants ℚ) (ex_rng ℚ) 11 2 1
        (List.replicate 32 blank_lane) 1 0 0 0 (1 / 36000) 1 [1] unit_edges unit_edges
        (ex_table ℚ) (ex_zero_table ℚ) one_particle_state = .ok t' ∧
      t'.energy_deposition_tally = [3 / 800] ∧ readAt t'.particles 0 = .ok p ∧
      p.weight = 1 ∧ p.dead = 0 ∧ p.dt_to_census = 0 := by
  obtain ⟨s', deposited, h, htally, hw, hd, hdt⟩ := scatter_lane_run
  obtain ⟨t', ht', hp, hty, -⟩ := solve_transport_2d_one_particle ex_libm (ex_constants ℚ)
    (ex_rng ℚ) 11 2 (List.replicate 32 blank_lane) 1 0 0 0 (1 / 36000) 1 [1] unit_edges
    unit_edges (ex_table ℚ) (ex_zero_table ℚ) one_particle_state fresh_lane_state s' deposited
    rfl rfl rfl rfl h
  exact ⟨t', s'.particle, ht', hty.trans htally, hp, hw, hd, hdt⟩

theorem streaming_state_ready :
    collision_ready (ex_constants ℚ) (ex_rng ℚ) 11 1 0 0 (ex_table ℚ) (ex_table ℚ) 0 0
      streaming_state :=
  @ex_state_ready ℚ _ 3 1 1

/-- The collision of `streaming_state` is a scatter to the energy `3/2`, which
the particle survives. -/
theorem streaming_state_scatters (s' : KernelState ℚ) (d : ℚ)
    (h : collision_event ex_libm (ex_constants ℚ) (ex_rng ℚ) 11 1 0 0 1 d 1 (ex_table ℚ)
      (ex_table ℚ) 0 0 streaming_state = .ok s') :
    s'.particle.dead = 0 ∧ s'.particle.energy = 3 / 2 := by
  obtain ⟨s'', h', -, -, -, -, -, -, hsc⟩ := collision_event_spec ex_libm (ex_constants ℚ)
    (ex_rng ℚ) 11 1 0 0 1 d 1 (ex_table ℚ) (ex_table ℚ) 0 0 streaming_state
    streaming_state_ready
  rw [h] at h'
  obtain rfl := Except.ok.inj h'
  obtain ⟨-, he, -, -, hd, -⟩ := hsc (by norm_num [streaming_state, ex_lane, ex_rng])
  refine ⟨hd, ?_⟩
  rw [he]
  norm_num [scatter_energy, streaming_state, ex_particle, ex_constants, ex_rng]

/-! ## Concrete runs of a lane with a collision -/

theorem ex_table_lookup_hinted :
    microscopic_cs_for_energy 11 (ex_table ℚ) (3 / 2) 1 = .ok (15, 0) := by
  have h := @lookup_hinted ℚ _ (ex_table ℚ) ex_table_valid (3 / 2) 0 (by decide)
    (by norm_num [CrossSection.key, ex_table]) (by norm_num [CrossSection.key, ex_table]) 11
    (by decide) 1 (by decide) (by decide)
  rw [h]
  norm_num [CrossSection.key, CrossSection.value, ex_table]

theorem collide_lane_init :
    cache_init_lane ex_libm (ex_constants ℚ) (ex_rng ℚ) 11 1 0 0 0 1 (1 / 6000) [1]
        (ex_table ℚ) (ex_table ℚ) 8 0 fresh_lane_state =
      .ok { particle := collide_particle, lane := census_lane, tally := [0] } := by
  have he : fresh_lane_state.particle.energy = 3 := rfl
  unfold cache_init_lane
  rw [he, ex_table_lookup_3]
  norm_num [readAt, fresh_lane_state, ex_particle, ex_constants, ex_rng, ex_libm, blank_lane,
    collide_particle, census_lane, bind, Except.bind, pure, Except.pure]

theorem collide_lane_classified :
    calc_events_lane (ex_constants ℚ) 0 0 0 unit_edges unit_edges
        { particle := collide_particle, lane := census_lane, tally := [0] } =
      .ok { particle := collide_particle, lane := collide_lane, tally := [0] } := by
  have hd : calc_distance_to_facet (ex_constants ℚ) collide_particle.x collide_particle.y 0 0 0
      collide_particle.omega_x collide_particle.omega_y census_lane.speed collide_particle.cellx
      collide_particle.celly unit_edges unit_edges = .ok (.fin (5 / 8), 0) := by
    rw [calc_distance_to_facet_eq (ex_constants ℚ) collide_particle.x collide_particle.y 0 0 0
      collide_particle.omega_x collide_particle.omega_y census_lane.speed collide_particle.cellx
      collide_particle.celly unit_edges unit_edges 0 1 0 1 rfl rfl rfl rfl]
    norm_num [XReal.recip, XReal.scale, XReal.lt, collide_particle, census_lane, ex_particle,
      blank_lane]
  rw [calc_events_lane_live (ex_constants ℚ) 0 0 0 unit_edges unit_edges
    { particle := collide_particle, lane := census_lane, tally := [0] } (5 / 8) 0 rfl hd]
  norm_num [select_event, collide_particle, collide_lane, census_lane, ex_particle, blank_lane]

theorem collide_lane_collision :
    collision_phase ex_libm (ex_constants ℚ) (ex_rng ℚ) 11 1 0 0 (1 / ((1 : Int) : ℚ))
        (ex_table ℚ) (ex_table ℚ) (collision_counter 0 1) 8
        { particle := collide_particle, lane := collide_lane, tally := [0] } =
      .ok { particle := scattered_particle, lane := scattered_lane, tally := [0] } := by
  have hsc : ¬ (ex_rng ℚ 8 collide_particle.key (collision_counter 0 1)).1 <
      collide_lane.macroscopic_cs_absorb /
        (collide_lane.macroscopic_cs_scatter + collide_lane.macroscopic_cs_absorb) := by
    norm_num [ex_rng, collide_lane, census_lane, blank_lane]
  have h1 := collision_outcome_scatter ex_libm (ex_constants ℚ) (ex_rng ℚ) 1 0 0
    (1 / ((1 : Int) : ℚ)) (collide_particle.mfp_to_collision * collide_lane.cell_mfp)
    (collision_counter 0 1) 8
    { particle := collide_particle, lane := collide_lane, tally := [0] } hsc
  have he : scatter_energy (ex_constants ℚ) collide_particle.energy
      (ex_rng ℚ 8 collide_particle.key (collision_counter 0 1)).2 = 3 / 2 := by
    norm_num [scatter_energy, collide_particle, ex_particle, ex_constants, ex_rng]
  rw [he] at h1
  rw [collision_phase_collision _ _ _ _ _ _ _ _ _ _ _ _ _ rfl]
  rw [collision_event_live _ _ _ _ _ _ _ _ _ _ _ _ _ _ _ _ h1 rfl]
  rw [collision_refresh_ok _ _ _ _ _ _ _ _ _ _ _ (15, 0) (15, 0) ex_table_lookup_hinted
    ex_table_lookup_hinted]
  norm_num [scatter_cos_theta, calculate_energy_deposition, collide_particle, collide_lane,
    scattered_particle, scattered_lane, census_lane, blank_lane, ex_particle, ex_constants,
    ex_rng, ex_libm]

theorem scattered_lane_classified :
    calc_events_lane (ex_constants ℚ) 0 0 0 unit_edges unit_edges
        { particle := scattered_particle, lane := scattered_lane, tally := [0] } =
      .ok { particle := scattered_particle
            lane := { scattered_lane with
              cell_mfp := 1 / 30
              distance_to_facet := 2249 / 3825
              x_facet := 0
              next_event := .PARTICLE_CENSUS }
            tally := [0] } := by
  have hd : calc_distance_to_facet (ex_constants ℚ) scattered_particle.x scattered_particle.y
      0 0 0 scattered_particle.omega_x scattered_particle.omega_y scattered_lane.speed
      scattered_particle.cellx scattered_particle.celly unit_edges unit_edges =
        .ok (.fin (2249 / 3825), 0) := by
    rw [calc_distance_to_facet_eq (ex_constants ℚ) scattered_particle.x scattered_particle.y
      0 0 0 scattered_particle.omega_x scattered_particle.omega_y scattered_lane.speed
      scattered_particle.cellx scattered_particle.celly unit_edges unit_edges 0 1 0 1 rfl rfl
      rfl rfl]
    norm_num [XReal.recip, XReal.scale, XReal.lt, scattered_particle, scattered_lane,
      ex_constants]
  rw [calc_events_lane_live (ex_constants ℚ) 0 0 0 unit_edges unit_edges
    { particle := scattered_particle, lane := scattered_lane, tally := [0] } (2249 / 3825) 0
    rfl hd]
  norm_num [select_event, scattered_particle, scattered_lane]

/-- A timestep of one lane with a collision: the particle of
`fresh_lane_state` streams the distance `1/3600` to a collision, which scatters
it and keeps the deposition `1/32` in the lane, then streams the distance
`13/36000` to its census, where the deposition `13/1280` is added and the sum
is written to the tally. -/
theorem collide_lane_run :
    ∃ s' : KernelState ℚ,
      lane_timestep ex_libm (ex_constants ℚ) (ex_rng ℚ) 11 2 1 0 0 0 1 (1 / 6000)
        (1 / ((1 : Int) : ℚ)) [1] unit_edges unit_edges (ex_table ℚ) (ex_table ℚ) 8 0 0 1
        fresh_lane_state = .ok (s', [1 / 32, 13 / 1280]) ∧
      s'.tally = [53 / 1280] ∧ s'.particle.dead = 0 := by
  have hlive : ¬ fresh_lane_state.particle.dead ≠ 0 := not_not.mpr rfl
  have hfacet : facet_phase
      { particle := scattered_particle, lane := scattered_lane, tally := [0] } =
      { particle := scattered_particle, lane := scattered_lane, tally := [0] } := rfl
  have hdep1 : event_deposition (ex_constants ℚ)
      { particle := collide_particle, lane := collide_lane, tally := [0] } = [1 / 32] := by
    norm_num [event_deposition, calculate_energy_deposition, collide_particle, collide_lane,
      census_lane, blank_lane, ex_particle, ex_constants]
  have hdep2 : event_deposition (ex_constants ℚ)
      { particle := scattered_particle
        lane := { scattered_lane with
          cell_mfp := 1 / 30
          distance_to_facet := 2249 / 3825
          x_facet := 0
          next_event := .PARTICLE_CENSUS }
        tally := [0] } = [13 / 1280] := by
    norm_num [event_deposition, calculate_energy_deposition, scattered_particle,
      scattered_lane, ex_constants]
  unfold lane_timestep
  rw [if_neg hlive, collide_lane_init]
  simp only [bind, Except.bind]
  unfold lane_loop
  rw [collide_lane_classified]
  have hne : collide_lane.next_event = .PARTICLE_COLLISION := rfl
  simp only [bind, Except.bind, hne]
  rw [collide_lane_collision]
  simp only
  rw [hfacet, hdep1]
  unfold lane_loop
  rw [scattered_lane_classified]
  simp only [bind, Except.bind]
  rw [hdep2, census_phase_census _ _ _ _ _ _ rfl]
  rw [census_event_spec (ex_constants ℚ) 1 0 0 (1 / ((1 : Int) : ℚ)) _ _ _ (by decide)
    (by decide)]
  refine ⟨_, rfl, ?_, rfl⟩
  norm_num [calculate_energy_deposition, scattered_particle, scattered_lane, ex_constants]

theorem doomed_lane_init :
    cache_init_lane ex_libm cutoff_constants absorbing_rng 11 1 0 0 0 1 (1 / 6000) [1]
        (ex_table ℚ) (ex_table ℚ) 8 0 fresh_lane_state =
      .ok { particle := doomed_particle, lane := doomed_lane, tally := [0] } := by
  have he : fresh_lane_state.particle.energy = 3 := rfl
  unfold cache_init_lane
  rw [he, ex_table_lookup_3]
  norm_num [readAt, fresh_lane_state, ex_particle, cutoff_constants, ex_constants,
    absorbing_rng, ex_libm, blank_lane, doomed_particle, doomed_lane, census_lane, bind,
    Except.bind, pure, Except.pure]

theorem doomed_lane_classified :
    calc_events_lane cutoff_constants 0 0 0 unit_edges unit_edges
        { particle := doomed_particle, lane := doomed_lane, tally := [0] } =
      .ok { particle := doomed_particle
            lane := { doomed_lane with
              cell_mfp := 1 / 60
              distance_to_facet := 5 / 8
              x_facet := 0
              next_event := .PARTICLE_COLLISION }
            tally := [0] } := by
  have hd : calc_distance_to_facet cutoff_constants doomed_particle.x doomed_particle.y 0 0 0
      doomed_particle.omega_x doomed_particle.omega_y doomed_lane.speed doomed_particle.cellx
      doomed_particle.celly unit_edges unit_edges = .ok (.fin (5 / 8), 0) := by
    rw [calc_distance_to_facet_eq cutoff_constants doomed_particle.x doomed_particle.y 0 0 0
      doomed_particle.omega_x doomed_particle.omega_y doomed_lane.speed doomed_particle.cellx
      doomed_particle.celly unit_edges unit_edges 0 1 0 1 rfl rfl rfl rfl]
    norm_num [XReal.recip, XReal.scale, XReal.lt, doomed_particle, doomed_lane, census_lane,
      ex_particle, blank_lane]
  rw [calc_events_lane_live cutoff_constants 0 0 0 unit_edges unit_edges
    { particle := doomed_particle, lane := doomed_lane, tally := [0] } (5 / 8) 0 rfl hd]
  norm_num [select_event, doomed_particle, doomed_lane, census_lane, ex_particle, blank_lane]

theorem doomed_lane_collision :
    collision_phase ex_libm cutoff_constants absorbing_rng 11 1 0 0 (1 / ((1 : Int) : ℚ))
        (ex_table ℚ) (ex_table ℚ) (collision_counter 0 1) 8
        { particle := doomed_particle
          lane := { doomed_lane with
            cell_mfp := 1 / 60
            distance_to_facet := 5 / 8
            x_facet := 0
            next_event := .PARTICLE_COLLISION }
          tally := [0] } =
      .ok { particle := absorbed_particle
            lane := { doomed_lane with
              cell_mfp := 1 / 60
              distance_to_facet := 5 / 8
              x_facet := 0
              next_event := .PARTICLE_COLLISION
              energy_deposition := 0 }
            tally := [3 / 64] } := by
  have h1 := collision_outcome_absorb_dead ex_libm cutoff_constants absorbing_rng 1 0 0
    (1 / ((1 : Int) : ℚ)) (doomed_particle.mfp_to_collision * (1 / 60))
    (collision_counter 0 1) 8
    { particle := doomed_particle
      lane := { doomed_lane with
        cell_mfp := 1 / 60
        distance_to_facet := 5 / 8
        x_facet := 0
        next_event := .PARTICLE_COLLISION }
      tally := [0] }
    (by norm_num [absorbing_rng, doomed_lane, census_lane, blank_lane])
    (by norm_num [doomed_particle, ex_particle, cutoff_constants])
    (by decide) (by decide)
  rw [collision_phase_collision _ _ _ _ _ _ _ _ _ _ _ _ _ rfl]
  rw [collision_event_dead _ _ _ _ _ _ _ _ _ _ _ _ _ _ _ _ h1 (by decide)]
  norm_num [calculate_energy_deposition, doomed_particle, doomed_lane, absorbed_particle,
    census_lane, blank_lane, ex_particle, cutoff_constants, ex_constants]

/-- A timestep of one lane that ends in the death of the particle: the particle
of `fresh_lane_state` streams the distance `1/2400` to a collision, is absorbed
below the energy of interest, and the deposition `3/64` of the segment is
written to the tally at once. -/
theorem doomed_lane_run :
    ∃ s' : KernelState ℚ,
      lane_timestep ex_libm cutoff_constants absorbing_rng 11 2 1 0 0 0 1 (1 / 6000)
        (1 / ((1 : Int) : ℚ)) [1] unit_edges unit_edges (ex_table ℚ) (ex_table ℚ) 8 0 0 1
        fresh_lane_state = .ok (s', [3 / 64]) ∧
      s'.tally = [3 / 64] ∧ s'.particle.dead = 1 := by
  have hlive : ¬ fresh_lane_state.particle.dead ≠ 0 := not_not.mpr rfl
  have hdep1 : event_deposition cutoff_constants
      { particle := doomed_particle
        lane := { doomed_lane with
          cell_mfp := 1 / 60
          distance_to_facet := 5 / 8
          x_facet := 0
          next_event := .PARTICLE_COLLISION }
        tally := [0] } = [3 / 64] := by
    norm_num [event_deposition, calculate_energy_deposition, doomed_particle, doomed_lane,
      census_lane, blank_lane, ex_particle, cutoff_constants, ex_constants]
  unfold lane_timestep
  rw [if_neg hlive, doomed_lane_init]
  simp only [bind, Except.bind]
  unfold lane_loop
  rw [doomed_lane_classified]
  simp only [bind, Except.bind]
  rw [doomed_lane_collision]
  simp only
  rw [hdep1]
  unfold lane_loop
  unfold calc_events_lane facet_phase
  exact ⟨_, rfl, rfl, rfl⟩

/-- A timestep of one particle on one thread with a collision: the tally entry
of its cell ends as the sum `53/1280` of the two depositions. -/
theorem collide_transport_run :
    ∃ t' : TransportState ℚ,
      solve_transport_2d ex_libm (ex_constants ℚ) (ex_rng ℚ) 11 2 1
        (List.replicate 32 blank_lane) 1 0 0 0 (1 / 6000) 1 [1] unit_edges unit_edges
        (ex_table ℚ) (ex_table ℚ) one_particle_state = .ok t' ∧
      t'.energy_deposition_tally = [53 / 1280] := by
  obtain ⟨s', h, htally, -⟩ := collide_lane_run
  obtain ⟨t', ht', -, hty, -⟩ := solve_transport_2d_one_particle ex_libm (ex_constants ℚ)
    (ex_rng ℚ) 11 2 (List.replicate 32 blank_lane) 1 0 0 0 (1 / 6000) 1 [1] unit_edges
    unit_edges (ex_table ℚ) (ex_table ℚ) one_particle_state fresh_lane_state s'
    [1 / 32, 13 / 1280] rfl rfl rfl rfl h
  exact ⟨t', ht', hty.trans htally⟩

/-! # Claims -/

/-! ## Claims on `microscopic_cs_for_energy` -/

section LookupClaims

variable {K : Type} [LinearOrderedField K]

/-- C1: for a well-formed table (at least two entries, strictly increasing keys)
and an energy `e` with `keys[0] ≤ e < keys[nentries - 1]`, the call with
`hint = -1` terminates (every fuel from `2 * nentries + 5` on gives a result),
writes back the unique index `i` with `keys[i] ≤ e < keys[i + 1]`, and returns
`values[i] + (e - keys[i]) / (keys[i+1] - keys[i]) * (values[i+1] - values[i])`. -/
theorem binary_lookup_interpolates (cs : CrossSection K) (e : K) (hv : cs.valid)
    (hlo : cs.key 0 ≤ e) (hhi : e < cs.key (cs.nentries - 1).toNat) :
    ∃ i : Nat, (i : Int) + 1 < cs.nentries ∧ cs.key i ≤ e ∧ e < cs.key (i + 1) ∧
      (∀ j : Nat, (j : Int) + 1 < cs.nentries → cs.key j ≤ e → e < cs.key (j + 1) →
        j = i) ∧
      ∀ fuel : Nat, 2 * cs.nentries.toNat + 5 ≤ fuel →
        microscopic_cs_for_energy fuel cs e (-1) =
          .ok (cs.value i + (e - cs.key i) / (cs.key (i + 1) - cs.key i) *
            (cs.value (i + 1) - cs.value i), (i : Int)) := by
  have hn := hv.2.1
  have hlast : (cs.nentries - 1).toNat = cs.keys.length - 1 := by omega
  rw [hlast] at hhi
  obtain ⟨t, ht, h0, h1⟩ := cs.bracket_exists hv hlo hhi
  refine ⟨t, by omega, h0, h1, ?_, ?_⟩
  · intro j hj hj0 hj1
    exact cs.bracket_unique hv (by omega) ht hj0 hj1 h0 h1
  · intro fuel hf
    exact lookup_binary hv ht h0 h1 fuel (by omega) (-1) le_rfl

/-- C2: for a well-formed table, an energy `e` with
`keys[0] ≤ e < keys[nentries - 1]` and any starting hint `h` with
`0 ≤ h ≤ nentries - 1`, the hinted call returns the same value and writes back
the same index as the call with `hint = -1`, and both calls do return. -/
theorem hinted_lookup_eq_binary_lookup (cs : CrossSection K) (e : K) (h : Int)
    (hv : cs.valid) (hlo : cs.key 0 ≤ e) (hhi : e < cs.key (cs.nentries - 1).toNat)
    (hh0 : 0 ≤ h) (hh1 : h ≤ cs.nentries - 1) (fuel : Nat)
    (hf : 2 * cs.nentries.toNat + 5 ≤ fuel) :
    microscopic_cs_for_energy fuel cs e h = microscopic_cs_for_energy fuel cs e (-1) ∧
      ∃ r : K × Int, microscopic_cs_for_energy fuel cs e (-1) = .ok r := by
  have hn := hv.2.1
  have hlast : (cs.nentries - 1).toNat = cs.keys.length - 1 := by omega
  rw [hlast] at hhi
  obtain ⟨t, ht, h0, h1⟩ := cs.bracket_exists hv hlo hhi
  have hb := lookup_binary hv ht h0 h1 fuel (by omega) (-1) le_rfl
  have hw := lookup_hinted hv ht h0 h1 fuel (by omega) h hh0 (by omega)
  exact ⟨hw.trans hb.symm, _, hb⟩

/-- C3 (amended): for a well-formed table and every entry index `i` other than
the last one (`0 ≤ i ≤ nentries - 2`), the lookup of the energy `keys[i]`
returns exactly `values[i]` and writes back `i`, in binary-search mode
(`hint ≤ -1`) and in hinted mode from every hint `0 ≤ hint ≤ nentries - 1`. -/
theorem lookup_at_key_returns_value (cs : CrossSection K) (i : Nat) (hint : Int)
    (hv : cs.valid) (hi : (i : Int) ≤ cs.nentries - 2)
    (hh : hint ≤ cs.nentries - 1) (fuel : Nat)
    (hf : 2 * cs.nentries.toNat + 5 ≤ fuel) :
    microscopic_cs_for_energy fuel cs (cs.key i) hint = .ok (cs.value i, (i : Int)) := by
  have hn := hv.2.1
  have ht : i + 1 < cs.keys.length := by omega
  have h1 : cs.key i < cs.key (i + 1) := cs.key_lt_key hv (Nat.lt_succ_self i) ht
  have hval : cs.value i + (cs.key i - cs.key i) / (cs.key (i + 1) - cs.key i) *
      (cs.value (i + 1) - cs.value i) = cs.value i := by
    rw [sub_self, zero_div, zero_mul, add_zero]
  by_cases hneg : hint ≤ -1
  · have := lookup_binary hv ht le_rfl h1 fuel (by omega) hint hneg
    rw [hval] at this
    exact this
  · have := lookup_hinted hv ht le_rfl h1 fuel (by omega) hint (by omega) (by omega)
    rw [hval] at this
    exact this

/-- C4 (amended): for a well-formed table and every energy outside the table
range (`e < keys[0]` or `e ≥ keys[nentries - 1]`) the lookup returns no value:
in both modes and from every hint it indexes outside the table. -/
theorem lookup_outside_range_faults (cs : CrossSection K) (e : K) (hint : Int)
    (hv : cs.valid) (hout : e < cs.key 0 ∨ cs.key (cs.nentries - 1).toNat ≤ e)
    (fuel : Nat) (hf : 2 * cs.nentries.toNat + 5 ≤ fuel) :
    microscopic_cs_for_energy fuel cs e hint = .error .outOfBounds := by
  have hn := hv.2.1
  have hlast : (cs.nentries - 1).toNat = cs.keys.length - 1 := by omega
  rw [hlast] at hout
  exact lookup_out_of_range hv hout fuel (by omega) hint

end LookupClaims

/-! ### Concrete runs of the lookup -/

theorem table3_valid : table3.valid := by
  norm_num [CrossSection.valid, table3]

theorem table2_valid : table2.valid := by
  norm_num [CrossSection.valid, table2]

theorem binary_lookup_interpolates_witness :
    table3.valid ∧ table3.key 0 ≤ 3 ∧ (3 : ℚ) < table3.key 2 ∧
      microscopic_cs_for_energy 11 table3 3 (-1) = .ok (30, 1) := by
  have hlo : table3.key 0 ≤ 3 := by norm_num [CrossSection.key, table3]
  have hhi : (3 : ℚ) < table3.key 2 := by norm_num [CrossSection.key, table3]
  refine ⟨table3_valid, hlo, hhi, ?_⟩
  obtain ⟨i, -, -, -, huniq, hres⟩ :=
    binary_lookup_interpolates table3 3 table3_valid hlo hhi
  have hi : 1 = i := huniq 1 (by decide) (by norm_num [CrossSection.key, table3])
    (by norm_num [CrossSection.key, table3])
  subst hi
  have h := hres 11 (by decide)
  norm_num [CrossSection.key, CrossSection.value, table3] at h
  exact h

theorem hinted_lookup_eq_binary_lookup_witness :
    table3.valid ∧ table3.key 0 ≤ 3 ∧ (3 : ℚ) < table3.key 2 ∧ (0 : Int) ≤ 2 ∧
      (2 : Int) ≤ table3.nentries - 1 ∧ 2 * table3.nentries.toNat + 5 ≤ 11 ∧
      (microscopic_cs_for_energy 11 table3 3 2 = microscopic_cs_for_energy 11 table3 3 (-1) ∧
        ∃ r : ℚ × Int, microscopic_cs_for_energy 11 table3 3 (-1) = .ok r) :=
  have hlo : table3.key 0 ≤ 3 := by norm_num [CrossSection.key, table3]
  have hhi : (3 : ℚ) < table3.key 2 := by norm_num [CrossSection.key, table3]
  ⟨table3_valid, hlo, hhi, by decide, by decide, by decide,
    hinted_lookup_eq_binary_lookup table3 3 2 table3_valid hlo hhi (by decide) (by decide)
      11 (by decide)⟩

/-- C3 fails at the last entry: in the two-entry table `keys = [1, 2]`,
`values = [10, 20]` the lookup of the energy `keys[1] = 2` does not return
`values[1] = 20`; the search reads `keys[2]`, in binary-search mode and in
hinted mode from either hint. -/
theorem lookup_at_last_key_faults :
    table2.valid ∧ table2.key 1 = 2 ∧ table2.value 1 = 20 ∧
      microscopic_cs_for_energy 9 table2 2 (-1) = .error .outOfBounds ∧
      microscopic_cs_for_energy 9 table2 2 0 = .error .outOfBounds ∧
      microscopic_cs_for_energy 9 table2 2 1 = .error .outOfBounds :=
  ⟨table2_valid, by norm_num [CrossSection.key, table2],
    by norm_num [CrossSection.value, table2], rfl, rfl, rfl⟩

theorem lookup_at_key_returns_value_witness :
    table3.valid ∧ ((1 : Nat) : Int) ≤ table3.nentries - 2 ∧
      (2 : Int) ≤ table3.nentries - 1 ∧ 2 * table3.nentries.toNat + 5 ≤ 11 ∧
      microscopic_cs_for_energy 11 table3 (table3.key 1) 2 =
        .ok (table3.value 1, ((1 : Nat) : Int)) :=
  ⟨table3_valid, by decide, by decide, by decide,
    lookup_at_key_returns_value table3 1 2 table3_valid (by decide) (by decide) 11
      (by decide)⟩

/-- C4 fails on both sides of the range: in the two-entry table `keys = [1, 2]`,
`values = [10, 20]` the lookup of `e = 0` (below `keys[0]`) does not return
`values[0] = 10` and the lookup of `e = 5` (above `keys[1]`) does not return
`values[1] = 20`; each call indexes outside the table. -/
theorem lookup_outside_range_not_clamped :
    table2.valid ∧ (0 : ℚ) < table2.key 0 ∧ table2.key 1 < (5 : ℚ) ∧
      microscopic_cs_for_energy 9 table2 0 (-1) = .error .outOfBounds ∧
      microscopic_cs_for_energy 9 table2 0 0 = .error .outOfBounds ∧
      microscopic_cs_for_energy 9 table2 5 (-1) = .error .outOfBounds ∧
      microscopic_cs_for_energy 9 table2 5 0 = .error .outOfBounds :=
  ⟨table2_valid, by norm_num [CrossSection.key, table2],
    by norm_num [CrossSection.key, table2], rfl, rfl, rfl, rfl⟩

theorem lookup_outside_range_faults_witness :
    table3.valid ∧ (table3.key 0 > 0 ∨ table3.key (table3.nentries - 1).toNat ≤ 0) ∧
      2 * table3.nentries.toNat + 5 ≤ 11 ∧
      microscopic_cs_for_energy 11 table3 0 (-1) = .error .outOfBounds :=
  have hout : (0 : ℚ) < table3.key 0 ∨ table3.key (table3.nentries - 1).toNat ≤ 0 :=
    Or.inl (by norm_num [CrossSection.key, table3])
  ⟨table3_valid, hout, by decide,
    lookup_outside_range_faults table3 0 (-1) table3_valid hout 11 (by decide)⟩

/-! ## Claims on the event classifier and the energy deposition -/

section EventClaims

variable {K : Type} [LinearOrderedField K]

/-- C5: for a live particle whose three candidate distances
`d_col = mfp_to_collision * cell_mfp` (with `cell_mfp = 1 / (Σ_s + Σ_a)`),
`d_fac` and `d_cen = speed * dt_to_census` have a strict minimum, the event
stored in `next_event` is the one of that minimum: collision for `d_col`,
facet for `d_fac`, census for `d_cen`. -/
theorem calc_event_selects_strict_minimum (p : Particle K)
    (macroscopic_cs_scatter macroscopic_cs_absorb speed d_fac cell_mfp_old : K)
    (hlive : p.dead = 0) :
    (p.mfp_to_collision * (1 / (macroscopic_cs_scatter + macroscopic_cs_absorb)) < d_fac ∧
      p.mfp_to_collision * (1 / (macroscopic_cs_scatter + macroscopic_cs_absorb)) <
        speed * p.dt_to_census →
      (calc_event p macroscopic_cs_scatter macroscopic_cs_absorb speed d_fac
        cell_mfp_old).1 = .PARTICLE_COLLISION) ∧
    (d_fac < p.mfp_to_collision * (1 / (macroscopic_cs_scatter + macroscopic_cs_absorb)) ∧
      d_fac < speed * p.dt_to_census →
      (calc_event p macroscopic_cs_scatter macroscopic_cs_absorb speed d_fac
        cell_mfp_old).1 = .PARTICLE_FACET) ∧
    (speed * p.dt_to_census <
        p.mfp_to_collision * (1 / (macroscopic_cs_scatter + macroscopic_cs_absorb)) ∧
      speed * p.dt_to_census < d_fac →
      (calc_event p macroscopic_cs_scatter macroscopic_cs_absorb speed d_fac
        cell_mfp_old).1 = .PARTICLE_CENSUS) := by
  have hd : ¬ p.dead ≠ 0 := not_not.mpr hlive
  refine ⟨?_, ?_, ?_⟩
  · intro h
    simp only [calc_event, if_neg hd, select_event, if_pos h]
  · intro h
    have hn : ¬ (p.mfp_to_collision * (1 / (macroscopic_cs_scatter + macroscopic_cs_absorb))
          < d_fac ∧
        p.mfp_to_collision * (1 / (macroscopic_cs_scatter + macroscopic_cs_absorb)) <
          speed * p.dt_to_census) := fun hc => lt_asymm h.1 hc.1
    simp only [calc_event, if_neg hd, select_event, if_neg hn, if_pos h.2]
  · intro h
    have hn : ¬ (p.mfp_to_collision * (1 / (macroscopic_cs_scatter + macroscopic_cs_absorb))
          < d_fac ∧
        p.mfp_to_collision * (1 / (macroscopic_cs_scatter + macroscopic_cs_absorb)) <
          speed * p.dt_to_census) := fun hc => lt_asymm h.1 hc.2
    simp only [calc_event, if_neg hd, select_event, if_neg hn, if_neg (lt_asymm h.2)]

/-- C6 (amended): for a live particle the selection breaks ties in the order
census before facet before collision. Collision is selected exactly when
`d_col` is strictly smaller than both other distances, facet exactly when
`d_fac ≤ d_col` and `d_fac < d_cen`, and census exactly when `d_cen` is a
minimum (`d_cen ≤ d_col` and `d_cen ≤ d_fac`). -/
theorem calc_event_tie_breaking (p : Particle K)
    (macroscopic_cs_scatter macroscopic_cs_absorb speed d_fac cell_mfp_old : K)
    (hlive : p.dead = 0) :
    ((calc_event p macroscopic_cs_scatter macroscopic_cs_absorb speed d_fac
        cell_mfp_old).1 = .PARTICLE_COLLISION ↔
      p.mfp_to_collision * (1 / (macroscopic_cs_scatter + macroscopic_cs_absorb)) < d_fac ∧
      p.mfp_to_collision * (1 / (macroscopic_cs_scatter + macroscopic_cs_absorb)) <
        speed * p.dt_to_census) ∧
    ((calc_event p macroscopic_cs_scatter macroscopic_cs_absorb speed d_fac
        cell_mfp_old).1 = .PARTICLE_FACET ↔
      d_fac ≤ p.mfp_to_collision * (1 / (macroscopic_cs_scatter + macroscopic_cs_absorb)) ∧
      d_fac < speed * p.dt_to_census) ∧
    ((calc_event p macroscopic_cs_scatter macroscopic_cs_absorb speed d_fac
        cell_mfp_old).1 = .PARTICLE_CENSUS ↔
      speed * p.dt_to_census ≤
        p.mfp_to_collision * (1 / (macroscopic_cs_scatter + macroscopic_cs_absorb)) ∧
      speed * p.dt_to_census ≤ d_fac) := by
  have hd : ¬ p.dead ≠ 0 := not_not.mpr hlive
  simp only [calc_event, if_neg hd, select_event]
  generalize p.mfp_to_collision * (1 / (macroscopic_cs_scatter + macroscopic_cs_absorb)) = a
  generalize speed * p.dt_to_census = b
  by_cases h1 : a < d_fac ∧ a < b
  · rw [if_pos h1]
    refine ⟨⟨fun _ => h1, fun _ => rfl⟩, ⟨(fun h => nomatch h), fun h => ?_⟩,
      ⟨(fun h => nomatch h), fun h => ?_⟩⟩
    · exact absurd h1.1 (not_lt.mpr h.1)
    · exact absurd h1.2 (not_lt.mpr h.1)
  · rw [if_neg h1]
    by_cases h2 : d_fac < b
    · rw [if_pos h2]
      refine ⟨⟨(fun h => nomatch h), fun h => absurd h h1⟩, ⟨fun _ => ⟨?_, h2⟩, fun _ => rfl⟩,
        ⟨(fun h => nomatch h), fun h => absurd h2 (not_lt.mpr h.2)⟩⟩
      by_contra hc
      exact h1 ⟨not_le.mp hc, (not_le.mp hc).trans h2⟩
    · rw [if_neg h2]
      refine ⟨⟨(fun h => nomatch h), fun h => absurd h h1⟩,
        ⟨(fun h => nomatch h), fun h => absurd h.2 h2⟩, ⟨fun _ => ⟨?_, not_lt.mp h2⟩, fun _ => rfl⟩⟩
      by_contra hc
      exact h1 ⟨(not_le.mp hc).trans_le (not_lt.mp h2), not_le.mp hc⟩

/-- C10: for every particle energy `e`, weight `w`, path length `l`, number
density `n` and microscopic cross sections `σ_a`, `σ_t` with `σ_t ≠ 0`,
`calculate_energy_deposition` returns
`w * l * (σ_t * BARNS) * (e - (1 - σ_a/σ_t) * e * (A^2 + A + 1) / (A+1)^2) * n`
with `A = MASS_NO`. -/
theorem calculate_energy_deposition_formula (c : Constants K) (p : Particle K)
    (l n sigma_a sigma_t : K) (ht : sigma_t ≠ 0) :
    calculate_energy_deposition c p l n sigma_a sigma_t =
      p.weight * l * (sigma_t * c.BARNS) *
        (p.energy - (1 - sigma_a / sigma_t) * p.energy *
          (c.MASS_NO ^ 2 + c.MASS_NO + 1) / (c.MASS_NO + 1) ^ 2) * n := by
  have _ := ht
  unfold calculate_energy_deposition
  ring

end EventClaims

/-! ## Claims on `calc_distance_to_facet` -/

section GeometryClaims

variable {K : Type} [LinearOrderedField K]

/-- C7: for a particle strictly inside its cell (`edgex[cx] < x < edgex[cx+1]`,
`edgey[cy] < y < edgey[cy+1]`) with positive speed, `calc_distance_to_facet`
returns, and whenever the direction component along the axis of the facet it
selects is non-zero, the distance it returns is finite and strictly positive.
The correction `OPEN_BOUND_CORRECTION` is taken to be non-negative. -/
theorem calc_distance_to_facet_pos (c : Constants K) (x y : K) (pad x_off y_off : Int)
    (omega_x omega_y speed : K) (particle_cellx particle_celly : Int)
    (edgex edgey : List K) (xl xh yl yh : K)
    (hxl : readAt edgex (particle_cellx - x_off + pad) = .ok xl)
    (hxh : readAt edgex (particle_cellx - x_off + pad + 1) = .ok xh)
    (hyl : readAt edgey (particle_celly - y_off + pad) = .ok yl)
    (hyh : readAt edgey (particle_celly - y_off + pad + 1) = .ok yh)
    (hx0 : xl < x) (hx1 : x < xh) (hy0 : yl < y) (hy1 : y < yh)
    (hspeed : 0 < speed) (hobc : 0 ≤ c.OPEN_BOUND_CORRECTION) :
    ∃ (d : XReal K) (x_facet : Int),
      calc_distance_to_facet c x y pad x_off y_off omega_x omega_y speed particle_cellx
        particle_celly edgex edgey = .ok (d, x_facet) ∧
      (x_facet = 1 ∨ x_facet = 0) ∧
      (x_facet = 1 → omega_x ≠ 0 → ∃ v : K, d = .fin v ∧ 0 < v) ∧
      (x_facet = 0 → omega_y ≠ 0 → ∃ v : K, d = .fin v ∧ 0 < v) := by
  rw [calc_distance_to_facet_eq c x y pad x_off y_off omega_x omega_y speed particle_cellx
    particle_celly edgex edgey xl xh yl yh hxl hxh hyl hyh]
  have hs : speed ≠ 0 := ne_of_gt hspeed
  have hax : (0 ≤ omega_x → 0 < (if omega_x ≥ 0 then xh - x
        else (xl - c.OPEN_BOUND_CORRECTION) - x)) ∧
      (¬ 0 ≤ omega_x → (if omega_x ≥ 0 then xh - x
        else (xl - c.OPEN_BOUND_CORRECTION) - x) < 0) := by
    constructor
    · intro h; rw [if_pos h]; linarith
    · intro h; rw [if_neg h]; linarith
  have hay : (0 ≤ omega_y → 0 < (if omega_y ≥ 0 then yh - y
        else (yl - c.OPEN_BOUND_CORRECTION) - y)) ∧
      (¬ 0 ≤ omega_y → (if omega_y ≥ 0 then yh - y
        else (yl - c.OPEN_BOUND_CORRECTION) - y) < 0) := by
    constructor
    · intro h; rw [if_pos h]; linarith
    · intro h; rw [if_neg h]; linarith
  generalize (if omega_x ≥ 0 then xh - x else (xl - c.OPEN_BOUND_CORRECTION) - x) = ax
    at hax ⊢
  generalize (if omega_y ≥ 0 then yh - y else (yl - c.OPEN_BOUND_CORRECTION) - y) = ay
    at hay ⊢
  by_cases hsel : XReal.lt (XReal.scale ax (XReal.recip (omega_x * speed)))
      (XReal.scale ay (XReal.recip (omega_y * speed))) = true
  · rw [if_pos hsel, if_pos hsel]
    refine ⟨_, _, rfl, Or.inl rfl, ?_, fun h => absurd h (by decide)⟩
    intro _ hox
    exact ⟨_, XReal.scale_recip_of_ne _ (mul_ne_zero hox hs),
      offset_over_velocity_pos hox hspeed hax.1 hax.2⟩
  · rw [if_neg hsel, if_neg hsel]
    refine ⟨_, _, rfl, Or.inr rfl, fun h => absurd h (by decide), ?_⟩
    intro _ hoy
    exact ⟨_, XReal.scale_recip_of_ne _ (mul_ne_zero hoy hs),
      offset_over_velocity_pos hoy hspeed hay.1 hay.2⟩

/-- C8: for a particle with positive speed and both direction components
non-zero, `calc_distance_to_facet` sets `x_facet` to 1 exactly when
`t_x < t_y` (a tie selects the y facet) and returns `min(t_x, t_y) * speed`,
where `t_x` and `t_y` are the times to the facet ahead on each axis. -/
theorem calc_distance_to_facet_min_time (c : Constants K) (x y : K)
    (pad x_off y_off : Int) (omega_x omega_y speed : K)
    (particle_cellx particle_celly : Int) (edgex edgey : List K) (xl xh yl yh : K)
    (hxl : readAt edgex (particle_cellx - x_off + pad) = .ok xl)
    (hxh : readAt edgex (particle_cellx - x_off + pad + 1) = .ok xh)
    (hyl : readAt edgey (particle_celly - y_off + pad) = .ok yl)
    (hyh : readAt edgey (particle_celly - y_off + pad + 1) = .ok yh)
    (hspeed : 0 < speed) (hox : omega_x ≠ 0) (hoy : omega_y ≠ 0) :
    calc_distance_to_facet c x y pad x_off y_off omega_x omega_y speed particle_cellx
        particle_celly edgex edgey =
      .ok (.fin (min (time_to_facet c x omega_x speed xl xh)
          (time_to_facet c y omega_y speed yl yh) * speed),
        if time_to_facet c x omega_x speed xl xh < time_to_facet c y omega_y speed yl yh
        then 1 else 0) := by
  rw [calc_distance_to_facet_eq c x y pad x_off y_off omega_x omega_y speed particle_cellx
    particle_celly edgex edgey xl xh yl yh hxl hxh hyl hyh]
  have hs : speed ≠ 0 := ne_of_gt hspeed
  have hdx : omega_x * speed ≠ 0 := mul_ne_zero hox hs
  have hdy : omega_y * speed ≠ 0 := mul_ne_zero hoy hs
  have hax : (if omega_x ≥ 0 then xh - x else (xl - c.OPEN_BOUND_CORRECTION) - x) =
      (if omega_x ≥ 0 then xh else xl - c.OPEN_BOUND_CORRECTION) - x := by
    split_ifs <;> rfl
  have hay : (if omega_y ≥ 0 then yh - y else (yl - c.OPEN_BOUND_CORRECTION) - y) =
      (if omega_y ≥ 0 then yh else yl - c.OPEN_BOUND_CORRECTION) - y := by
    split_ifs <;> rfl
  rw [hax, hay]
  simp only [XReal.scale_recip_of_ne _ hdx, XReal.scale_recip_of_ne _ hdy, XReal.lt_fin_fin,
    decide_eq_true_eq]
  have htx : ((if omega_x ≥ 0 then xh else xl - c.OPEN_BOUND_CORRECTION) - x) *
      (1 / (omega_x * speed)) = time_to_facet c x omega_x speed xl xh := by
    unfold time_to_facet; ring
  have hty : ((if omega_y ≥ 0 then yh else yl - c.OPEN_BOUND_CORRECTION) - y) *
      (1 / (omega_y * speed)) = time_to_facet c y omega_y speed yl yh := by
    unfold time_to_facet; ring
  have hdxs : ((if omega_x ≥ 0 then xh else xl - c.OPEN_BOUND_CORRECTION) - x) * speed *
      (1 / (omega_x * speed)) = time_to_facet c x omega_x speed xl xh * speed := by
    unfold time_to_facet; ring
  have hdys : ((if omega_y ≥ 0 then yh else yl - c.OPEN_BOUND_CORRECTION) - y) * speed *
      (1 / (omega_y * speed)) = time_to_facet c y omega_y speed yl yh * speed := by
    unfold time_to_facet; ring
  rw [htx, hty, hdxs, hdys]
  by_cases hlt : time_to_facet c x omega_x speed xl xh < time_to_facet c y omega_y speed yl yh
  · rw [if_pos hlt, if_pos hlt, min_eq_left hlt.le]
  · rw [if_neg hlt, if_neg hlt, min_eq_right (not_lt.mp hlt)]

/-- C9: for a particle with positive speed (and `OPEN_BOUND_CORRECTION > 0`),
moving the particle by the distance `calc_distance_to_facet` returns along
its direction puts the coordinate of the selected axis at
`edge - OPEN_BOUND_CORRECTION`, strictly below the lower edge of the cell, when
the facet is approached in the negative direction, and exactly on the upper
edge of the cell when it is approached in the positive direction. -/
theorem calc_distance_to_facet_lands_on_facet (c : Constants K) (x y : K)
    (pad x_off y_off : Int) (omega_x omega_y speed : K)
    (particle_cellx particle_celly : Int) (edgex edgey : List K) (xl xh yl yh : K)
    (hxl : readAt edgex (particle_cellx - x_off + pad) = .ok xl)
    (hxh : readAt edgex (particle_cellx - x_off + pad + 1) = .ok xh)
    (hyl : readAt edgey (particle_celly - y_off + pad) = .ok yl)
    (hyh : readAt edgey (particle_celly - y_off + pad + 1) = .ok yh)
    (hspeed : 0 < speed) (hobc : 0 < c.OPEN_BOUND_CORRECTION) :
    ∃ (d : XReal K) (x_facet : Int),
      calc_distance_to_facet c x y pad x_off y_off omega_x omega_y speed particle_cellx
        particle_celly edgex edgey = .ok (d, x_facet) ∧
      (x_facet = 1 → omega_x < 0 → ∃ v : K, d = .fin v ∧
        x + v * omega_x = xl - c.OPEN_BOUND_CORRECTION ∧ x + v * omega_x < xl) ∧
      (x_facet = 1 → 0 < omega_x → ∃ v : K, d = .fin v ∧ x + v * omega_x = xh) ∧
      (x_facet = 0 → omega_y < 0 → ∃ v : K, d = .fin v ∧
        y + v * omega_y = yl - c.OPEN_BOUND_CORRECTION ∧ y + v * omega_y < yl) ∧
      (x_facet = 0 → 0 < omega_y → ∃ v : K, d = .fin v ∧ y + v * omega_y = yh) := by
  rw [calc_distance_to_facet_eq c x y pad x_off y_off omega_x omega_y speed particle_cellx
    particle_celly edgex edgey xl xh yl yh hxl hxh hyl hyh]
  have hs : speed ≠ 0 := ne_of_gt hspeed
  have hmove : ∀ (a p omega : K), omega ≠ 0 →
      p + a * speed * (1 / (omega * speed)) * omega = p + a := by
    intro a p omega ho
    field_simp
    ring
  by_cases hsel : XReal.lt
      (XReal.scale (if omega_x ≥ 0 then xh - x else (xl - c.OPEN_BOUND_CORRECTION) - x)
        (XReal.recip (omega_x * speed)))
      (XReal.scale (if omega_y ≥ 0 then yh - y else (yl - c.OPEN_BOUND_CORRECTION) - y)
        (XReal.recip (omega_y * speed))) = true
  · rw [if_pos hsel, if_pos hsel]
    refine ⟨_, _, rfl, ?_, ?_, fun h => absurd h (by decide), fun h => absurd h (by decide)⟩
    · intro _ ho
      have hne : omega_x ≠ 0 := ne_of_lt ho
      refine ⟨_, XReal.scale_recip_of_ne _ (mul_ne_zero hne hs), ?_⟩
      rw [hmove _ _ _ hne, if_neg (not_le.mpr ho)]
      constructor
      · ring
      · linarith
    · intro _ ho
      have hne : omega_x ≠ 0 := ne_of_gt ho
      refine ⟨_, XReal.scale_recip_of_ne _ (mul_ne_zero hne hs), ?_⟩
      rw [hmove _ _ _ hne, if_pos ho.le]
      ring
  · rw [if_neg hsel, if_neg hsel]
    refine ⟨_, _, rfl, fun h => absurd h (by decide), fun h => absurd h (by decide), ?_, ?_⟩
    · intro _ ho
      have hne : omega_y ≠ 0 := ne_of_lt ho
      refine ⟨_, XReal.scale_recip_of_ne _ (mul_ne_zero hne hs), ?_⟩
      rw [hmove _ _ _ hne, if_neg (not_le.mpr ho)]
      constructor
      · ring
      · linarith
    · intro _ ho
      have hne : omega_y ≠ 0 := ne_of_gt ho
      refine ⟨_, XReal.scale_recip_of_ne _ (mul_ne_zero hne hs), ?_⟩
      rw [hmove _ _ _ hne, if_pos ho.le]
      ring

end GeometryClaims

/-! ### Concrete runs of the classifier, the geometry and the deposition -/

theorem calc_event_selects_strict_minimum_witness :
    particle0.dead = 0 ∧
      (calc_event particle0 (1 / 2) (1 / 2) 1 3 0).1 = .PARTICLE_COLLISION ∧
      (calc_event particle0 (1 / 2) (1 / 2) 1 (1 / 2) 0).1 = .PARTICLE_FACET ∧
      (calc_event particle0 (1 / 8) (1 / 8) 1 3 0).1 = .PARTICLE_CENSUS :=
  ⟨rfl,
    (calc_event_selects_strict_minimum particle0 (1 / 2) (1 / 2) 1 3 0 rfl).1
      ⟨by norm_num [particle0], by norm_num [particle0]⟩,
    (calc_event_selects_strict_minimum particle0 (1 / 2) (1 / 2) 1 (1 / 2) 0 rfl).2.1
      ⟨by norm_num [particle0], by norm_num [particle0]⟩,
    (calc_event_selects_strict_minimum particle0 (1 / 8) (1 / 8) 1 3 0 rfl).2.2
      ⟨by norm_num [particle0], by norm_num [particle0]⟩⟩

/-- C6 fails on ties. With `mfp_to_collision = 1`, `speed = 1` and
`dt_to_census = 2` (so `d_cen = 2`): for `d_col = d_fac = 1` the event is the
facet, not the collision; for `d_col = d_cen = 2 < d_fac = 3` the event is the
census, not the collision; for `d_fac = d_cen = 2 < d_col = 4` the event is the
census, not the facet. -/
theorem calc_event_ties_not_collision_first :
    particle0.dead = 0 ∧
      particle0.mfp_to_collision * (1 / (1 / 2 + 1 / 2)) = (1 : ℚ) ∧
      particle0.mfp_to_collision * (1 / (1 / 4 + 1 / 4)) = (2 : ℚ) ∧
      particle0.mfp_to_collision * (1 / (1 / 8 + 1 / 8)) = (4 : ℚ) ∧
      1 * particle0.dt_to_census = (2 : ℚ) ∧
      (calc_event particle0 (1 / 2) (1 / 2) 1 1 0).1 = .PARTICLE_FACET ∧
      (calc_event particle0 (1 / 4) (1 / 4) 1 3 0).1 = .PARTICLE_CENSUS ∧
      (calc_event particle0 (1 / 8) (1 / 8) 1 2 0).1 = .PARTICLE_CENSUS := by
  refine ⟨rfl, ?_, ?_, ?_, ?_, ?_, ?_, ?_⟩ <;>
    norm_num [calc_event, select_event, particle0]

theorem calc_event_tie_breaking_witness :
    particle0.dead = 0 ∧
      ((calc_event particle0 (1 / 2) (1 / 2) 1 1 0).1 = .PARTICLE_FACET ↔
        (1 : ℚ) ≤ particle0.mfp_to_collision * (1 / (1 / 2 + 1 / 2)) ∧
        (1 : ℚ) < 1 * particle0.dt_to_census) :=
  ⟨rfl, (calc_event_tie_breaking particle0 (1 / 2) (1 / 2) 1 1 0 rfl).2.1⟩

theorem calc_distance_to_facet_pos_witness :
    readAt unit_edges (0 - 0 + 0) = .ok 0 ∧ readAt unit_edges (0 - 0 + 0 + 1) = .ok 1 ∧
      (0 : ℚ) < 1 / 2 ∧ (1 / 2 : ℚ) < 1 ∧ (0 : ℚ) < 1 ∧
      (0 : ℚ) ≤ constants0.OPEN_BOUND_CORRECTION ∧
      ∃ (d : XReal ℚ) (x_facet : Int),
        calc_distance_to_facet constants0 (1 / 2) (1 / 2) 0 0 0 (3 / 5) (4 / 5) 1 0 0
          unit_edges unit_edges = .ok (d, x_facet) ∧
        (x_facet = 1 ∨ x_facet = 0) ∧
        (x_facet = 1 → (3 / 5 : ℚ) ≠ 0 → ∃ v : ℚ, d = .fin v ∧ 0 < v) ∧
        (x_facet = 0 → (4 / 5 : ℚ) ≠ 0 → ∃ v : ℚ, d = .fin v ∧ 0 < v) :=
  ⟨rfl, rfl, by norm_num, by norm_num, by norm_num, by norm_num [constants0],
    calc_distance_to_facet_pos constants0 (1 / 2) (1 / 2) 0 0 0 (3 / 5) (4 / 5) 1 0 0
      unit_edges unit_edges 0 1 0 1 rfl rfl rfl rfl (by norm_num) (by norm_num)
      (by norm_num) (by norm_num) (by norm_num) (by norm_num [constants0])⟩

theorem calc_distance_to_facet_min_time_witness :
    readAt unit_edges (0 - 0 + 0) = .ok 0 ∧ readAt unit_edges (0 - 0 + 0 + 1) = .ok 1 ∧
      (0 : ℚ) < 1 ∧ (3 / 5 : ℚ) ≠ 0 ∧ (4 / 5 : ℚ) ≠ 0 ∧
      time_to_facet constants0 (1 / 2) (3 / 5) 1 0 1 = 5 / 6 ∧
      time_to_facet constants0 (1 / 2) (4 / 5) 1 0 1 = 5 / 8 ∧
      calc_distance_to_facet constants0 (1 / 2) (1 / 2) 0 0 0 (3 / 5) (4 / 5) 1 0 0
        unit_edges unit_edges = .ok (.fin (5 / 8), 0) := by
  have htx : time_to_facet constants0 (1 / 2) (3 / 5) 1 0 1 = 5 / 6 := by
    norm_num [time_to_facet]
  have hty : time_to_facet constants0 (1 / 2) (4 / 5) 1 0 1 = 5 / 8 := by
    norm_num [time_to_facet]
  have h := calc_distance_to_facet_min_time constants0 (1 / 2) (1 / 2) 0 0 0 (3 / 5) (4 / 5)
    1 0 0 unit_edges unit_edges 0 1 0 1 rfl rfl rfl rfl (by norm_num) (by norm_num)
    (by norm_num)
  rw [htx, hty] at h
  norm_num at h
  exact ⟨rfl, rfl, by norm_num, by norm_num, by norm_num, htx, hty, h⟩

theorem calc_distance_to_facet_lands_on_facet_witness :
    readAt unit_edges (0 - 0 + 0) = .ok 0 ∧ readAt unit_edges (0 - 0 + 0 + 1) = .ok 1 ∧
      (0 : ℚ) < 1 ∧ (0 : ℚ) < constants0.OPEN_BOUND_CORRECTION ∧
      ∃ (d : XReal ℚ) (x_facet : Int),
        calc_distance_to_facet constants0 (1 / 2) (1 / 2) 0 0 0 (-3 / 5) (4 / 5) 1 0 0
          unit_edges unit_edges = .ok (d, x_facet) ∧
        (x_facet = 1 → (-3 / 5 : ℚ) < 0 → ∃ v : ℚ, d = .fin v ∧
          1 / 2 + v * (-3 / 5) = 0 - constants0.OPEN_BOUND_CORRECTION ∧
          1 / 2 + v * (-3 / 5) < 0) ∧
        (x_facet = 1 → (0 : ℚ) < -3 / 5 → ∃ v : ℚ, d = .fin v ∧ 1 / 2 + v * (-3 / 5) = 1) ∧
        (x_facet = 0 → (4 / 5 : ℚ) < 0 → ∃ v : ℚ, d = .fin v ∧
          1 / 2 + v * (4 / 5) = 0 - constants0.OPEN_BOUND_CORRECTION ∧
          1 / 2 + v * (4 / 5) < 0) ∧
        (x_facet = 0 → (0 : ℚ) < 4 / 5 → ∃ v : ℚ, d = .fin v ∧ 1 / 2 + v * (4 / 5) = 1) :=
  ⟨rfl, rfl, by norm_num, by norm_num [constants0],
    calc_distance_to_facet_lands_on_facet constants0 (1 / 2) (1 / 2) 0 0 0 (-3 / 5) (4 / 5)
      1 0 0 unit_edges unit_edges 0 1 0 1 rfl rfl rfl rfl (by norm_num)
      (by norm_num [constants0])⟩

theorem calculate_energy_deposition_formula_witness :
    (2 : ℚ) ≠ 0 ∧
      calculate_energy_deposition constants0 particle0 3 5 1 2 =
        particle0.weight * 3 * (2 * constants0.BARNS) *
          (particle0.energy - (1 - 1 / 2) * particle0.energy *
            (constants0.MASS_NO ^ 2 + constants0.MASS_NO + 1) /
              (constants0.MASS_NO + 1) ^ 2) * 5 :=
  ⟨by norm_num, calculate_energy_deposition_formula constants0 particle0 3 5 1 2 (by norm_num)⟩

/-! ## Claims on `collision_event` -/

section CollisionClaims

variable {K : Type} [LinearOrderedField K]

/-- C11: for every scatter outcome of `collision_event` (the first random
number is not below `p_absorb`) with energy `e > 0` before the collision, mass
number `A ≥ 1` and second random number `u2` in `(0, 1)`, the event returns
and the new energy of the particle is
`e' = e * (A^2 + 2*A*(1 - 2*u2) + 1) / (A+1)^2`, with
`e * ((A-1)/(A+1))^2 ≤ e' ≤ e`. -/
theorem collision_scatter_energy_bounds (m : Libm K) (c : Constants K)
    (rng : Nat → Nat → Nat → K × K) (fuel : Nat) (nx x_off y_off : Int)
    (inv d local_density : K) (cs_s cs_a : CrossSection K) (counter_off master_key : Nat)
    (s : KernelState K)
    (hready : collision_ready c rng fuel nx x_off y_off cs_s cs_a counter_off master_key s)
    (hsc : ¬ (rng master_key s.particle.key counter_off).1 <
      s.lane.macroscopic_cs_absorb /
        (s.lane.macroscopic_cs_scatter + s.lane.macroscopic_cs_absorb))
    (he : 0 < s.particle.energy) (hA : 1 ≤ c.MASS_NO)
    (hu0 : 0 < (rng master_key s.particle.key counter_off).2)
    (hu1 : (rng master_key s.particle.key counter_off).2 < 1) :
    ∃ s' : KernelState K,
      collision_event m c rng fuel nx x_off y_off inv d local_density cs_s cs_a counter_off
        master_key s = .ok s' ∧
      s'.particle.energy = s.particle.energy *
        (c.MASS_NO ^ 2 + 2 * c.MASS_NO * (1 - 2 * (rng master_key s.particle.key counter_off).2)
          + 1) / (c.MASS_NO + 1) ^ 2 ∧
      s.particle.energy * ((c.MASS_NO - 1) / (c.MASS_NO + 1)) ^ 2 ≤ s'.particle.energy ∧
      s'.particle.energy ≤ s.particle.energy := by
  obtain ⟨s', hev, -, -, -, -, -, -, hscf⟩ :=
    collision_event_spec m c rng fuel nx x_off y_off inv d local_density cs_s cs_a counter_off
      master_key s hready
  obtain ⟨-, hen, -⟩ := hscf hsc
  have hform : s'.particle.energy = s.particle.energy *
      (c.MASS_NO ^ 2 + 2 * c.MASS_NO * (1 - 2 * (rng master_key s.particle.key counter_off).2)
        + 1) / (c.MASS_NO + 1) ^ 2 := by
    rw [hen]; unfold scatter_energy; ring
  refine ⟨s', hev, hform, ?_, ?_⟩
  · rw [hform]
    generalize (rng master_key s.particle.key counter_off).2 = u at hu0 hu1
    generalize s.particle.energy = e at he
    generalize c.MASS_NO = A at hA
    have hA1 : 0 < A + 1 := by linarith
    rw [div_pow, ← mul_div_assoc]
    apply div_le_div_of_nonneg_right _ (by positivity)
    apply mul_le_mul_of_nonneg_left _ he.le
    have hA0 : (0 : K) ≤ A := by linarith
    have hu : (0 : K) ≤ 1 - u := by linarith
    nlinarith [mul_nonneg hA0 hu]
  · rw [hform]
    generalize (rng master_key s.particle.key counter_off).2 = u at hu0 hu1
    generalize s.particle.energy = e at he
    generalize c.MASS_NO = A at hA
    have hA1 : 0 < (A + 1) ^ 2 := by positivity
    rw [div_le_iff₀ hA1]
    apply mul_le_mul_of_nonneg_left _ he.le
    have hA0 : (0 : K) ≤ A := by linarith
    nlinarith [mul_nonneg hA0 hu0.le]

/-- C13: in `collision_event`, when the first random number `u1` is below
`p_a = Σ_a / (Σ_s + Σ_a)` (absorption) the weight becomes `w * (1 - p_a)`, the
energy and the direction are unchanged, and the particle is marked dead if
and only if its energy is below `MIN_ENERGY_OF_INTEREST`; when `u1 ≥ p_a`
(scatter) the weight is unchanged and the particle is not marked dead. -/
theorem collision_absorb_or_scatter (m : Libm K) (c : Constants K)
    (rng : Nat → Nat → Nat → K × K) (fuel : Nat) (nx x_off y_off : Int)
    (inv d local_density : K) (cs_s cs_a : CrossSection K) (counter_off master_key : Nat)
    (s : KernelState K)
    (hready : collision_ready c rng fuel nx x_off y_off cs_s cs_a counter_off master_key s) :
    ∃ s' : KernelState K,
      collision_event m c rng fuel nx x_off y_off inv d local_density cs_s cs_a counter_off
        master_key s = .ok s' ∧
      ((rng master_key s.particle.key counter_off).1 <
          s.lane.macroscopic_cs_absorb /
            (s.lane.macroscopic_cs_scatter + s.lane.macroscopic_cs_absorb) →
        s'.particle.weight = s.particle.weight * (1 - s.lane.macroscopic_cs_absorb /
            (s.lane.macroscopic_cs_scatter + s.lane.macroscopic_cs_absorb)) ∧
          s'.particle.energy = s.particle.energy ∧
          s'.particle.omega_x = s.particle.omega_x ∧
          s'.particle.omega_y = s.particle.omega_y ∧
          (s'.particle.dead ≠ 0 ↔ s.particle.energy < c.MIN_ENERGY_OF_INTEREST)) ∧
      (¬ (rng master_key s.particle.key counter_off).1 <
          s.lane.macroscopic_cs_absorb /
            (s.lane.macroscopic_cs_scatter + s.lane.macroscopic_cs_absorb) →
        s'.particle.weight = s.particle.weight ∧ s'.particle.dead = 0) := by
  obtain ⟨s', hev, -, -, -, -, -, habsf, hscf⟩ :=
    collision_event_spec m c rng fuel nx x_off y_off inv d local_density cs_s cs_a counter_off
      master_key s hready
  refine ⟨s', hev, ?_, ?_⟩
  · intro habs
    obtain ⟨hw, he, hox, hoy, hd1, hd0⟩ := habsf habs
    refine ⟨hw, he, hox, hoy, ?_, ?_⟩
    · intro hne
      by_contra hlow
      exact hne (hd0 hlow).1
    · intro hlow
      rw [(hd1 hlow).1]
      exact one_ne_zero
  · intro hsc
    obtain ⟨hw, -, -, -, hd, -⟩ := hscf hsc
    exact ⟨hw, hd⟩

/-- C14 (amended): for a particle with weight in `(0, 1]` and a
`collision_event` with non-negative macroscopic cross sections whose sum is
positive, the weight after the event is in `[0, 1]` and not larger than the
weight before. It is positive after a scatter and whenever `Σ_s > 0`; an
absorption with `Σ_s = 0` (so `p_a = 1`) sets the weight to `0`. -/
theorem collision_weight_bounds (m : Libm K) (c : Constants K)
    (rng : Nat → Nat → Nat → K × K) (fuel : Nat) (nx x_off y_off : Int)
    (inv d local_density : K) (cs_s cs_a : CrossSection K) (counter_off master_key : Nat)
    (s : KernelState K)
    (hready : collision_ready c rng fuel nx x_off y_off cs_s cs_a counter_off master_key s)
    (hw0 : 0 < s.particle.weight) (hw1 : s.particle.weight ≤ 1)
    (hs0 : 0 ≤ s.lane.macroscopic_cs_scatter) (ha0 : 0 ≤ s.lane.macroscopic_cs_absorb)
    (hsum : 0 < s.lane.macroscopic_cs_scatter + s.lane.macroscopic_cs_absorb) :
    ∃ s' : KernelState K,
      collision_event m c rng fuel nx x_off y_off inv d local_density cs_s cs_a counter_off
        master_key s = .ok s' ∧
      0 ≤ s'.particle.weight ∧ s'.particle.weight ≤ 1 ∧
      s'.particle.weight ≤ s.particle.weight ∧
      (0 < s.lane.macroscopic_cs_scatter → 0 < s'.particle.weight) ∧
      (¬ (rng master_key s.particle.key counter_off).1 <
          s.lane.macroscopic_cs_absorb /
            (s.lane.macroscopic_cs_scatter + s.lane.macroscopic_cs_absorb) →
        0 < s'.particle.weight) ∧
      ((rng master_key s.particle.key counter_off).1 <
          s.lane.macroscopic_cs_absorb /
            (s.lane.macroscopic_cs_scatter + s.lane.macroscopic_cs_absorb) →
        s.lane.macroscopic_cs_scatter = 0 → s'.particle.weight = 0) := by
  obtain ⟨s', hev, -, -, -, -, -, habsf, hscf⟩ :=
    collision_event_spec m c rng fuel nx x_off y_off inv d local_density cs_s cs_a counter_off
      master_key s hready
  have hp0 : 0 ≤ s.lane.macroscopic_cs_absorb /
      (s.lane.macroscopic_cs_scatter + s.lane.macroscopic_cs_absorb) :=
    div_nonneg ha0 hsum.le
  have hp1 : s.lane.macroscopic_cs_absorb /
      (s.lane.macroscopic_cs_scatter + s.lane.macroscopic_cs_absorb) ≤ 1 := by
    rw [div_le_one hsum]; linarith
  have hp1' : 0 < s.lane.macroscopic_cs_scatter →
      s.lane.macroscopic_cs_absorb /
        (s.lane.macroscopic_cs_scatter + s.lane.macroscopic_cs_absorb) < 1 := by
    intro h; rw [div_lt_one hsum]; linarith
  by_cases habs : (rng master_key s.particle.key counter_off).1 <
      s.lane.macroscopic_cs_absorb /
        (s.lane.macroscopic_cs_scatter + s.lane.macroscopic_cs_absorb)
  · obtain ⟨hw, -⟩ := habsf habs
    refine ⟨s', hev, ?_, ?_, ?_, ?_, fun h => absurd habs h, ?_⟩
    · rw [hw]; exact mul_nonneg hw0.le (by linarith)
    · rw [hw]; nlinarith
    · rw [hw]; nlinarith
    · intro h; rw [hw]; exact mul_pos hw0 (by linarith [hp1' h])
    · intro _ hz
      rw [hw, hz, zero_add, div_self (by rw [hz, zero_add] at hsum; exact ne_of_gt hsum)]
      ring
  · obtain ⟨hw, -⟩ := hscf habs
    refine ⟨s', hev, ?_, ?_, ?_, ?_, fun _ => ?_, fun h => absurd h habs⟩
    · rw [hw]; exact hw0.le
    · rw [hw]; exact hw1
    · rw [hw]
    · intro _; rw [hw]; exact hw0
    · rw [hw]; exact hw0

/-- C12: with exact `sqrt`, `cos` and `sin`, the unit-direction invariant
`omega_x² + omega_y² = 1` is established by `inject_particles` for every
injected particle and preserved by every `collision_event` of a particle with
non-zero energy, for `A ≥ 1` and the second random number in `(0, 1)`.
`inject_particles` (with a table that has room for the particles and for the
reads of its cell searches, and mesh edges for the local cells) returns, and
every row `0 .. nparticles - 1` of the table it returns holds the direction
`(cos theta, sin theta)` of `inject_direction`, a unit vector. In
`collision_event` an absorption leaves the direction unchanged, and a scatter
rotates it by `(cos_theta, sin_theta)` with `|cos_theta| ≤ 1` and
`sin_theta = sqrt(1 - cos_theta²)`. -/
theorem unit_direction_invariant (m : Libm K) (c : Constants K)
    (rng : Nat → Nat → Nat → K × K) (fuel : Nat) (nx x_off y_off : Int)
    (inv d local_density : K) (cs_s cs_a : CrossSection K) (counter_off master_key : Nat)
    (s : KernelState K) (search_fuel : Nat) (nparticles local_nx local_ny pad : Int)
    (left bottom width height : K) (source_x_off source_y_off : Int) (dt : K)
    (edgex edgey : List K) (initial_energy : K) (source_key : Nat)
    (particles0 : List (Particle K)) (hsqrt : m.sqrt_exact) (htrig : m.trig_exact)
    (hcap : nparticles ≤ particles0.length)
    (hnx : local_nx ≤ particles0.length) (hny : local_ny ≤ particles0.length)
    (hpad : 0 ≤ pad) (hex : local_nx + pad + 1 ≤ edgex.length)
    (hey : local_ny + pad + 1 ≤ edgey.length)
    (hfx : local_nx.toNat + 1 ≤ search_fuel) (hfy : local_ny.toNat + 1 ≤ search_fuel)
    (hready : collision_ready c rng fuel nx x_off y_off cs_s cs_a counter_off master_key s)
    (hunit : s.particle.omega_x ^ 2 + s.particle.omega_y ^ 2 = 1)
    (he : s.particle.energy ≠ 0) (hA : 1 ≤ c.MASS_NO)
    (hu0 : 0 < (rng master_key s.particle.key counter_off).2)
    (hu1 : (rng master_key s.particle.key counter_off).2 < 1) :
    (∃ particles : List (Particle K),
      inject_particles m rng search_fuel nparticles local_nx local_ny pad left bottom width
        height source_x_off source_y_off dt edgex edgey initial_energy source_key
        particles0 = .ok particles ∧
      ∀ i : Nat, (i : Int) < nparticles → ∃ p : Particle K,
        readAt particles i = .ok p ∧
        p.omega_x = (inject_direction m rng source_key i).1 ∧
        p.omega_y = (inject_direction m rng source_key i).2 ∧
        p.omega_x ^ 2 + p.omega_y ^ 2 = 1) ∧
    (∀ key0 ii : Nat,
      (inject_direction m rng key0 ii).1 ^ 2 + (inject_direction m rng key0 ii).2 ^ 2 = 1) ∧
    ∃ s' : KernelState K,
      collision_event m c rng fuel nx x_off y_off inv d local_density cs_s cs_a counter_off
        master_key s = .ok s' ∧
      s'.particle.omega_x ^ 2 + s'.particle.omega_y ^ 2 = 1 ∧
      ((rng master_key s.particle.key counter_off).1 <
          s.lane.macroscopic_cs_absorb /
            (s.lane.macroscopic_cs_scatter + s.lane.macroscopic_cs_absorb) →
        s'.particle.omega_x = s.particle.omega_x ∧
          s'.particle.omega_y = s.particle.omega_y) ∧
      (¬ (rng master_key s.particle.key counter_off).1 <
          s.lane.macroscopic_cs_absorb /
            (s.lane.macroscopic_cs_scatter + s.lane.macroscopic_cs_absorb) →
        |scatter_cos_theta m c s.particle.energy
            (scatter_energy c s.particle.energy
              (rng master_key s.particle.key counter_off).2)| ≤ 1 ∧
          s'.particle.omega_x =
            s.particle.omega_x * scatter_cos_theta m c s.particle.energy
                (scatter_energy c s.particle.energy
                  (rng master_key s.particle.key counter_off).2) -
              s.particle.omega_y * m.sqrt (1 -
                scatter_cos_theta m c s.particle.energy
                    (scatter_energy c s.particle.energy
                      (rng master_key s.particle.key counter_off).2) *
                  scatter_cos_theta m c s.particle.energy
                    (scatter_energy c s.particle.energy
                      (rng master_key s.particle.key counter_off).2)) ∧
          s'.particle.omega_y =
            s.particle.omega_x * m.sqrt (1 -
                scatter_cos_theta m c s.particle.energy
                    (scatter_energy c s.particle.energy
                      (rng master_key s.particle.key counter_off).2) *
                  scatter_cos_theta m c s.particle.energy
                    (scatter_energy c s.particle.energy
                      (rng master_key s.particle.key counter_off).2)) +
              s.particle.omega_y * scatter_cos_theta m c s.particle.energy
                (scatter_energy c s.particle.energy
                  (rng master_key s.particle.key counter_off).2)) := by
  have hdir : ∀ key0 ii : Nat,
      (inject_direction m rng key0 ii).1 ^ 2 + (inject_direction m rng key0 ii).2 ^ 2 = 1 := by
    intro key0 ii
    have h := htrig (2 * m.M_PI * (rng key0 1 ii).1)
    simp only [inject_direction]
    rw [pow_two, pow_two]
    exact h
  refine ⟨?_, hdir, ?_⟩
  · obtain ⟨ps, hrun, -, -, hrows⟩ := inject_particles_first_rows m rng search_fuel local_nx
      local_ny pad left bottom width height source_x_off source_y_off dt edgex edgey
      initial_energy source_key particles0 hnx hny hpad hex hey hfx hfy nparticles.toNat
      (by omega)
    refine ⟨ps, hrun, ?_⟩
    intro i hi
    obtain ⟨p, hp, -, -, hox, hoy, -⟩ := hrows i (by omega)
    refine ⟨p, (readAt_eq_ok_iff ps i p).mpr ⟨by omega, by simpa using hp⟩, hox, hoy, ?_⟩
    rw [hox, hoy]
    exact hdir source_key i
  · obtain ⟨s', hev, -, -, -, -, -, habsf, hscf⟩ :=
      collision_event_spec m c rng fuel nx x_off y_off inv d local_density cs_s cs_a
        counter_off master_key s hready
    obtain ⟨hval, hN⟩ := one_sub_cos_theta_sq m hsqrt c s.particle.energy
      (rng master_key s.particle.key counter_off).2 he hA hu0 hu1
    have hnn : 0 ≤ 1 - scatter_cos_theta m c s.particle.energy
          (scatter_energy c s.particle.energy (rng master_key s.particle.key counter_off).2) *
        scatter_cos_theta m c s.particle.energy
          (scatter_energy c s.particle.energy
            (rng master_key s.particle.key counter_off).2) := by
      rw [hval]
      have hA0 : (0 : K) ≤ c.MASS_NO := by linarith
      have h1u : (0 : K) ≤ 1 - (rng master_key s.particle.key counter_off).2 := by linarith
      exact div_nonneg (mul_nonneg (mul_nonneg (by positivity) hu0.le) h1u) hN.le
    refine ⟨s', hev, ?_, fun habs => ⟨(habsf habs).2.2.1, (habsf habs).2.2.2.1⟩, ?_⟩
    · by_cases habs : (rng master_key s.particle.key counter_off).1 <
          s.lane.macroscopic_cs_absorb /
            (s.lane.macroscopic_cs_scatter + s.lane.macroscopic_cs_absorb)
      · obtain ⟨-, -, hox, hoy, -⟩ := habsf habs
        rw [hox, hoy]
        exact hunit
      · obtain ⟨-, -, hox, hoy, -⟩ := hscf habs
        rw [hox, hoy]
        exact rotation_unit hunit (hsqrt _ hnn).2
    · intro hsc
      obtain ⟨-, -, hox, hoy, -⟩ := hscf hsc
      refine ⟨?_, hox, hoy⟩
      rw [abs_le_one_iff_mul_self_le_one]
      linarith

end CollisionClaims


/-! ## Claims on the sub-steps of a lane -/

section StepClaims

variable {K : Type} [LinearOrderedField K]

/-- C15: for a live particle with `dt_to_census ≥ 0`, `mfp_to_collision ≥ 0`,
positive speed, positive `cell_mfp = 1 / (Σ_s + Σ_a)` and `d_fac ≥ 0`,
applying the event the classifier selects (collision, facet or census)
returns and yields a `dt_to_census` that is not larger than before and is
still `≥ 0`. -/
theorem handle_event_dt_to_census (m : Libm K) (c : Constants K)
    (rng : Nat → Nat → Nat → K × K) (fuel : Nat) (nx x_off y_off : Int) (inv : K)
    (cs_s cs_a : CrossSection K) (counter_off master_key : Nat) (s : KernelState K)
    (hlive : s.particle.dead = 0)
    (hready : event_ready c rng fuel nx x_off y_off cs_s cs_a counter_off master_key s)
    (hdt : 0 ≤ s.particle.dt_to_census) (hmfp : 0 ≤ s.particle.mfp_to_collision)
    (hspeed : 0 < s.lane.speed)
    (hcell : 0 < 1 / (s.lane.macroscopic_cs_scatter + s.lane.macroscopic_cs_absorb))
    (hfac : 0 ≤ s.lane.distance_to_facet) :
    ∃ s' : KernelState K,
      handle_event m c rng fuel nx x_off y_off inv cs_s cs_a counter_off master_key s =
        .ok s' ∧
      s'.particle.dt_to_census ≤ s.particle.dt_to_census ∧ 0 ≤ s'.particle.dt_to_census := by
  have hcalc := calc_event_live s.particle s.lane.macroscopic_cs_scatter
    s.lane.macroscopic_cs_absorb s.lane.speed s.lane.distance_to_facet s.lane.cell_mfp hlive
  unfold event_ready at hready
  rw [hcalc] at hready
  rcases select_event_cases
      (s.particle.mfp_to_collision *
        (1 / (s.lane.macroscopic_cs_scatter + s.lane.macroscopic_cs_absorb)))
      s.lane.distance_to_facet (s.lane.speed * s.particle.dt_to_census) with
    ⟨hsel, -, hlt⟩ | ⟨hsel, -, hlt⟩ | ⟨hsel, -, -⟩
  · -- collision
    rw [hsel] at hcalc hready
    have hready1 : collision_ready c rng fuel nx x_off y_off cs_s cs_a counter_off master_key
        { s with lane := { s.lane with
            cell_mfp := 1 / (s.lane.macroscopic_cs_scatter + s.lane.macroscopic_cs_absorb)
            next_event := .PARTICLE_COLLISION } } := hready
    obtain ⟨s', hev, -, -, -, -, -, habsf, hscf⟩ :=
      collision_event_spec m c rng fuel nx x_off y_off inv
        (s.particle.mfp_to_collision *
          (1 / (s.lane.macroscopic_cs_scatter + s.lane.macroscopic_cs_absorb)))
        s.lane.local_density cs_s cs_a counter_off master_key _ hready1
    have hd0 : 0 ≤ s.particle.mfp_to_collision *
        (1 / (s.lane.macroscopic_cs_scatter + s.lane.macroscopic_cs_absorb)) / s.lane.speed :=
      div_nonneg (mul_nonneg hmfp hcell.le) hspeed.le
    have hd1 : s.particle.mfp_to_collision *
        (1 / (s.lane.macroscopic_cs_scatter + s.lane.macroscopic_cs_absorb)) / s.lane.speed <
        s.particle.dt_to_census := by
      rw [div_lt_iff₀ hspeed, mul_comm s.particle.dt_to_census]
      exact hlt
    refine ⟨s', ?_, ?_⟩
    · rw [handle_event_collision m c rng fuel nx x_off y_off inv cs_s cs_a counter_off
        master_key s _ hcalc]
      exact hev
    · by_cases habs : (rng master_key s.particle.key counter_off).1 <
          s.lane.macroscopic_cs_absorb /
            (s.lane.macroscopic_cs_scatter + s.lane.macroscopic_cs_absorb)
      · obtain ⟨-, -, -, -, hd1', hd0'⟩ := habsf habs
        by_cases hlow : s.particle.energy < c.MIN_ENERGY_OF_INTEREST
        · rw [(hd1' hlow).2]
          exact ⟨le_rfl, hdt⟩
        · rw [(hd0' hlow).2]
          constructor <;> linarith
      · obtain ⟨-, -, -, -, -, hdt'⟩ := hscf habs
        rw [hdt']
        constructor <;> linarith
  · -- facet
    rw [hsel] at hcalc
    rw [handle_event_facet m c rng fuel nx x_off y_off inv cs_s cs_a counter_off master_key s
      _ hcalc]
    refine ⟨_, rfl, ?_⟩
    rw [facet_phase_facet _ rfl]
    have hd0 : 0 ≤ s.lane.distance_to_facet / s.lane.speed := div_nonneg hfac hspeed.le
    have hd1 : s.lane.distance_to_facet / s.lane.speed < s.particle.dt_to_census := by
      rw [div_lt_iff₀ hspeed, mul_comm s.particle.dt_to_census]
      exact hlt
    constructor
    · show s.particle.dt_to_census - s.lane.distance_to_facet / s.lane.speed ≤ _
      linarith
    · show 0 ≤ s.particle.dt_to_census - s.lane.distance_to_facet / s.lane.speed
      linarith
  · -- census
    rw [hsel] at hcalc hready
    rw [handle_event_census m c rng fuel nx x_off y_off inv cs_s cs_a counter_off master_key s
      _ hcalc]
    rw [census_event_spec c nx x_off y_off inv _ _
      { s with lane := { s.lane with
          cell_mfp := 1 / (s.lane.macroscopic_cs_scatter + s.lane.macroscopic_cs_absorb)
          next_event := .PARTICLE_CENSUS } } hready.1 hready.2]
    exact ⟨_, rfl, hdt, le_rfl⟩

/-- C16: for a live particle with positive `cell_mfp = 1 / (Σ_s + Σ_a)`, when
the classifier selects a facet event or a census event the sub-step returns
and the decrement it applies, `d_fac / cell_mfp` respectively
`d_cen / cell_mfp`, leaves `mfp_to_collision ≥ 0`. (The selection itself bounds
the decrement by `mfp_to_collision`, so the sign of `mfp_to_collision` before
the sub-step and the speed play no role.) -/
theorem handle_event_mfp_to_collision (m : Libm K) (c : Constants K)
    (rng : Nat → Nat → Nat → K × K) (fuel : Nat) (nx x_off y_off : Int) (inv : K)
    (cs_s cs_a : CrossSection K) (counter_off master_key : Nat) (s : KernelState K)
    (hlive : s.particle.dead = 0)
    (hready : event_ready c rng fuel nx x_off y_off cs_s cs_a counter_off master_key s)
    (hcell : 0 < 1 / (s.lane.macroscopic_cs_scatter + s.lane.macroscopic_cs_absorb)) :
    ((calc_event s.particle s.lane.macroscopic_cs_scatter s.lane.macroscopic_cs_absorb
        s.lane.speed s.lane.distance_to_facet s.lane.cell_mfp).1 = .PARTICLE_FACET →
      ∃ s' : KernelState K,
        handle_event m c rng fuel nx x_off y_off inv cs_s cs_a counter_off master_key s =
          .ok s' ∧
        s'.particle.mfp_to_collision = s.particle.mfp_to_collision -
          s.lane.distance_to_facet /
            (1 / (s.lane.macroscopic_cs_scatter + s.lane.macroscopic_cs_absorb)) ∧
        0 ≤ s'.particle.mfp_to_collision) ∧
    ((calc_event s.particle s.lane.macroscopic_cs_scatter s.lane.macroscopic_cs_absorb
        s.lane.speed s.lane.distance_to_facet s.lane.cell_mfp).1 = .PARTICLE_CENSUS →
      ∃ s' : KernelState K,
        handle_event m c rng fuel nx x_off y_off inv cs_s cs_a counter_off master_key s =
          .ok s' ∧
        s'.particle.mfp_to_collision = s.particle.mfp_to_collision -
          s.lane.speed * s.particle.dt_to_census /
            (1 / (s.lane.macroscopic_cs_scatter + s.lane.macroscopic_cs_absorb)) ∧
        0 ≤ s'.particle.mfp_to_collision) := by
  have hcalc := calc_event_live s.particle s.lane.macroscopic_cs_scatter
    s.lane.macroscopic_cs_absorb s.lane.speed s.lane.distance_to_facet s.lane.cell_mfp hlive
  unfold event_ready at hready
  rw [hcalc] at hready ⊢
  rcases select_event_cases
      (s.particle.mfp_to_collision *
        (1 / (s.lane.macroscopic_cs_scatter + s.lane.macroscopic_cs_absorb)))
      s.lane.distance_to_facet (s.lane.speed * s.particle.dt_to_census) with
    ⟨hsel, -, -⟩ | ⟨hsel, hle, -⟩ | ⟨hsel, hle, -⟩
  · rw [hsel]
    exact ⟨(fun h => nomatch h), (fun h => nomatch h)⟩
  · rw [hsel] at hcalc ⊢
    refine ⟨fun _ => ?_, (fun h => nomatch h)⟩
    rw [handle_event_facet m c rng fuel nx x_off y_off inv cs_s cs_a counter_off master_key s
      _ hcalc]
    refine ⟨_, rfl, ?_, ?_⟩
    · rw [facet_phase_facet _ rfl]
    · rw [facet_phase_facet _ rfl]
      show 0 ≤ s.particle.mfp_to_collision - s.lane.distance_to_facet /
        (1 / (s.lane.macroscopic_cs_scatter + s.lane.macroscopic_cs_absorb))
      have : s.lane.distance_to_facet /
          (1 / (s.lane.macroscopic_cs_scatter + s.lane.macroscopic_cs_absorb)) ≤
          s.particle.mfp_to_collision := by
        rw [div_le_iff₀ hcell]
        exact hle
      linarith
  · rw [hsel] at hcalc hready ⊢
    refine ⟨(fun h => nomatch h), fun _ => ?_⟩
    rw [handle_event_census m c rng fuel nx x_off y_off inv cs_s cs_a counter_off master_key s
      _ hcalc]
    rw [census_event_spec c nx x_off y_off inv _ _
      { s with lane := { s.lane with
          cell_mfp := 1 / (s.lane.macroscopic_cs_scatter + s.lane.macroscopic_cs_absorb)
          next_event := .PARTICLE_CENSUS } } hready.1 hready.2]
    refine ⟨_, rfl, rfl, ?_⟩
    show 0 ≤ s.particle.mfp_to_collision - s.lane.speed * s.particle.dt_to_census /
      (1 / (s.lane.macroscopic_cs_scatter + s.lane.macroscopic_cs_absorb))
    have : s.lane.speed * s.particle.dt_to_census /
        (1 / (s.lane.macroscopic_cs_scatter + s.lane.macroscopic_cs_absorb)) ≤
        s.particle.mfp_to_collision := by
      rw [div_le_iff₀ hcell]
      exact hle
    linarith

/-- C17: for a particle whose selected event is a facet, the facet phase of
`handle_particles` decreases `mfp_to_collision` by exactly `d_fac / cell_mfp`
(with `cell_mfp = 1 / (Σ_s + Σ_a)` from the classification) and
`dt_to_census` by exactly `d_fac / speed`, and leaves the energy and the
weight of the particle unchanged. -/
theorem facet_phase_decrements (m : Libm K) (c : Constants K)
    (rng : Nat → Nat → Nat → K × K) (fuel : Nat) (nx x_off y_off : Int) (inv : K)
    (cs_s cs_a : CrossSection K) (counter_off master_key : Nat) (s : KernelState K)
    (hsel : (calc_event s.particle s.lane.macroscopic_cs_scatter
      s.lane.macroscopic_cs_absorb s.lane.speed s.lane.distance_to_facet
      s.lane.cell_mfp).1 = .PARTICLE_FACET) :
    ∃ s' : KernelState K,
      handle_event m c rng fuel nx x_off y_off inv cs_s cs_a counter_off master_key s =
        .ok s' ∧
      s'.particle.mfp_to_collision = s.particle.mfp_to_collision -
        s.lane.distance_to_facet /
          (1 / (s.lane.macroscopic_cs_scatter + s.lane.macroscopic_cs_absorb)) ∧
      s'.particle.dt_to_census =
        s.particle.dt_to_census - s.lane.distance_to_facet / s.lane.speed ∧
      s'.particle.energy = s.particle.energy ∧ s'.particle.weight = s.particle.weight := by
  have hlive : s.particle.dead = 0 := by
    by_contra hd
    unfold calc_event at hsel
    rw [if_pos hd] at hsel
    exact nomatch hsel
  have hcalc := calc_event_live s.particle s.lane.macroscopic_cs_scatter
    s.lane.macroscopic_cs_absorb s.lane.speed s.lane.distance_to_facet s.lane.cell_mfp hlive
  rw [hcalc] at hsel
  simp only at hsel
  rw [hsel] at hcalc
  rw [handle_event_facet m c rng fuel nx x_off y_off inv cs_s cs_a counter_off master_key s
    _ hcalc]
  refine ⟨_, rfl, ?_, ?_, ?_, ?_⟩ <;> rw [facet_phase_facet _ rfl]

/-- C20: `census_event` advances the position by `d_cen * (omega_x, omega_y)`,
decreases `mfp_to_collision` by `d_cen / cell_mfp`, sets `dt_to_census` to 0
and adds `(energy_deposition + deposition of the census segment) *
inv_ntotal_particles` to the tally entry of the cell of the particle (an entry
of the grid), leaving every other tally entry and the energy, weight,
direction and cell of the particle unchanged. -/
theorem census_event_effect (c : Constants K) (nx x_off y_off : Int)
    (inv d_cen cell_mfp : K) (s : KernelState K)
    (h0 : 0 ≤ (s.particle.celly - y_off) * nx + (s.particle.cellx - x_off))
    (h1 : (s.particle.celly - y_off) * nx + (s.particle.cellx - x_off) < s.tally.length) :
    ∃ s' : KernelState K,
      census_event c nx x_off y_off inv d_cen cell_mfp s = .ok s' ∧
      s'.particle.x = s.particle.x + d_cen * s.particle.omega_x ∧
      s'.particle.y = s.particle.y + d_cen * s.particle.omega_y ∧
      s'.particle.mfp_to_collision = s.particle.mfp_to_collision - d_cen / cell_mfp ∧
      s'.particle.dt_to_census = 0 ∧
      s'.tally = s.tally.set ((s.particle.celly - y_off) * nx +
          (s.particle.cellx - x_off)).toNat
        (s.tally.getD ((s.particle.celly - y_off) * nx + (s.particle.cellx - x_off)).toNat 0 +
          (s.lane.energy_deposition +
            calculate_energy_deposition c s.particle d_cen s.lane.number_density
              s.lane.microscopic_cs_absorb
              (s.lane.microscopic_cs_scatter + s.lane.microscopic_cs_absorb)) * inv) ∧
      s'.particle.energy = s.particle.energy ∧ s'.particle.weight = s.particle.weight ∧
      s'.particle.omega_x = s.particle.omega_x ∧ s'.particle.omega_y = s.particle.omega_y ∧
      s'.particle.cellx = s.particle.cellx ∧ s'.particle.celly = s.particle.celly :=
  ⟨_, census_event_spec c nx x_off y_off inv d_cen cell_mfp s h0 h1, rfl, rfl, rfl, rfl, rfl,
    rfl, rfl, rfl, rfl, rfl, rfl⟩

end StepClaims

/-! ### Concrete runs of the event handlers -/

theorem collision_scatter_energy_bounds_witness :
    collision_ready (ex_constants ℝ) (ex_rng ℝ) 11 1 0 0 (ex_table ℝ) (ex_table ℝ) 0 0
        (ex_state ℝ 3 1 1) ∧
      ¬ (ex_rng ℝ 0 0 0).1 < (1 : ℝ) / (3 + 1) ∧ (0 : ℝ) < 3 ∧
      (1 : ℝ) ≤ (ex_constants ℝ).MASS_NO ∧ 0 < (ex_rng ℝ 0 0 0).2 ∧ (ex_rng ℝ 0 0 0).2 < 1 ∧
      ∃ s' : KernelState ℝ,
        collision_event ⟨Real.sqrt, Real.log, Real.cos, Real.sin, Real.pi⟩ (ex_constants ℝ)
          (ex_rng ℝ) 11 1 0 0 1 (1 / 4) 1 (ex_table ℝ) (ex_table ℝ) 0 0 (ex_state ℝ 3 1 1) =
            .ok s' ∧
        s'.particle.energy = 3 / 2 := by
  have hsc : ¬ (ex_rng ℝ 0 0 0).1 < (1 : ℝ) / (3 + 1) := by norm_num [ex_rng]
  have hA : (1 : ℝ) ≤ (ex_constants ℝ).MASS_NO := by norm_num [ex_constants]
  have hu0 : 0 < (ex_rng ℝ 0 0 0).2 := by norm_num [ex_rng]
  have hu1 : (ex_rng ℝ 0 0 0).2 < 1 := by norm_num [ex_rng]
  obtain ⟨s', hev, hen, -, -⟩ := collision_scatter_energy_bounds
    ⟨Real.sqrt, Real.log, Real.cos, Real.sin, Real.pi⟩ (ex_constants ℝ) (ex_rng ℝ) 11 1 0 0 1
    (1 / 4) 1 (ex_table ℝ) (ex_table ℝ) 0 0 (ex_state ℝ 3 1 1) (ex_state_ready 3 1 1) hsc
    (by norm_num [ex_state, ex_particle]) hA hu0 hu1
  refine ⟨ex_state_ready 3 1 1, hsc, by norm_num, hA, hu0, hu1, s', hev, ?_⟩
  rw [hen]
  norm_num [ex_state, ex_particle, ex_constants, ex_rng]

theorem unit_direction_invariant_witness :
    (⟨Real.sqrt, Real.log, Real.cos, Real.sin, Real.pi⟩ : Libm ℝ).sqrt_exact ∧
      (⟨Real.sqrt, Real.log, Real.cos, Real.sin, Real.pi⟩ : Libm ℝ).trig_exact ∧
      collision_ready (ex_constants ℝ) (ex_rng ℝ) 11 1 0 0 (ex_table ℝ) (ex_table ℝ) 0 0
        (ex_state ℝ 3 1 1) ∧
      ((3 : ℝ) / 5) ^ 2 + (4 / 5) ^ 2 = 1 ∧ (3 : ℝ) ≠ 0 ∧
      (1 : ℝ) ≤ (ex_constants ℝ).MASS_NO ∧ 0 < (ex_rng ℝ 0 0 0).2 ∧ (ex_rng ℝ 0 0 0).2 < 1 ∧
      (∃ particles : List (Particle ℝ),
        inject_particles ⟨Real.sqrt, Real.log, Real.cos, Real.sin, Real.pi⟩ (ex_rng ℝ) 3 2 2 1
          0 0 0 2 1 0 0 1 [0, 1, 2] [0, 1] 5 7
          (List.replicate 3 (ex_particle ℝ 0 0 0)) = .ok particles ∧
        ∀ i : Nat, (i : Int) < 2 → ∃ p : Particle ℝ,
          readAt particles i = .ok p ∧ p.omega_x ^ 2 + p.omega_y ^ 2 = 1) ∧
      (∀ key0 ii : Nat,
        Real.cos (2 * Real.pi * (ex_rng ℝ key0 1 ii).1) ^ 2 +
          Real.sin (2 * Real.pi * (ex_rng ℝ key0 1 ii).1) ^ 2 = 1) ∧
      ∃ s' : KernelState ℝ,
        collision_event ⟨Real.sqrt, Real.log, Real.cos, Real.sin, Real.pi⟩ (ex_constants ℝ)
          (ex_rng ℝ) 11 1 0 0 1 (1 / 4) 1 (ex_table ℝ) (ex_table ℝ) 0 0 (ex_state ℝ 3 1 1) =
            .ok s' ∧
        s'.particle.omega_x ^ 2 + s'.particle.omega_y ^ 2 = 1 := by
  have hunit : ((3 : ℝ) / 5) ^ 2 + (4 / 5) ^ 2 = 1 := by norm_num
  have hA : (1 : ℝ) ≤ (ex_constants ℝ).MASS_NO := by norm_num [ex_constants]
  have hu0 : 0 < (ex_rng ℝ 0 0 0).2 := by norm_num [ex_rng]
  have hu1 : (ex_rng ℝ 0 0 0).2 < 1 := by norm_num [ex_rng]
  obtain ⟨⟨ps, hrun, hrows⟩, hinj, s', hev, hu, -, -⟩ := unit_direction_invariant
    ⟨Real.sqrt, Real.log, Real.cos, Real.sin, Real.pi⟩ (ex_constants ℝ) (ex_rng ℝ) 11 1 0 0 1
    (1 / 4) 1 (ex_table ℝ) (ex_table ℝ) 0 0 (ex_state ℝ 3 1 1) 3 2 2 1 0 0 0 2 1 0 0 1
    [0, 1, 2] [0, 1] 5 7 (List.replicate 3 (ex_particle ℝ 0 0 0)) real_sqrt_exact
    real_trig_exact (by simp) (by simp) (by simp) (by decide) (by simp) (by simp)
    (by decide) (by decide) (ex_state_ready 3 1 1) hunit
    (by norm_num [ex_state, ex_particle]) hA hu0 hu1
  refine ⟨real_sqrt_exact, real_trig_exact, ex_state_ready 3 1 1, hunit, by norm_num, hA, hu0,
    hu1, ⟨ps, hrun, fun i hi => ?_⟩, hinj, s', hev, hu⟩
  obtain ⟨p, hp, -, -, hpu⟩ := hrows i hi
  exact ⟨p, hp, hpu⟩

theorem collision_absorb_or_scatter_witness :
    collision_ready (ex_constants ℝ) (ex_rng ℝ) 11 1 0 0 (ex_table ℝ) (ex_table ℝ) 0 0
        (ex_state ℝ 1 3 1) ∧
      ∃ s' : KernelState ℝ,
        collision_event ⟨Real.sqrt, Real.log, Real.cos, Real.sin, Real.pi⟩ (ex_constants ℝ)
          (ex_rng ℝ) 11 1 0 0 1 (1 / 4) 1 (ex_table ℝ) (ex_table ℝ) 0 0 (ex_state ℝ 1 3 1) =
            .ok s' ∧
        s'.particle.weight = 1 / 4 ∧ s'.particle.energy = 3 := by
  obtain ⟨s', hev, habsf, -⟩ := collision_absorb_or_scatter
    ⟨Real.sqrt, Real.log, Real.cos, Real.sin, Real.pi⟩ (ex_constants ℝ) (ex_rng ℝ) 11 1 0 0 1
    (1 / 4) 1 (ex_table ℝ) (ex_table ℝ) 0 0 (ex_state ℝ 1 3 1) (ex_state_ready 1 3 1)
  obtain ⟨hw, he, -⟩ := habsf (by norm_num [ex_state, ex_lane, ex_rng])
  refine ⟨ex_state_ready 1 3 1, s', hev, ?_, ?_⟩
  · rw [hw]; norm_num [ex_state, ex_particle, ex_lane]
  · rw [he]; rfl

/-- C14 fails for a pure absorber. The particle of `pure_absorber_state` has
weight 1 and energy 3, above `MIN_ENERGY_OF_INTEREST = 1`; the macroscopic
cross sections are `Σ_s = 0` and `Σ_a = 30` (non-negative, sum positive), so
`p_a = 1`. With first random number `1/2 < p_a` the event returns, the
particle survives (`dead = 0`), and its weight is `0`, outside `(0, 1]`. -/
theorem collision_weight_reaches_zero :
    (pure_absorber_state ℝ).particle.weight = 1 ∧
      (pure_absorber_state ℝ).lane.macroscopic_cs_scatter = 0 ∧
      (pure_absorber_state ℝ).lane.macroscopic_cs_absorb = 30 ∧
      Except.map (fun s' : KernelState ℝ => (s'.particle.weight, s'.particle.dead))
        (collision_event ⟨Real.sqrt, Real.log, Real.cos, Real.sin, Real.pi⟩ (ex_constants ℝ)
          (ex_rng ℝ) 11 1 0 0 1 (1 / 30) 1 (ex_zero_table ℝ) (ex_table ℝ) 0 0
          (pure_absorber_state ℝ)) = .ok (0, 0) := by
  obtain ⟨s', hev, -, -, -, -, -, habsf, -⟩ := collision_event_spec
    ⟨Real.sqrt, Real.log, Real.cos, Real.sin, Real.pi⟩ (ex_constants ℝ) (ex_rng ℝ) 11 1 0 0 1
    (1 / 30) 1 (ex_zero_table ℝ) (ex_table ℝ) 0 0 (pure_absorber_state ℝ) pure_absorber_ready
  obtain ⟨hw, -, -, -, -, hd⟩ := habsf (by norm_num [pure_absorber_state, ex_rng])
  have hd0 := (hd (by norm_num [pure_absorber_state, ex_particle, ex_constants])).1
  have hw0 : s'.particle.weight = 0 := by
    rw [hw]; norm_num [pure_absorber_state, ex_particle]
  refine ⟨rfl, rfl, rfl, ?_⟩
  rw [hev]
  show Except.ok (s'.particle.weight, s'.particle.dead) = Except.ok (0, 0)
  rw [hw0, hd0]

theorem collision_weight_bounds_witness :
    collision_ready (ex_constants ℝ) (ex_rng ℝ) 11 1 0 0 (ex_table ℝ) (ex_table ℝ) 0 0
        (ex_state ℝ 1 3 1) ∧
      (0 : ℝ) < (ex_state ℝ 1 3 1).particle.weight ∧
      (ex_state ℝ 1 3 1).particle.weight ≤ 1 ∧ (0 : ℝ) ≤ 1 ∧ (0 : ℝ) ≤ 3 ∧ (0 : ℝ) < 1 + 3 ∧
      ∃ s' : KernelState ℝ,
        collision_event ⟨Real.sqrt, Real.log, Real.cos, Real.sin, Real.pi⟩ (ex_constants ℝ)
          (ex_rng ℝ) 11 1 0 0 1 (1 / 4) 1 (ex_table ℝ) (ex_table ℝ) 0 0 (ex_state ℝ 1 3 1) =
            .ok s' ∧
        0 < s'.particle.weight ∧ s'.particle.weight ≤ 1 := by
  have hw0 : (0 : ℝ) < (ex_state ℝ 1 3 1).particle.weight := by
    norm_num [ex_state, ex_particle]
  have hw1 : (ex_state ℝ 1 3 1).particle.weight ≤ 1 := by norm_num [ex_state, ex_particle]
  obtain ⟨s', hev, -, h1, -, hpos, -⟩ := collision_weight_bounds
    ⟨Real.sqrt, Real.log, Real.cos, Real.sin, Real.pi⟩ (ex_constants ℝ) (ex_rng ℝ) 11 1 0 0 1
    (1 / 4) 1 (ex_table ℝ) (ex_table ℝ) 0 0 (ex_state ℝ 1 3 1) (ex_state_ready 1 3 1) hw0 hw1
    (by norm_num [ex_state, ex_lane]) (by norm_num [ex_state, ex_lane])
    (by norm_num [ex_state, ex_lane])
  exact ⟨ex_state_ready 1 3 1, hw0, hw1, by norm_num, by norm_num, by norm_num, s', hev,
    hpos (by norm_num [ex_state, ex_lane]), h1⟩

theorem handle_event_dt_to_census_witness :
    (ex_state ℝ 3 1 1).particle.dead = 0 ∧
      event_ready (ex_constants ℝ) (ex_rng ℝ) 11 1 0 0 (ex_table ℝ) (ex_table ℝ) 0 0
        (ex_state ℝ 3 1 1) ∧
      (0 : ℝ) ≤ (ex_state ℝ 3 1 1).particle.dt_to_census ∧
      (0 : ℝ) ≤ (ex_state ℝ 3 1 1).particle.mfp_to_collision ∧
      (0 : ℝ) < (ex_state ℝ 3 1 1).lane.speed ∧ (0 : ℝ) < 1 / (3 + 1) ∧
      (0 : ℝ) ≤ (ex_state ℝ 3 1 1).lane.distance_to_facet ∧
      ∃ s' : KernelState ℝ,
        handle_event ⟨Real.sqrt, Real.log, Real.cos, Real.sin, Real.pi⟩ (ex_constants ℝ)
          (ex_rng ℝ) 11 1 0 0 1 (ex_table ℝ) (ex_table ℝ) 0 0 (ex_state ℝ 3 1 1) = .ok s' ∧
        s'.particle.dt_to_census ≤ 2 ∧ 0 ≤ s'.particle.dt_to_census := by
  have h1 : (0 : ℝ) ≤ (ex_state ℝ 3 1 1).particle.dt_to_census := by
    norm_num [ex_state, ex_particle]
  have h2 : (0 : ℝ) ≤ (ex_state ℝ 3 1 1).particle.mfp_to_collision := by
    norm_num [ex_state, ex_particle]
  have h3 : (0 : ℝ) < (ex_state ℝ 3 1 1).lane.speed := by norm_num [ex_state, ex_lane]
  have h4 : (0 : ℝ) < 1 / (3 + 1) := by norm_num
  have h5 : (0 : ℝ) ≤ (ex_state ℝ 3 1 1).lane.distance_to_facet := by
    norm_num [ex_state, ex_lane]
  exact ⟨rfl, ex_state_event_ready_collision, h1, h2, h3, h4, h5,
    handle_event_dt_to_census ⟨Real.sqrt, Real.log, Real.cos, Real.sin, Real.pi⟩
      (ex_constants ℝ) (ex_rng ℝ) 11 1 0 0 1 (ex_table ℝ) (ex_table ℝ) 0 0 (ex_state ℝ 3 1 1)
      rfl ex_state_event_ready_collision h1 h2 h3 h4 h5⟩

theorem handle_event_mfp_to_collision_witness :
    (ex_state ℝ (1 / 2) (1 / 2) (1 / 2)).particle.dead = 0 ∧
      event_ready (ex_constants ℝ) (ex_rng ℝ) 11 1 0 0 (ex_table ℝ) (ex_table ℝ) 0 0
        (ex_state ℝ (1 / 2) (1 / 2) (1 / 2)) ∧
      (0 : ℝ) < 1 / (1 / 2 + 1 / 2) ∧
      ∃ s' : KernelState ℝ,
        handle_event ⟨Real.sqrt, Real.log, Real.cos, Real.sin, Real.pi⟩ (ex_constants ℝ)
          (ex_rng ℝ) 11 1 0 0 1 (ex_table ℝ) (ex_table ℝ) 0 0
          (ex_state ℝ (1 / 2) (1 / 2) (1 / 2)) = .ok s' ∧
        s'.particle.mfp_to_collision = 1 / 2 ∧ 0 ≤ s'.particle.mfp_to_collision := by
  have h4 : (0 : ℝ) < 1 / (1 / 2 + 1 / 2) := by norm_num
  have hsel : (calc_event (ex_state ℝ (1 / 2) (1 / 2) (1 / 2)).particle
      (ex_state ℝ (1 / 2) (1 / 2) (1 / 2)).lane.macroscopic_cs_scatter
      (ex_state ℝ (1 / 2) (1 / 2) (1 / 2)).lane.macroscopic_cs_absorb
      (ex_state ℝ (1 / 2) (1 / 2) (1 / 2)).lane.speed
      (ex_state ℝ (1 / 2) (1 / 2) (1 / 2)).lane.distance_to_facet
      (ex_state ℝ (1 / 2) (1 / 2) (1 / 2)).lane.cell_mfp).1 = .PARTICLE_FACET := by
    rw [ex_state_selects_facet]
  obtain ⟨s', hev, hm, hnn⟩ := (handle_event_mfp_to_collision
    ⟨Real.sqrt, Real.log, Real.cos, Real.sin, Real.pi⟩ (ex_constants ℝ) (ex_rng ℝ) 11 1 0 0 1
    (ex_table ℝ) (ex_table ℝ) 0 0 (ex_state ℝ (1 / 2) (1 / 2) (1 / 2)) rfl
    ex_state_event_ready_facet h4).1 hsel
  refine ⟨rfl, ex_state_event_ready_facet, h4, s', hev, ?_, hnn⟩
  rw [hm]
  norm_num [ex_state, ex_particle, ex_lane]

theorem facet_phase_decrements_witness :
    (calc_event (ex_state ℝ (1 / 2) (1 / 2) (1 / 2)).particle
        (ex_state ℝ (1 / 2) (1 / 2) (1 / 2)).lane.macroscopic_cs_scatter
        (ex_state ℝ (1 / 2) (1 / 2) (1 / 2)).lane.macroscopic_cs_absorb
        (ex_state ℝ (1 / 2) (1 / 2) (1 / 2)).lane.speed
        (ex_state ℝ (1 / 2) (1 / 2) (1 / 2)).lane.distance_to_facet
        (ex_state ℝ (1 / 2) (1 / 2) (1 / 2)).lane.cell_mfp).1 = .PARTICLE_FACET ∧
      ∃ s' : KernelState ℝ,
        handle_event ⟨Real.sqrt, Real.log, Real.cos, Real.sin, Real.pi⟩ (ex_constants ℝ)
          (ex_rng ℝ) 11 1 0 0 1 (ex_table ℝ) (ex_table ℝ) 0 0
          (ex_state ℝ (1 / 2) (1 / 2) (1 / 2)) = .ok s' ∧
        s'.particle.mfp_to_collision = 1 / 2 ∧ s'.particle.dt_to_census = 3 / 2 ∧
        s'.particle.energy = 3 ∧ s'.particle.weight = 1 := by
  have hsel : (calc_event (ex_state ℝ (1 / 2) (1 / 2) (1 / 2)).particle
      (ex_state ℝ (1 / 2) (1 / 2) (1 / 2)).lane.macroscopic_cs_scatter
      (ex_state ℝ (1 / 2) (1 / 2) (1 / 2)).lane.macroscopic_cs_absorb
      (ex_state ℝ (1 / 2) (1 / 2) (1 / 2)).lane.speed
      (ex_state ℝ (1 / 2) (1 / 2) (1 / 2)).lane.distance_to_facet
      (ex_state ℝ (1 / 2) (1 / 2) (1 / 2)).lane.cell_mfp).1 = .PARTICLE_FACET := by
    rw [ex_state_selects_facet]
  obtain ⟨s', hev, hm, hdt, he, hw⟩ := facet_phase_decrements
    ⟨Real.sqrt, Real.log, Real.cos, Real.sin, Real.pi⟩ (ex_constants ℝ) (ex_rng ℝ) 11 1 0 0 1
    (ex_table ℝ) (ex_table ℝ) 0 0 (ex_state ℝ (1 / 2) (1 / 2) (1 / 2)) hsel
  refine ⟨hsel, s', hev, ?_, ?_, ?_, ?_⟩
  · rw [hm]; norm_num [ex_state, ex_particle, ex_lane]
  · rw [hdt]; norm_num [ex_state, ex_particle, ex_lane]
  · rw [he]; rfl
  · rw [hw]; rfl

/-- C18 fails on the code: the reflection at a global boundary is not compiled
(it stands under `#if 0`). For the particle at `x = 9/10` in the only cell of
a one-cell mesh, moving in direction `(1, 0)`, `calc_distance_to_facet`
selects the x facet at distance `1/10`, which lies on the global boundary
(`cellx = global_nx - 1 = 0`), and the classifier selects the facet event;
after the facet phase `omega_x` is still `1`, not `-1`. -/
theorem facet_phase_does_not_reflect :
    calc_distance_to_facet constants0 (9 / 10) (1 / 2) 0 0 0 1 0 1 0 0 unit_edges unit_edges =
        .ok (.fin (1 / 10), 1) ∧
      (calc_event boundary_facet_state.particle (1 / 2) (1 / 2) 1 (1 / 10) 1).1 =
        .PARTICLE_FACET ∧
      boundary_facet_state.lane.next_event = .PARTICLE_FACET ∧
      boundary_facet_state.particle.omega_x = 1 ∧
      (facet_phase boundary_facet_state).particle.omega_x = 1 ∧
      (facet_phase boundary_facet_state).particle.cellx = 0 := by
  refine ⟨?_, ?_, rfl, rfl, rfl, rfl⟩
  · rw [calc_distance_to_facet_eq constants0 (9 / 10) (1 / 2) 0 0 0 1 0 1 0 0 unit_edges
      unit_edges 0 1 0 1 rfl rfl rfl rfl]
    norm_num [XReal.recip, XReal.scale, XReal.lt]
  · norm_num [calc_event, select_event, boundary_facet_state, ex_particle]

/-- C19 fails on the code: the move to the facet and the step of the cell
index are not compiled (they stand under `#if 0`). For the particle at
`(1/2, 1/2)` in cell `(0, 0)` of a mesh two cells wide, moving in direction
`(4/5, 3/5)`, `calc_distance_to_facet` selects the x facet at distance `5/8`,
between the cells 0 and 1, and the classifier selects the facet event; after
the facet phase the particle is still at `(1/2, 1/2)` in cell 0, not at
`(1, 7/8)` in cell 1. -/
theorem facet_phase_does_not_move :
    calc_distance_to_facet constants0 (1 / 2) (1 / 2) 0 0 0 (4 / 5) (3 / 5) 1 0 0 [0, 1, 2]
        unit_edges = .ok (.fin (5 / 8), 1) ∧
      (calc_event interior_facet_state.particle (1 / 2) (1 / 2) 1 (5 / 8) 1).1 =
        .PARTICLE_FACET ∧
      interior_facet_state.lane.next_event = .PARTICLE_FACET ∧
      (facet_phase interior_facet_state).particle.x = 1 / 2 ∧
      (facet_phase interior_facet_state).particle.y = 1 / 2 ∧
      (facet_phase interior_facet_state).particle.cellx = 0 ∧
      (1 / 2 : ℚ) + 5 / 8 * (4 / 5) = 1 ∧ (1 / 2 : ℚ) + 5 / 8 * (3 / 5) = 7 / 8 := by
  refine ⟨?_, ?_, rfl, rfl, rfl, rfl, by norm_num, by norm_num⟩
  · rw [calc_distance_to_facet_eq constants0 (1 / 2) (1 / 2) 0 0 0 (4 / 5) (3 / 5) 1 0 0
      [0, 1, 2] unit_edges 0 1 0 1 rfl rfl rfl rfl]
    norm_num [XReal.recip, XReal.scale, XReal.lt]
  · norm_num [calc_event, select_event, interior_facet_state, ex_particle]

theorem census_event_effect_witness :
    (0 : Int) ≤ ((ex_state ℚ 1 1 1).particle.celly - 0) * 1 +
        ((ex_state ℚ 1 1 1).particle.cellx - 0) ∧
      ((ex_state ℚ 1 1 1).particle.celly - 0) * 1 + ((ex_state ℚ 1 1 1).particle.cellx - 0) <
        ((ex_state ℚ 1 1 1).tally.length : Int) ∧
      ∃ s' : KernelState ℚ,
        census_event (ex_constants ℚ) 1 0 0 1 2 4 (ex_state ℚ 1 1 1) = .ok s' ∧
        s'.particle.x = 17 / 10 ∧ s'.particle.y = 21 / 10 ∧
        s'.particle.mfp_to_collision = 1 / 2 ∧ s'.particle.dt_to_census = 0 ∧
        s'.tally = [15 / 2] := by
  obtain ⟨s', hev, hx, hy, hm, hdt, ht, -⟩ := census_event_effect (ex_constants ℚ) 1 0 0 1 2
    4 (ex_state ℚ 1 1 1) (by decide) (by decide)
  refine ⟨by decide, by decide, s', hev, ?_, ?_, ?_, hdt, ?_⟩
  · rw [hx]; norm_num [ex_state, ex_particle]
  · rw [hy]; norm_num [ex_state, ex_particle]
  · rw [hm]; norm_num [ex_state, ex_particle]
  · rw [ht]
    norm_num [ex_state, ex_particle, ex_lane, ex_constants, calculate_energy_deposition]

/-! ## Claims on the tally grid -/

section TallyClaims

variable {K : Type} [LinearOrderedField K]

/-- C21: for a particle whose tally entry `(celly - y_off) * nx + (cellx -
x_off)` lies inside the grid, `update_tallies` returns a grid of the same
length in which that entry has grown by `energy_deposition *
inv_ntotal_particles` and every other entry reads as before. -/
theorem update_tallies_frame (nx x_off y_off : Int) (p : Particle K)
    (inv_ntotal_particles energy_deposition : K) (tally : List K)
    (h0 : 0 ≤ (p.celly - y_off) * nx + (p.cellx - x_off))
    (h1 : (p.celly - y_off) * nx + (p.cellx - x_off) < tally.length) :
    ∃ (tally' : List K) (old : K),
      update_tallies nx x_off y_off p inv_ntotal_particles energy_deposition tally =
        .ok tally' ∧
      tally'.length = tally.length ∧
      readAt tally ((p.celly - y_off) * nx + (p.cellx - x_off)) = .ok old ∧
      readAt tally' ((p.celly - y_off) * nx + (p.cellx - x_off)) =
        .ok (old + energy_deposition * inv_ntotal_particles) ∧
      ∀ j : Int, j ≠ (p.celly - y_off) * nx + (p.cellx - x_off) →
        readAt tally' j = readAt tally j := by
  obtain ⟨old, hold, hadd⟩ := addAt_eq_ok tally _ (energy_deposition * inv_ntotal_particles) h0 h1
  refine ⟨_, old, hadd, List.length_set _ _ _, hold, readAt_set_self _ _ _ h0 h1, ?_⟩
  intro j hj
  exact readAt_set_ne _ _ _ _ h0 hj

/-- C22: when the timestep of a particle returns (`lane_timestep`: the cache
initialisation and the passes of the `while` loop as they act on the lane of
the particle, until the particle is dead or has had its census event), the
total of the tally grid has grown by `inv_ntotal_particles` times the sum of
the values that `calculate_energy_deposition` returned for the events of the
particle (`deposited`): every value is written once and none is lost. -/
theorem lane_timestep_tally_conservation (m : Libm K) (c : Constants K)
    (rng : Nat → Nat → Nat → K × K) (fuel passes : Nat) (nx pad x_off y_off initial : Int)
    (dt inv_ntotal_particles : K) (density edgex edgey : List K)
    (cs_scatter_table cs_absorb_table : CrossSection K) (master_key : Nat) (ip : Int)
    (counter counter0 : Nat) (s s' : KernelState K) (deposited : List K)
    (h : lane_timestep m c rng fuel passes nx pad x_off y_off initial dt inv_ntotal_particles
      density edgex edgey cs_scatter_table cs_absorb_table master_key ip counter counter0 s =
        .ok (s', deposited)) :
    s'.tally.sum - s.tally.sum = inv_ntotal_particles * deposited.sum := by
  unfold lane_timestep at h
  by_cases hd : s.particle.dead ≠ 0
  · rw [if_pos hd] at h
    simp only [bind, Except.bind, pure, Except.pure] at h
    have := lane_loop_tally m c rng fuel nx pad x_off y_off inv_ntotal_particles edgex edgey
      cs_scatter_table cs_absorb_table master_key ip passes counter0 s s' deposited h
    rw [if_neg hd] at this
    rw [this]
    ring
  · rw [if_neg hd] at h
    cases h0 : cache_init_lane m c rng fuel nx pad x_off y_off initial dt density
        cs_scatter_table cs_absorb_table master_key counter s with
    | error e => rw [h0] at h; exact nomatch h
    | ok s0 =>
      rw [h0] at h
      simp only [bind, Except.bind] at h
      obtain ⟨ht, he, hdd⟩ := cache_init_lane_frame m c rng fuel nx pad x_off y_off initial dt
        density cs_scatter_table cs_absorb_table master_key counter s s0 h0
      have := lane_loop_tally m c rng fuel nx pad x_off y_off inv_ntotal_particles edgex edgey
        cs_scatter_table cs_absorb_table master_key ip passes counter0 s0 s' deposited h
      rw [hdd, if_pos (not_not.mp hd), ht, he] at this
      rw [this]
      ring

end TallyClaims

/-- C21 at work: on a grid of two cells (`nx = 2`) the particle `particle0` in
cell `(0, 0)` adds `3 * (1/2)` to entry 0. -/
theorem update_tallies_frame_witness :
    ∃ (tally' : List ℚ) (old : ℚ),
      update_tallies 2 0 0 particle0 (1 / 2) 3 [5, 7] = .ok tally' ∧
      tally'.length = 2 ∧
      readAt [5, 7] ((particle0.celly - 0) * 2 + (particle0.cellx - 0)) = .ok old ∧
      readAt tally' ((particle0.celly - 0) * 2 + (particle0.cellx - 0)) =
        .ok (old + 3 * (1 / 2)) ∧
      ∀ j : Int, j ≠ (particle0.celly - 0) * 2 + (particle0.cellx - 0) →
        readAt tally' j = readAt [5, 7] j :=
  update_tallies_frame 2 0 0 particle0 (1 / 2) 3 [5, 7] (by decide) (by decide)

/-- C22 at work, on three timesteps of the particle of `fresh_lane_state`, whose
tally starts at `[0]`. With `dt = 1/36000` the particle streams to its census
(one deposition). With `dt = 1/6000` it first collides and scatters, which
keeps the deposition `1/32` of the segment in the lane, and then reaches its
census, where `13/1280` is added and the sum `53/1280` is written; the same
timestep run by `solve_transport_2d` ends with that tally. With the constants
`cutoff_constants` and the generator `absorbing_rng` the collision is an
absorption that kills the particle, and the deposition `3/64` is written at
its death. -/
theorem lane_timestep_tally_conservation_witness :
    (∃ (s' : KernelState ℚ) (deposited : List ℚ),
      lane_timestep ex_libm (ex_constants ℚ) (ex_rng ℚ) 11 2 1 0 0 0 1 (1 / 36000)
        (1 / ((1 : Int) : ℚ)) [1] unit_edges unit_edges (ex_table ℚ) (ex_table ℚ) 8 0 0 1
        fresh_lane_state = .ok (s', deposited) ∧
      deposited.length = 1 ∧
      s'.tally.sum - fresh_lane_state.tally.sum = 1 / ((1 : Int) : ℚ) * deposited.sum) ∧
    (∃ s' : KernelState ℚ,
      lane_timestep ex_libm (ex_constants ℚ) (ex_rng ℚ) 11 2 1 0 0 0 1 (1 / 6000)
        (1 / ((1 : Int) : ℚ)) [1] unit_edges unit_edges (ex_table ℚ) (ex_table ℚ) 8 0 0 1
        fresh_lane_state = .ok (s', [1 / 32, 13 / 1280]) ∧
      s'.particle.dead = 0 ∧ s'.tally = [53 / 1280] ∧
      s'.tally.sum - fresh_lane_state.tally.sum =
        1 / ((1 : Int) : ℚ) * [(1 / 32 : ℚ), 13 / 1280].sum) ∧
    (∃ t' : TransportState ℚ,
      solve_transport_2d ex_libm (ex_constants ℚ) (ex_rng ℚ) 11 2 1
        (List.replicate 32 blank_lane) 1 0 0 0 (1 / 6000) 1 [1] unit_edges unit_edges
        (ex_table ℚ) (ex_table ℚ) one_particle_state = .ok t' ∧
      t'.energy_deposition_tally = [53 / 1280]) ∧
    ∃ s' : KernelState ℚ,
      lane_timestep ex_libm cutoff_constants absorbing_rng 11 2 1 0 0 0 1 (1 / 6000)
        (1 / ((1 : Int) : ℚ)) [1] unit_edges unit_edges (ex_table ℚ) (ex_table ℚ) 8 0 0 1
        fresh_lane_state = .ok (s', [3 / 64]) ∧
      s'.particle.dead = 1 ∧ s'.tally = [3 / 64] ∧
      s'.tally.sum - fresh_lane_state.tally.sum = 1 / ((1 : Int) : ℚ) * [(3 / 64 : ℚ)].sum := by
  obtain ⟨s1, deposited, h1, hlen⟩ := fresh_lane_run
  obtain ⟨s2, h2, htally2, hlive2⟩ := collide_lane_run
  obtain ⟨s3, h3, htally3, hdead3⟩ := doomed_lane_run
  exact ⟨⟨s1, deposited, h1, hlen,
      lane_timestep_tally_conservation ex_libm (ex_constants ℚ) (ex_rng ℚ) 11 2 1 0 0 0 1
        (1 / 36000) (1 / ((1 : Int) : ℚ)) [1] unit_edges unit_edges (ex_table ℚ) (ex_table ℚ)
        8 0 0 1 fresh_lane_state s1 deposited h1⟩,
    ⟨s2, h2, hlive2, htally2,
      lane_timestep_tally_conservation ex_libm (ex_constants ℚ) (ex_rng ℚ) 11 2 1 0 0 0 1
        (1 / 6000) (1 / ((1 : Int) : ℚ)) [1] unit_edges unit_edges (ex_table ℚ) (ex_table ℚ)
        8 0 0 1 fresh_lane_state s2 [1 / 32, 13 / 1280] h2⟩,
    collide_transport_run,
    ⟨s3, h3, hdead3, htally3,
      lane_timestep_tally_conservation ex_libm cutoff_constants absorbing_rng 11 2 1 0 0 0 1
        (1 / 6000) (1 / ((1 : Int) : ℚ)) [1] unit_edges unit_edges (ex_table ℚ) (ex_table ℚ)
        8 0 0 1 fresh_lane_state s3 [3 / 64] h3⟩⟩

/-! ## Claims on the position after an event -/

section PositionClaims

variable {K : Type} [LinearOrderedField K]

/-- C23 (amended): a live particle in the closed-open cell `[xl, xh) × [yl, yh)`
of its cell indices, with a direction that is not zero, positive speed and
positive total cross section. The classification returns, and after the
collision event, if that is selected, the particle has the same cell indices
and a position strictly above `xl - OPEN_BOUND_CORRECTION` and strictly below
`xh` (likewise in y); after the census event, if that is selected, the
position is at least `xl - OPEN_BOUND_CORRECTION` and at most `xh`. Along an
axis on which the particle does not move backwards the lower edge is kept. -/
theorem lane_event_position (m : Libm K) (c : Constants K) (rng : Nat → Nat → Nat → K × K)
    (fuel : Nat) (nx pad x_off y_off : Int) (inv : K) (edgex edgey : List K)
    (cs_s cs_a : CrossSection K) (counter_off master_key : Nat) (s : KernelState K)
    (xl xh yl yh : K)
    (hlive : s.particle.dead = 0)
    (hxl : readAt edgex (s.particle.cellx - x_off + pad) = .ok xl)
    (hxh : readAt edgex (s.particle.cellx - x_off + pad + 1) = .ok xh)
    (hyl : readAt edgey (s.particle.celly - y_off + pad) = .ok yl)
    (hyh : readAt edgey (s.particle.celly - y_off + pad + 1) = .ok yh)
    (hx0 : xl ≤ s.particle.x) (hx1 : s.particle.x < xh)
    (hy0 : yl ≤ s.particle.y) (hy1 : s.particle.y < yh)
    (hdir : s.particle.omega_x ≠ 0 ∨ s.particle.omega_y ≠ 0)
    (hspeed : 0 < s.lane.speed) (hobc : 0 < c.OPEN_BOUND_CORRECTION)
    (hmfp : 0 ≤ s.particle.mfp_to_collision)
    (hsig : 0 < s.lane.macroscopic_cs_scatter + s.lane.macroscopic_cs_absorb)
    (hdt : 0 ≤ s.particle.dt_to_census)
    (hcol : collision_ready c rng fuel nx x_off y_off cs_s cs_a counter_off master_key s)
    (hcen : 0 ≤ (s.particle.celly - y_off) * nx + (s.particle.cellx - x_off) ∧
      (s.particle.celly - y_off) * nx + (s.particle.cellx - x_off) < s.tally.length) :
    ∃ s1 : KernelState K,
      calc_events_lane c pad x_off y_off edgex edgey s = .ok s1 ∧
      (s1.lane.next_event = .PARTICLE_COLLISION →
        ∃ s2 : KernelState K,
          collision_phase m c rng fuel nx x_off y_off inv cs_s cs_a counter_off master_key s1 =
            .ok s2 ∧
          s2.particle.cellx = s.particle.cellx ∧ s2.particle.celly = s.particle.celly ∧
          xl - c.OPEN_BOUND_CORRECTION < s2.particle.x ∧ s2.particle.x < xh ∧
          yl - c.OPEN_BOUND_CORRECTION < s2.particle.y ∧ s2.particle.y < yh ∧
          (0 ≤ s.particle.omega_x → xl ≤ s2.particle.x) ∧
          (0 ≤ s.particle.omega_y → yl ≤ s2.particle.y)) ∧
      (s1.lane.next_event = .PARTICLE_CENSUS →
        ∃ s2 : KernelState K,
          census_phase c nx x_off y_off inv s1 = .ok s2 ∧
          s2.particle.cellx = s.particle.cellx ∧ s2.particle.celly = s.particle.celly ∧
          xl - c.OPEN_BOUND_CORRECTION ≤ s2.particle.x ∧ s2.particle.x ≤ xh ∧
          yl - c.OPEN_BOUND_CORRECTION ≤ s2.particle.y ∧ s2.particle.y ≤ yh ∧
          (0 ≤ s.particle.omega_x → xl ≤ s2.particle.x) ∧
          (0 ≤ s.particle.omega_y → yl ≤ s2.particle.y)) := by
  obtain ⟨d, x_facet, hd⟩ := calc_distance_to_facet_finite c s.particle.x s.particle.y pad x_off
    y_off s.particle.omega_x s.particle.omega_y s.lane.speed s.particle.cellx s.particle.celly
    edgex edgey xl xh yl yh hxl hxh hyl hyh hx1 hy1 hspeed hdir
  obtain ⟨bx1, bx2, by1, by2⟩ := calc_distance_to_facet_bound c s.particle.x s.particle.y pad
    x_off y_off s.particle.omega_x s.particle.omega_y s.lane.speed s.particle.cellx
    s.particle.celly edgex edgey xl xh yl yh hxl hxh hyl hyh hspeed d x_facet hd
  have hcell : 0 < 1 / (s.lane.macroscopic_cs_scatter + s.lane.macroscopic_cs_absorb) :=
    one_div_pos.mpr hsig
  have hdcol : 0 ≤ s.particle.mfp_to_collision *
      (1 / (s.lane.macroscopic_cs_scatter + s.lane.macroscopic_cs_absorb)) :=
    mul_nonneg hmfp hcell.le
  have hdcen : 0 ≤ s.lane.speed * s.particle.dt_to_census := mul_nonneg hspeed.le hdt
  refine ⟨_, calc_events_lane_live c pad x_off y_off edgex edgey s d x_facet hlive hd, ?_, ?_⟩
  · intro hev
    have hsel : select_event
        (s.particle.mfp_to_collision *
          (1 / (s.lane.macroscopic_cs_scatter + s.lane.macroscopic_cs_absorb)))
        d (s.lane.speed * s.particle.dt_to_census) = .PARTICLE_COLLISION := hev
    have hlt : s.particle.mfp_to_collision *
        (1 / (s.lane.macroscopic_cs_scatter + s.lane.macroscopic_cs_absorb)) < d := by
      rcases select_event_cases
          (s.particle.mfp_to_collision *
            (1 / (s.lane.macroscopic_cs_scatter + s.lane.macroscopic_cs_absorb)))
          d (s.lane.speed * s.particle.dt_to_census) with ⟨-, h1, -⟩ | ⟨h0, -, -⟩ | ⟨h0, -, -⟩
      · exact h1
      · rw [hsel] at h0; exact nomatch h0
      · rw [hsel] at h0; exact nomatch h0
    obtain ⟨s2, hev2, hx, hy, hcx, hcy, -⟩ := collision_event_spec m c rng fuel nx x_off y_off
      inv
      (s.particle.mfp_to_collision *
        (1 / (s.lane.macroscopic_cs_scatter + s.lane.macroscopic_cs_absorb)))
      s.lane.local_density cs_s cs_a counter_off master_key
      { s with lane := { s.lane with
          cell_mfp := 1 / (s.lane.macroscopic_cs_scatter + s.lane.macroscopic_cs_absorb)
          distance_to_facet := d
          x_facet := x_facet
          next_event := select_event
            (s.particle.mfp_to_collision *
              (1 / (s.lane.macroscopic_cs_scatter + s.lane.macroscopic_cs_absorb)))
            d (s.lane.speed * s.particle.dt_to_census) } } hcol
    obtain ⟨ax1, ax2, ax3, ax4⟩ := axis_move_bound s.particle.x s.particle.omega_x d _ xl xh
      c.OPEN_BOUND_CORRECTION hx0 hx1 hobc hdcol hlt.le bx1 bx2
    obtain ⟨ay1, ay2, ay3, ay4⟩ := axis_move_bound s.particle.y s.particle.omega_y d _ yl yh
      c.OPEN_BOUND_CORRECTION hy0 hy1 hobc hdcol hlt.le by1 by2
    refine ⟨s2, ?_, hcx, hcy, ?_, ?_, ?_, ?_, ?_, ?_⟩
    · unfold collision_phase
      rw [if_neg (not_not.mpr hev)]
      exact hev2
    · rw [hx]; exact (ax4 hlt).1
    · rw [hx]; exact (ax4 hlt).2
    · rw [hy]; exact (ay4 hlt).1
    · rw [hy]; exact (ay4 hlt).2
    · rw [hx]; exact ax3
    · rw [hy]; exact ay3
  · intro hev
    have hsel : select_event
        (s.particle.mfp_to_collision *
          (1 / (s.lane.macroscopic_cs_scatter + s.lane.macroscopic_cs_absorb)))
        d (s.lane.speed * s.particle.dt_to_census) = .PARTICLE_CENSUS := hev
    have hle : s.lane.speed * s.particle.dt_to_census ≤ d := by
      rcases select_event_cases
          (s.particle.mfp_to_collision *
            (1 / (s.lane.macroscopic_cs_scatter + s.lane.macroscopic_cs_absorb)))
          d (s.lane.speed * s.particle.dt_to_census) with ⟨h0, -, -⟩ | ⟨h0, -, -⟩ | ⟨-, -, h1⟩
      · rw [hsel] at h0; exact nomatch h0
      · rw [hsel] at h0; exact nomatch h0
      · exact h1
    obtain ⟨ax1, ax2, ax3, -⟩ := axis_move_bound s.particle.x s.particle.omega_x d _ xl xh
      c.OPEN_BOUND_CORRECTION hx0 hx1 hobc hdcen hle bx1 bx2
    obtain ⟨ay1, ay2, ay3, -⟩ := axis_move_bound s.particle.y s.particle.omega_y d _ yl yh
      c.OPEN_BOUND_CORRECTION hy0 hy1 hobc hdcen hle by1 by2
    refine ⟨{ particle := { s.particle with
                x := s.particle.x + s.lane.speed * s.particle.dt_to_census * s.particle.omega_x
                y := s.particle.y + s.lane.speed * s.particle.dt_to_census * s.particle.omega_y
                mfp_to_collision := s.particle.mfp_to_collision -
                  s.lane.speed * s.particle.dt_to_census /
                    (1 / (s.lane.macroscopic_cs_scatter + s.lane.macroscopic_cs_absorb))
                dt_to_census := 0 }
              lane := ?lane
              tally := ?tally }, ?run, rfl, rfl, ax1, ax2, ay1, ay2, ax3, ay3⟩
    case run =>
      unfold census_phase
      rw [if_neg (not_not.mpr hev)]
      exact census_event_spec c nx x_off y_off inv _ _
        { s with lane := { s.lane with
            cell_mfp := 1 / (s.lane.macroscopic_cs_scatter + s.lane.macroscopic_cs_absorb)
            distance_to_facet := d
            x_facet := x_facet
            next_event := select_event
              (s.particle.mfp_to_collision *
                (1 / (s.lane.macroscopic_cs_scatter + s.lane.macroscopic_cs_absorb)))
              d (s.lane.speed * s.particle.dt_to_census) } } hcen.1 hcen.2

end PositionClaims

/-- C23, counterexample: on the unit cell `[0, 1) × [0, 1)` the particle of
`sliver_state` at `x = 1/2` moves in direction `(-1, 0)`; the distance to the
facet is `51/100` (the edge is moved out by `OPEN_BOUND_CORRECTION = 1/100`),
the collision at distance `101/200` is selected and leaves the particle at
`x = -1/200`, below `edgex[0] = 0`, with `cellx = 0`. The particle of
`edge_state` moves in direction `(1, 0)` with the census at distance `1/2`,
equal to the distance to the facet: the census is selected and leaves it at
`x = 1 = edgex[1]`, which the closed-open cell does not contain. -/
theorem lane_event_leaves_cell :
    (∃ s1 s2 : KernelState ℚ,
      calc_events_lane (ex_constants ℚ) 0 0 0 unit_edges unit_edges sliver_state = .ok s1 ∧
      s1.lane.next_event = .PARTICLE_COLLISION ∧
      collision_phase ex_libm (ex_constants ℚ) (ex_rng ℚ) 11 1 0 0 1 (ex_table ℚ) (ex_table ℚ)
        0 0 s1 = .ok s2 ∧
      s2.particle.x = -1 / 200 ∧ s2.particle.cellx = 0 ∧
      readAt unit_edges (s2.particle.cellx - 0 + 0) = .ok 0) ∧
    (∃ s1 s2 : KernelState ℚ,
      calc_events_lane (ex_constants ℚ) 0 0 0 unit_edges unit_edges edge_state = .ok s1 ∧
      s1.lane.next_event = .PARTICLE_CENSUS ∧
      census_phase (ex_constants ℚ) 1 0 0 1 s1 = .ok s2 ∧
      s2.particle.x = 1 ∧ s2.particle.cellx = 0 ∧
      readAt unit_edges (s2.particle.cellx - 0 + 0 + 1) = .ok 1) := by
  constructor
  · have hcl := calc_events_lane_live (ex_constants ℚ) 0 0 0 unit_edges unit_edges
      sliver_state (51 / 100) 1 rfl sliver_state_distance
    have hsel : select_event
        (sliver_state.particle.mfp_to_collision *
          (1 / (sliver_state.lane.macroscopic_cs_scatter +
            sliver_state.lane.macroscopic_cs_absorb)))
        (51 / 100) (sliver_state.lane.speed * sliver_state.particle.dt_to_census) =
          .PARTICLE_COLLISION := by
      norm_num [select_event, sliver_state, ex_particle, ex_lane]
    rw [hsel] at hcl
    obtain ⟨s2, hev, hx, -, hcx, -⟩ := collision_event_spec ex_libm (ex_constants ℚ) (ex_rng ℚ)
      11 1 0 0 1
      (sliver_state.particle.mfp_to_collision *
        (1 / (sliver_state.lane.macroscopic_cs_scatter +
          sliver_state.lane.macroscopic_cs_absorb)))
      sliver_state.lane.local_density (ex_table ℚ) (ex_table ℚ) 0 0
      { sliver_state with lane := { sliver_state.lane with
          cell_mfp := 1 / (sliver_state.lane.macroscopic_cs_scatter +
            sliver_state.lane.macroscopic_cs_absorb)
          distance_to_facet := 51 / 100
          x_facet := 1
          next_event := .PARTICLE_COLLISION } } sliver_state_ready
    refine ⟨_, s2, hcl, rfl, (collision_phase_collision _ _ _ _ _ _ _ _ _ _ _ _ _ rfl).trans hev,
      ?_, ?_, ?_⟩
    · rw [hx]
      norm_num [sliver_state, ex_particle, ex_lane]
    · rw [hcx]
      rfl
    · rw [hcx]
      rfl
  · have hcl := calc_events_lane_live (ex_constants ℚ) 0 0 0 unit_edges unit_edges
      edge_state (1 / 2) 1 rfl edge_state_distance
    have hsel : select_event
        (edge_state.particle.mfp_to_collision *
          (1 / (edge_state.lane.macroscopic_cs_scatter +
            edge_state.lane.macroscopic_cs_absorb)))
        (1 / 2) (edge_state.lane.speed * edge_state.particle.dt_to_census) =
          .PARTICLE_CENSUS := by
      norm_num [select_event, edge_state, ex_particle, ex_lane]
    rw [hsel] at hcl
    have hcen := census_event_spec (ex_constants ℚ) 1 0 0 1
      (edge_state.lane.speed * edge_state.particle.dt_to_census)
      (1 / (edge_state.lane.macroscopic_cs_scatter + edge_state.lane.macroscopic_cs_absorb))
      { edge_state with lane := { edge_state.lane with
          cell_mfp := 1 / (edge_state.lane.macroscopic_cs_scatter +
            edge_state.lane.macroscopic_cs_absorb)
          distance_to_facet := 1 / 2
          x_facet := 1
          next_event := .PARTICLE_CENSUS } } (by decide) (by decide)
    refine ⟨_, _, hcl, rfl, (census_phase_census _ _ _ _ _ _ rfl).trans hcen, ?_, rfl, rfl⟩
    norm_num [edge_state, ex_particle, ex_lane]

/-- C23 at work: the particle of `sliver_state` on the unit cell. -/
theorem lane_event_position_witness :
    ∃ s1 : KernelState ℚ,
      calc_events_lane (ex_constants ℚ) 0 0 0 unit_edges unit_edges sliver_state = .ok s1 ∧
      (s1.lane.next_event = .PARTICLE_COLLISION →
        ∃ s2 : KernelState ℚ,
          collision_phase ex_libm (ex_constants ℚ) (ex_rng ℚ) 11 1 0 0 1 (ex_table ℚ)
            (ex_table ℚ) 0 0 s1 = .ok s2 ∧
          0 - (ex_constants ℚ).OPEN_BOUND_CORRECTION < s2.particle.x ∧ s2.particle.x < 1) := by
  obtain ⟨s1, h1, h2, -⟩ := lane_event_position ex_libm (ex_constants ℚ) (ex_rng ℚ) 11 1 0 0 0 1
    unit_edges unit_edges (ex_table ℚ) (ex_table ℚ) 0 0 sliver_state 0 1 0 1 rfl rfl rfl rfl rfl
    (by norm_num [sliver_state, ex_particle]) (by norm_num [sliver_state, ex_particle])
    (by norm_num [sliver_state, ex_particle]) (by norm_num [sliver_state, ex_particle])
    (Or.inl (by norm_num [sliver_state, ex_particle]))
    (by norm_num [sliver_state, ex_lane]) (by norm_num [ex_constants])
    (by norm_num [sliver_state, ex_particle]) (by norm_num [sliver_state, ex_lane])
    (by norm_num [sliver_state, ex_particle]) sliver_state_ready ⟨by decide, by decide⟩
  refine ⟨s1, h1, fun hev => ?_⟩
  obtain ⟨s2, hs2, -, -, hx0, hx1, -⟩ := h2 hev
  exact ⟨s2, hs2, hx0, hx1⟩

/-! ## Claims on the partition of the particles among threads and blocks -/

/-- C24: for `N ≥ 0` particles and `T ≥ 1` threads the slices of
`handle_particles` start at 0, end at `N`, each slice starts where the one
before ends and holds `N / T + (1 if tid < N mod T else 0)` particles; the
blocks of a thread hold between 1 and 32 particles each and their indices, in
order, are the indices of the slice; the indices of all blocks of all threads,
in order, are `0, 1, ..., N - 1`, each once. -/
theorem handle_particles_partition (n T : Int) (hn : 0 ≤ n) (hT : 1 ≤ T) :
    particles_off n T 0 = 0 ∧ particles_off n T T = n ∧
      (∀ tid : Int, 0 ≤ tid → tid < T →
        particles_off n T (tid + 1) =
            particles_off n T tid + (np_per_thread n T + thread_rem n T tid) ∧
          np_per_thread n T + thread_rem n T tid = n / T + (if tid < n % T then 1 else 0) ∧
          (thread_blocks n T tid).flatMap block_indices =
            block_indices (particles_off n T tid, np_per_thread n T + thread_rem n T tid) ∧
          ∀ b ∈ thread_blocks n T tid, 0 < b.2 ∧ b.2 ≤ 32) ∧
      schedule n T = block_indices (0, n) := by
  refine ⟨particles_off_zero n T hn, particles_off_last n T hT, ?_, ?_⟩
  · intro tid _ _
    have hq := np_per_thread_nonneg n T hn hT
    have hr := thread_rem_nonneg n T tid
    refine ⟨particles_off_succ n T tid, ?_, ?_, (thread_blocks_cover n T tid).2⟩
    · unfold np_per_thread thread_rem np_remainder
      rw [Int.tdiv_eq_ediv hn (by omega), Int.tmod_eq_emod hn (by omega)]
    · rw [(thread_blocks_cover n T tid).1]
      congr 2
      omega
  · have h := (schedule_first_threads n T hn hT T.toNat).1
    have e : ((T.toNat : Nat) : Int) = T := by omega
    rw [e, particles_off_last n T hT] at h
    exact h

/-- C24 at work: 70 particles on three threads, and the blocks of two slices. -/
theorem handle_particles_partition_witness :
    schedule 70 3 = block_indices (0, 70) ∧ thread_blocks 70 3 0 = [(0, 24)] ∧
      thread_blocks 70 2 1 = [(35, 32), (67, 3)] :=
  ⟨(handle_particles_partition 70 3 (by decide) (by decide)).2.2.2, by decide, by decide⟩

/-! ## Claims on `solve_transport_2d` -/

section TransportClaims

variable {K : Type} [LinearOrderedField K]

/-- C25 (amended): a call of `solve_transport_2d` that returns has increased
the master key by exactly 1 (modulo `2 ^ 64`) when there are local particles,
and has left it as it was when the local particle count is 0. -/
theorem solve_transport_2d_master_key (m : Libm K) (c : Constants K)
    (rng : Nat → Nat → Nat → K × K) (fuel passes : Nat) (nthreads : Int)
    (lanes0 : List (Lane K)) (nx pad x_off y_off : Int) (dt : K) (ntotal_particles : Int)
    (density edgex edgey : List K) (cs_scatter_table cs_absorb_table : CrossSection K)
    (t t' : TransportState K)
    (h : solve_transport_2d m c rng fuel passes nthreads lanes0 nx pad x_off y_off dt
      ntotal_particles density edgex edgey cs_scatter_table cs_absorb_table t = .ok t') :
    t'.master_key =
      if t.nlocal_particles = 0 then t.master_key else (t.master_key + 1) % 2 ^ 64 := by
  unfold solve_transport_2d at h
  simp only at h
  by_cases h0 : t.nlocal_particles = 0
  · rw [if_pos h0] at h
    simp only [pure, Except.pure, Except.ok.injEq] at h
    rw [if_pos h0, ← h]
  · rw [if_neg h0] at h
    rw [if_neg h0]
    unfold handle_particles at h
    simp only [bind, Except.bind] at h
    split at h
    · exact nomatch h
    · rename_i t1 ht1
      split at ht1
      · exact nomatch ht1
      · simp only [pure, Except.pure, Except.ok.injEq] at ht1 h
        rw [← h, ← ht1]

/-- C26: when the local particle count is 0, `solve_transport_2d` returns and
leaves the tally grid, the particle table and the counters of facet and
collision events as they were. -/
theorem solve_transport_2d_no_particles (m : Libm K) (c : Constants K)
    (rng : Nat → Nat → Nat → K × K) (fuel passes : Nat) (nthreads : Int)
    (lanes0 : List (Lane K)) (nx pad x_off y_off : Int) (dt : K) (ntotal_particles : Int)
    (density edgex edgey : List K) (cs_scatter_table cs_absorb_table : CrossSection K)
    (t : TransportState K) (h : t.nlocal_particles = 0) :
    ∃ t' : TransportState K,
      solve_transport_2d m c rng fuel passes nthreads lanes0 nx pad x_off y_off dt
        ntotal_particles density edgex edgey cs_scatter_table cs_absorb_table t = .ok t' ∧
      t'.energy_deposition_tally = t.energy_deposition_tally ∧ t'.particles = t.particles ∧
      t'.facet_events = t.facet_events ∧ t'.collision_events = t.collision_events := by
  refine ⟨t, ?_, rfl, rfl, rfl, rfl⟩
  unfold solve_transport_2d
  simp only
  rw [if_pos h]
  rfl

end TransportClaims

/-- C25, counterexample: for the state `no_particle_state` (no local particles,
master key 7) `solve_transport_2d` returns with the master key still 7, not
`(7 + 1) % 2 ^ 64 = 8`. -/
theorem solve_transport_2d_keeps_master_key :
    ∃ t' : TransportState ℚ,
      solve_transport_2d ex_libm (ex_constants ℚ) (ex_rng ℚ) 11 2 1
        (List.replicate 32 blank_lane) 1 0 0 0 (1 / 36000) 1 [1] unit_edges unit_edges
        (ex_table ℚ) (ex_table ℚ) no_particle_state = .ok t' ∧
      no_particle_state.master_key = 7 ∧ t'.master_key = 7 ∧ (7 + 1) % 2 ^ 64 = 8 :=
  ⟨no_particle_state, rfl, rfl, rfl, rfl⟩

/-- C25 at work: a timestep of the one live particle of `one_particle_state`
on one thread takes the master key from 7 to 8. -/
theorem solve_transport_2d_master_key_witness :
    ∃ t' : TransportState ℚ,
      solve_transport_2d ex_libm (ex_constants ℚ) (ex_rng ℚ) 11 2 1
        (List.replicate 32 blank_lane) 1 0 0 0 (1 / 36000) 1 [1] unit_edges unit_edges
        (ex_table ℚ) (ex_table ℚ) one_particle_state = .ok t' ∧
      t'.master_key = 8 := by
  obtain ⟨t', h⟩ := one_particle_run
  exact ⟨t', h, solve_transport_2d_master_key ex_libm (ex_constants ℚ) (ex_rng ℚ) 11 2 1
    (List.replicate 32 blank_lane) 1 0 0 0 (1 / 36000) 1 [1] unit_edges unit_edges
    (ex_table ℚ) (ex_table ℚ) one_particle_state t' h⟩

/-- C26 at work: the state `no_particle_state`. -/
theorem solve_transport_2d_no_particles_witness :
    ∃ t' : TransportState ℚ,
      solve_transport_2d ex_libm (ex_constants ℚ) (ex_rng ℚ) 11 2 1
        (List.replicate 32 blank_lane) 1 0 0 0 (1 / 36000) 1 [1] unit_edges unit_edges
        (ex_table ℚ) (ex_table ℚ) no_particle_state = .ok t' ∧
      t'.energy_deposition_tally = [5] ∧ t'.particles = [] ∧
      t'.facet_events = 3 ∧ t'.collision_events = 4 :=
  solve_transport_2d_no_particles ex_libm (ex_constants ℚ) (ex_rng ℚ) 11 2 1
    (List.replicate 32 blank_lane) 1 0 0 0 (1 / 36000) 1 [1] unit_edges unit_edges
    (ex_table ℚ) (ex_table ℚ) no_particle_state rfl

/-! ## Claims on the random numbers -/

/-- C27 (amended): the counters that `handle_particles` passes for a particle
depend on the block the particle falls in, hence on the number of threads.
When two thread counts put the particle in the same block `b`, the counters
are the same for both: at cache initialisation a live particle gets the number
of live particles before it in the block (a dead one gets no call), and in
pass `k` of the `while` loop the collision handler gets twice the lane index
plus the number of live particles of the block plus `64 * k`, modulo `2 ^ 64`. -/
theorem particle_counters_by_block (dead : List Int) (n T T' pip : Int) (k : Nat)
    (hn : 0 ≤ n) (hT : 1 ≤ T) (h0 : 0 ≤ pip) (h1 : pip < n)
    (hdead : n ≤ dead.length) (hblock : block_of n T pip = block_of n T' pip) :
    ∃ b : Int × Int, block_of n T pip = some b ∧ b.1 ≤ pip ∧ pip < b.1 + b.2 ∧
      b.2 ≤ 32 ∧
      particle_counters dead n T pip k =
        .ok (if dead.getD pip.toNat 1 = 0 then some (nlive dead (pip - b.1).toNat b.1)
            else none,
          (2 * (pip - b.1).toNat + nlive dead b.2.toNat b.1 + 64 * k) % 2 ^ 64) ∧
      particle_counters dead n T' pip k = particle_counters dead n T pip k := by
  obtain ⟨b, hb, hlo, hhi, h32, hc⟩ := particle_counters_eq dead n T pip k hn hT h0 h1 hdead
  refine ⟨b, hb, hlo, hhi, h32, hc, ?_⟩
  unfold particle_counters
  rw [hblock]

/-- C27, counterexample: two live particles. With one thread particle 1 is
lane 1 of the block `(0, 2)`: its counter at cache initialisation is 1 and its
collision counter in pass 0 is 4. With two threads it is lane 0 of the block
`(1, 1)`: the counters are 0 and 1. -/
theorem particle_counters_depend_on_threads :
    particle_counters [0, 0] 2 1 1 0 = .ok (some 1, 4) ∧
      particle_counters [0, 0] 2 2 1 0 = .ok (some 0, 1) ∧
      block_of 2 1 1 = some (0, 2) ∧ block_of 2 2 1 = some (1, 1) :=
  ⟨rfl, rfl, rfl, rfl⟩

/-- C27 at work: 64 live particles; with one thread and with two threads
particle 40 is in the block `(32, 32)`. -/
theorem particle_counters_by_block_witness :
    block_of 64 1 40 = some (32, 32) ∧ block_of 64 2 40 = some (32, 32) ∧
      particle_counters (List.replicate 64 0) 64 2 40 3 =
        particle_counters (List.replicate 64 0) 64 1 40 3 := by
  obtain ⟨b, -, -, -, -, -, h⟩ := particle_counters_by_block (List.replicate 64 0) 64 1 2 40 3
    (by decide) (by decide) (by decide) (by decide) (by decide) (by decide)
  exact ⟨by decide, by decide, h⟩

section GeneratorClaims

variable {K : Type} [LinearOrderedField K]

/-- C28: for a generator whose output words are 64-bit (`< 2 ^ 64`), each of
the two numbers `generate_random_numbers` returns is `u * 2⁻⁶⁴ + 2⁻⁶⁵` for the
word `u` it is made from, and lies strictly between 0 and 1 (in exact
arithmetic). -/
theorem generate_random_numbers_open_unit
    (threefry2x64 : Nat × Nat → Nat × Nat → Nat × Nat)
    (hword : ∀ ctr key, (threefry2x64 ctr key).1 < 2 ^ 64 ∧ (threefry2x64 ctr key).2 < 2 ^ 64)
    (master_key secondary_key gid : Nat) :
    (generate_random_numbers threefry2x64 master_key secondary_key gid : K × K) =
        (((threefry2x64 (gid, 0) (master_key, secondary_key)).1 : K) * (1 / 2 ^ 64) +
            1 / 2 ^ 65,
          ((threefry2x64 (gid, 0) (master_key, secondary_key)).2 : K) * (1 / 2 ^ 64) +
            1 / 2 ^ 65) ∧
      0 < (generate_random_numbers threefry2x64 master_key secondary_key gid : K × K).1 ∧
      (generate_random_numbers threefry2x64 master_key secondary_key gid : K × K).1 < 1 ∧
      0 < (generate_random_numbers threefry2x64 master_key secondary_key gid : K × K).2 ∧
      (generate_random_numbers threefry2x64 master_key secondary_key gid : K × K).2 < 1 := by
  have hform : (generate_random_numbers threefry2x64 master_key secondary_key gid : K × K) =
        (((threefry2x64 (gid, 0) (master_key, secondary_key)).1 : K) * (1 / 2 ^ 64) +
            1 / 2 ^ 65,
          ((threefry2x64 (gid, 0) (master_key, secondary_key)).2 : K) * (1 / 2 ^ 64) +
            1 / 2 ^ 65) := by
    unfold generate_random_numbers
    norm_num
  have hbound : ∀ u : Nat, u < 2 ^ 64 →
      0 < (u : K) * (1 / 2 ^ 64) + 1 / 2 ^ 65 ∧ (u : K) * (1 / 2 ^ 64) + 1 / 2 ^ 65 < 1 := by
    intro u hu
    have hu0 : (0 : K) ≤ (u : K) := Nat.cast_nonneg u
    have hu1 : (u : K) ≤ 2 ^ 64 - 1 := by
      have : u + 1 ≤ 2 ^ 64 := hu
      have h2 : ((u + 1 : Nat) : K) ≤ ((2 ^ 64 : Nat) : K) := Nat.cast_le.mpr this
      push_cast at h2
      linarith
    constructor
    · positivity
    · have h64 : (0 : K) < 2 ^ 64 := by positivity
      have e1 : (u : K) * (1 / 2 ^ 64) + 1 / 2 ^ 65 = ((u : K) + 1 / 2) / 2 ^ 64 := by
        field_simp; ring
      rw [e1, div_lt_iff₀ h64]
      linarith
  obtain ⟨h1, h2⟩ := hword (gid, 0) (master_key, secondary_key)
  rw [hform]
  exact ⟨rfl, (hbound _ h1).1, (hbound _ h1).2, (hbound _ h2).1, (hbound _ h2).2⟩

end GeneratorClaims

/-- C28 at work: the generator `ex_threefry`, which returns the smallest and
the largest 64-bit word. -/
theorem generate_random_numbers_open_unit_witness :
    (∀ ctr key : Nat × Nat, (ex_threefry ctr key).1 < 2 ^ 64 ∧ (ex_threefry ctr key).2 < 2 ^ 64) ∧
      0 < (generate_random_numbers ex_threefry 1 2 3 : ℚ × ℚ).1 ∧
      (generate_random_numbers ex_threefry 1 2 3 : ℚ × ℚ).2 < 1 :=
  ⟨fun _ _ => (show (0 : Nat) < 2 ^ 64 ∧ 2 ^ 64 - 1 < 2 ^ 64 by decide),
    (generate_random_numbers_open_unit ex_threefry
      (fun _ _ => (show (0 : Nat) < 2 ^ 64 ∧ 2 ^ 64 - 1 < 2 ^ 64 by decide)) 1 2 3).2.1,
    (generate_random_numbers_open_unit ex_threefry
      (fun _ _ => (show (0 : Nat) < 2 ^ 64 ∧ 2 ^ 64 - 1 < 2 ^ 64 by decide)) 1 2 3).2.2.2.2⟩

/-! ## Claims on `inject_particles` -/

section SourceClaims

variable {K : Type} [LinearOrderedField K]

/-- C29: when the table has room for the particles (and for the reads of the
cell searches, which index it by cell) and the mesh edges cover the local
cells, `inject_particles` returns, and for every `i` in `0 .. nparticles - 1`
row `i` of the table has `energy = initial_energy`, `weight = 1`,
`dt_to_census = dt`, `mfp_to_collision = 0`, `dead = 0` and `key = i`. -/
theorem inject_particles_initial_state (m : Libm K) (rng : Nat → Nat → Nat → K × K)
    (fuel : Nat) (nparticles local_nx local_ny pad : Int) (left bottom width height : K)
    (x_off y_off : Int) (dt : K) (edgex edgey : List K) (initial_energy : K)
    (master_key : Nat) (particles0 : List (Particle K))
    (hcap : nparticles ≤ particles0.length)
    (hnx : local_nx ≤ particles0.length) (hny : local_ny ≤ particles0.length)
    (hpad : 0 ≤ pad) (hex : local_nx + pad + 1 ≤ edgex.length)
    (hey : local_ny + pad + 1 ≤ edgey.length)
    (hfx : local_nx.toNat + 1 ≤ fuel) (hfy : local_ny.toNat + 1 ≤ fuel) :
    ∃ particles : List (Particle K),
      inject_particles m rng fuel nparticles local_nx local_ny pad left bottom width height
        x_off y_off dt edgex edgey initial_energy master_key particles0 = .ok particles ∧
      ∀ i : Nat, (i : Int) < nparticles → ∃ p : Particle K,
        readAt particles i = .ok p ∧ p.energy = initial_energy ∧ p.weight = 1 ∧
        p.dt_to_census = dt ∧ p.mfp_to_collision = 0 ∧ p.dead = 0 ∧ p.key = i := by
  obtain ⟨ps, hrun, -, -, hrows⟩ := inject_particles_first_rows m rng fuel local_nx local_ny pad
    left bottom width height x_off y_off dt edgex edgey initial_energy master_key particles0
    hnx hny hpad hex hey hfx hfy nparticles.toNat (by omega)
  refine ⟨ps, hrun, ?_⟩
  intro i hi
  obtain ⟨p, hp, -, -, -, -, hf⟩ := hrows i (by omega)
  exact ⟨p, (readAt_eq_ok_iff ps i p).mpr ⟨by omega, by simpa using hp⟩, hf⟩

end SourceClaims

/-- C29 at work: a source of two particles on a mesh of two cells, in a table
of three rows. -/
theorem inject_particles_initial_state_witness :
    ∃ particles : List (Particle ℚ),
      inject_particles ex_libm source_rng 3 2 2 1 0 0 0 2 1 0 0 1 [0, 1, 2] [0, 1] 5 7
        [blank_particle, blank_particle, blank_particle] = .ok particles ∧
      ∀ i : Nat, (i : Int) < 2 → ∃ p : Particle ℚ,
        readAt particles i = .ok p ∧ p.energy = 5 ∧ p.weight = 1 ∧
        p.dt_to_census = 1 ∧ p.mfp_to_collision = 0 ∧ p.dead = 0 ∧ p.key = i :=
  inject_particles_initial_state ex_libm source_rng 3 2 2 1 0 0 0 2 1 0 0 1 [0, 1, 2] [0, 1] 5 7
    [blank_particle, blank_particle, blank_particle] (by decide) (by decide) (by decide)
    (by decide) (by decide) (by decide) (by decide) (by decide)

/-- C30, the divergence: a source region `[0, 2) × [0, 1)` on a mesh of two
cells in x (`edgex = [0, 1, 2]`) and one in y. Particle 0 is placed at
`x = 1/2`, particle 1 at `x = 3/2`, which lies in cell 1: `edgex[1] = 1 ≤ 3/2 <
2 = edgex[2]`. The cell search of `inject_particles` reads `particle->x` at the
index of the cell under test, finds the position of particle 0 in cell 0, and
stores `cellx = 0` for particle 1, although `3/2 < edgex[0 + 1]` fails. The
same search on the particle's own coordinate, as in `initialise_particle`,
gives cell 1. -/
theorem inject_particles_cell_of_other_particle :
    inject_particles ex_libm source_rng 3 2 2 1 0 0 0 2 1 0 0 1 [0, 1, 2] [0, 1] 5 7
        [blank_particle, blank_particle, blank_particle] =
      .ok [{ x := 1 / 2, y := 1 / 4, omega_x := 1, omega_y := 0, energy := 5, weight := 1,
             dt_to_census := 1, mfp_to_collision := 0, cellx := 0, celly := 0, dead := 0,
             key := 0 },
           { x := 3 / 2, y := 1 / 4, omega_x := 1, omega_y := 0, energy := 5, weight := 1,
             dt_to_census := 1, mfp_to_collision := 0, cellx := 0, celly := 0, dead := 0,
             key := 1 }, blank_particle] ∧
      readAt [(0 : ℚ), 1, 2] (0 - 0 + 0 + 1) = .ok 1 ∧ ¬ ((3 / 2 : ℚ) < 1) ∧
      readAt [(0 : ℚ), 1, 2] (1 - 0 + 0) = .ok 1 ∧ readAt [(0 : ℚ), 1, 2] (1 - 0 + 0 + 1) = .ok 2 ∧
      (1 : ℚ) ≤ 3 / 2 ∧ (3 / 2 : ℚ) < 2 ∧
      find_cell (fun _ => pure (3 / 2 : ℚ)) [0, 1, 2] 0 0 2 3 0 = .ok 1 := by
  have hr : List.range (2 : Int).toNat = [0, 1] := rfl
  refine ⟨?_, rfl, by norm_num, rfl, rfl, by norm_num, by norm_num, ?_⟩
  · unfold inject_particles
    rw [hr]
    norm_num [inject_particle, find_cell, readAt, writeAt, source_rng, inject_direction,
      ex_libm, blank_particle, List.foldlM, bind, Except.bind, pure, Except.pure]
  · have h1 : (1 : Int).toNat = 1 := rfl
    have h2 : (2 : Int).toNat = 2 := rfl
    norm_num [find_cell, readAt, bind, Except.bind, pure, Except.pure, h1, h2]

/-! ## Claims on a medium without absorption and on a zero distance to the collision -/

section ScatterOnlyClaims

variable {K : Type} [LinearOrderedField K]

/-- C31 (amended): with the absorption cross section 0 (and `MASS_NO ≠ -1`) the
energy deposited by a streamed segment of length `l` is
`w * l * (σ_s * BARNS) * (e * A / (A + 1)^2) * n` with `A = MASS_NO`, the
energy that the elastic scatters leave in the medium. It is 0 exactly when one
of `w`, `l`, `σ_s`, `BARNS`, `e`, `A`, `n` is 0; otherwise the tally grid does
not stay zero. -/
theorem calculate_energy_deposition_no_absorption (c : Constants K) (p : Particle K)
    (l n sigma_s : K) (hA : c.MASS_NO + 1 ≠ 0) :
    calculate_energy_deposition c p l n 0 sigma_s =
        p.weight * l * (sigma_s * c.BARNS) *
          (p.energy * (c.MASS_NO / (c.MASS_NO + 1) ^ 2)) * n ∧
      (calculate_energy_deposition c p l n 0 sigma_s = 0 ↔
        p.weight = 0 ∨ l = 0 ∨ sigma_s = 0 ∨ c.BARNS = 0 ∨ p.energy = 0 ∨ c.MASS_NO = 0 ∨
          n = 0) := by
  have hform : calculate_energy_deposition c p l n 0 sigma_s =
      p.weight * l * (sigma_s * c.BARNS) *
        (p.energy * (c.MASS_NO / (c.MASS_NO + 1) ^ 2)) * n := by
    unfold calculate_energy_deposition
    field_simp
    ring
  refine ⟨hform, ?_⟩
  rw [hform]
  have hsq : (c.MASS_NO + 1) ^ 2 ≠ 0 := pow_ne_zero 2 hA
  simp only [mul_eq_zero, div_eq_zero_iff, hsq, or_false]
  tauto

/-- C32: for a live particle with `mfp_to_collision = 0`, a positive total
macroscopic cross section, a finite distance `d > 0` to the facet and a
distance `speed * dt_to_census > 0` to the census, the classification of the
lane returns and selects the collision. The divisor `Σ_s + Σ_a` of `cell_mfp`
is not zero, `cell_mfp` is its positive reciprocal, and the distance to the
collision `mfp_to_collision * cell_mfp` is 0. -/
theorem zero_mfp_selects_collision (c : Constants K) (pad x_off y_off : Int)
    (edgex edgey : List K) (s : KernelState K) (d : K) (x_facet : Int)
    (hlive : s.particle.dead = 0) (hmfp : s.particle.mfp_to_collision = 0)
    (hsig : 0 < s.lane.macroscopic_cs_scatter + s.lane.macroscopic_cs_absorb)
    (hd : calc_distance_to_facet c s.particle.x s.particle.y pad x_off y_off
      s.particle.omega_x s.particle.omega_y s.lane.speed s.particle.cellx s.particle.celly
      edgex edgey = .ok (.fin d, x_facet))
    (hfac : 0 < d) (hcen : 0 < s.lane.speed * s.particle.dt_to_census) :
    ∃ s1 : KernelState K,
      calc_events_lane c pad x_off y_off edgex edgey s = .ok s1 ∧
      s1.lane.next_event = .PARTICLE_COLLISION ∧
      s1.particle = s.particle ∧
      s.lane.macroscopic_cs_scatter + s.lane.macroscopic_cs_absorb ≠ 0 ∧
      s1.lane.cell_mfp * (s.lane.macroscopic_cs_scatter + s.lane.macroscopic_cs_absorb) = 1 ∧
      0 < s1.lane.cell_mfp ∧
      s1.particle.mfp_to_collision * s1.lane.cell_mfp = 0 := by
  have hne : s.lane.macroscopic_cs_scatter + s.lane.macroscopic_cs_absorb ≠ 0 := hsig.ne'
  have hcol : s.particle.mfp_to_collision *
      (1 / (s.lane.macroscopic_cs_scatter + s.lane.macroscopic_cs_absorb)) = 0 := by
    rw [hmfp, zero_mul]
  refine ⟨_, calc_events_lane_live c pad x_off y_off edgex edgey s d x_facet hlive hd, ?_, rfl,
    hne, ?_, ?_, hcol⟩
  · show select_event _ d _ = .PARTICLE_COLLISION
    rw [hcol]
    exact select_event_collision ⟨hfac, hcen⟩
  · show 1 / (s.lane.macroscopic_cs_scatter + s.lane.macroscopic_cs_absorb) *
      (s.lane.macroscopic_cs_scatter + s.lane.macroscopic_cs_absorb) = 1
    field_simp
  · show 0 < 1 / (s.lane.macroscopic_cs_scatter + s.lane.macroscopic_cs_absorb)
    exact one_div_pos.mpr hsig

end ScatterOnlyClaims

/-- C31, counterexample: one particle of energy 3 and weight 1 in the unit
cell, density 1, `MASS_NO = 1`, the scatter table `ex_table` (`σ_s = 30` at
energy 3) and the absorption table `ex_zero_table` (`σ_a = 0` at every
energy), `dt = 1/36000`. The particle streams the distance `1/6000` to its
census, for which `calculate_energy_deposition` returns `3/800`. The call of
`solve_transport_2d` starts from the tally `[0]` and ends with the particle
alive at its census, with weight 1, and with the tally entry `3/800`. -/
theorem scatter_only_deposits :
    calculate_energy_deposition (ex_constants ℚ) census_particle (1 / 6000) 1 0 (30 + 0) =
        3 / 800 ∧
      one_particle_state.energy_deposition_tally = [0] ∧
      ∃ (t' : TransportState ℚ) (p : Particle ℚ),
        solve_transport_2d ex_libm (ex_constants ℚ) (ex_rng ℚ) 11 2 1
          (List.replicate 32 blank_lane) 1 0 0 0 (1 / 36000) 1 [1] unit_edges unit_edges
          (ex_table ℚ) (ex_zero_table ℚ) one_particle_state = .ok t' ∧
        t'.energy_deposition_tally = [3 / 800] ∧ readAt t'.particles 0 = .ok p ∧
        p.weight = 1 ∧ p.dead = 0 ∧ p.dt_to_census = 0 :=
  ⟨by norm_num [calculate_energy_deposition, census_particle, ex_particle, ex_constants], rfl,
    scatter_only_run⟩

/-- C31 at work: the particle `particle0` with the constants `constants0`
(`MASS_NO = 100`). -/
theorem calculate_energy_deposition_no_absorption_witness :
    calculate_energy_deposition constants0 particle0 (1 / 2) 3 0 4 =
        particle0.weight * (1 / 2) * (4 * constants0.BARNS) *
          (particle0.energy * (constants0.MASS_NO / (constants0.MASS_NO + 1) ^ 2)) * 3 ∧
      (calculate_energy_deposition constants0 particle0 (1 / 2) 3 0 4 = 0 ↔
        particle0.weight = 0 ∨ (1 / 2 : ℚ) = 0 ∨ (4 : ℚ) = 0 ∨ constants0.BARNS = 0 ∨
          particle0.energy = 0 ∨ constants0.MASS_NO = 0 ∨ (3 : ℚ) = 0) :=
  calculate_energy_deposition_no_absorption constants0 particle0 (1 / 2) 3 4
    (by norm_num [constants0])

/-- C32 at work: the particle of `zero_mfp_state` in the unit cell, with
`Σ_s + Σ_a = 1` and the facet at distance `51/100`. -/
theorem zero_mfp_selects_collision_witness :
    ∃ s1 : KernelState ℚ,
      calc_events_lane (ex_constants ℚ) 0 0 0 unit_edges unit_edges zero_mfp_state = .ok s1 ∧
      s1.lane.next_event = .PARTICLE_COLLISION ∧ s1.lane.cell_mfp = 1 := by
  obtain ⟨s1, h, hev, -, -, hmul, -⟩ := zero_mfp_selects_collision (ex_constants ℚ) 0 0 0
    unit_edges unit_edges zero_mfp_state (51 / 100) 1 rfl rfl
    (by norm_num [zero_mfp_state, sliver_state, ex_lane]) sliver_state_distance (by norm_num)
    (by norm_num [zero_mfp_state, sliver_state, ex_lane, ex_particle])
  refine ⟨s1, h, hev, ?_⟩
  have e : zero_mfp_state.lane.macroscopic_cs_scatter +
      zero_mfp_state.lane.macroscopic_cs_absorb = 1 := by
    norm_num [zero_mfp_state, sliver_state, ex_lane]
  rw [e, mul_one] at hmul
  exact hmul

/-! ## Claims on the lane after a collision -/

section RefreshClaims

variable {K : Type} [LinearOrderedField K]

/-- C33: `collision_event` applied to a particle whose cached speed is the speed
at its energy, `sqrt(2 * e * eV_TO_J / PARTICLE_MASS)`, returns; if the
particle is alive afterwards, `dt_to_census` has decreased by exactly
`d_col / v`, where `v` is that cached speed, the speed at the energy before the
collision. The speed cached afterwards is recomputed from the energy after the
collision and is not the one used for the decrease. -/
theorem collision_event_dt_to_census (m : Libm K) (c : Constants K)
    (rng : Nat → Nat → Nat → K × K) (fuel : Nat) (nx x_off y_off : Int)
    (inv d local_density : K) (cs_s cs_a : CrossSection K) (counter_off master_key : Nat)
    (s : KernelState K)
    (hready : collision_ready c rng fuel nx x_off y_off cs_s cs_a counter_off master_key s)
    (hspeed : s.lane.speed = m.sqrt ((2 * s.particle.energy * c.eV_TO_J) / c.PARTICLE_MASS)) :
    ∃ s' : KernelState K,
      collision_event m c rng fuel nx x_off y_off inv d local_density cs_s cs_a counter_off
        master_key s = .ok s' ∧
      (s'.particle.dead = 0 →
        s'.particle.dt_to_census = s.particle.dt_to_census - d / s.lane.speed ∧
        s'.particle.dt_to_census = s.particle.dt_to_census -
          d / m.sqrt ((2 * s.particle.energy * c.eV_TO_J) / c.PARTICLE_MASS) ∧
        s'.lane.speed = m.sqrt ((2 * s'.particle.energy * c.eV_TO_J) / c.PARTICLE_MASS)) := by
  obtain ⟨s', h, hs⟩ := collision_event_refreshed m c rng fuel nx x_off y_off inv d
    local_density cs_s cs_a counter_off master_key s hready
  refine ⟨s', h, fun hd => ?_⟩
  obtain ⟨-, -, hdt, -, -, -, -, -, -, -, hsp, -⟩ := hs hd
  exact ⟨hdt, by rw [hdt, hspeed], hsp⟩

/-- C34: when `collision_event` returns with the particle alive, the cached
values of the lane fit the energy `e` the particle has then and the density
`local_density` of its cell: the cached microscopic cross sections (and the
cached indices) are the results of the table lookups at `e`, the macroscopic
ones are `(local_density * AVOGADROS / MOLAR_MASS) * σ * BARNS`, the speed is
`sqrt(2 * e * eV_TO_J / PARTICLE_MASS)`, and `mfp_to_collision` is
`-log(u) / Σ_s` for the first number `u` of the generator at the counter
`counter_off + 1`. -/
theorem collision_event_cache_consistent (m : Libm K) (c : Constants K)
    (rng : Nat → Nat → Nat → K × K) (fuel : Nat) (nx x_off y_off : Int)
    (inv d local_density : K) (cs_s cs_a : CrossSection K) (counter_off master_key : Nat)
    (s : KernelState K)
    (hready : collision_ready c rng fuel nx x_off y_off cs_s cs_a counter_off master_key s) :
    ∃ s' : KernelState K,
      collision_event m c rng fuel nx x_off y_off inv d local_density cs_s cs_a counter_off
        master_key s = .ok s' ∧
      (s'.particle.dead = 0 →
        microscopic_cs_for_energy fuel cs_s s'.particle.energy (-1) =
          .ok (s'.lane.microscopic_cs_scatter, s'.lane.scatter_cs_index) ∧
        microscopic_cs_for_energy fuel cs_a s'.particle.energy (-1) =
          .ok (s'.lane.microscopic_cs_absorb, s'.lane.absorb_cs_index) ∧
        s'.lane.number_density = local_density * c.AVOGADROS / c.MOLAR_MASS ∧
        s'.lane.macroscopic_cs_scatter =
          local_density * c.AVOGADROS / c.MOLAR_MASS * s'.lane.microscopic_cs_scatter *
            c.BARNS ∧
        s'.lane.macroscopic_cs_absorb =
          local_density * c.AVOGADROS / c.MOLAR_MASS * s'.lane.microscopic_cs_absorb *
            c.BARNS ∧
        s'.lane.speed = m.sqrt ((2 * s'.particle.energy * c.eV_TO_J) / c.PARTICLE_MASS) ∧
        s'.particle.mfp_to_collision =
          -m.log (rng master_key s'.particle.key ((counter_off + 1) % 2 ^ 64)).1 /
            s'.lane.macroscopic_cs_scatter) := by
  obtain ⟨s', h, hs⟩ := collision_event_refreshed m c rng fuel nx x_off y_off inv d
    local_density cs_s cs_a counter_off master_key s hready
  refine ⟨s', h, fun hd => ?_⟩
  obtain ⟨-, hkey, -, hss, hsa, hls, hla, hnd, hms, hma, hsp, -, hmfp⟩ := hs hd
  refine ⟨?_, ?_, hnd, hms, hma, hsp, ?_⟩
  · rw [← CrossSection.lookup_served_binary hss]; exact hls
  · rw [← CrossSection.lookup_served_binary hsa]; exact hla
  · rw [hkey]; exact hmfp

end RefreshClaims

/-- C33 at work: the particle of `streaming_state` (energy 3, cached speed 6,
`dt_to_census = 2`) scatters after the distance `1/4` to the energy `3/2`:
`dt_to_census` becomes `2 - (1/4) / 6`, and the speed cached afterwards is 3. -/
theorem collision_event_dt_to_census_witness :
    ∃ s' : KernelState ℚ,
      collision_event ex_libm (ex_constants ℚ) (ex_rng ℚ) 11 1 0 0 1 (1 / 4) 1 (ex_table ℚ)
        (ex_table ℚ) 0 0 streaming_state = .ok s' ∧
      s'.particle.dead = 0 ∧ s'.particle.dt_to_census = 2 - 1 / 4 / 6 ∧ s'.lane.speed = 3 := by
  obtain ⟨s', h, hs⟩ := collision_event_dt_to_census ex_libm (ex_constants ℚ) (ex_rng ℚ) 11 1
    0 0 1 (1 / 4) 1 (ex_table ℚ) (ex_table ℚ) 0 0 streaming_state streaming_state_ready
    (by norm_num [streaming_state, ex_libm, ex_particle, ex_constants, ex_lane])
  obtain ⟨hd, he⟩ := streaming_state_scatters s' (1 / 4) h
  obtain ⟨hdt, -, hsp⟩ := hs hd
  refine ⟨s', h, hd, hdt, ?_⟩
  rw [hsp, he]
  norm_num [ex_libm, ex_constants]

/-- C34 at work: the particle of `streaming_state` scatters to the energy
`3/2`, where the table `ex_table` gives the cross section 15. -/
theorem collision_event_cache_consistent_witness :
    ∃ s' : KernelState ℚ,
      collision_event ex_libm (ex_constants ℚ) (ex_rng ℚ) 11 1 0 0 1 (1 / 4) 1 (ex_table ℚ)
        (ex_table ℚ) 0 0 streaming_state = .ok s' ∧
      s'.particle.dead = 0 ∧ s'.particle.energy = 3 / 2 ∧
      microscopic_cs_for_energy 11 (ex_table ℚ) (3 / 2) (-1) =
        .ok (s'.lane.microscopic_cs_scatter, s'.lane.scatter_cs_index) ∧
      s'.lane.speed = 3 := by
  obtain ⟨s', h, hs⟩ := collision_event_cache_consistent ex_libm (ex_constants ℚ) (ex_rng ℚ)
    11 1 0 0 1 (1 / 4) 1 (ex_table ℚ) (ex_table ℚ) 0 0 streaming_state streaming_state_ready
  obtain ⟨hd, he⟩ := streaming_state_scatters s' (1 / 4) h
  obtain ⟨hls, -, -, -, -, hsp, -⟩ := hs hd
  rw [he] at hls hsp
  refine ⟨s', h, hd, he, hls, ?_⟩
  rw [hsp]
  norm_num [ex_libm, ex_constants]

/-! ## Claims on the distinctness of the counters -/

/-- C35 (amended): for a live particle and two passes `k < k'` of the `while`
loop that come before the 64-bit counter wraps (`64 * k' + 95 < 2 ^ 64`), the
counters used for the particle are pairwise distinct: the counter `c0` of the
cache initialisation, and the values `a`, `a + 1` and `a'`, `a' + 1` that
`collision_event` uses in pass `k` and in pass `k'`. The variable `counter` is
a `uint64_t`: it grows by 64 per pass and is back at its value after `2 ^ 58`
passes. -/
theorem particle_counters_distinct (dead : List Int) (n T pip : Int) (k k' : Nat)
    (hn : 0 ≤ n) (hT : 1 ≤ T) (h0 : 0 ≤ pip) (h1 : pip < n) (hdead : n ≤ dead.length)
    (hlive : dead.getD pip.toNat 1 = 0) (hk : k < k') (hwrap : 64 * k' + 95 < 2 ^ 64) :
    ∃ c0 a a' : Nat,
      particle_counters dead n T pip k = .ok (some c0, a) ∧
      particle_counters dead n T pip k' = .ok (some c0, a') ∧
      [c0, a, (a + 1) % 2 ^ 64, a', (a' + 1) % 2 ^ 64].Nodup := by
  obtain ⟨b, hb, hlo, hhi, h32, hc⟩ := particle_counters_eq dead n T pip k hn hT h0 h1 hdead
  obtain ⟨b', hb', -, -, -, hc'⟩ := particle_counters_eq dead n T pip k' hn hT h0 h1 hdead
  rw [hb] at hb'
  obtain rfl : b = b' := Option.some.inj hb'
  rw [if_pos hlive] at hc hc'
  have hidx : (b.1 + ((pip - b.1).toNat : Int)).toNat = pip.toNat := by
    congr 1
    omega
  have hlt := nlive_before_lt dead b.1 (pip - b.1).toNat b.2.toNat (by omega)
    (by rw [hidx]; exact hlive)
  have hle := nlive_le dead b.2.toNat b.1
  have hnp : b.2.toNat ≤ 32 := by omega
  have hlane : (pip - b.1).toNat < b.2.toNat := by omega
  have ea : (2 * (pip - b.1).toNat + nlive dead b.2.toNat b.1 + 64 * k) % 2 ^ 64 =
      2 * (pip - b.1).toNat + nlive dead b.2.toNat b.1 + 64 * k :=
    Nat.mod_eq_of_lt (by omega)
  have ea' : (2 * (pip - b.1).toNat + nlive dead b.2.toNat b.1 + 64 * k') % 2 ^ 64 =
      2 * (pip - b.1).toNat + nlive dead b.2.toNat b.1 + 64 * k' :=
    Nat.mod_eq_of_lt (by omega)
  rw [ea] at hc
  rw [ea'] at hc'
  refine ⟨_, _, _, hc, hc', ?_⟩
  have e1 : (2 * (pip - b.1).toNat + nlive dead b.2.toNat b.1 + 64 * k + 1) % 2 ^ 64 =
      2 * (pip - b.1).toNat + nlive dead b.2.toNat b.1 + 64 * k + 1 :=
    Nat.mod_eq_of_lt (by omega)
  have e1' : (2 * (pip - b.1).toNat + nlive dead b.2.toNat b.1 + 64 * k' + 1) % 2 ^ 64 =
      2 * (pip - b.1).toNat + nlive dead b.2.toNat b.1 + 64 * k' + 1 :=
    Nat.mod_eq_of_lt (by omega)
  rw [e1, e1']
  simp only [List.nodup_cons, List.mem_cons, List.mem_singleton, List.not_mem_nil,
    List.nodup_nil, not_or, or_false, and_true, not_false_eq_true]
  omega

/-- C35, counterexample: one live particle on one thread. The collision in pass 0
and the collision in pass `2 ^ 58` are given the same counter 1: between them
`counter` has grown by `64 * 2 ^ 58 = 2 ^ 64`, which is 0 in 64-bit
arithmetic. -/
theorem particle_counters_wrap :
    particle_counters [0] 1 1 0 0 = .ok (some 0, 1) ∧
      particle_counters [0] 1 1 0 (2 ^ 58) = .ok (some 0, 1) := by
  refine ⟨rfl, ?_⟩
  obtain ⟨b, hb, -, -, -, hc⟩ := particle_counters_eq [0] 1 1 0 (2 ^ 58) (by decide)
    (by decide) (by decide) (by decide) (by decide)
  have hb' : block_of 1 1 0 = some (0, 1) := rfl
  rw [hb'] at hb
  obtain rfl : ((0, 1) : Int × Int) = b := Option.some.inj hb
  rw [hc]
  rfl

/-- C35 at work: 64 live particles on two threads, particle 40 in the passes 0
and 3. -/
theorem particle_counters_distinct_witness :
    ∃ c0 a a' : Nat,
      particle_counters (List.replicate 64 0) 64 2 40 0 = .ok (some c0, a) ∧
      particle_counters (List.replicate 64 0) 64 2 40 3 = .ok (some c0, a') ∧
      [c0, a, (a + 1) % 2 ^ 64, a', (a' + 1) % 2 ^ 64].Nodup :=
  particle_counters_distinct (List.replicate 64 0) 64 2 40 0 3 (by decide) (by decide)
    (by decide) (by decide) (by decide) (by decide) (by decide) (by decide)

/-! ## Claims on the reads of the binary search and the sign of the deposition -/

section SafetyClaims

variable {K : Type} [LinearOrderedField K]

/-- C36: for a well-formed table (strictly increasing keys, `nentries ≥ 2`, both
arrays of exactly `nentries` elements) and an energy `e` with
`keys[0] ≤ e < keys[nentries - 1]`, the call with `hint = -1` returns for every
fuel from `2 * nentries + 5` on (the loop terminates), with an index `ind`
such that `0 ≤ ind` and `ind + 1 ≤ nentries - 1`; and whatever the fuel, it
never ends in the fault of a read outside `0 .. nentries - 1`: all reads of
`keys[ind]`, `keys[ind + 1]`, `values[ind]` and `values[ind + 1]` are inside
the arrays. -/
theorem binary_lookup_reads_in_bounds (cs : CrossSection K) (e : K) (hv : cs.valid)
    (hlo : cs.key 0 ≤ e) (hhi : e < cs.key (cs.nentries - 1).toNat) :
    (∀ fuel : Nat, 2 * cs.nentries.toNat + 5 ≤ fuel →
      ∃ r : K × Int, microscopic_cs_for_energy fuel cs e (-1) = .ok r ∧
        0 ≤ r.2 ∧ r.2 + 1 ≤ cs.nentries - 1) ∧
      ∀ fuel : Nat, microscopic_cs_for_energy fuel cs e (-1) ≠ .error .outOfBounds := by
  have hn := hv.2.1
  have hlast : (cs.nentries - 1).toNat = cs.keys.length - 1 := by omega
  rw [hlast] at hhi
  obtain ⟨t, ht, h0, h1⟩ := cs.bracket_exists hv hlo hhi
  have hbig : ∀ fuel : Nat, 2 * cs.nentries.toNat + 5 ≤ fuel →
      microscopic_cs_for_energy fuel cs e (-1) =
        .ok (cs.value t + ((e - cs.key t) / (cs.key (t + 1) - cs.key t)) *
          (cs.value (t + 1) - cs.value t), (t : Int)) :=
    fun fuel hf => lookup_binary hv ht h0 h1 fuel (by omega) (-1) le_rfl
  refine ⟨fun fuel hf => ⟨_, hbig fuel hf, ?_, ?_⟩, ?_⟩
  · exact Int.natCast_nonneg t
  · show (t : Int) + 1 ≤ cs.nentries - 1
    omega
  · intro fuel hc
    have hne : microscopic_cs_for_energy fuel cs e (-1) ≠ .error .outOfFuel := by
      rw [hc]
      exact fun h => nomatch h
    have hm := binary_lookup_fuel_mono cs e fuel (2 * cs.nentries.toNat + 5) (-1) le_rfl hne
    rw [hbig (fuel + (2 * cs.nentries.toNat + 5)) (by omega), hc] at hm
    exact nomatch hm

/-- C37: for a particle with energy `e ≥ 0` and weight `w ≥ 0`, a number density
`n ≥ 0`, cross sections `0 ≤ σ_a ≤ σ_t` with `σ_t > 0`, `MASS_NO ≥ 0` and a
constant `BARNS ≥ 0`, `calculate_energy_deposition` is non-negative for every
path length `l ≥ 0`; and it is additive in the path length: the deposition for
`l1 + l2` is the sum of the depositions for `l1` and for `l2`. -/
theorem calculate_energy_deposition_nonneg_additive (c : Constants K) (p : Particle K)
    (l n sigma_a sigma_t : K) (he : 0 ≤ p.energy) (hw : 0 ≤ p.weight) (hn : 0 ≤ n)
    (ha : 0 ≤ sigma_a) (hat : sigma_a ≤ sigma_t) (ht : 0 < sigma_t) (hA : 0 ≤ c.MASS_NO)
    (hB : 0 ≤ c.BARNS) (hl : 0 ≤ l) :
    0 ≤ calculate_energy_deposition c p l n sigma_a sigma_t ∧
      ∀ l1 l2 : K,
        calculate_energy_deposition c p (l1 + l2) n sigma_a sigma_t =
          calculate_energy_deposition c p l1 n sigma_a sigma_t +
            calculate_energy_deposition c p l2 n sigma_a sigma_t := by
  constructor
  · have hr0 : 0 ≤ sigma_a / sigma_t := div_nonneg ha ht.le
    have hr1 : sigma_a / sigma_t ≤ 1 := (div_le_one ht).mpr hat
    have hm0 := mass_ratio_nonneg c.MASS_NO hA
    have hm1 := mass_ratio_le_one c.MASS_NO hA
    have hheat : 0 ≤ p.energy - (1 - sigma_a / sigma_t) *
        (p.energy * ((c.MASS_NO * c.MASS_NO + c.MASS_NO + 1) /
          ((c.MASS_NO + 1) * (c.MASS_NO + 1)))) - sigma_a / sigma_t * 0 := by
      have h1 : (1 - sigma_a / sigma_t) *
          (p.energy * ((c.MASS_NO * c.MASS_NO + c.MASS_NO + 1) /
            ((c.MASS_NO + 1) * (c.MASS_NO + 1)))) ≤ 1 * (p.energy * 1) := by
        apply mul_le_mul (by linarith) _ (by positivity) (by norm_num)
        exact mul_le_mul_of_nonneg_left hm1 he
      linarith
    unfold calculate_energy_deposition
    have hB' : 0 ≤ sigma_t * c.BARNS := mul_nonneg ht.le hB
    exact mul_nonneg (mul_nonneg (mul_nonneg (mul_nonneg hw hl) hB') hheat) hn
  · intro l1 l2
    unfold calculate_energy_deposition
    ring

end SafetyClaims

/-- C36 at work: the table `table3` and the energy 3. -/
theorem binary_lookup_reads_in_bounds_witness :
    (∀ fuel : Nat, 2 * table3.nentries.toNat + 5 ≤ fuel →
      ∃ r : ℚ × Int, microscopic_cs_for_energy fuel table3 3 (-1) = .ok r ∧
        0 ≤ r.2 ∧ r.2 + 1 ≤ table3.nentries - 1) ∧
      ∀ fuel : Nat, microscopic_cs_for_energy fuel table3 3 (-1) ≠ .error .outOfBounds :=
  binary_lookup_reads_in_bounds table3 3 table3_valid (by norm_num [CrossSection.key, table3])
    (show (3 : ℚ) < table3.key 2 by norm_num [CrossSection.key, table3])

/-- C37 at work: the particle `particle0` with the constants `constants0`. -/
theorem calculate_energy_deposition_nonneg_additive_witness :
    0 ≤ calculate_energy_deposition constants0 particle0 (1 / 2) 3 1 4 ∧
      ∀ l1 l2 : ℚ,
        calculate_energy_deposition constants0 particle0 (l1 + l2) 3 1 4 =
          calculate_energy_deposition constants0 particle0 l1 3 1 4 +
            calculate_energy_deposition constants0 particle0 l2 3 1 4 :=
  calculate_energy_deposition_nonneg_additive constants0 particle0 (1 / 2) 3 1 4
    (by norm_num [particle0]) (by norm_num [particle0]) (by norm_num) (by norm_num)
    (by norm_num) (by norm_num) (by norm_num [constants0]) (by norm_num [constants0])
    (by norm_num)

end Neutral
